import Mathlib

/-!
# TI2419x / TI2429x battery-charger driver

A shallow embedding of `drivers/power/zte_ti24x9x.c`: the register transport,
the bounded control operations, the charging-disable arbiter and the periodic
state machines, followed by the properties established about them.

Conventions of the embedding

* A C `int` is an `Int`; every arithmetic expression of the driver that is
  modelled here stays far inside the 32-bit range on the inputs it is guarded
  for, and conversions between signed and unsigned are written out (`s32`,
  `u32`).
* A `u8` is a `Nat`, truncated with `% 256` wherever the C code converts to
  `u8`.
* A function that mutates `*chip` returns the new chip next to its C result.
-/

namespace Ti2419x

/-! ## Integer conversions -/

/-- Conversion of an integer value to `unsigned int` (32 bit). -/
def u32 (x : Int) : Nat := (x % 4294967296).toNat

/-- Conversion of an integer value to `int` (32 bit, two's complement). -/
def s32 (x : Int) : Int :=
  if x % 4294967296 < 2147483648 then x % 4294967296 else x % 4294967296 - 4294967296

/-- Conversion of an integer value to `u8`. -/
def u8 (x : Int) : Nat := (x % 256).toNat

/-- The C operator `a | b` on `int`, computed on the 32-bit two's complement
patterns of the operands. -/
def int_or (a b : Int) : Int := s32 ((u32 a ||| u32 b : Nat) : Int)

/-- The C operator `a & b` on `int`. -/
def int_and (a b : Int) : Int := s32 ((u32 a &&& u32 b : Nat) : Int)

/-- The C operator `~a` on `int`. -/
def int_not (a : Int) : Int := s32 ((0xFFFFFFFF ^^^ u32 a : Nat) : Int)

/-! ## Register map -/

/-- Macro `_TIC_MASK(BITS, POS)`: `(unsigned char)(((1 << (BITS)) - 1) << (POS))`. -/
def _TIC_MASK (BITS POS : Nat) : Nat := (((1 <<< BITS) - 1) <<< POS) % 256

/-- Macro `TIC_MASK(LEFT_BIT_POS, RIGHT_BIT_POS)`. -/
def TIC_MASK (LEFT_BIT_POS RIGHT_BIT_POS : Nat) : Nat :=
  _TIC_MASK (LEFT_BIT_POS - RIGHT_BIT_POS + 1) RIGHT_BIT_POS

def INPUT_SOURCE_CTRL_REG : Nat := 0x00
def IINLIMIT_MASK : Nat := TIC_MASK 2 0
def IINLIMIT_SHIFT : Nat := 0
def VINLIMIT_MASK : Nat := TIC_MASK 6 3
def VINLIMIT_SHIFT : Nat := 3
def EN_HIZ_MASK : Nat := TIC_MASK 7 7
def EN_HIZ_SHIFT : Nat := 7

def PON_CFG_REG : Nat := 0x01
def CHG_CFG_MASK : Nat := TIC_MASK 5 4
def CHG_CFG_SHIFT : Nat := 4
def I2C_WDOG_RESET_MASK : Nat := TIC_MASK 6 6

def CHG_I_CTRL_REG : Nat := 0x02
def IFAST_CHG_MASK : Nat := TIC_MASK 7 2
def IFAST_CHG_SHIFT : Nat := 2

def IPRECHG_ITERM_CTRL_REG : Nat := 0x03
def ITERM_MASK : Nat := TIC_MASK 3 0
def ITERM_SHIFT : Nat := 0

def VCHG_CTRL_REG : Nat := 0x04
def VRECHG_MASK : Nat := TIC_MASK 0 0
def VRECHG_SHIFT : Nat := 0
def VCHG_MASK : Nat := TIC_MASK 7 2
def VCHG_SHIFT : Nat := 2

def CHG_TERM_TIMER_CTRL_REG : Nat := 0x05
def FAST_CHG_TIMER_MASK : Nat := TIC_MASK 2 1
def FAST_CHG_TIMER_SHIFT : Nat := 1
def SAFE_TIMER_EN_MASK : Nat := TIC_MASK 3 3
def SAFE_TIMER_EN_SHIFT : Nat := 3
def I2C_WDOG_TIMER_MASK : Nat := TIC_MASK 5 4
def I2C_WDOG_TIMER_SHIFT : Nat := 4
def TERM_STAT_MASK : Nat := TIC_MASK 6 6
def TERM_STAT_SHIFT : Nat := 6
def EN_TERM_MASK : Nat := TIC_MASK 7 7

def MISC_OPERA_CTRL_REG : Nat := 0x07
def INT_MASK : Nat := TIC_MASK 1 0
def TMR2X_EN_MASK : Nat := TIC_MASK 6 6

def SYS_STAT_REG : Nat := 0x08
def PG_STAT_MASK : Nat := TIC_MASK 2 2
def CHG_STAT_MASK : Nat := TIC_MASK 5 4
def CHG_STAT_SHIFT : Nat := 4

def FAULT_REG : Nat := 0x09

def VENDOR_REG : Nat := 0x0A
def TI2419X_DEV_REG_MASK : Nat := TIC_MASK 1 0

def CHARGER_IC_2419X : Int := 0
def CHARGER_IC_2429X : Int := 1

/-- Disable reasons: `enum { USER = BIT(0), THERMAL = BIT(1), CURRENT = BIT(2), TEMP = BIT(3) }`. -/
def USER : Int := 1
def THERMAL : Int := 2
def CURRENT : Int := 4
def TEMP : Int := 8

/-- Charging status of the chip: `enum { NOT_CHARGING, PRE_CHARGE, FAST_CHARGE, CHARGE_TERM_DONE }`. -/
def NOT_CHARGING : Int := 0
def PRE_CHARGE : Int := 1
def FAST_CHARGE : Int := 2
def CHARGE_TERM_DONE : Int := 3

def EINVAL : Int := 22

/-! ## Device context -/

/-- Modelled from the spec: the I2C client behind `chip->client`, that is the
"register file of addressable 8-bit registers over a simple addressed
byte-transaction bus" whose `read(addr) -> byte | Fail(IoError)` and
`write(addr, byte) -> Ok | Fail(IoError)` primitives the driver consumes
(`i2c_smbus_read_byte_data` and `i2c_smbus_write_byte_data` of the kernel).
`regs` is the register file of the charger IC, `xfer_rc k` is the outcome of
the `k`-th bus transaction (a negative value is the error code it fails with),
and `n_reads` / `n_writes` count the read and write transactions issued so
far, failed ones included. -/
structure i2c_client where
  regs : Nat → Nat
  xfer_rc : Nat → Int
  n_reads : Nat
  n_writes : Nat
  irq : Int

/-- The fields of `struct ti2419x_chip` that the modelled functions use. -/
structure ti2419x_chip where
  client : i2c_client
  /- configuration data - charger -/
  charging_disabled : Bool
  hw_iterm_disabled : Bool
  iterm_ma : Int
  vfloat_mv : Int
  safety_time : Int
  resume_delta_mv : Int
  warm_resume_delta_mv : Int
  vbatdet_max_err_mv : Int
  thermal_levels : Nat
  therm_lvl_sel : Nat
  thermal_mitigation : Option (List Nat)
  /- status tracking -/
  usb_present : Bool
  batt_present : Bool
  bat_is_cool : Bool
  bat_is_warm : Bool
  bat_is_hot : Bool
  batt_full : Bool
  batt_warm_full : Bool
  chg_done : Bool
  resume_completed : Bool
  irq_waiting : Bool
  usb_psy_ma : Int
  charging_disabled_status : Int
  max_iusb : Int
  max_ibat : Int
  max_input_voltage : Int
  skip_writes : Int
  skip_reads : Int
  chargeIC_type : Int
  warm_bat_mv : Nat
  cool_bat_mv : Nat
  warm_bat_chg_ma : Nat
  cool_bat_chg_ma : Nat
  warm_bat_decidegc : Int
  cool_bat_decidegc : Int
  soc : Int
  /- whether the `bms_psy` pointer is non-NULL -/
  bms_psy : Bool

/-! ## Register transport -/

/-- Modelled from the spec: `i2c_smbus_read_byte_data`, the bus primitive
`read(addr) -> byte | Fail(IoError)`: one bus transaction that yields the
addressed byte, or the negative error code of a failed transaction. -/
def i2c_smbus_read_byte_data (client : i2c_client) (reg : Nat) : Int × i2c_client :=
  let rc := client.xfer_rc (client.n_reads + client.n_writes)
  let client' := { client with n_reads := client.n_reads + 1 }
  if rc < 0 then (rc, client') else ((client.regs reg % 256 : Nat), client')

/-- Modelled from the spec: `i2c_smbus_write_byte_data`, the bus primitive
`write(addr, byte) -> Ok | Fail(IoError)`: one bus transaction that stores the
byte in the addressed register, or fails with a negative error code and
stores nothing. -/
def i2c_smbus_write_byte_data (client : i2c_client) (reg : Nat) (val : Nat) :
    Int × i2c_client :=
  let rc := client.xfer_rc (client.n_reads + client.n_writes)
  if rc < 0 then (rc, { client with n_writes := client.n_writes + 1 })
  else (0, { client with
              regs := fun a => if a = reg then val % 256 else client.regs a,
              n_writes := client.n_writes + 1 })

/-- Function `__ti2419x_read`: the result code and the byte stored through `val`
(`none` when the read failed and `*val` was left alone). -/
def __ti2419x_read (chip : ti2419x_chip) (reg : Nat) : Int × Option Nat × ti2419x_chip :=
  let (ret, client) := i2c_smbus_read_byte_data chip.client reg
  if ret < 0 then (ret, none, { chip with client := client })
  else (0, some (u8 ret), { chip with client := client })

/-- Function `__ti2419x_write`. -/
def __ti2419x_write (chip : ti2419x_chip) (reg : Nat) (val : Nat) : Int × ti2419x_chip :=
  let (ret, client) := i2c_smbus_write_byte_data chip.client reg val
  if ret < 0 then (ret, { chip with client := client })
  else (0, { chip with client := client })

/-- Function `ti2419x_read`; `val0` is the content of `*val` before the call, which is
what the caller still sees after a failed read. -/
def ti2419x_read (chip : ti2419x_chip) (reg : Nat) (val0 : Nat) : Int × Nat × ti2419x_chip :=
  if chip.skip_reads ≠ 0 then (0, 0, chip)
  else
    let (rc, val, chip') := __ti2419x_read chip reg
    (rc, val.getD val0, chip')

/-- Function `ti2419x_masked_write`. -/
def ti2419x_masked_write (chip : ti2419x_chip) (reg : Nat) (mask val : Nat) :
    Int × ti2419x_chip :=
  let mask := mask % 256
  let val := val % 256
  if chip.skip_writes ≠ 0 ∨ chip.skip_reads ≠ 0 then (0, chip)
  else
    let (rc, temp, chip1) := __ti2419x_read chip reg
    if rc < 0 then (rc, chip1)
    else
      let temp := temp.getD 0
      -- temp &= ~mask;
      let temp := temp &&& (0xFF ^^^ mask)
      -- temp |= val & mask;
      let temp := temp ||| (val &&& mask)
      __ti2419x_write chip1 reg temp

/-- Function `ti2419x_is_chg_plugged_in`. -/
def ti2419x_is_chg_plugged_in (chip : ti2419x_chip) : Int × ti2419x_chip :=
  let (rc, reg, chip') := ti2419x_read chip SYS_STAT_REG 0
  if rc ≠ 0 then (0, chip')
  else (if reg &&& PG_STAT_MASK ≠ 0 then 1 else 0, chip')

/-! ## Control operations -/

def MIN_FLOAT_MV : Int := 3504
def MAX_FLOAT_MV : Int := 4400
def VFLOAT_STEP_MV : Int := 16

/-- Function `ti2419x_float_voltage_set`. -/
def ti2419x_float_voltage_set (chip : ti2419x_chip) (vfloat_mv : Int) : Int × ti2419x_chip :=
  if vfloat_mv < MIN_FLOAT_MV ∨ vfloat_mv > MAX_FLOAT_MV then (-EINVAL, chip)
  else
    let temp := u8 (Int.tdiv (vfloat_mv - MIN_FLOAT_MV) VFLOAT_STEP_MV)
    ti2419x_masked_write chip VCHG_CTRL_REG VCHG_MASK (temp <<< VCHG_SHIFT)

/-- Function `ti2419x_float_voltage_get`: the result code and the value stored through
`vfloat_mv` (`none` when nothing was stored). -/
def ti2419x_float_voltage_get (chip : ti2419x_chip) : Int × Option Int × ti2419x_chip :=
  let (rc, reg, chip') := ti2419x_read chip VCHG_CTRL_REG 0
  if rc ≠ 0 then (-1, none, chip')
  else
    let reg := reg &&& VCHG_MASK
    let reg := reg >>> VCHG_SHIFT
    let vol : Int := (reg : Int) * VFLOAT_STEP_MV + MIN_FLOAT_MV
    if vol < MIN_FLOAT_MV ∨ vol > MAX_FLOAT_MV then (-EINVAL, none, chip')
    else (0, some vol, chip')

def MIN_RECHG_MV : Int := 50
def MAX_RECHG_MV : Int := 300

/-- Function `ti2419x_recharge_threshold_set`. -/
def ti2419x_recharge_threshold_set (chip : ti2419x_chip) (resume_mv : Int) :
    Int × ti2419x_chip :=
  if resume_mv < MIN_RECHG_MV ∨ resume_mv > MAX_RECHG_MV then (-EINVAL, chip)
  else
    let temp := u8 (Int.tdiv resume_mv MAX_RECHG_MV)
    ti2419x_masked_write chip VCHG_CTRL_REG VRECHG_MASK (temp <<< VRECHG_SHIFT)

/-! ## Charging-disable arbiter -/

/-- Function `__ti2419x_charging_disable`: the written value is
`disable ? 0 : 1 << CHG_CFG_SHIFT`. -/
def __ti2419x_charging_disable (chip : ti2419x_chip) (disable : Bool) : Int × ti2419x_chip :=
  ti2419x_masked_write chip PON_CFG_REG CHG_CFG_MASK
    (if disable then 0 else 1 <<< CHG_CFG_SHIFT)

/-- Function `ti2419x_charging_disable`. -/
def ti2419x_charging_disable (chip : ti2419x_chip) (reason : Int) (disable : Int) :
    Int × ti2419x_chip :=
  let disabled := chip.charging_disabled_status
  let disabled :=
    if disable = 1 then int_or disabled reason
    else int_and disabled (int_not reason)
  let (rc, chip') :=
    if disabled ≠ 0 then __ti2419x_charging_disable chip true
    else __ti2419x_charging_disable chip false
  if rc ≠ 0 then (rc, chip')
  else (rc, { chip' with charging_disabled_status := disabled })

/-- Function `ti2419x_is_charging_enabled`. -/
def ti2419x_is_charging_enabled (chip : ti2419x_chip) : Int × ti2419x_chip :=
  let (rc, reg, chip') := ti2419x_read chip PON_CFG_REG 0
  if rc ≠ 0 then (0, chip')
  else
    let reg := reg &&& CHG_CFG_MASK
    let reg := reg >>> CHG_CFG_SHIFT
    (if reg = 0x1 then 1 else 0, chip')

/-- Table `input_current_limit[]` (mA). -/
def input_current_limit : List Int := [100, 150, 500, 900, 1000, 1500, 2000, 3000]

/-- Table `ichg_current_limit[]` (mA). -/
def ichg_current_limit : List Int := [512, 512, 512, 1152, 1152, 1664, 2048, 3008]

/-- The search loop of `ti2419x_set_appropriate_usb_current`,
`for (i = ARRAY_SIZE(input_current_limit) - 1; i >= 0; i--) if (input_current_limit[i] <= current_ma) break;`
entered with `i = n - 1`; the result is the value of `i` after the loop
(`-1` when it ran to the end). -/
def icl_search (current_ma : Int) : Nat → Int
  | 0 => -1
  | n + 1 =>
    if input_current_limit.getD n 0 ≤ current_ma then (n : Int)
    else icl_search current_ma n

/-- Function `ti2419x_set_appropriate_usb_current`. The element
`chip->thermal_mitigation[chip->therm_lvl_sel]` is read as 0 where the C code
would read outside the table. -/
def ti2419x_set_appropriate_usb_current (chip : ti2419x_chip) : Int × ti2419x_chip :=
  let path_current := chip.usb_psy_ma
  if ¬ chip.batt_present then (0, chip)
  else
    let therm_ma : Int :=
      if chip.therm_lvl_sel > 0 ∧ chip.therm_lvl_sel < u32 ((chip.thermal_levels : Int) - 1) then
        s32 (((chip.thermal_mitigation.getD []).getD chip.therm_lvl_sel 0 : Nat) : Int)
      else path_current
    let current_ma := min therm_ma path_current
    let current_ma := if chip.max_iusb > 0 then min current_ma chip.max_iusb else current_ma
    let current_ma := if current_ma ≤ 2 then 100 else current_ma
    let i := icl_search current_ma input_current_limit.length
    let i := if i < 0 then 0 else i
    ti2419x_masked_write chip INPUT_SOURCE_CTRL_REG IINLIMIT_MASK (u8 i)

def MIN_ITERM_MA : Int := 128
def MAX_ITERM_MA : Int := 1024

/-- Function `set_iterm` (returns `void`). -/
def set_iterm (chip : ti2419x_chip) (ma : Int) : ti2419x_chip :=
  if ma < MIN_ITERM_MA ∨ ma > MAX_ITERM_MA then chip
  else
    let temp := u8 (Int.tdiv (ma - MIN_ITERM_MA) MIN_ITERM_MA)
    let (rc, chip1) :=
      ti2419x_masked_write chip IPRECHG_ITERM_CTRL_REG ITERM_MASK (temp <<< ITERM_SHIFT)
    if rc < 0 then chip1
    else
      (ti2419x_masked_write chip1 CHG_TERM_TIMER_CTRL_REG (EN_TERM_MASK ||| TERM_STAT_MASK)
        (0x2 <<< TERM_STAT_SHIFT)).2

def TI2419X_WDOG_DISABLE : Int := 0
def TI2419X_WDOG_40S : Int := 1
def TI2419X_WDOG_80S : Int := 2
def TI2419X_WDOG_160S : Int := 3

/-- Function `set_charge_wdog`. -/
def set_charge_wdog (chip : ti2419x_chip) (time : Int) : Int × ti2419x_chip :=
  if time < TI2419X_WDOG_DISABLE ∨ time > TI2419X_WDOG_160S then (-EINVAL, chip)
  else
    let (rc, chip') :=
      ti2419x_masked_write chip CHG_TERM_TIMER_CTRL_REG I2C_WDOG_TIMER_MASK
        (u8 time <<< I2C_WDOG_TIMER_SHIFT)
    if rc < 0 then (rc, chip') else (0, chip')

def MIN_IBAT_MA : Int := 512
def MAX_IBAT_MA : Int := 3008
def MAX_IBAT_STEP : Int := 64

/-- Function `set_ibat`. -/
def set_ibat (chip : ti2419x_chip) (ma : Int) : Int × ti2419x_chip :=
  let ma :=
    if ma < MIN_IBAT_MA then MIN_IBAT_MA
    else if ma > MAX_IBAT_MA then MAX_IBAT_MA
    else ma
  let reg := u8 (Int.tdiv (ma - MIN_IBAT_MA) MAX_IBAT_STEP)
  let (rc, chip') :=
    ti2419x_masked_write chip CHG_I_CTRL_REG IFAST_CHG_MASK (reg <<< IFAST_CHG_SHIFT)
  if rc < 0 then (rc, chip') else (0, chip')

def MIN_INPUT_VOLTAGE_MV : Int := 3880
def MAX_INPUT_VOLTAGE_MV : Int := 5080
def MAX_INPUT_VOLTAGE_STEP : Int := 80

/-- Function `set_input_voltage`. -/
def set_input_voltage (chip : ti2419x_chip) (mv : Int) : Int × ti2419x_chip :=
  if mv < MIN_INPUT_VOLTAGE_MV ∨ mv > MAX_INPUT_VOLTAGE_MV then (-EINVAL, chip)
  else
    let reg := u8 (Int.tdiv (mv - MIN_INPUT_VOLTAGE_MV) MAX_INPUT_VOLTAGE_STEP)
    let (rc, chip') :=
      ti2419x_masked_write chip INPUT_SOURCE_CTRL_REG VINLIMIT_MASK (reg <<< VINLIMIT_SHIFT)
    if rc < 0 then (rc, chip') else (0, chip')

/-! ## Register fields and sample devices used to state and exercise the properties -/

/-- The CHG_CFG field (bits 5:4) of the byte held by PON_CFG_REG. -/
def chg_cfg_field (chip : ti2419x_chip) : Nat :=
  ((chip.client.regs PON_CFG_REG % 256) &&& CHG_CFG_MASK) >>> CHG_CFG_SHIFT

/-- The field of the register `reg` selected by `mask`, shifted down by `shift`. -/
def reg_field (chip : ti2419x_chip) (reg mask shift : Nat) : Nat :=
  ((chip.client.regs reg % 256) &&& mask) >>> shift

/-- The read-modify-write combination `(old & ~mask) | (val & mask)` on bytes. -/
def rmw (old mask val : Nat) : Nat :=
  ((old % 256) &&& (0xFF ^^^ (mask % 256))) ||| ((val % 256) &&& (mask % 256))

/-- A charger IC whose registers all hold `byte` and whose bus never fails. -/
def quiet_client (byte : Nat) : i2c_client :=
  { regs := fun _ => byte, xfer_rc := fun _ => 0, n_reads := 0, n_writes := 0, irq := 0 }

/-- A device context as `devm_kzalloc` leaves it (every field zero), attached to
the given client. -/
def zeroed_chip (client : i2c_client) : ti2419x_chip :=
  { client := client,
    charging_disabled := false, hw_iterm_disabled := false, iterm_ma := 0, vfloat_mv := 0,
    safety_time := 0, resume_delta_mv := 0, warm_resume_delta_mv := 0,
    vbatdet_max_err_mv := 0, thermal_levels := 0, therm_lvl_sel := 0,
    thermal_mitigation := none, usb_present := false, batt_present := false,
    bat_is_cool := false, bat_is_warm := false, bat_is_hot := false, batt_full := false,
    batt_warm_full := false, chg_done := false, resume_completed := false,
    irq_waiting := false, usb_psy_ma := 0, charging_disabled_status := 0, max_iusb := 0,
    max_ibat := 0, max_input_voltage := 0, skip_writes := 0, skip_reads := 0,
    chargeIC_type := 0, warm_bat_mv := 0, cool_bat_mv := 0, warm_bat_chg_ma := 0,
    cool_bat_chg_ma := 0, warm_bat_decidegc := 0, cool_bat_decidegc := 0, soc := 0,
    bms_psy := false }

/-- A bus on which the second transaction fails: the read of a masked write
succeeds and its write does not. -/
def write_failing_client : i2c_client :=
  { regs := fun _ => 0x10, xfer_rc := fun k => if k = 1 then -5 else 0,
    n_reads := 0, n_writes := 0, irq := 0 }

/-! ## Notions used to state the properties of the arbiter -/

/-- The bit position of a disable reason. -/
def reason_bit (reason : Int) : Nat :=
  if reason = USER then 0 else if reason = THERMAL then 1 else if reason = CURRENT then 2 else 3

/-- The bitmask that `ti2419x_charging_disable` computes from the old one:
`disabled |= reason` when `disable == true`, `disabled &= ~reason` otherwise. -/
def arbiter_mask (old reason disable : Int) : Int :=
  if disable = 1 then int_or old reason else int_and old (int_not reason)

/-- A run of arbiter calls `(reason, disable)`, issued one after the other. -/
def arbiter_run (chip : ti2419x_chip) : List (Int × Int) → ti2419x_chip
  | [] => chip
  | (reason, disable) :: rest =>
    arbiter_run (ti2419x_charging_disable chip reason disable).2 rest

/-- Every call of the run returns 0. -/
def arbiter_run_ok (chip : ti2419x_chip) : List (Int × Int) → Prop
  | [] => True
  | (reason, disable) :: rest =>
    (ti2419x_charging_disable chip reason disable).1 = 0 ∧
      arbiter_run_ok (ti2419x_charging_disable chip reason disable).2 rest

/-- Whether the last call of the run made for `reason` asked to disable
(`disable == true`), if the run has a call for that reason at all. -/
def last_request (reason : Int) : List (Int × Int) → Option Bool
  | [] => none
  | (r, d) :: rest =>
    match last_request reason rest with
    | some b => some b
    | none => if r = reason then some (decide (d = 1)) else none

/-- The bitmask after a run of arbiter calls that all stored their result. -/
def mask_run (old : Int) : List (Int × Int) → Int
  | [] => old
  | (reason, disable) :: rest => mask_run (arbiter_mask old reason disable) rest

/-- Whether every call of a run returns 0 can be computed. -/
instance arbiter_run_ok_decidable :
    (chip : ti2419x_chip) → (s : List (Int × Int)) → Decidable (arbiter_run_ok chip s)
  | _, [] => isTrue trivial
  | chip, (reason, disable) :: rest =>
    match Int.decEq (ti2419x_charging_disable chip reason disable).1 0,
      arbiter_run_ok_decidable (ti2419x_charging_disable chip reason disable).2 rest with
    | isTrue h1, isTrue h2 => isTrue ⟨h1, h2⟩
    | isFalse h1, _ => isFalse (fun h => h1 h.1)
    | _, isFalse h2 => isFalse (fun h => h2 h.2)

/-- The effective requested current in the words of the specification: the
USB-path current, lowered by the thermal-mitigation current when a
thermal level is active (selected, and not the highest one) and by `max_iusb`
when that is positive. -/
def effective_usb_ma (chip : ti2419x_chip) : Int :=
  let lowered :=
    if chip.therm_lvl_sel > 0 ∧ chip.therm_lvl_sel < u32 ((chip.thermal_levels : Int) - 1) then
      min (s32 (((chip.thermal_mitigation.getD []).getD chip.therm_lvl_sel 0 : Nat) : Int))
        chip.usb_psy_ma
    else chip.usb_psy_ma
  if chip.max_iusb > 0 then min lowered chip.max_iusb else lowered

/-! ## USB-OTG regulator -/

/-- Function `ti2419x_otg_regulator_enable`. -/
def ti2419x_otg_regulator_enable (chip : ti2419x_chip) : Int × ti2419x_chip :=
  ti2419x_masked_write chip PON_CFG_REG CHG_CFG_MASK (2 <<< CHG_CFG_SHIFT)

/-- Function `ti2419x_otg_regulator_disable`. -/
def ti2419x_otg_regulator_disable (chip : ti2419x_chip) : Int × ti2419x_chip :=
  ti2419x_masked_write chip PON_CFG_REG CHG_CFG_MASK (1 <<< CHG_CFG_SHIFT)

/-- Function `ti2419x_otg_is_enabled`. -/
def ti2419x_otg_is_enabled (chip : ti2419x_chip) : Int × ti2419x_chip :=
  let (rc, reg, chip') := ti2419x_read chip PON_CFG_REG 0
  if rc ≠ 0 then (rc, chip')
  else (if (reg &&& CHG_CFG_MASK) &&& (2 <<< CHG_CFG_SHIFT) ≠ 0 then 1 else 0, chip')

/-! ## Hardware initialisation -/

/-- Table `chg_time[]` (hours). -/
def chg_time : List Int := [5, 8, 12, 20]

/-- Function `get_charge_IC_type`; `reg0` is the indeterminate initial content of
the local `reg`. -/
def get_charge_IC_type (chip : ti2419x_chip) (reg0 : Nat) : Int × ti2419x_chip :=
  let (rc, reg, chip') := ti2419x_read chip VENDOR_REG reg0
  if rc ≠ 0 then (-1, chip')
  else
    let reg := reg &&& TI2419X_DEV_REG_MASK
    (if reg ≠ 0 then CHARGER_IC_2419X else CHARGER_IC_2429X, chip')

/-- The loop of `ti2419x_hw_init` over `chg_time`,
`for (i = 0; i < ARRAY_SIZE(chg_time); i++) if (chip->safety_time <= chg_time[i]) { reg = i << FAST_CHG_TIMER_SHIFT; break; }`,
from index `i` on; the result is the value of `reg` after the loop. -/
def safety_time_reg (safety_time : Int) (reg : Nat) (i : Nat) : Nat → Nat
  | 0 => reg
  | fuel + 1 =>
    if safety_time ≤ chg_time.getD i 0 then u8 ((i <<< FAST_CHG_TIMER_SHIFT : Nat) : Int)
    else safety_time_reg safety_time reg (i + 1) fuel

/-- The last step of `ti2419x_hw_init`:
`rc = ti2419x_charging_disable(chip, USER, !!chip->charging_disabled); return rc;`. -/
def ti2419x_hw_init_enable (chip : ti2419x_chip) : Int × ti2419x_chip :=
  ti2419x_charging_disable chip USER (if chip.charging_disabled then 1 else 0)

/-- The tail of `ti2419x_hw_init` from the interrupt enabling on. -/
def ti2419x_hw_init_irq (chip : ti2419x_chip) : Int × ti2419x_chip :=
  /- interrupt enabling - active low -/
  if chip.client.irq ≠ 0 then
    let (rc, chip) := ti2419x_masked_write chip MISC_OPERA_CTRL_REG INT_MASK INT_MASK
    if rc < 0 then (rc, chip) else ti2419x_hw_init_enable chip
  else ti2419x_hw_init_enable chip

/-- The tail of `ti2419x_hw_init` from the resume-threshold configuration on. -/
def ti2419x_hw_init_resume (chip : ti2419x_chip) : Int × ti2419x_chip :=
  /- configure resume threshold, auto recharge -/
  if chip.resume_delta_mv ≠ -EINVAL then
    let (rc, chip) := ti2419x_recharge_threshold_set chip chip.resume_delta_mv
    if rc ≠ 0 then (rc, chip) else ti2419x_hw_init_irq chip
  else ti2419x_hw_init_irq chip

/-- The tail of `ti2419x_hw_init` from the safety-timer configuration on. `reg0`
is the indeterminate initial content of the local `reg`. -/
def ti2419x_hw_init_safety (chip : ti2419x_chip) (reg0 : Nat) : Int × ti2419x_chip :=
  if chip.safety_time ≠ -EINVAL then
    if chip.safety_time = 0 then
      /- safety timer disabled -/
      let (rc, chip) := ti2419x_masked_write chip CHG_TERM_TIMER_CTRL_REG SAFE_TIMER_EN_MASK 0
      if rc < 0 then (rc, chip) else ti2419x_hw_init_resume chip
    else
      let reg := safety_time_reg chip.safety_time reg0 0 chg_time.length
      let (rc, chip) :=
        ti2419x_masked_write chip CHG_TERM_TIMER_CTRL_REG FAST_CHG_TIMER_MASK reg
      if rc < 0 then (rc, chip)
      else
        let (rc, chip) :=
          ti2419x_masked_write chip CHG_TERM_TIMER_CTRL_REG SAFE_TIMER_EN_MASK
            (1 <<< SAFE_TIMER_EN_SHIFT)
        if rc < 0 then (rc, chip) else ti2419x_hw_init_resume chip
  else ti2419x_hw_init_resume chip

/-- The tail of `ti2419x_hw_init` from the termination-current configuration on.
`rc` is the value the local `rc` holds on entry: the branch for
`hw_iterm_disabled` tests it without assigning the result of its write. -/
def ti2419x_hw_init_iterm (chip : ti2419x_chip) (rc : Int) (reg0 : Nat) : Int × ti2419x_chip :=
  /- set iterm -/
  if chip.iterm_ma = -EINVAL then ti2419x_hw_init_safety chip reg0
  else if chip.hw_iterm_disabled then
    let chip := (ti2419x_masked_write chip CHG_TERM_TIMER_CTRL_REG EN_TERM_MASK 0).2
    if rc ≠ 0 then (rc, chip) else ti2419x_hw_init_safety chip reg0
  else
    ti2419x_hw_init_safety (set_iterm chip chip.iterm_ma) reg0

/-- The tail of `ti2419x_hw_init` from the float-voltage configuration on; `rc`
is the value the local `rc` holds on entry. -/
def ti2419x_hw_init_vfloat (chip : ti2419x_chip) (rc : Int) (reg0 : Nat) : Int × ti2419x_chip :=
  /- set the float voltage -/
  if chip.vfloat_mv ≠ -EINVAL then
    let (rc, chip) := ti2419x_float_voltage_set chip chip.vfloat_mv
    if rc < 0 then (rc, chip) else ti2419x_hw_init_iterm chip rc reg0
  else ti2419x_hw_init_iterm chip rc reg0

/-- Function `ti2419x_hw_init`. `reg0` is the indeterminate initial content of the
locals named `reg`. -/
def ti2419x_hw_init (chip : ti2419x_chip) (reg0 : Nat) : Int × ti2419x_chip :=
  /- wdog timer -/
  let chip := (set_charge_wdog chip TI2419X_WDOG_160S).2
  /- charge IC type -/
  let (ic, chip) := get_charge_IC_type chip reg0
  let chip := { chip with chargeIC_type := ic }
  /- EN_HIZ -/
  let (rc, chip) := ti2419x_masked_write chip INPUT_SOURCE_CTRL_REG EN_HIZ_MASK 0
  if rc < 0 then (rc, chip)
  else
    let chip := if chip.max_ibat > 0 then (set_ibat chip chip.max_ibat).2 else chip
    /- safe time, not 2X -/
    let chip := (ti2419x_masked_write chip MISC_OPERA_CTRL_REG TMR2X_EN_MASK 0).2
    /- input voltage -/
    let chip := (set_input_voltage chip chip.max_input_voltage).2
    /- charge config -/
    let (rc, chip) :=
      ti2419x_masked_write chip PON_CFG_REG CHG_CFG_MASK (0x1 <<< CHG_CFG_SHIFT)
    if rc < 0 then (rc, chip) else ti2419x_hw_init_vfloat chip rc reg0

/-- Function `determine_initial_status`. -/
def determine_initial_status (chip : ti2419x_chip) : Int × ti2419x_chip :=
  (0, { chip with
        usb_present := false, bat_is_hot := false, bat_is_cool := false,
        bat_is_warm := false })

/-! ## External providers and the static state of the driver -/

/-- Modelled from the spec: the external collaborators the driver consults
during one of its operations, namely the battery-metrics
property store (`on_bms`), the PMIC battery-presence and thermistor ADC
services, the `enable_to_shutdown` switch of the companion charger driver and
the kernel tick counter. Each field is the answer the service gives. -/
structure providers where
  /-- Result of `spmi_lite_is_battery_present()`. -/
  spmi_battery_present : Bool
  /-- Holds when `CONFIG_BOARD_ABBY` is configured and `hw_version == 0`. -/
  board_abby_hw0 : Bool
  /-- Result code of `qpnp_vadc_read(chip->vadc_dev, LR_MUX1_BATT_THERM, ..)`. -/
  vadc_rc : Int
  /-- The field `results.physical` of the ADC reading, tenths of a degree. -/
  vadc_physical : Int
  /-- Property `POWER_SUPPLY_PROP_CAPACITY` of `on_bms`. -/
  bms_capacity : Int
  /-- Property `POWER_SUPPLY_PROP_VOLTAGE_NOW` of `on_bms`, in uV. -/
  bms_voltage_now : Int
  /-- Property `POWER_SUPPLY_PROP_CURRENT_NOW` of `on_bms`, in uA. -/
  bms_current_now : Int
  /-- The global `enable_to_shutdown`. -/
  enable_to_shutdown : Int
  /-- The kernel tick counter `jiffies` (an `unsigned long`). -/
  jiffies : Nat
  /-- The tick rate `HZ`. -/
  HZ : Nat
  /-- The width of `long` on the target. -/
  BITS_PER_LONG : Nat

/-- The device context together with the function-local `static` variables and
file-scope globals of the driver, and a count of the `power_supply_changed`
notifications sent so far. -/
structure driver where
  chip : ti2419x_chip
  /-- The `static int low_temp_threshold` of `ti_temp_control_func`. -/
  low_temp_threshold : Int
  /-- The `static int high_temp_threshold` of `ti_temp_control_func`. -/
  high_temp_threshold : Int
  /-- The `static int is_first_time_check` of `check_fullcharged_state`. -/
  is_first_time_check : Int
  /-- The `static int count` of `charger_eoc`. -/
  charger_eoc_count : Int
  /-- The `static int vbat_low_count` of `charger_eoc`. -/
  vbat_low_count : Int
  /-- The global `zero_reported`. -/
  zero_reported : Bool
  /-- The `static bool turnon_flags` of `smooth_capacity`. -/
  turnon_flags : Bool
  /-- The `static int count` of `smooth_capacity`. -/
  smooth_capacity_count : Int
  /-- The `static unsigned long report_zero_jiffies` of `zero_report_check`. -/
  report_zero_jiffies : Nat
  /-- Number of `power_supply_changed(&chip->batt_psy)` calls made. -/
  psy_changed : Nat

/-- The static state as the initialisers in the source give it. -/
def driver_at_load (chip : ti2419x_chip) : driver :=
  { chip := chip, low_temp_threshold := 20, high_temp_threshold := 440,
    is_first_time_check := 1, charger_eoc_count := 0, vbat_low_count := 0,
    zero_reported := false, turnon_flags := true, smooth_capacity_count := 0,
    report_zero_jiffies := 0, psy_changed := 0 }

/-! ## Capability queries -/

/-- Function `ti2419x_get_prop_batt_present` (the `FEATURE_ZTE_LC709203F_FG` build). -/
def ti2419x_get_prop_batt_present (chip : ti2419x_chip) (env : providers) : Int × ti2419x_chip :=
  if env.board_abby_hw0 then (1, { chip with batt_present := true })
  else
    (if env.spmi_battery_present then 1 else 0,
      { chip with batt_present := env.spmi_battery_present })

/-- Function `ti2419x_get_charging_status`. -/
def ti2419x_get_charging_status (chip : ti2419x_chip) : Int × ti2419x_chip :=
  let (rc, reg, chip') := ti2419x_read chip SYS_STAT_REG 0
  if rc ≠ 0 then (-1, chip')
  else
    let reg := reg &&& CHG_STAT_MASK
    let reg := reg >>> CHG_STAT_SHIFT
    ((reg : Int), chip')

def DEFAULT_CAPACITY : Int := 50

/-- Function `ti2419x_get_prop_batt_capacity_real`. -/
def ti2419x_get_prop_batt_capacity_real (chip : ti2419x_chip) (env : providers) : Int :=
  if chip.bms_psy then env.bms_capacity else DEFAULT_CAPACITY

def DEFAULT_TEMP : Int := 250

/-- Function `ti2419x_get_prop_batt_temp` (the `FEATURE_ZTE_LC709203F_FG` build);
the reading is converted with `(int)results.physical`. -/
def ti2419x_get_prop_batt_temp (env : providers) : Int :=
  if env.vadc_rc ≠ 0 then DEFAULT_TEMP
  else if env.board_abby_hw0 then DEFAULT_TEMP
  else s32 env.vadc_physical

def DEFAULT_VOLTAGE : Int := 3700000

/-- Function `ti2419x_get_prop_voltage_now`. -/
def ti2419x_get_prop_voltage_now (chip : ti2419x_chip) (env : providers) : Int :=
  if chip.bms_psy then env.bms_voltage_now else DEFAULT_VOLTAGE

/-- Function `ti2419x_get_prop_current_now`. -/
def ti2419x_get_prop_current_now (chip : ti2419x_chip) (env : providers) : Int :=
  if chip.bms_psy then env.bms_current_now else 0

/-! ## Capacity smoothing -/

def SHUTDOWN_VOLTAGE : Int := 3400000
def LOW_TEMP_SHUTDOWN_VOLTAGE : Int := 3200000

/-- Macro `time_after(a, b)`, that is `(long)((b) - (a)) < 0` on `unsigned long`
operands of `bits` bits. -/
def time_after (bits : Nat) (a b : Nat) : Bool :=
  decide (2 ^ (bits - 1) ≤ (b + 2 ^ bits - a % 2 ^ bits) % 2 ^ bits)

/-- Function `zero_report_check`, with `ZERO_REPORT_DELAY_DELTA = HZ*40*1`. -/
def zero_report_check (d : driver) (env : providers) : Bool × driver :=
  if d.report_zero_jiffies = 0 then
    (false, { d with report_zero_jiffies := env.jiffies % 2 ^ env.BITS_PER_LONG })
  else
    (time_after env.BITS_PER_LONG env.jiffies
      ((d.report_zero_jiffies + env.HZ * 40 * 1) % 2 ^ env.BITS_PER_LONG), d)

/-- The block `if (capacity == 0) { .. }` of `smooth_capacity` and its final
`return cap`, entered with `capacity == 0`; `cap` is the raw capacity the function
was called with. -/
def smooth_capacity_zero (d : driver) (env : providers) (cap batt_vol : Int) : Int × driver :=
  if env.enable_to_shutdown = 0 then (1, d)
  else if batt_vol > SHUTDOWN_VOLTAGE then (1, d)
  else if ¬ d.turnon_flags then (cap, { d with zero_reported := true })
  else
    let (late, d) := zero_report_check d env
    if late then (cap, { d with zero_reported := true, turnon_flags := false })
    else (1, d)

/-- The part of `smooth_capacity` that runs for a present, not full battery: the
low-voltage count and the zero-capacity block. -/
def smooth_capacity_present (d : driver) (env : providers) (capacity : Int) : Int × driver :=
  let cap := capacity
  let batt_vol := ti2419x_get_prop_voltage_now d.chip env
  let (is_chg_in, chip) := ti2419x_is_chg_plugged_in d.chip
  let d := { d with chip := chip }
  let (capacity, d) :=
    if batt_vol ≤ LOW_TEMP_SHUTDOWN_VOLTAGE ∧ is_chg_in = 0 then
      let count := s32 (d.smooth_capacity_count + 1)
      if count = 5 then
        /- force soc=0 -/
        ((0 : Int), { d with smooth_capacity_count := 0 })
      else (capacity, { d with smooth_capacity_count := count })
    else (capacity, { d with smooth_capacity_count := 0 })
  if capacity = 0 then smooth_capacity_zero d env cap batt_vol else (cap, d)

/-- Function `smooth_capacity` (the build with `FEATURE_SOFT_CC` equal to 0). -/
def smooth_capacity (d : driver) (env : providers) (capacity : Int) : Int × driver :=
  let d := if d.turnon_flags ∧ capacity > 0 then { d with turnon_flags := false } else d
  if d.zero_reported then (0, d)
  else
    let (is_batt_present, chip) := ti2419x_get_prop_batt_present d.chip env
    let d := { d with chip := chip }
    if is_batt_present = 0 then (50, d)
    else if d.chip.batt_full = true then (100, d)
    else smooth_capacity_present d env capacity

/-- Function `ti2419x_get_prop_batt_capacity`. -/
def ti2419x_get_prop_batt_capacity (d : driver) (env : providers) : Int × driver :=
  let soc := ti2419x_get_prop_batt_capacity_real d.chip env
  smooth_capacity { d with chip := { d.chip with soc := soc } } env soc

/-! ## Thermal/JEITA state machine -/

/-- Function `ti2419x_set_appropriate_ibat`. -/
def ti2419x_set_appropriate_ibat (chip : ti2419x_chip) : ti2419x_chip :=
  let chg_current : Nat := u32 chip.max_ibat
  let chg_current := if chip.bat_is_cool then min chg_current chip.cool_bat_chg_ma else chg_current
  let chg_current := if chip.bat_is_warm then min chg_current chip.warm_bat_chg_ma else chg_current
  (set_ibat chip (s32 (chg_current : Int))).2

/-- Function `ti2419x_set_appropriate_float_voltage`. -/
def ti2419x_set_appropriate_float_voltage (chip : ti2419x_chip) : ti2419x_chip :=
  if chip.bat_is_cool then
    (ti2419x_float_voltage_set chip (s32 (chip.cool_bat_mv : Int))).2
  else if chip.bat_is_warm then
    let chip := (ti2419x_float_voltage_set chip (s32 (chip.warm_bat_mv : Int))).2
    (ti2419x_recharge_threshold_set chip chip.warm_resume_delta_mv).2
  else
    let chip := (ti2419x_float_voltage_set chip chip.vfloat_mv).2
    (ti2419x_recharge_threshold_set chip chip.resume_delta_mv).2

def ZTE_HOT_TEMP_DEFAULT : Int := 500
def ZTE_COLD_TEMP_DEFAULT : Int := 0
def HYSTERISIS_DECIDEGC : Int := 20
def MAX_TEMP : Int := 800
def MIN_TEMP : Int := -300

/-- The coarse temperature classes:
`enum { TI_TM_HIGHER_STATE, TI_TM_LOWER_STATE, TI_TM_NORMAL_STATE }`. -/
def TI_TM_HIGHER_STATE : Int := 0
def TI_TM_LOWER_STATE : Int := 1
def TI_TM_NORMAL_STATE : Int := 2

/-- The transition table of `ti_temp_control_func`: from the coarse class and
the current flags to the target flags `(bat_hot, bat_warm, bat_cool)` and the
thresholds `(low_temp_threshold, high_temp_threshold)` of the next cycle. The
locals start as `false` and the thresholds keep their value when no row of
the table applies. -/
def jeita_transition (chip : ti2419x_chip) (state : Int) (low high : Int) :
    (Bool × Bool × Bool) × Int × Int :=
  if state = TI_TM_HIGHER_STATE then
    if chip.bat_is_hot = false ∧ chip.bat_is_warm = false ∧ chip.bat_is_cool = true then
      /- cool to normal -/
      ((false, false, false), chip.cool_bat_decidegc, chip.warm_bat_decidegc)
    else if chip.bat_is_hot = false ∧ chip.bat_is_warm = false ∧ chip.bat_is_cool = false then
      /- normal to warm -/
      ((false, true, false), chip.warm_bat_decidegc - HYSTERISIS_DECIDEGC, ZTE_HOT_TEMP_DEFAULT)
    else if chip.bat_is_hot = false ∧ chip.bat_is_warm = true ∧ chip.bat_is_cool = false then
      /- warm to hot -/
      ((true, false, false), ZTE_HOT_TEMP_DEFAULT - HYSTERISIS_DECIDEGC, MAX_TEMP)
    else ((false, false, false), low, high)
  else
    if chip.bat_is_hot = false ∧ chip.bat_is_warm = false ∧ chip.bat_is_cool = false then
      /- normal to cool -/
      ((false, false, true), MIN_TEMP, chip.cool_bat_decidegc + HYSTERISIS_DECIDEGC)
    else if chip.bat_is_hot = false ∧ chip.bat_is_warm = true ∧ chip.bat_is_cool = false then
      /- warm to normal -/
      ((false, false, false), chip.cool_bat_decidegc, chip.warm_bat_decidegc)
    else if chip.bat_is_hot = true ∧ chip.bat_is_warm = false ∧ chip.bat_is_cool = false then
      /- hot to warm -/
      ((false, true, false), chip.warm_bat_decidegc - HYSTERISIS_DECIDEGC, ZTE_HOT_TEMP_DEFAULT)
    else ((false, false, false), low, high)

/-- The block `if (chip->bat_is_warm ^ bat_warm) { .. }` of `ti_temp_control_func`. -/
def jeita_apply_warm (d : driver) (bat_warm : Bool) : driver :=
  if xor d.chip.bat_is_warm bat_warm then
    let chip := { d.chip with bat_is_warm := bat_warm }
    let chip := (ti2419x_set_appropriate_usb_current chip).2
    let chip := ti2419x_set_appropriate_ibat chip
    let chip := ti2419x_set_appropriate_float_voltage chip
    let chip := (ti2419x_charging_disable chip CURRENT 0).2
    let chip := { chip with batt_warm_full := false }
    { d with chip := chip, psy_changed := d.psy_changed + 1 }
  else d

/-- The block `if (chip->bat_is_hot ^ bat_hot || chip->bat_is_cool ^ bat_cool) { .. }`
of `ti_temp_control_func`. -/
def jeita_apply_hot_cool (d : driver) (bat_hot bat_cool : Bool) : driver :=
  if xor d.chip.bat_is_hot bat_hot ∨ xor d.chip.bat_is_cool bat_cool then
    let chip : ti2419x_chip := { d.chip with bat_is_hot := bat_hot, bat_is_cool := bat_cool }
    let chip :=
      if chip.bat_is_hot ∨ chip.bat_is_cool then
        /- disable charging -/
        (ti2419x_charging_disable chip TEMP 1).2
      else
        /- enable charging -/
        (ti2419x_charging_disable chip TEMP 0).2
    { d with chip := chip, psy_changed := d.psy_changed + 1 }
  else d

/-- Function `ti_temp_control_func`: the new driver state and the delay in ms
after which the work is scheduled again. -/
def ti_temp_control_func (d : driver) (env : providers) : driver × Int :=
  if ¬ d.chip.resume_completed then (d, 2000)
  else
    let (otg, chip) := ti2419x_otg_is_enabled d.chip
    let d := { d with chip := chip }
    if otg = 1 then (d, 60000)
    else
      let temp := ti2419x_get_prop_batt_temp env
      let temp := if temp > MAX_TEMP then MAX_TEMP else temp
      let temp := if temp < MIN_TEMP then MIN_TEMP else temp
      let state :=
        if temp > d.high_temp_threshold then TI_TM_HIGHER_STATE
        else if temp < d.low_temp_threshold then TI_TM_LOWER_STATE
        else TI_TM_NORMAL_STATE
      if state = TI_TM_NORMAL_STATE then (d, 2000)
      else
        let ((bat_hot, bat_warm, bat_cool), low, high) :=
          jeita_transition d.chip state d.low_temp_threshold d.high_temp_threshold
        let d := { d with low_temp_threshold := low, high_temp_threshold := high }
        let d := jeita_apply_warm d bat_warm
        let d := jeita_apply_hot_cool d bat_hot bat_cool
        (d, 2000)

/-! ## End-of-charge detector -/

/-- Function `check_fullcharged_state` (the `FEATURE_ZTE_LC709203F_FG` build). -/
def check_fullcharged_state (d : driver) (env : providers) : driver :=
  let (is_chg_in, chip) := ti2419x_is_chg_plugged_in d.chip
  let (is_batt_present, chip) := ti2419x_get_prop_batt_present chip env
  let capatity := ti2419x_get_prop_batt_capacity_real chip env
  let (charger_status, chip) := ti2419x_get_charging_status chip
  let d : driver := { d with chip := chip }
  if is_batt_present ≠ 0 ∧ charger_status = CHARGE_TERM_DONE then
    if is_chg_in ≠ 0 ∧ is_batt_present ≠ 0 ∧ capatity ≤ 99 ∧ d.is_first_time_check ≠ 0 then
      let chip := (__ti2419x_charging_disable d.chip true).2
      /- re-charging if soc not 100 -/
      let chip := (__ti2419x_charging_disable chip false).2
      { d with chip := chip }
    else
      { d with
        chip := { d.chip with batt_full := true },
        psy_changed := d.psy_changed + 1,
        is_first_time_check := 0 }
  else { d with is_first_time_check := 0 }

def CONSECUTIVE_COUNT : Int := 5
def EOC_CHECK_PERIOD_MS : Int := 10000

/-- The label `check_again_later` of `charger_eoc`: the delay in ms after which
the work is scheduled again. -/
def charger_eoc_delay (capacity_soc is_chg_in : Int) : Int :=
  if capacity_soc ≤ 60 ∨ is_chg_in = 0 then EOC_CHECK_PERIOD_MS * 10 else EOC_CHECK_PERIOD_MS

/-- The part of `charger_eoc` that runs with a charger connected and the battery
in the warm band, from the read-back of the float voltage to the label
`check_again_later`. -/
def charger_eoc_warm (d : driver) (env : providers) (capacity_soc : Int) : driver :=
  let (rc, max_float_voltage, chip) := ti2419x_float_voltage_get d.chip
  let d := { d with chip := chip }
  if rc < 0 then d
  else
    let max_float_voltage := max_float_voltage.getD 0
    let vbat_mv := Int.tdiv (ti2419x_get_prop_voltage_now d.chip env) 1000
    if d.chip.batt_warm_full then
      if vbat_mv ≤ max_float_voltage - d.chip.warm_resume_delta_mv
          - d.chip.vbatdet_max_err_mv then
        let chip := (ti2419x_charging_disable d.chip CURRENT 0).2
        { d with chip := { chip with batt_warm_full := false } }
      else d
    else
      /- check for full charging -/
      let (charger_status, chip) := ti2419x_get_charging_status d.chip
      let d := { d with chip := chip }
      if charger_status = FAST_CHARGE then
        if vbat_mv < max_float_voltage - d.chip.warm_resume_delta_mv
            - d.chip.vbatdet_max_err_mv ∧ d.chip.bat_is_warm then
          { d with charger_eoc_count := 0 }
        else if capacity_soc > 75 then
          if d.charger_eoc_count = CONSECUTIVE_COUNT then
            let chip := { d.chip with batt_warm_full := true }
            let chip := (ti2419x_charging_disable chip CURRENT 1).2
            { d with chip := chip, psy_changed := d.psy_changed + 1 }
          else { d with charger_eoc_count := d.charger_eoc_count + 1 }
        else d
      else d

/-- Function `charger_eoc` (the `FEATURE_ZTE_LC709203F_FG` build): the new driver
state and the delay in ms after which the work is scheduled again. -/
def charger_eoc (d : driver) (env : providers) : driver × Int :=
  if ¬ d.chip.resume_completed then (d, 5000)
  else
    let (capacity_soc, d) := ti2419x_get_prop_batt_capacity d env
    let (is_chg_in, chip) := ti2419x_is_chg_plugged_in d.chip
    let d := { d with chip := chip }
    let later := charger_eoc_delay capacity_soc is_chg_in
    if is_chg_in = 0 then
      ({ d with charger_eoc_count := 0, vbat_low_count := 0 }, later)
    else if ¬ d.chip.bat_is_warm then
      (check_fullcharged_state d env, later)
    else (charger_eoc_warm d env capacity_soc, later)

/-! ## The driver as a state machine -/

/-- The device context that `ti2419x_probe` hands to `ti2419x_hw_init`: a
zero-filled allocation attached to the client, the configuration fields that
`ti2419x_parse_dt` fills taken from `cfg`, the provider handle, and
`resume_completed` set. -/
def probe_chip (client : i2c_client) (cfg : ti2419x_chip) : ti2419x_chip :=
  { zeroed_chip client with
    vfloat_mv := cfg.vfloat_mv, safety_time := cfg.safety_time,
    resume_delta_mv := cfg.resume_delta_mv, warm_resume_delta_mv := cfg.warm_resume_delta_mv,
    vbatdet_max_err_mv := cfg.vbatdet_max_err_mv, iterm_ma := cfg.iterm_ma,
    hw_iterm_disabled := cfg.hw_iterm_disabled, charging_disabled := cfg.charging_disabled,
    max_iusb := cfg.max_iusb, max_ibat := cfg.max_ibat,
    max_input_voltage := cfg.max_input_voltage, warm_bat_mv := cfg.warm_bat_mv,
    cool_bat_mv := cfg.cool_bat_mv, warm_bat_decidegc := cfg.warm_bat_decidegc,
    cool_bat_decidegc := cfg.cool_bat_decidegc, warm_bat_chg_ma := cfg.warm_bat_chg_ma,
    cool_bat_chg_ma := cfg.cool_bat_chg_ma, thermal_levels := cfg.thermal_levels,
    thermal_mitigation := cfg.thermal_mitigation, bms_psy := cfg.bms_psy,
    resume_completed := true }

/-- The hardware part of `ti2419x_probe`: the presence check on VENDOR_REG,
`ti2419x_hw_init` and `determine_initial_status`; `none` when the probe fails.
`reg0` is the indeterminate initial content of the locals named `reg`. -/
def ti2419x_probe (client : i2c_client) (cfg : ti2419x_chip) (reg0 : Nat) : Option driver :=
  let chip := probe_chip client cfg
  let (rc, _, chip) := ti2419x_read chip VENDOR_REG reg0
  if rc ≠ 0 then none
  else
    let (rc, chip) := ti2419x_hw_init chip reg0
    if rc < 0 then none
    else
      let (rc, chip) := determine_initial_status chip
      if rc < 0 then none else some (driver_at_load chip)

/-- The operations through which the device state evolves after the probe. -/
inductive driver_op where
  /-- A call `ti2419x_charging_disable(chip, reason, disable)`. -/
  | arbiter (reason disable : Int)
  /-- A run of the work `ti_temp_control_func`. -/
  | thermal_tick (env : providers)
  /-- A run of the work `charger_eoc`. -/
  | eoc_tick (env : providers)
  /-- A call of `ti2419x_otg_regulator_enable`. -/
  | otg_enable
  /-- A call of `ti2419x_otg_regulator_disable`. -/
  | otg_disable
  /-- The charger IC updates its read-only status registers SYS_STAT and FAULT. -/
  | hw_status (sys_stat fault : Nat)

/-- The effect of one operation. -/
def apply_op (d : driver) : driver_op → driver
  | .arbiter reason disable => { d with chip := (ti2419x_charging_disable d.chip reason disable).2 }
  | .thermal_tick env => (ti_temp_control_func d env).1
  | .eoc_tick env => (charger_eoc d env).1
  | .otg_enable => { d with chip := (ti2419x_otg_regulator_enable d.chip).2 }
  | .otg_disable => { d with chip := (ti2419x_otg_regulator_disable d.chip).2 }
  | .hw_status sys_stat fault =>
    { d with chip := { d.chip with client := { d.chip.client with
        regs := fun a =>
          if a = SYS_STAT_REG then sys_stat % 256
          else if a = FAULT_REG then fault % 256
          else d.chip.client.regs a } } }

/-- The state after a sequence of operations. -/
def run_ops (d : driver) : List driver_op → driver
  | [] => d
  | op :: rest => run_ops (apply_op d op) rest

/-- Whether `check_fullcharged_state`, entered in state `d`, takes the branch
that restarts charging (`__ti2419x_charging_disable(chip, true)` followed by
`__ti2419x_charging_disable(chip, false)`). -/
def fullcharge_restarts (d : driver) (env : providers) : Bool :=
  let (is_chg_in, chip) := ti2419x_is_chg_plugged_in d.chip
  let (is_batt_present, chip) := ti2419x_get_prop_batt_present chip env
  let capatity := ti2419x_get_prop_batt_capacity_real chip env
  let (charger_status, _) := ti2419x_get_charging_status chip
  decide ((is_batt_present ≠ 0 ∧ charger_status = CHARGE_TERM_DONE) ∧
    (is_chg_in ≠ 0 ∧ is_batt_present ≠ 0 ∧ capatity ≤ 99 ∧ d.is_first_time_check ≠ 0))

/-- Whether a run of `charger_eoc` from state `d` reaches `check_fullcharged_state`
and restarts charging there. -/
def eoc_restarts (d : driver) (env : providers) : Bool :=
  if ¬ d.chip.resume_completed then false
  else
    let (_, d1) := ti2419x_get_prop_batt_capacity d env
    let (is_chg_in, chip) := ti2419x_is_chg_plugged_in d1.chip
    let d2 : driver := { d1 with chip := chip }
    if is_chg_in = 0 then false
    else if ¬ d2.chip.bat_is_warm then fullcharge_restarts d2 env
    else false

/-- The operations of the invariant: every operation except the OTG regulator
calls and the EOC ticks that restart charging through the full-charge check. -/
def op_keeps_enable_line (d : driver) : driver_op → Bool
  | .otg_enable => false
  | .otg_disable => false
  | .eoc_tick env => !eoc_restarts d env
  | _ => true

/-- Every operation of the run is, in the state it is applied to, one of the
operations of the invariant. -/
def ops_keep_enable_line (d : driver) : List driver_op → Bool
  | [] => true
  | op :: rest => op_keeps_enable_line d op && ops_keep_enable_line (apply_op d op) rest

/-- The hardware charge-enable field says enabled exactly when no disable reason
is asserted. -/
def enable_line_in_sync (chip : ti2419x_chip) : Prop :=
  chg_cfg_field chip = 1 ↔ chip.charging_disabled_status = 0

instance enable_line_in_sync_decidable (chip : ti2419x_chip) :
    Decidable (enable_line_in_sync chip) := by
  unfold enable_line_in_sync
  exact inferInstance

/-- A sample configuration: 4350 mV float voltage, 128 mA termination current,
hardware termination, 100 mV resume threshold, no safety timer entry. -/
def sample_cfg : ti2419x_chip :=
  { zeroed_chip (quiet_client 0) with
    vfloat_mv := 4350, iterm_ma := 128, resume_delta_mv := 100, warm_resume_delta_mv := 100,
    safety_time := -22, max_ibat := 2048, max_input_voltage := 4520, max_iusb := 2000,
    warm_bat_decidegc := 450, cool_bat_decidegc := 100, warm_bat_mv := 4100,
    cool_bat_mv := 4100, warm_bat_chg_ma := 1024, cool_bat_chg_ma := 512, bms_psy := true }

/-- A sample environment: battery present at 25 degrees, 3.9 V, 50 %. -/
def sample_env : providers :=
  { spmi_battery_present := true, board_abby_hw0 := false, vadc_rc := 0, vadc_physical := 250,
    bms_capacity := 50, bms_voltage_now := 3900000, bms_current_now := 0,
    enable_to_shutdown := 1, jiffies := 1000, HZ := 100, BITS_PER_LONG := 32 }

/-- The driver state after probing the sample device: a bus without failures
whose registers all read 0, configured with `sample_cfg`. -/
def sample_driver : driver :=
  (ti2419x_probe (quiet_client 0) sample_cfg 0).getD
    (driver_at_load (probe_chip (quiet_client 0) sample_cfg))

/-- The transport performs its transactions and none of them fails: the skip
flags are off and no bus transaction returns an error. -/
def transport_live (chip : ti2419x_chip) : Prop :=
  chip.skip_writes = 0 ∧ chip.skip_reads = 0 ∧ ∀ k, 0 ≤ chip.client.xfer_rc k

/-- The second context has the test-mode flags and the bus behaviour of the first. -/
def same_mode (c c' : ti2419x_chip) : Prop :=
  c'.skip_writes = c.skip_writes ∧ c'.skip_reads = c.skip_reads ∧
    c'.client.xfer_rc = c.client.xfer_rc

/-- The second context has the mode, the PON_CFG_REG content and the disable
bitmask of the first. -/
def keeps_enable_line (c c' : ti2419x_chip) : Prop :=
  same_mode c c' ∧ c'.client.regs PON_CFG_REG = c.client.regs PON_CFG_REG ∧
    c'.charging_disabled_status = c.charging_disabled_status

/-- The invariant of the reachable states: the transport is live and the
charge-enable field agrees with the bitmask. -/
def enable_line_inv (chip : ti2419x_chip) : Prop :=
  transport_live chip ∧ enable_line_in_sync chip

/-! ## Quantities used to state the thermal and capacity properties -/

/-- The current in mA that `set_ibat` reports for the field value it has
programmed: the expression `reg*MAX_IBAT_STEP+512` of its closing `pr_info`. -/
def ibat_ma_of_field (reg : Nat) : Int := (reg : Int) * MAX_IBAT_STEP + 512

/-- At most one of the flags `bat_is_hot`, `bat_is_warm`, `bat_is_cool` is set. -/
def at_most_one_thermal_flag (chip : ti2419x_chip) : Prop :=
  ¬ (chip.bat_is_hot = true ∧ chip.bat_is_warm = true) ∧
  ¬ (chip.bat_is_hot = true ∧ chip.bat_is_cool = true) ∧
  ¬ (chip.bat_is_warm = true ∧ chip.bat_is_cool = true)

instance at_most_one_thermal_flag_decidable (chip : ti2419x_chip) :
    Decidable (at_most_one_thermal_flag chip) := by
  unfold at_most_one_thermal_flag
  exact inferInstance

/-- The device context with the parts blanked that register traffic, the
arbiter and the warm-full bookkeeping change: the client, the disable bitmask
and `batt_warm_full`. -/
def config_of (chip : ti2419x_chip) : ti2419x_chip :=
  { chip with client := quiet_client 0, charging_disabled_status := 0, batt_warm_full := false }

/-- The second context differs from the first at most in the client, the
disable bitmask and `batt_warm_full`. -/
def same_config (c c' : ti2419x_chip) : Prop := config_of c' = config_of c

/-- The two clamping statements of `ti_temp_control_func`:
`if (temp > MAX_TEMP) temp = MAX_TEMP; if (temp < MIN_TEMP) temp = MIN_TEMP;`. -/
def clamp_temp (temp : Int) : Int :=
  let temp := if temp > MAX_TEMP then MAX_TEMP else temp
  if temp < MIN_TEMP then MIN_TEMP else temp

/-- The coarse temperature class that `ti_temp_control_func` derives from the
clamped reading and the two thresholds. -/
def thermal_class (d : driver) (env : providers) : Int :=
  let temp := clamp_temp (ti2419x_get_prop_batt_temp env)
  if temp > d.high_temp_threshold then TI_TM_HIGHER_STATE
  else if temp < d.low_temp_threshold then TI_TM_LOWER_STATE
  else TI_TM_NORMAL_STATE

/-- Whether a run of `ti_temp_control_func` gets past its two early returns: the
device has resumed and the OTG regulator is not reported enabled. -/
def thermal_tick_runs (d : driver) : Bool :=
  d.chip.resume_completed && decide ((ti2419x_otg_is_enabled d.chip).1 ≠ 1)

/-- The thermal state of the flags in the order Cool < Normal < Warm < Hot. -/
def thermal_rank (chip : ti2419x_chip) : Nat :=
  if chip.bat_is_cool then 0 else if chip.bat_is_hot then 3 else if chip.bat_is_warm then 2 else 1

/-- The state after one run of `ti_temp_control_func` per element of the list. -/
def thermal_ticks (d : driver) : List providers → driver
  | [] => d
  | env :: rest => thermal_ticks (ti_temp_control_func d env).1 rest

/-- The thermal states after each run of `ti_temp_control_func` in turn. -/
def thermal_trace (d : driver) : List providers → List Nat
  | [] => []
  | env :: rest =>
    thermal_rank (ti_temp_control_func d env).1.chip ::
      thermal_trace (ti_temp_control_func d env).1 rest

/-- Each reading of the list is at least the one before it. -/
def nondecreasing : List Int → Bool
  | [] => true
  | [_] => true
  | a :: b :: rest => decide (a ≤ b) && nondecreasing (b :: rest)

/-- Each element of the list is the one before it or one more, as the states of
a walk along Cool < Normal < Warm < Hot that never skips and never returns. -/
def steps_up_by_one : List Nat → Bool
  | [] => true
  | [_] => true
  | a :: b :: rest => (decide (b = a) || decide (b = a + 1)) && steps_up_by_one (b :: rest)

/-- The OTG bit of the CHG_CFG field of PON_CFG_REG is clear: the expression that
`ti2419x_otg_is_enabled` tests, on the register content. -/
def otg_bit_clear (chip : ti2419x_chip) : Prop :=
  ((chip.client.regs PON_CFG_REG % 256) &&& CHG_CFG_MASK) &&& (2 <<< CHG_CFG_SHIFT) = 0

instance otg_bit_clear_decidable (chip : ti2419x_chip) : Decidable (otg_bit_clear chip) := by
  unfold otg_bit_clear
  exact inferInstance

/-- Reference walk for the temperature sweep, following the spec's words
"Cool, Normal, Warm, Hot with no skipped state and no oscillation": from the
state of rank `rank` (Cool 0, Normal 1, Warm 2, Hot 3) the walk moves one state
up when the clamped reading is above the upper edge of the band, which is the
cool breakpoint plus the hysteresis, the warm breakpoint, and the hot default,
and it never moves down. -/
def staircase_step (cool warm : Int) (rank : Nat) (temp : Int) : Nat :=
  match rank with
  | 0 => if temp > cool + HYSTERISIS_DECIDEGC then 1 else 0
  | 1 => if temp > warm then 2 else 1
  | 2 => if temp > ZTE_HOT_TEMP_DEFAULT then 3 else 2
  | _ => 3

/-- The states of the reference walk along a list of readings. -/
def staircase (cool warm : Int) : Nat → List Int → List Nat
  | _, [] => []
  | rank, temp :: rest =>
    staircase_step cool warm rank (clamp_temp temp) ::
      staircase cool warm (staircase_step cool warm rank (clamp_temp temp)) rest

/-- The thresholds fit the thermal state during a sweep whose last reading was
`temp`: the flags show one of the four states, the upper threshold is the upper
edge of its band, and the lower threshold is not above the clamped reading. -/
def thermal_sweep_inv (d : driver) (temp : Int) : Prop :=
  d.low_temp_threshold ≤ clamp_temp temp ∧
  ((d.chip.bat_is_hot = false ∧ d.chip.bat_is_warm = false ∧ d.chip.bat_is_cool = true ∧
      d.high_temp_threshold = d.chip.cool_bat_decidegc + HYSTERISIS_DECIDEGC) ∨
    (d.chip.bat_is_hot = false ∧ d.chip.bat_is_warm = false ∧ d.chip.bat_is_cool = false ∧
      d.high_temp_threshold = d.chip.warm_bat_decidegc) ∨
    (d.chip.bat_is_hot = false ∧ d.chip.bat_is_warm = true ∧ d.chip.bat_is_cool = false ∧
      d.high_temp_threshold = ZTE_HOT_TEMP_DEFAULT) ∨
    (d.chip.bat_is_hot = true ∧ d.chip.bat_is_warm = false ∧ d.chip.bat_is_cool = false ∧
      d.high_temp_threshold = MAX_TEMP))

/-- The TEMP bit of the disable bitmask is set exactly when the battery is
flagged hot or cool. -/
def temp_reason_tracks (chip : ti2419x_chip) : Prop :=
  (u32 chip.charging_disabled_status).testBit (reason_bit TEMP) =
    (chip.bat_is_hot || chip.bat_is_cool)

instance temp_reason_tracks_decidable (chip : ti2419x_chip) :
    Decidable (temp_reason_tracks chip) := by
  unfold temp_reason_tracks
  exact inferInstance

/-- The sample environment with the thermistor reading `temp` tenths of a degree. -/
def sample_env_at (temp : Int) : providers := { sample_env with vadc_physical := temp }

/-- The sample environment with the battery voltage `uv` microvolts, the raw
state of charge `soc` and the tick counter at `jiffies`. -/
def sample_env_battery (uv soc : Int) (jiffies : Nat) : providers :=
  { sample_env with bms_voltage_now := uv, bms_capacity := soc, jiffies := jiffies }

/-- What happens to a device context between two calls of `smooth_capacity`:
an operation of the driver, or another capacity query, which is a call of
`smooth_capacity` with the raw state of charge `soc`. -/
inductive capacity_step where
  /-- An operation of the driver. -/
  | op (o : driver_op)
  /-- A call `smooth_capacity(chip, soc)`. -/
  | query (env : providers) (soc : Int)

/-- The effect of one step. -/
def apply_capacity_step (d : driver) : capacity_step → driver
  | .op o => apply_op d o
  | .query env soc => (smooth_capacity d env soc).2

/-- The state after a sequence of steps. -/
def run_capacity_steps (d : driver) : List capacity_step → driver
  | [] => d
  | s :: rest => run_capacity_steps (apply_capacity_step d s) rest

/-- The values that consecutive calls of `smooth_capacity` return, each call
with its own environment and raw state of charge, and the state after them. -/
def smooth_capacity_calls (d : driver) : List (providers × Int) → List Int × driver
  | [] => ([], d)
  | (env, soc) :: rest =>
    ((smooth_capacity d env soc).1 :: (smooth_capacity_calls (smooth_capacity d env soc).2 rest).1,
      (smooth_capacity_calls (smooth_capacity d env soc).2 rest).2)

/-! ## Quantities used to state the properties of the end-of-charge debounce -/

/-- The device context with the parts blanked that register traffic, the
arbiter and a capacity query change: the client, the disable bitmask, `soc`
and `batt_present`. -/
def settings_of (chip : ti2419x_chip) : ti2419x_chip :=
  { chip with
    client := quiet_client 0, charging_disabled_status := 0, soc := 0, batt_present := false }

/-- The second context differs from the first at most in the client, the
disable bitmask, `soc` and `batt_present`. -/
def same_settings (c c' : ti2419x_chip) : Prop := settings_of c' = settings_of c

/-- Whether `charger_eoc_warm`, entered in state `d` with the reported state of
charge `capacity_soc`, reaches the debounce statement
`if (count == CONSECUTIVE_COUNT)`: the float voltage is read back, the warm-full
latch is not set, the status is fast charge, the voltage is not below the warm
resume level, and the state of charge is above 75. -/
def eoc_warm_counts (d : driver) (env : providers) (capacity_soc : Int) : Bool :=
  let (rc, max_float_voltage, chip) := ti2419x_float_voltage_get d.chip
  if rc < 0 then false
  else
    let max_float_voltage := max_float_voltage.getD 0
    let vbat_mv := Int.tdiv (ti2419x_get_prop_voltage_now chip env) 1000
    if chip.batt_warm_full then false
    else
      let (charger_status, chip) := ti2419x_get_charging_status chip
      if charger_status = FAST_CHARGE then
        if vbat_mv < max_float_voltage - chip.warm_resume_delta_mv
            - chip.vbatdet_max_err_mv ∧ chip.bat_is_warm then false
        else decide (capacity_soc > 75)
      else false

/-- Whether `charger_eoc_warm`, entered in state `d`, takes the branch
"woke up too early" with its statement `count = 0`. -/
def eoc_warm_resets (d : driver) (env : providers) : Bool :=
  let (rc, max_float_voltage, chip) := ti2419x_float_voltage_get d.chip
  if rc < 0 then false
  else
    let max_float_voltage := max_float_voltage.getD 0
    let vbat_mv := Int.tdiv (ti2419x_get_prop_voltage_now chip env) 1000
    if chip.batt_warm_full then false
    else
      let (charger_status, chip) := ti2419x_get_charging_status chip
      if charger_status = FAST_CHARGE then
        decide (vbat_mv < max_float_voltage - chip.warm_resume_delta_mv
            - chip.vbatdet_max_err_mv ∧ chip.bat_is_warm)
      else false

/-- Whether a run of `charger_eoc` from state `d` is a qualifying sample of the
debounce: the device has resumed, a charger is present, the battery is in the
warm band, and `charger_eoc_warm` reaches `if (count == CONSECUTIVE_COUNT)`. -/
def eoc_counts (d : driver) (env : providers) : Bool :=
  if ¬ d.chip.resume_completed then false
  else
    let (capacity_soc, d1) := ti2419x_get_prop_batt_capacity d env
    let (is_chg_in, chip) := ti2419x_is_chg_plugged_in d1.chip
    let d2 : driver := { d1 with chip := chip }
    if is_chg_in = 0 then false
    else if ¬ d2.chip.bat_is_warm then false
    else eoc_warm_counts d2 env capacity_soc

/-- Whether a run of `charger_eoc` from state `d` executes one of its two
statements `count = 0`: no charger is connected, or the warm block takes the
branch "woke up too early". -/
def eoc_resets (d : driver) (env : providers) : Bool :=
  if ¬ d.chip.resume_completed then false
  else
    let (_, d1) := ti2419x_get_prop_batt_capacity d env
    let (is_chg_in, chip) := ti2419x_is_chg_plugged_in d1.chip
    let d2 : driver := { d1 with chip := chip }
    if is_chg_in = 0 then true
    else if ¬ d2.chip.bat_is_warm then false
    else eoc_warm_resets d2 env

/-- The state after one run of `charger_eoc` per element of the list. -/
def eoc_ticks (d : driver) : List providers → driver
  | [] => d
  | env :: rest => eoc_ticks (charger_eoc d env).1 rest

/-- Every run of `charger_eoc` in the sequence is a qualifying sample, each in
the state that the runs before it leave. -/
def eoc_run_counts (d : driver) : List providers → Bool
  | [] => true
  | env :: rest => eoc_counts d env && eoc_run_counts (charger_eoc d env).1 rest

/-- The CURRENT bit of the disable bitmask. -/
def current_reason_set (chip : ti2419x_chip) : Bool :=
  (u32 chip.charging_disabled_status).testBit (reason_bit CURRENT)

/-- The sample device in the warm band with a charger connected that reports
fast charge: after a thermal tick at 46.0 degrees the status register shows
power good and the fast-charge state. -/
def sample_warm_driver : driver :=
  run_ops sample_driver [.thermal_tick (sample_env_at 460), .hw_status 0x24 0]

/-- The sample device outside the warm band with a charger connected that
reports fast charge. -/
def sample_normal_driver : driver := run_ops sample_driver [.hw_status 0x24 0]

/-- The sample environment of a qualifying end-of-charge tick: 4.05 V, a state
of charge of 90 and a charge current of 127 mA, which is 1 mA below the
termination current of the sample configuration (a negative reading is a
current into the battery). -/
def sample_env_eoc : providers :=
  { sample_env with bms_voltage_now := 4050000, bms_capacity := 90, bms_current_now := -127000 }

/-- The sample environment of a tick with a charge current of 500 mA, above the
termination current, at 4.05 V and a state of charge of 90. -/
def sample_env_eoc_high_current : providers :=
  { sample_env with bms_voltage_now := 4050000, bms_capacity := 90, bms_current_now := -500000 }

/-- The sample environment of a tick with a state of charge of 70, at 4.05 V
and a charge current of 127 mA. -/
def sample_env_eoc_low_soc : providers :=
  { sample_env with bms_voltage_now := 4050000, bms_capacity := 70, bms_current_now := -127000 }

/-- The sample environment of a tick with a state of charge of 70 and a charge
current of 500 mA, above the termination current, at 4.05 V. -/
def sample_env_eoc_not_full : providers :=
  { sample_env with bms_voltage_now := 4050000, bms_capacity := 70, bms_current_now := -500000 }

/-! ## Quantities used to state the remaining end-of-charge properties -/

/-- The value that a run of `charger_eoc` from state `d` reads into `is_chg_in`. -/
def eoc_charger_seen (d : driver) (env : providers) : Int :=
  (ti2419x_is_chg_plugged_in (ti2419x_get_prop_batt_capacity d env).2.chip).1

/-- The result code and the value of the call
`ti2419x_float_voltage_get(chip, &max_float_voltage)` that a run of
`charger_eoc` from state `d` makes in the warm block. -/
def eoc_float_voltage_read (d : driver) (env : providers) : Int × Option Int :=
  ((ti2419x_float_voltage_get
      (ti2419x_is_chg_plugged_in (ti2419x_get_prop_batt_capacity d env).2.chip).2).1,
    (ti2419x_float_voltage_get
      (ti2419x_is_chg_plugged_in (ti2419x_get_prop_batt_capacity d env).2.chip).2).2.1)

/-- The sample device in the warm band with the warm-full latch set: the state
after six qualifying end-of-charge ticks. -/
def sample_warm_full_driver : driver :=
  eoc_ticks sample_warm_driver
    [sample_env_eoc, sample_env_eoc, sample_env_eoc, sample_env_eoc, sample_env_eoc,
      sample_env_eoc]

/-! ## Fast-charge current limit -/

/-- The value of the local `chg_current` of `ti2419x_set_appropriate_ibat` at its
call of `set_ibat`: `max_ibat` converted to `unsigned int`, lowered to the cool
cap when the battery is cool and to the warm cap when it is warm. -/
def appropriate_ibat (chip : ti2419x_chip) : Nat :=
  let chg_current : Nat := u32 chip.max_ibat
  let chg_current := if chip.bat_is_cool then min chg_current chip.cool_bat_chg_ma else chg_current
  if chip.bat_is_warm then min chg_current chip.warm_bat_chg_ma else chg_current

/-- The fast-charge current in mA that the IFAST_CHG field of the chip holds. -/
def programmed_ibat (chip : ti2419x_chip) : Int :=
  ibat_ma_of_field (reg_field chip CHG_I_CTRL_REG IFAST_CHG_MASK IFAST_CHG_SHIFT)

/-- The sample device with the battery flagged cool and a cool cap of 300 mA. -/
def sample_cool_chip : ti2419x_chip :=
  { sample_driver.chip with bat_is_cool := true, cool_bat_chg_ma := 300 }

/-! ## Thermal mitigation level -/

/-- Function `ti2419x_system_temp_level_set`. The comparisons of the `int`
`lvl_sel` and `prev_therm_lvl` with the `unsigned int` fields are made on the
values converted to `unsigned int`, and the assignments between the two types
convert likewise. -/
def ti2419x_system_temp_level_set (chip : ti2419x_chip) (lvl_sel : Int) :
    Int × ti2419x_chip :=
  if chip.thermal_mitigation.isNone then (-EINVAL, chip)
  else if lvl_sel < 0 then (-EINVAL, chip)
  else
    let lvl_sel : Int :=
      if u32 lvl_sel ≥ chip.thermal_levels then
        s32 ((u32 ((chip.thermal_levels : Int) - 1) : Nat) : Int)
      else lvl_sel
    if u32 lvl_sel = chip.therm_lvl_sel then (0, chip)
    else
      let prev_therm_lvl : Int := s32 (chip.therm_lvl_sel : Int)
      let chip := { chip with therm_lvl_sel := u32 lvl_sel }
      if chip.therm_lvl_sel = u32 ((chip.thermal_levels : Int) - 1) then
        /- Disable charging if highest value selected -/
        ti2419x_charging_disable chip THERMAL 1
      else
        let chip := (ti2419x_set_appropriate_usb_current chip).2
        if u32 prev_therm_lvl = u32 ((chip.thermal_levels : Int) - 1) then
          /- If previously highest value was selected charging must have
          been disabed. Hence enable charging. -/
          ti2419x_charging_disable chip THERMAL 0
        else (0, chip)

/-- The state after a sequence of calls of `ti2419x_system_temp_level_set`, one
per requested level. -/
def temp_level_run (chip : ti2419x_chip) : List Int → ti2419x_chip
  | [] => chip
  | lvl :: rest => temp_level_run (ti2419x_system_temp_level_set chip lvl).2 rest

/-- The THERMAL bit of the disable bitmask. -/
def thermal_reason_set (chip : ti2419x_chip) : Bool :=
  (u32 chip.charging_disabled_status).testBit (reason_bit THERMAL)

/-- The THERMAL reason is asserted exactly when the selected level is the
highest one, `thermal_levels - 1`. -/
def thermal_reason_tracks (chip : ti2419x_chip) : Prop :=
  thermal_reason_set chip = decide ((chip.therm_lvl_sel : Int) = (chip.thermal_levels : Int) - 1)

instance thermal_reason_tracks_decidable (chip : ti2419x_chip) :
    Decidable (thermal_reason_tracks chip) := by
  unfold thermal_reason_tracks
  exact inferInstance

/-- The conditions under which the THERMAL reason is followed through calls of
`ti2419x_system_temp_level_set`: a live transport, a thermal-mitigation table
of at least two levels, both `unsigned int` fields in range, and the THERMAL
reason asserted exactly at the highest level. -/
def temp_level_inv (chip : ti2419x_chip) : Prop :=
  transport_live chip ∧ chip.thermal_mitigation.isNone = false ∧
  2 ≤ chip.thermal_levels ∧ chip.thermal_levels < 4294967296 ∧
  chip.therm_lvl_sel < 4294967296 ∧ thermal_reason_tracks chip

/-- The sample device with a thermal-mitigation table of three levels. -/
def sample_thermal_chip : ti2419x_chip :=
  { sample_driver.chip with thermal_levels := 3, thermal_mitigation := some [1500, 700, 100] }

/-! ## Heartbeat and forced power-off -/

/-- The `static unsigned long report_zero_jiffies` of `force_power_off_check`,
and the number of calls of `kernel_power_off()` made so far. -/
structure power_guard where
  report_zero_jiffies : Nat
  power_off_calls : Nat

/-- The state of `force_power_off_check` as the initialiser in the source gives
it. -/
def power_guard_at_load : power_guard := { report_zero_jiffies := 0, power_off_calls := 0 }

/-- What the heartbeat work takes from outside the device context: the module
parameters `poweroff_enable` and `heartbeat_ms`, the global `offcharging_flag`,
and whether `power_supply_get_by_name("on_bms")` finds a supply. -/
structure heartbeat_params where
  poweroff_enable : Nat
  heartbeat_ms : Int
  offcharging_flag : Int
  on_bms_found : Bool

/-- The function-local `static` variables of `update_heartbeat`. -/
structure heartbeat_statics where
  old_temp : Int
  old_cap : Int
  old_status : Int
  old_present : Int
  old_usb_present : Int
  old_health : Int
  count : Int

/-- The statics of `update_heartbeat` as the initialisers in the source give
them. -/
def heartbeat_statics_at_load : heartbeat_statics :=
  { old_temp := 0, old_cap := 0, old_status := 0, old_present := 0, old_usb_present := 0,
    old_health := 0, count := 0 }

/-- Function `force_power_off_check`, with `OFFCHG_FORCE_POWEROFF_DELTA = HZ*60*10`
and `NORMAL_FORCE_POWEROFF_DELTA = HZ*60*1`; a call of `kernel_power_off()` is
counted. -/
def force_power_off_check (g : power_guard) (env : providers) (offcharging_flag capacity : Int) :
    power_guard :=
  if capacity = 0 then
    if g.report_zero_jiffies = 0 then
      { g with report_zero_jiffies := env.jiffies % 2 ^ env.BITS_PER_LONG }
    else if (offcharging_flag ≠ 0 ∧
          time_after env.BITS_PER_LONG env.jiffies
            ((g.report_zero_jiffies + env.HZ * 60 * 10) % 2 ^ env.BITS_PER_LONG) = true) ∨
        (¬ offcharging_flag ≠ 0 ∧
          time_after env.BITS_PER_LONG env.jiffies
            ((g.report_zero_jiffies + env.HZ * 60 * 1) % 2 ^ env.BITS_PER_LONG) = true) then
      { g with power_off_calls := g.power_off_calls + 1 }
    else g
  else { g with report_zero_jiffies := 0 }

/-- Each tick counter of the list is at least the one before it. -/
def ticks_nondecreasing : List Nat → Bool
  | [] => true
  | [_] => true
  | a :: b :: rest => decide (a ≤ b) && ticks_nondecreasing (b :: rest)

def BATT_NOT_CHG_VAL : Nat := 0x0
def BATT_PRE_CHG_VAL : Nat := 0x1
def BATT_FAST_CHG_VAL : Nat := 0x2
def BATT_CHG_DONE : Nat := 0x3

/-- Enumerators of `linux/power_supply.h`, a header outside the repository. -/
def POWER_SUPPLY_STATUS_UNKNOWN : Int := 0
def POWER_SUPPLY_STATUS_CHARGING : Int := 1
def POWER_SUPPLY_STATUS_DISCHARGING : Int := 2
def POWER_SUPPLY_STATUS_FULL : Int := 4
def POWER_SUPPLY_CHARGE_TYPE_UNKNOWN : Int := 0
def POWER_SUPPLY_CHARGE_TYPE_NONE : Int := 1
def POWER_SUPPLY_CHARGE_TYPE_TRICKLE : Int := 2
def POWER_SUPPLY_CHARGE_TYPE_FAST : Int := 3
def POWER_SUPPLY_HEALTH_GOOD : Int := 1
def POWER_SUPPLY_HEALTH_OVERHEAT : Int := 2
def POWER_SUPPLY_HEALTH_COLD : Int := 6

/-- Function `ti2419x_get_prop_batt_status`. -/
def ti2419x_get_prop_batt_status (chip : ti2419x_chip) : Int × ti2419x_chip :=
  let (is_chg_in, chip) := ti2419x_is_chg_plugged_in chip
  let (stat, chip) := ti2419x_get_charging_status chip
  if stat < 0 then (POWER_SUPPLY_STATUS_UNKNOWN, chip)
  else if is_chg_in ≠ 0 ∧ (chip.soc = 100 ∨ chip.batt_full) then (POWER_SUPPLY_STATUS_FULL, chip)
  else if (stat = 0x1 ∨ stat = 0x2) ∧ is_chg_in ≠ 0 then (POWER_SUPPLY_STATUS_CHARGING, chip)
  else if stat = 0 ∨ stat = 0x3 then (POWER_SUPPLY_STATUS_DISCHARGING, chip)
  else (POWER_SUPPLY_STATUS_UNKNOWN, chip)

/-- Function `ti2419x_get_prop_charge_type`. -/
def ti2419x_get_prop_charge_type (chip : ti2419x_chip) : Int × ti2419x_chip :=
  let (rc, reg, chip') := ti2419x_read chip SYS_STAT_REG 0
  if rc ≠ 0 then (POWER_SUPPLY_CHARGE_TYPE_UNKNOWN, chip')
  else
    let chg_type := (reg &&& CHG_STAT_MASK) >>> CHG_STAT_SHIFT
    if chg_type = BATT_NOT_CHG_VAL then (POWER_SUPPLY_CHARGE_TYPE_NONE, chip')
    else if chg_type = BATT_FAST_CHG_VAL ∨ chg_type = BATT_CHG_DONE then
      (POWER_SUPPLY_CHARGE_TYPE_FAST, chip')
    else if chg_type = BATT_PRE_CHG_VAL then (POWER_SUPPLY_CHARGE_TYPE_TRICKLE, chip')
    else (POWER_SUPPLY_CHARGE_TYPE_NONE, chip')

/-- Function `ti2419x_get_prop_batt_health`. -/
def ti2419x_get_prop_batt_health (chip : ti2419x_chip) : Int :=
  if chip.bat_is_hot then POWER_SUPPLY_HEALTH_OVERHEAT
  else if chip.bat_is_cool then POWER_SUPPLY_HEALTH_COLD
  else POWER_SUPPLY_HEALTH_GOOD

/-- The loop of `print_ti2419x_regs`, which reads the registers `i` to 9 in turn;
`n` is the number of registers left. -/
def print_ti2419x_regs_from (chip : ti2419x_chip) (i : Nat) : Nat → ti2419x_chip
  | 0 => chip
  | n + 1 => print_ti2419x_regs_from (ti2419x_read chip i 0).2.2 (i + 1) n

/-- Function `print_ti2419x_regs`: ten register reads whose values are logged. -/
def print_ti2419x_regs (chip : ti2419x_chip) : ti2419x_chip := print_ti2419x_regs_from chip 0 10

def LOW_SOC_HEARTBEAT_MS : Int := 20000
def HEARTBEAT_MS : Int := 60000

/-- The part of `update_heartbeat` from `//update state` on, entered after the
watchdog has been kicked: the readings, the log block with its statics, the
power-off check, the notification and the period of the next run.
`print_bms_regs` only logs provider values and is left out. -/
def update_heartbeat_state (d : driver) (g : power_guard) (s : heartbeat_statics)
    (env : providers) (p : heartbeat_params) :
    driver × power_guard × heartbeat_statics × Int :=
  let chip := d.chip
  let chip := if ¬ chip.bms_psy then { chip with bms_psy := p.on_bms_found } else chip
  let chip := print_ti2419x_regs chip
  let d : driver := { d with chip := chip }
  let temp := ti2419x_get_prop_batt_temp env
  let (cap, d) := ti2419x_get_prop_batt_capacity d env
  let (status, chip) := ti2419x_get_prop_batt_status d.chip
  let (_, chip) := ti2419x_get_prop_charge_type chip
  let (present, chip) := ti2419x_get_prop_batt_present chip env
  let health := ti2419x_get_prop_batt_health chip
  let usb_present : Int := if chip.usb_present then 1 else 0
  /- if heatbeat_ms is bigger than 500ms, it means users need this
  information, must output the logs directly. -/
  let (chip, s) :=
    if p.heartbeat_ms ≥ 500 ∨ temp ≠ s.old_temp ∨ s.old_cap ≠ cap ∨ s.old_status ≠ status ∨
        s.old_present ≠ present ∨ s.old_usb_present ≠ usb_present ∨ s.old_health ≠ health ∨
        Int.tmod s.count 5 = 0 then
      ((ti2419x_is_charging_enabled chip).2,
        ({ old_temp := temp, old_cap := cap, old_status := status, old_present := present,
           old_usb_present := usb_present, old_health := health, count := 0 } :
          heartbeat_statics))
    else (chip, s)
  let s := { s with count := s.count + 1 }
  /- report zero, but the uplayer is not shutdown in 60s,
  kernel should power off directly. -/
  let g :=
    if p.poweroff_enable = 0 then force_power_off_check g env p.offcharging_flag 0
    else force_power_off_check g env p.offcharging_flag cap
  let d : driver := { d with chip := chip, psy_changed := d.psy_changed + 1 }
  let period :=
    if p.heartbeat_ms ≥ 500 then p.heartbeat_ms
    else if cap ≤ 20 then LOW_SOC_HEARTBEAT_MS
    else HEARTBEAT_MS
  (d, g, s, period)

/-- Function `update_heartbeat`: the new state and the delay in ms after which
the work is scheduled again. -/
def update_heartbeat (d : driver) (g : power_guard) (s : heartbeat_statics)
    (env : providers) (p : heartbeat_params) :
    driver × power_guard × heartbeat_statics × Int :=
  if ¬ d.chip.resume_completed then (d, g, s, 5000)
  else
    /- kick watch dog -/
    let (rc, chip) :=
      ti2419x_masked_write d.chip PON_CFG_REG I2C_WDOG_RESET_MASK I2C_WDOG_RESET_MASK
    let d := { d with chip := chip }
    if rc < 0 then (d, g, s, 5000)
    else update_heartbeat_state d g s env p

/-- The state after one run of `update_heartbeat` per element of the list. -/
def heartbeat_ticks (d : driver) (g : power_guard) (s : heartbeat_statics)
    (p : heartbeat_params) : List providers → driver × power_guard × heartbeat_statics
  | [] => (d, g, s)
  | env :: rest =>
    heartbeat_ticks (update_heartbeat d g s env p).1 (update_heartbeat d g s env p).2.1
      (update_heartbeat d g s env p).2.2.1 p rest

/-- Sample parameters with power-off disabled: `poweroff_enable` is 0, the
device is not in off-charging mode. -/
def sample_params_poweroff_disabled : heartbeat_params :=
  { poweroff_enable := 0, heartbeat_ms := 0, offcharging_flag := 0, on_bms_found := true }

/-! ## Soft coulomb counter

The code of this section stands in the source file under `#if FEATURE_SOFT_CC`. -/

def SOFT_CC_NUM : Int := 60

/-- Structure `qpnp_soft_cc`. The array `data[SOFT_CC_NUM]` is a function of the
index; its slots are the indices 0 to 59. -/
structure qpnp_soft_cc where
  data : Int → Int
  pos : Int
  total : Int
  monitor_launched : Bool
  total_valid : Bool

/-- Function `soft_cc_append_data`; the `int` arithmetic of the running sum wraps
at 32 bits. -/
def soft_cc_append_data (sc : qpnp_soft_cc) (data : Int) : qpnp_soft_cc :=
  let pos := Int.tmod (sc.pos + 1) SOFT_CC_NUM
  let old_data := sc.data pos
  let sc := if sc.pos ≥ SOFT_CC_NUM - 1 then { sc with total_valid := true } else sc
  { sc with
    data := fun i => if i = pos then data else sc.data i,
    pos := pos,
    total := s32 (sc.total - old_data + data) }

/-- Function `soft_cc_reset`. -/
def soft_cc_reset (sc : qpnp_soft_cc) : qpnp_soft_cc :=
  { data := fun i => if 0 ≤ i ∧ i < SOFT_CC_NUM then 0 else sc.data i,
    pos := -1,
    total := 0,
    total_valid := false,
    monitor_launched := false }

/-- The state after the calls `soft_cc_append_data(x)` for the samples of the
list in turn. -/
def soft_cc_appends (sc : qpnp_soft_cc) : List Int → qpnp_soft_cc
  | [] => sc
  | x :: rest => soft_cc_appends (soft_cc_append_data sc x) rest

/-- The sum of the 60 slots. -/
def soft_cc_sum (sc : qpnp_soft_cc) : Int :=
  ((List.range 60).map (fun i : Nat => sc.data (i : Int))).sum

/-- A zero-filled `static struct qpnp_soft_cc`, as at load. -/
def soft_cc_at_load : qpnp_soft_cc :=
  { data := fun _ => 0, pos := 0, total := 0, monitor_launched := false, total_valid := false }

/-- The most recent `n` samples of a list, oldest first: the reference for the
content of the ring buffer, following the spec's words "the most recent N
current samples". -/
def most_recent (n : Nat) (xs : List Int) : List Int := xs.drop (xs.length - n)

/-- The state of the ring buffer after a reset and the appends of the samples
`xs` in turn: `pos` is -1 before the first append and the slot of the last
sample after it, sample number `m` of the last 60 lies in slot `m % 60`, the
slots not reached yet hold 0, the slots add up to the sum of the most recent
60 samples, the running sum is that sum as an `int`, and `total_valid` is set
from the 61st append on. -/
def soft_cc_holds (sc : qpnp_soft_cc) (xs : List Int) : Prop :=
  (xs.length = 0 → sc.pos = -1) ∧
  (1 ≤ xs.length → sc.pos = (((xs.length - 1) % 60 : Nat) : Int)) ∧
  (∀ m : Nat, m < xs.length → xs.length ≤ m + 60 →
    sc.data ((m % 60 : Nat) : Int) = xs.getD m 0) ∧
  (∀ i : Nat, xs.length ≤ i → i < 60 → sc.data (i : Int) = 0) ∧
  soft_cc_sum sc = (most_recent 60 xs).sum ∧
  sc.total = s32 (soft_cc_sum sc) ∧
  sc.total_valid = decide (61 ≤ xs.length)

/-! ## Status interrupt dispatch -/

/-- The functions that the member `ti2419x_irq` of the table `handlers` points
to. -/
inductive irq_fn where
  | sys_ov_handler
  | therm_handler
  | power_good_handler
  | dpm_handler
  | chg_stat_handler
  | vbus_stat_handler
  | hot_cold_handler
  | bat_fault_handler
  | chg_fault_handler
  | boost_fault_handler
  | wdog_fault_handler
  deriving DecidableEq

/-- Function `power_good_handler`; the wake locks, the `power_supply_set_present`
calls and the rescheduling of the end-of-charge work are left out. -/
def power_good_handler (chip : ti2419x_chip) (rt_stat : Nat) : Int × ti2419x_chip :=
  let usb_present : Bool := decide (rt_stat ≠ 0)
  let chip :=
    if chip.usb_present ∧ ¬ usb_present then
      /- USB removed -/
      let chip := { chip with usb_present := usb_present }
      let chip := { chip with batt_full := false }
      let chip := { chip with batt_warm_full := false }
      (ti2419x_charging_disable chip CURRENT 0).2
    else chip
  let chip :=
    if ¬ chip.usb_present ∧ usb_present then
      /- USB inserted -/
      { chip with usb_present := usb_present }
    else chip
  (0, chip)

/-- Function `chg_stat_handler`: it reads SYS_STAT_REG for its log line. -/
def chg_stat_handler (chip : ti2419x_chip) (_rt_stat : Nat) : Int × ti2419x_chip :=
  (0, (ti2419x_read chip SYS_STAT_REG 0).2.2)

/-- The call `handlers[i].irq_info[j].ti2419x_irq(chip, rt_stat)`; the handlers
other than `power_good_handler` and `chg_stat_handler` only log and return 0. -/
def run_irq_fn (f : irq_fn) (chip : ti2419x_chip) (rt_stat : Nat) : Int × ti2419x_chip :=
  match f with
  | .power_good_handler => power_good_handler chip rt_stat
  | .chg_stat_handler => chg_stat_handler chip rt_stat
  | _ => (0, chip)

/-- Structure `ti2419x_irq_info`. -/
structure ti2419x_irq_info where
  name : String
  ti2419x_irq : Option irq_fn
  high : Int
  low : Int

/-- Structure `irq_handler_info`; the array `irq_info[8]` is a function of the
index. -/
structure irq_handler_info where
  stat_reg : Nat
  val : Nat
  prev_val : Nat
  irq_info : Nat → ti2419x_irq_info

/-- An unused slot of an `irq_info` array. -/
def irq_info_none : ti2419x_irq_info := { name := "", ti2419x_irq := none, high := 0, low := 0 }

/-- The initialiser of the array `handlers[]`. -/
def handlers : List irq_handler_info :=
  [ { stat_reg := SYS_STAT_REG, val := 0, prev_val := 0,
      irq_info := fun j =>
        [ { name := "sys_voltage_status", ti2419x_irq := some .sys_ov_handler, high := 0, low := 0 },
          { name := "THERM_status", ti2419x_irq := some .therm_handler, high := 0, low := 0 },
          { name := "PG_status", ti2419x_irq := some .power_good_handler, high := 0, low := 0 },
          { name := "DPM_status", ti2419x_irq := some .dpm_handler, high := 0, low := 0 },
          { name := "chg_status0", ti2419x_irq := some .chg_stat_handler, high := 0, low := 0 },
          { name := "chg_status1", ti2419x_irq := some .chg_stat_handler, high := 0, low := 0 },
          { name := "VBUS_status0", ti2419x_irq := some .vbus_stat_handler, high := 0, low := 0 },
          { name := "VBUS_status1", ti2419x_irq := some .vbus_stat_handler, high := 0, low := 0 }
        ].getD j irq_info_none },
    { stat_reg := FAULT_REG, val := 0, prev_val := 0,
      irq_info := fun j =>
        [ { name := "NTC_fault0", ti2419x_irq := some .hot_cold_handler, high := 0, low := 0 },
          { name := "NTC_fault1", ti2419x_irq := some .hot_cold_handler, high := 0, low := 0 },
          { name := "NTC_fault2", ti2419x_irq := some .hot_cold_handler, high := 0, low := 0 },
          { name := "BAT_fault", ti2419x_irq := some .bat_fault_handler, high := 0, low := 0 },
          { name := "CHG_fault0", ti2419x_irq := some .chg_fault_handler, high := 0, low := 0 },
          { name := "CHG_fault1", ti2419x_irq := some .chg_fault_handler, high := 0, low := 0 },
          { name := "BOOST_fault", ti2419x_irq := some .boost_fault_handler, high := 0, low := 0 },
          { name := "WDOG_fault", ti2419x_irq := some .wdog_fault_handler, high := 0, low := 0 }
        ].getD j irq_info_none } ]

def IRQ_STATUS_MASK : Nat := 0x01

/-- A call of a bit handler made by `ti2419x_stat_handler`: the index `i` of the
entry of `handlers`, the bit `j`, the function called and the `rt_stat` passed. -/
structure irq_call where
  i : Nat
  j : Nat
  fn : irq_fn
  rt_stat : Nat

/-- The state of `ti2419x_stat_handler` inside its loops: the device context,
the entry `handlers[i]` being worked on, the local `handler_count`, and the
handler calls made so far, in order. -/
structure irq_pass where
  chip : ti2419x_chip
  info : irq_handler_info
  handler_count : Int
  calls : List irq_call

/-- The body of the inner loop of `ti2419x_stat_handler` for bit `j` of entry
`i`. The masked bytes are `u8` values; the counters `high` and `low` are taken
as integers, without the wrap of `int`. -/
def stat_handler_bit (st : irq_pass) (i j : Nat) : irq_pass :=
  let rt_stat := (st.info.val &&& (IRQ_STATUS_MASK <<< j)) % 256
  let prev_rt_stat := (st.info.prev_val &&& (IRQ_STATUS_MASK <<< j)) % 256
  let changed := prev_rt_stat ^^^ rt_stat
  let info : irq_handler_info :=
    if changed ≠ 0 then
      if rt_stat ≠ 0 then
        { st.info with
          irq_info := fun k =>
            if k = j then { st.info.irq_info j with high := (st.info.irq_info j).high + 1 }
            else st.info.irq_info k }
      else
        { st.info with
          irq_info := fun k =>
            if k = j then { st.info.irq_info j with low := (st.info.irq_info j).low + 1 }
            else st.info.irq_info k }
    else st.info
  match (info.irq_info j).ti2419x_irq with
  | some f =>
    if changed ≠ 0 then
      { chip := (run_irq_fn f st.chip rt_stat).2, info := info,
        handler_count := st.handler_count + 1,
        calls := st.calls ++ [{ i := i, j := j, fn := f, rt_stat := rt_stat }] }
    else { st with info := info }
  | none => { st with info := info }

/-- The inner loop of `ti2419x_stat_handler` from bit `j` on; `n` is the number
of bits left. -/
def stat_handler_bits (st : irq_pass) (i j : Nat) : Nat → irq_pass
  | 0 => st
  | n + 1 => stat_handler_bits (stat_handler_bit st i j) i (j + 1) n

/-- The body of the outer loop of `ti2419x_stat_handler` for the entry `info`
with index `i`: the read of the status register, the loop over the eight bits,
and the update of `prev_val`. -/
def stat_handler_entry (chip : ti2419x_chip) (info : irq_handler_info) (i : Nat)
    (handler_count : Int) (calls : List irq_call) : irq_pass :=
  let (rc, val, chip) := ti2419x_read chip info.stat_reg info.val
  let info := { info with val := val }
  if rc < 0 then { chip := chip, info := info, handler_count := handler_count, calls := calls }
  else
    let st := stat_handler_bits
      { chip := chip, info := info, handler_count := handler_count, calls := calls } i 0 8
    { st with info := { st.info with prev_val := st.info.val } }

/-- The result of `ti2419x_stat_handler`: the device context, the table
`handlers`, the final `handler_count` and the handler calls made. -/
structure irq_result where
  chip : ti2419x_chip
  handlers : List irq_handler_info
  handler_count : Int
  calls : List irq_call

/-- The outer loop of `ti2419x_stat_handler` over the entries from index `i` on. -/
def stat_handler_entries (chip : ti2419x_chip) (i : Nat) (handler_count : Int)
    (calls : List irq_call) : List irq_handler_info → irq_result
  | [] => { chip := chip, handlers := [], handler_count := handler_count, calls := calls }
  | info :: rest =>
    let st := stat_handler_entry chip info i handler_count calls
    let r := stat_handler_entries st.chip (i + 1) st.handler_count st.calls rest
    { r with handlers := st.info :: r.handlers }

/-- Function `ti2419x_stat_handler` on the table `hs`; the rescheduling of the
heartbeat and end-of-charge works when `handler_count` is not 0, and
`disable_irq_nosync`, are left out. -/
def ti2419x_stat_handler (chip : ti2419x_chip) (hs : List irq_handler_info) : irq_result :=
  let chip := { chip with irq_waiting := true }
  if ¬ chip.resume_completed then
    { chip := chip, handlers := hs, handler_count := 0, calls := [] }
  else
    let chip := { chip with irq_waiting := false }
    stat_handler_entries chip 0 0 [] hs

/-- The calls made for bit `j` of entry `i`, in order. -/
def irq_calls_for (calls : List irq_call) (i j : Nat) : List irq_call :=
  calls.filter (fun c => decide (c.i = i) && decide (c.j = j))

/-- Bit `j` differs between the previous and the current byte: bit `j` of their
exclusive or is set. -/
def irq_edge (prev cur j : Nat) : Bool := (prev ^^^ cur).testBit j

/-- The second context has the mode, the resume flag and every register other
than PON_CFG_REG of the first. -/
def status_regs_kept (c c' : ti2419x_chip) : Prop :=
  same_mode c c' ∧ c'.resume_completed = c.resume_completed ∧
  ∀ a, a ≠ PON_CFG_REG → c'.client.regs a = c.client.regs a

/-- The sample device with the status register showing power good and fast
charge (0x24) and the fault register showing a watchdog fault (0x80). -/
def sample_irq_chip : ti2419x_chip := (run_ops sample_driver [.hw_status 0x24 0x80]).chip

/-! # Properties

## The register transport -/

theorem rmw_lt (old mask val : Nat) : rmw old mask val < 256 := by
  unfold rmw
  have h1 : (old % 256) &&& (0xFF ^^^ (mask % 256)) < 2 ^ 8 :=
    Nat.and_lt_two_pow _ (Nat.xor_lt_two_pow (by norm_num) (by omega))
  have h2 : (val % 256) &&& (mask % 256) < 2 ^ 8 := Nat.and_lt_two_pow _ (by omega)
  exact Nat.or_lt_two_pow h1 h2

theorem u8_ofNat (n : Nat) : u8 (n : Int) = n % 256 := by
  unfold u8
  omega


theorem i2c_read_ok (c : i2c_client) (reg : Nat)
    (h : 0 ≤ c.xfer_rc (c.n_reads + c.n_writes)) :
    i2c_smbus_read_byte_data c reg =
      (((c.regs reg % 256 : Nat) : Int), { c with n_reads := c.n_reads + 1 }) := by
  simp [i2c_smbus_read_byte_data, not_lt.mpr h]

theorem i2c_read_fail (c : i2c_client) (reg : Nat)
    (h : c.xfer_rc (c.n_reads + c.n_writes) < 0) :
    i2c_smbus_read_byte_data c reg =
      (c.xfer_rc (c.n_reads + c.n_writes), { c with n_reads := c.n_reads + 1 }) := by
  simp [i2c_smbus_read_byte_data, h]

theorem i2c_write_ok (c : i2c_client) (reg val : Nat)
    (h : 0 ≤ c.xfer_rc (c.n_reads + c.n_writes)) :
    i2c_smbus_write_byte_data c reg val =
      (0, { c with regs := fun a => if a = reg then val % 256 else c.regs a,
                   n_writes := c.n_writes + 1 }) := by
  simp [i2c_smbus_write_byte_data, not_lt.mpr h]

theorem i2c_write_fail (c : i2c_client) (reg val : Nat)
    (h : c.xfer_rc (c.n_reads + c.n_writes) < 0) :
    i2c_smbus_write_byte_data c reg val =
      (c.xfer_rc (c.n_reads + c.n_writes), { c with n_writes := c.n_writes + 1 }) := by
  simp [i2c_smbus_write_byte_data, h]

theorem read_ok (chip : ti2419x_chip) (reg : Nat)
    (h : 0 ≤ chip.client.xfer_rc (chip.client.n_reads + chip.client.n_writes)) :
    __ti2419x_read chip reg =
      (0, some (chip.client.regs reg % 256),
        { chip with client := { chip.client with n_reads := chip.client.n_reads + 1 } }) := by
  have hnn : ¬ (((chip.client.regs reg % 256 : Nat) : Int) < 0) := by omega
  simp only [__ti2419x_read, i2c_read_ok chip.client reg h, hnn, if_false, u8_ofNat,
    Nat.mod_mod]

theorem read_fail (chip : ti2419x_chip) (reg : Nat)
    (h : chip.client.xfer_rc (chip.client.n_reads + chip.client.n_writes) < 0) :
    __ti2419x_read chip reg =
      (chip.client.xfer_rc (chip.client.n_reads + chip.client.n_writes), none,
        { chip with client := { chip.client with n_reads := chip.client.n_reads + 1 } }) := by
  simp only [__ti2419x_read, i2c_read_fail chip.client reg h, h, if_true]

theorem write_ok (chip : ti2419x_chip) (reg val : Nat)
    (h : 0 ≤ chip.client.xfer_rc (chip.client.n_reads + chip.client.n_writes)) :
    __ti2419x_write chip reg val =
      (0, { chip with client := { chip.client with
              regs := fun a => if a = reg then val % 256 else chip.client.regs a,
              n_writes := chip.client.n_writes + 1 } }) := by
  simp only [__ti2419x_write, i2c_write_ok chip.client reg val h, lt_irrefl, if_false]

theorem write_fail (chip : ti2419x_chip) (reg val : Nat)
    (h : chip.client.xfer_rc (chip.client.n_reads + chip.client.n_writes) < 0) :
    __ti2419x_write chip reg val =
      (chip.client.xfer_rc (chip.client.n_reads + chip.client.n_writes),
        { chip with client := { chip.client with n_writes := chip.client.n_writes + 1 } }) := by
  simp only [__ti2419x_write, i2c_write_fail chip.client reg val h, h, if_true]

theorem masked_write_eq (chip : ti2419x_chip) (reg mask val : Nat)
    (hw : chip.skip_writes = 0) (hr : chip.skip_reads = 0)
    (h0 : 0 ≤ chip.client.xfer_rc (chip.client.n_reads + chip.client.n_writes))
    (h1 : 0 ≤ chip.client.xfer_rc (chip.client.n_reads + 1 + chip.client.n_writes)) :
    ti2419x_masked_write chip reg mask val =
      (0, { chip with client := { chip.client with
              regs := fun a => if a = reg then rmw (chip.client.regs reg) mask val
                               else chip.client.regs a,
              n_reads := chip.client.n_reads + 1,
              n_writes := chip.client.n_writes + 1 } }) := by
  have hlt := rmw_lt (chip.client.regs reg) mask val
  have hskip : ¬ (chip.skip_writes ≠ 0 ∨ chip.skip_reads ≠ 0) := by simp [hw, hr]
  simp only [ti2419x_masked_write, hskip, if_false, read_ok chip reg h0, lt_irrefl,
    Option.getD_some]
  rw [write_ok _ _ _ h1]
  simp only [rmw, Nat.mod_eq_of_lt hlt] at hlt ⊢
  simp [Nat.mod_eq_of_lt hlt]

theorem masked_write_skip (chip : ti2419x_chip) (reg mask val : Nat)
    (h : chip.skip_writes ≠ 0 ∨ chip.skip_reads ≠ 0) :
    ti2419x_masked_write chip reg mask val = (0, chip) := by
  simp only [ti2419x_masked_write, h, if_true]

theorem masked_write_read_fail (chip : ti2419x_chip) (reg mask val : Nat)
    (hw : chip.skip_writes = 0) (hr : chip.skip_reads = 0)
    (h0 : chip.client.xfer_rc (chip.client.n_reads + chip.client.n_writes) < 0) :
    ti2419x_masked_write chip reg mask val =
      (chip.client.xfer_rc (chip.client.n_reads + chip.client.n_writes),
        { chip with client := { chip.client with n_reads := chip.client.n_reads + 1 } }) := by
  have hskip : ¬ (chip.skip_writes ≠ 0 ∨ chip.skip_reads ≠ 0) := by simp [hw, hr]
  simp only [ti2419x_masked_write, hskip, if_false, read_fail chip reg h0, h0, if_true]

theorem masked_write_write_fail (chip : ti2419x_chip) (reg mask val : Nat)
    (hw : chip.skip_writes = 0) (hr : chip.skip_reads = 0)
    (h0 : 0 ≤ chip.client.xfer_rc (chip.client.n_reads + chip.client.n_writes))
    (h1 : chip.client.xfer_rc (chip.client.n_reads + 1 + chip.client.n_writes) < 0) :
    ti2419x_masked_write chip reg mask val =
      (chip.client.xfer_rc (chip.client.n_reads + 1 + chip.client.n_writes),
        { chip with client := { chip.client with
              n_reads := chip.client.n_reads + 1,
              n_writes := chip.client.n_writes + 1 } }) := by
  have hskip : ¬ (chip.skip_writes ≠ 0 ∨ chip.skip_reads ≠ 0) := by simp [hw, hr]
  simp only [ti2419x_masked_write, hskip, if_false, read_ok chip reg h0, lt_irrefl]
  rw [write_fail _ _ _ h1]


/-- Every field of the device context other than the client is left alone by a
masked write. -/
theorem masked_write_frame (chip : ti2419x_chip) (reg mask val : Nat) :
    (ti2419x_masked_write chip reg mask val).2 =
      { chip with client := (ti2419x_masked_write chip reg mask val).2.client } := by
  unfold ti2419x_masked_write __ti2419x_read __ti2419x_write
  dsimp only
  split_ifs <;> rfl

/-- The bits selected by the mask are those of the written value. -/
theorem rmw_and_mask (old mask val : Nat) :
    rmw old mask val &&& (mask % 256) = (val % 256) &&& (mask % 256) := by
  apply Nat.eq_of_testBit_eq
  intro i
  have h255 : Nat.testBit 255 i = decide (i < 8) := Nat.testBit_two_pow_sub_one 8 i
  have hold : Nat.testBit (old % 256) i = (decide (i < 8) && Nat.testBit old i) :=
    Nat.testBit_mod_two_pow old 8 i
  simp only [rmw, Nat.testBit_and, Nat.testBit_or, Nat.testBit_xor, h255, hold]
  cases decide (i < 8) <;> cases Nat.testBit old i <;> cases Nat.testBit (mask % 256) i <;>
    cases Nat.testBit (val % 256) i <;> rfl

/-- The bits outside the mask are those of the old byte. -/
theorem rmw_testBit (old mask val i : Nat) (hi : i < 8) :
    (rmw old mask val).testBit i =
      if mask.testBit i then val.testBit i else old.testBit i := by
  have h255 : Nat.testBit 255 i = decide (i < 8) := Nat.testBit_two_pow_sub_one 8 i
  have hm (x : Nat) : Nat.testBit (x % 256) i = (decide (i < 8) && Nat.testBit x i) :=
    Nat.testBit_mod_two_pow x 8 i
  simp only [rmw, Nat.testBit_and, Nat.testBit_or, Nat.testBit_xor, h255, hm, hi, decide_True,
    Bool.true_and]
  cases Nat.testBit old i <;> cases Nat.testBit mask i <;> cases Nat.testBit val i <;> rfl

/-- C5: with the test-mode skip flags off, a masked write whose bus read and bus
write both succeed returns 0 and leaves the addressed register equal to
`(old AND NOT mask) OR (value AND mask)`, so that each of its eight bits is the
bit of the value inside the mask and the old bit outside it, and every other
register keeps its content; when the bus read fails the error code of the
read is returned, no write transaction is issued and the register file is
unchanged. -/
theorem masked_write_read_modify_write (chip : ti2419x_chip) (reg mask val : Nat)
    (hskip : chip.skip_writes = 0 ∧ chip.skip_reads = 0) :
    (0 ≤ chip.client.xfer_rc (chip.client.n_reads + chip.client.n_writes) →
      0 ≤ chip.client.xfer_rc (chip.client.n_reads + 1 + chip.client.n_writes) →
        (ti2419x_masked_write chip reg mask val).1 = 0 ∧
        (ti2419x_masked_write chip reg mask val).2.client.regs reg =
          ((chip.client.regs reg % 256) &&& (0xFF ^^^ (mask % 256))) |||
            ((val % 256) &&& (mask % 256)) ∧
        (∀ i, i < 8 →
          ((ti2419x_masked_write chip reg mask val).2.client.regs reg).testBit i =
            if mask.testBit i then val.testBit i else (chip.client.regs reg).testBit i) ∧
        (∀ a, a ≠ reg →
          (ti2419x_masked_write chip reg mask val).2.client.regs a = chip.client.regs a)) ∧
    (chip.client.xfer_rc (chip.client.n_reads + chip.client.n_writes) < 0 →
        (ti2419x_masked_write chip reg mask val).1 =
          chip.client.xfer_rc (chip.client.n_reads + chip.client.n_writes) ∧
        (ti2419x_masked_write chip reg mask val).2.client.n_writes = chip.client.n_writes ∧
        (ti2419x_masked_write chip reg mask val).2.client.regs = chip.client.regs) := by
  obtain ⟨hw, hr⟩ := hskip
  refine ⟨fun h0 h1 => ?_, fun h0 => ?_⟩
  · rw [masked_write_eq chip reg mask val hw hr h0 h1]
    refine ⟨rfl, ?_, ?_, ?_⟩
    · simp [rmw]
    · intro i hi
      simpa using rmw_testBit (chip.client.regs reg) mask val i hi
    · intro a ha
      simp [ha]
  · rw [masked_write_read_fail chip reg mask val hw hr h0]
    exact ⟨rfl, rfl, rfl⟩

/-- Witness for C5 on a quiet bus: mask 0x30, value 0x10 over an old byte 0xFF. -/
theorem masked_write_read_modify_write_witness :
    (ti2419x_masked_write (zeroed_chip (quiet_client 0xFF)) 1 0x30 0x10).1 = 0 ∧
    (ti2419x_masked_write (zeroed_chip (quiet_client 0xFF)) 1 0x30 0x10).2.client.regs 1 = 0xDF :=
  ⟨((masked_write_read_modify_write (zeroed_chip (quiet_client 0xFF)) 1 0x30 0x10
      ⟨rfl, rfl⟩).1 (by decide) (by decide)).1,
   by decide⟩

/-! ## The charging-disable arbiter -/

theorem u32_lt (x : Int) : u32 x < 2 ^ 32 := by
  unfold u32
  omega

theorem u32_s32 (x : Int) : u32 (s32 x) = u32 x := by
  unfold u32 s32
  split_ifs <;> omega

theorem u32_ofNat (n : Nat) (h : n < 2 ^ 32) : u32 (n : Int) = n := by
  unfold u32
  omega

theorem testBit_u32_high (x : Int) (k : Nat) (hk : 32 ≤ k) : (u32 x).testBit k = false :=
  Nat.testBit_lt_two_pow (lt_of_lt_of_le (u32_lt x) (Nat.pow_le_pow_right (by decide) hk))

theorem testBit_int_or (a b : Int) (k : Nat) :
    (u32 (int_or a b)).testBit k = ((u32 a).testBit k || (u32 b).testBit k) := by
  unfold int_or
  rw [u32_s32, u32_ofNat _ (Nat.or_lt_two_pow (u32_lt a) (u32_lt b)), Nat.testBit_or]

theorem testBit_int_and (a b : Int) (k : Nat) :
    (u32 (int_and a b)).testBit k = ((u32 a).testBit k && (u32 b).testBit k) := by
  unfold int_and
  rw [u32_s32, u32_ofNat _ (Nat.and_lt_two_pow _ (u32_lt b)), Nat.testBit_and]

theorem testBit_int_not (a : Int) (k : Nat) :
    (u32 (int_not a)).testBit k = (decide (k < 32) && !(u32 a).testBit k) := by
  unfold int_not
  have h1 : Nat.testBit 0xFFFFFFFF k = decide (k < 32) := Nat.testBit_two_pow_sub_one 32 k
  rw [u32_s32, u32_ofNat _ (Nat.xor_lt_two_pow (by norm_num) (u32_lt a)), Nat.testBit_xor, h1]
  by_cases hk : k < 32
  · simp [hk]
  · simp [hk, testBit_u32_high a k (by omega)]

theorem testBit_reason (reason : Int)
    (hreason : reason = USER ∨ reason = THERMAL ∨ reason = CURRENT ∨ reason = TEMP) (k : Nat) :
    (u32 reason).testBit k = decide (k = reason_bit reason) := by
  have h (j : Nat) : Nat.testBit (2 ^ j) k = decide (j = k) := Nat.testBit_two_pow
  rcases hreason with h' | h' | h' | h' <;> subst h'
  · simpa [USER, reason_bit, eq_comm, u32] using h 0
  · simpa [THERMAL, USER, reason_bit, eq_comm, u32] using h 1
  · simpa [CURRENT, THERMAL, USER, reason_bit, eq_comm, u32] using h 2
  · simpa [TEMP, CURRENT, THERMAL, USER, reason_bit, eq_comm, u32] using h 3

theorem reason_bit_lt (reason : Int) : reason_bit reason < 32 := by
  unfold reason_bit
  split_ifs <;> decide

theorem arbiter_mask_testBit (old reason disable : Int)
    (hreason : reason = USER ∨ reason = THERMAL ∨ reason = CURRENT ∨ reason = TEMP) (k : Nat) :
    (u32 (arbiter_mask old reason disable)).testBit k =
      if k = reason_bit reason then decide (disable = 1) else (u32 old).testBit k := by
  unfold arbiter_mask
  by_cases hd : disable = 1
  · simp only [hd, if_true, testBit_int_or, testBit_reason reason hreason k]
    by_cases hk : k = reason_bit reason <;> simp [hk]
  · simp only [hd, if_false, testBit_int_and, testBit_int_not, testBit_reason reason hreason k]
    by_cases hk : k = reason_bit reason
    · simp [hk]
    · by_cases hk32 : k < 32
      · simp [hk, hk32]
      · simp [hk, hk32, testBit_u32_high old k (by omega)]

theorem rmw_field (old mask val shift : Nat) (hmask : mask < 256) :
    ((rmw old mask val % 256) &&& mask) >>> shift = ((val % 256) &&& mask) >>> shift := by
  have h := rmw_and_mask old mask val
  rw [Nat.mod_eq_of_lt hmask] at h
  rw [Nat.mod_eq_of_lt (rmw_lt old mask val), h]

/-- The arbiter on a transport that performs its read and its write. -/
theorem charging_disable_eq (chip : ti2419x_chip) (reason disable : Int)
    (hw : chip.skip_writes = 0) (hr : chip.skip_reads = 0)
    (h0 : 0 ≤ chip.client.xfer_rc (chip.client.n_reads + chip.client.n_writes))
    (h1 : 0 ≤ chip.client.xfer_rc (chip.client.n_reads + 1 + chip.client.n_writes)) :
    ti2419x_charging_disable chip reason disable =
      (0, { chip with
            client := { chip.client with
              regs := fun a =>
                if a = PON_CFG_REG then
                  rmw (chip.client.regs PON_CFG_REG) CHG_CFG_MASK
                    (if arbiter_mask chip.charging_disabled_status reason disable ≠ 0 then 0
                     else 1 <<< CHG_CFG_SHIFT)
                else chip.client.regs a,
              n_reads := chip.client.n_reads + 1,
              n_writes := chip.client.n_writes + 1 },
            charging_disabled_status :=
              arbiter_mask chip.charging_disabled_status reason disable }) := by
  unfold ti2419x_charging_disable __ti2419x_charging_disable
  by_cases hm : arbiter_mask chip.charging_disabled_status reason disable = 0
  · have hm' := hm
    unfold arbiter_mask at hm'
    simp [hm, hm', masked_write_eq chip _ _ _ hw hr h0 h1]
  · have hm' := hm
    unfold arbiter_mask at hm'
    simp [hm, hm', masked_write_eq chip _ _ _ hw hr h0 h1]
    rfl

/-- The bitmask stored by the arbiter: the old one when it returns an error,
the recomputed one when it returns 0. -/
theorem charging_disable_status (chip : ti2419x_chip) (reason disable : Int) :
    (ti2419x_charging_disable chip reason disable).2.charging_disabled_status =
      if (ti2419x_charging_disable chip reason disable).1 ≠ 0 then chip.charging_disabled_status
      else arbiter_mask chip.charging_disabled_status reason disable := by
  unfold ti2419x_charging_disable __ti2419x_charging_disable arbiter_mask
  dsimp only
  split_ifs <;> first | (with_reducible rfl) | (rw [masked_write_frame])

/-- C1: for every old bitmask, every reason among USER, THERMAL, CURRENT and
TEMP and every disable flag (1 disables, 0 or any other value enables), a call of `ti2419x_charging_disable` whose
register transport succeeds (skip flags off, the bus read and the bus write
both succeed) returns 0, stores the old bitmask with the bit of the reason set
when disabling and cleared when enabling (every other bit of the 32-bit
pattern as before), and
leaves the CHG_CFG field of PON_CFG_REG equal to the enabled encoding 1 exactly
when the stored bitmask is zero. -/
theorem charging_disable_updates_reason_and_enable (chip : ti2419x_chip) (reason disable : Int)
    (hreason : reason = USER ∨ reason = THERMAL ∨ reason = CURRENT ∨ reason = TEMP)
    (hskip : chip.skip_writes = 0 ∧ chip.skip_reads = 0)
    (hread : 0 ≤ chip.client.xfer_rc (chip.client.n_reads + chip.client.n_writes))
    (hwrite : 0 ≤ chip.client.xfer_rc (chip.client.n_reads + 1 + chip.client.n_writes)) :
    (ti2419x_charging_disable chip reason disable).1 = 0 ∧
    (ti2419x_charging_disable chip reason disable).2.charging_disabled_status =
      (if disable = 1 then int_or chip.charging_disabled_status reason
       else int_and chip.charging_disabled_status (int_not reason)) ∧
    (∀ k : Nat,
      (u32 (ti2419x_charging_disable chip reason disable).2.charging_disabled_status).testBit k =
        if k = reason_bit reason then decide (disable = 1)
        else (u32 chip.charging_disabled_status).testBit k) ∧
    (chg_cfg_field (ti2419x_charging_disable chip reason disable).2 = 1 ↔
      (ti2419x_charging_disable chip reason disable).2.charging_disabled_status = 0) := by
  rw [charging_disable_eq chip reason disable hskip.1 hskip.2 hread hwrite]
  refine ⟨rfl, rfl, fun k => arbiter_mask_testBit _ reason disable hreason k, ?_⟩
  have hmask : CHG_CFG_MASK < 256 := by decide
  simp only [chg_cfg_field, if_true, rmw_field _ _ _ _ hmask]
  by_cases hm : arbiter_mask chip.charging_disabled_status reason disable = 0
  · simp only [hm, ne_eq, not_true_eq_false, if_false, iff_true]
    decide
  · simp only [hm, ne_eq, not_false_eq_true, if_true, iff_false]
    decide

/-- Witness for C1: asserting USER on a zeroed device over a quiet bus. -/
theorem charging_disable_updates_reason_and_enable_witness :
    (ti2419x_charging_disable (zeroed_chip (quiet_client 0x10)) USER 1).1 = 0 ∧
    (ti2419x_charging_disable (zeroed_chip (quiet_client 0x10)) USER 1).2.charging_disabled_status
      = 1 ∧
    chg_cfg_field (ti2419x_charging_disable (zeroed_chip (quiet_client 0x10)) USER 1).2 = 0 :=
  have h := charging_disable_updates_reason_and_enable (zeroed_chip (quiet_client 0x10)) USER 1
    (Or.inl rfl) ⟨rfl, rfl⟩ (by decide) (by decide)
  ⟨h.1, by decide, by decide⟩

/-- Counterexample to C3 as stated: on a bus whose write transaction fails with
-5, asserting USER over the bitmask 0 returns -5 and leaves the stored bitmask
at 0, not at the requested `0 | USER = 1`. -/
theorem charging_disable_write_failure_counterexample :
    (ti2419x_charging_disable (zeroed_chip write_failing_client) USER 1).1 = -5 ∧
    (ti2419x_charging_disable (zeroed_chip write_failing_client) USER 1).2.client.n_writes = 1 ∧
    (ti2419x_charging_disable (zeroed_chip write_failing_client) USER 1).2.charging_disabled_status
      = 0 ∧
    (ti2419x_charging_disable (zeroed_chip write_failing_client) USER 1).2.charging_disabled_status
      ≠ int_or (zeroed_chip write_failing_client).charging_disabled_status USER := by
  decide

/-- C3 (amended): the bitmask is stored only when the hardware write succeeded.
Whenever `ti2419x_charging_disable` returns a non-zero result the in-memory
bitmask is the one from before the call; in particular, with the skip flags
off, a failed bus read or a failed bus write makes the call return that error
code and keeps the old bitmask, for every prior bitmask, reason and flag. -/
theorem charging_disable_failure_keeps_bitmask (chip : ti2419x_chip) (reason disable : Int) :
    ((ti2419x_charging_disable chip reason disable).1 ≠ 0 →
      (ti2419x_charging_disable chip reason disable).2.charging_disabled_status =
        chip.charging_disabled_status) ∧
    (chip.skip_writes = 0 ∧ chip.skip_reads = 0 →
      chip.client.xfer_rc (chip.client.n_reads + chip.client.n_writes) < 0 →
        (ti2419x_charging_disable chip reason disable).1 =
            chip.client.xfer_rc (chip.client.n_reads + chip.client.n_writes) ∧
          (ti2419x_charging_disable chip reason disable).2.charging_disabled_status =
            chip.charging_disabled_status) ∧
    (chip.skip_writes = 0 ∧ chip.skip_reads = 0 →
      0 ≤ chip.client.xfer_rc (chip.client.n_reads + chip.client.n_writes) →
      chip.client.xfer_rc (chip.client.n_reads + 1 + chip.client.n_writes) < 0 →
        (ti2419x_charging_disable chip reason disable).1 =
            chip.client.xfer_rc (chip.client.n_reads + 1 + chip.client.n_writes) ∧
          (ti2419x_charging_disable chip reason disable).2.charging_disabled_status =
            chip.charging_disabled_status) := by
  have hgen : (ti2419x_charging_disable chip reason disable).1 ≠ 0 →
      (ti2419x_charging_disable chip reason disable).2.charging_disabled_status =
        chip.charging_disabled_status := by
    intro h
    rw [charging_disable_status, if_pos h]
  have hrc (e : Int) (he : e < 0) (c' : ti2419x_chip)
      (hmw : ∀ v, ti2419x_masked_write chip PON_CFG_REG CHG_CFG_MASK v = (e, c')) :
      (ti2419x_charging_disable chip reason disable).1 = e := by
    have hne : e ≠ 0 := by omega
    unfold ti2419x_charging_disable __ti2419x_charging_disable
    simp only [hmw, hne, ne_eq, not_false_eq_true, if_true, ite_self]
  refine ⟨hgen, ?_, ?_⟩
  · intro hskip h0
    have h := hrc _ h0 _ (fun v => masked_write_read_fail chip _ _ v hskip.1 hskip.2 h0)
    exact ⟨h, hgen (by rw [h]; omega)⟩
  · intro hskip h0 h1
    have h := hrc _ h1 _ (fun v => masked_write_write_fail chip _ _ v hskip.1 hskip.2 h0 h1)
    exact ⟨h, hgen (by rw [h]; omega)⟩

/-- Witness for C3 (amended): the failing write of the counterexample. -/
theorem charging_disable_failure_keeps_bitmask_witness :
    (ti2419x_charging_disable (zeroed_chip write_failing_client) THERMAL 1).1 = -5 ∧
    (ti2419x_charging_disable (zeroed_chip write_failing_client) THERMAL 1).2.charging_disabled_status
      = 0 :=
  (charging_disable_failure_keeps_bitmask (zeroed_chip write_failing_client) THERMAL 1).2.2
    ⟨rfl, rfl⟩ (by decide) (by decide)

/-! ## Bounded setters -/

/-- C6: a float voltage outside [3504, 4400] mV, a recharge threshold outside
[50, 300] mV and an input-voltage limit outside [3880, 5080] mV are each
rejected by their setter with `-EINVAL`, and the device context that comes
back is the one that went in: no bus transaction has been issued (the read
and write counts are unchanged) and the register file is unchanged. -/
theorem out_of_range_setters_reject_without_transport (chip : ti2419x_chip)
    (vfloat_mv resume_mv mv : Int) :
    (vfloat_mv < 3504 ∨ vfloat_mv > 4400 →
      ti2419x_float_voltage_set chip vfloat_mv = (-EINVAL, chip) ∧
      (ti2419x_float_voltage_set chip vfloat_mv).2.client.n_reads = chip.client.n_reads ∧
      (ti2419x_float_voltage_set chip vfloat_mv).2.client.n_writes = chip.client.n_writes ∧
      (ti2419x_float_voltage_set chip vfloat_mv).2.client.regs = chip.client.regs) ∧
    (resume_mv < 50 ∨ resume_mv > 300 →
      ti2419x_recharge_threshold_set chip resume_mv = (-EINVAL, chip) ∧
      (ti2419x_recharge_threshold_set chip resume_mv).2.client.n_reads = chip.client.n_reads ∧
      (ti2419x_recharge_threshold_set chip resume_mv).2.client.n_writes = chip.client.n_writes ∧
      (ti2419x_recharge_threshold_set chip resume_mv).2.client.regs = chip.client.regs) ∧
    (mv < 3880 ∨ mv > 5080 →
      set_input_voltage chip mv = (-EINVAL, chip) ∧
      (set_input_voltage chip mv).2.client.n_reads = chip.client.n_reads ∧
      (set_input_voltage chip mv).2.client.n_writes = chip.client.n_writes ∧
      (set_input_voltage chip mv).2.client.regs = chip.client.regs) := by
  refine ⟨fun h => ?_, fun h => ?_, fun h => ?_⟩
  · have e : ti2419x_float_voltage_set chip vfloat_mv = (-EINVAL, chip) := by
      simp only [ti2419x_float_voltage_set, MIN_FLOAT_MV, MAX_FLOAT_MV, h, if_true]
    rw [e]; exact ⟨rfl, rfl, rfl, rfl⟩
  · have e : ti2419x_recharge_threshold_set chip resume_mv = (-EINVAL, chip) := by
      simp only [ti2419x_recharge_threshold_set, MIN_RECHG_MV, MAX_RECHG_MV, h, if_true]
    rw [e]; exact ⟨rfl, rfl, rfl, rfl⟩
  · have e : set_input_voltage chip mv = (-EINVAL, chip) := by
      simp only [set_input_voltage, MIN_INPUT_VOLTAGE_MV, MAX_INPUT_VOLTAGE_MV, h, if_true]
    rw [e]; exact ⟨rfl, rfl, rfl, rfl⟩

/-- Witness for C6: 4416 mV, 301 mV and 3879 mV are rejected. -/
theorem out_of_range_setters_reject_without_transport_witness :
    (ti2419x_float_voltage_set (zeroed_chip (quiet_client 0)) 4416).1 = -22 ∧
    (ti2419x_recharge_threshold_set (zeroed_chip (quiet_client 0)) 301).2.client.n_writes = 0 ∧
    (set_input_voltage (zeroed_chip (quiet_client 0)) 3879).2.client.n_reads = 0 :=
  have h := out_of_range_setters_reject_without_transport (zeroed_chip (quiet_client 0))
    4416 301 3879
  ⟨by rw [(h.1 (Or.inr (by decide))).1]; rfl,
   (h.2.1 (Or.inr (by decide))).2.2.1,
   (h.2.2 (Or.inl (by decide))).2.1⟩

theorem ti2419x_read_ok (chip : ti2419x_chip) (reg val0 : Nat) (hr : chip.skip_reads = 0)
    (h0 : 0 ≤ chip.client.xfer_rc (chip.client.n_reads + chip.client.n_writes)) :
    ti2419x_read chip reg val0 =
      (0, chip.client.regs reg % 256,
        { chip with client := { chip.client with n_reads := chip.client.n_reads + 1 } }) := by
  simp only [ti2419x_read, hr, ne_eq, not_true_eq_false, if_false, read_ok chip reg h0,
    Option.getD_some]

/-- The quotient computed by a linear setter, as a byte. -/
theorem u8_tdiv (x step : Int) (hx : 0 ≤ x) (hstep : 0 < step) (hlt : x < 256 * step) :
    u8 (Int.tdiv x step) = (x / step).toNat := by
  rw [Int.tdiv_eq_ediv hx (le_of_lt hstep)]
  have h0 : 0 ≤ x / step := Int.ediv_nonneg hx (le_of_lt hstep)
  have h1 : x / step < 256 := Int.ediv_lt_of_lt_mul hstep hlt
  unfold u8
  rw [Int.emod_eq_of_lt h0 h1]

theorem field_6bit_at_2 : ∀ t, t < 64 → (((t <<< 2) % 256) &&& TIC_MASK 7 2) >>> 2 = t := by
  decide

theorem field_4bit_at_3 : ∀ t, t < 16 → (((t <<< 3) % 256) &&& TIC_MASK 6 3) >>> 3 = t := by
  decide

theorem field_4bit_at_0 : ∀ t, t < 16 → (((t <<< 0) % 256) &&& TIC_MASK 3 0) >>> 0 = t := by
  decide

theorem field_3bit_at_0 : ∀ t, t < 8 → ((t % 256) &&& TIC_MASK 2 0) >>> 0 = t := by
  decide

/-- The getter on a register whose VCHG field holds `t <= 56`. -/
theorem float_voltage_get_ok (c : ti2419x_chip) (t : Nat) (hr : c.skip_reads = 0)
    (h0 : 0 ≤ c.client.xfer_rc (c.client.n_reads + c.client.n_writes))
    (hfield : ((c.client.regs VCHG_CTRL_REG % 256) &&& VCHG_MASK) >>> VCHG_SHIFT = t)
    (ht : t ≤ 56) :
    (ti2419x_float_voltage_get c).1 = 0 ∧
    (ti2419x_float_voltage_get c).2.1 = some ((t : Int) * 16 + 3504) := by
  have hvol : ¬ ((t : Int) * VFLOAT_STEP_MV + MIN_FLOAT_MV < MIN_FLOAT_MV ∨
      (t : Int) * VFLOAT_STEP_MV + MIN_FLOAT_MV > MAX_FLOAT_MV) := by
    simp only [MIN_FLOAT_MV, MAX_FLOAT_MV, VFLOAT_STEP_MV]; omega
  unfold ti2419x_float_voltage_get
  rw [ti2419x_read_ok c _ _ hr h0]
  simp only [ne_eq, not_true_eq_false, if_false, hfield, hvol]
  simp [VFLOAT_STEP_MV, MIN_FLOAT_MV]

/-- C8: for every float voltage `v` in [3504, 4400] mV and every prior content
of VCHG_CTRL_REG, on a succeeding transport (skip flags off, no bus transaction
fails) `ti2419x_float_voltage_set v` returns 0 and a following
`ti2419x_float_voltage_get` returns 0 with the value
`v' = 3504 + 16 * ((v - 3504) / 16)`, which satisfies `v' <= v < v' + 16` and
equals `v` whenever `v - 3504` is a multiple of 16. -/
theorem float_voltage_set_get_roundtrip (chip : ti2419x_chip) (v : Int)
    (hv : 3504 ≤ v ∧ v ≤ 4400)
    (hskip : chip.skip_writes = 0 ∧ chip.skip_reads = 0)
    (hbus : ∀ k, 0 ≤ chip.client.xfer_rc k) :
    (ti2419x_float_voltage_set chip v).1 = 0 ∧
    (ti2419x_float_voltage_get (ti2419x_float_voltage_set chip v).2).1 = 0 ∧
    ∃ v' : Int,
      (ti2419x_float_voltage_get (ti2419x_float_voltage_set chip v).2).2.1 = some v' ∧
      v' = 3504 + 16 * ((v - 3504) / 16) ∧
      v' ≤ v ∧ v < v' + 16 ∧
      ((v - 3504) % 16 = 0 → v' = v) := by
  obtain ⟨hw, hr⟩ := hskip
  have hrange : ¬ (v < MIN_FLOAT_MV ∨ v > MAX_FLOAT_MV) := by
    simp only [MIN_FLOAT_MV, MAX_FLOAT_MV]; omega
  obtain ⟨t, ht⟩ : ∃ t : Nat, (t : Int) = (v - 3504) / 16 :=
    ⟨((v - 3504) / 16).toNat, by omega⟩
  have ht56 : t ≤ 56 := by omega
  have hq : u8 (Int.tdiv (v - MIN_FLOAT_MV) VFLOAT_STEP_MV) = t := by
    simp only [MIN_FLOAT_MV, VFLOAT_STEP_MV]
    rw [u8_tdiv _ _ (by omega) (by decide) (by omega), ← ht, Int.toNat_ofNat]
  have hset : ti2419x_float_voltage_set chip v =
      (0, { chip with client := { chip.client with
              regs := fun a => if a = VCHG_CTRL_REG then
                                 rmw (chip.client.regs VCHG_CTRL_REG) VCHG_MASK (t <<< VCHG_SHIFT)
                               else chip.client.regs a,
              n_reads := chip.client.n_reads + 1,
              n_writes := chip.client.n_writes + 1 } }) := by
    simp only [ti2419x_float_voltage_set, hrange, if_false, hq]
    exact masked_write_eq chip _ _ _ hw hr (hbus _) (hbus _)
  have hmask : VCHG_MASK < 256 := by decide
  have hfield : (((ti2419x_float_voltage_set chip v).2.client.regs VCHG_CTRL_REG % 256) &&&
      VCHG_MASK) >>> VCHG_SHIFT = t := by
    rw [hset]
    simp only [if_true]
    rw [rmw_field _ _ _ _ hmask]
    exact field_6bit_at_2 t (by omega)
  have hget := float_voltage_get_ok (ti2419x_float_voltage_set chip v).2 t
    (by rw [hset]; exact hr) (by rw [hset]; exact hbus _) hfield ht56
  refine ⟨by rw [hset], hget.1, _, hget.2, ?_, ?_, ?_, ?_⟩ <;> omega

/-- Witness for C8: 4350 mV over a register holding 0xFF reads back as 4336 mV. -/
theorem float_voltage_set_get_roundtrip_witness :
    (ti2419x_float_voltage_set (zeroed_chip (quiet_client 0xFF)) 4350).1 = 0 ∧
    (ti2419x_float_voltage_get
      (ti2419x_float_voltage_set (zeroed_chip (quiet_client 0xFF)) 4350).2).2.1 = some 4336 :=
  ⟨(float_voltage_set_get_roundtrip (zeroed_chip (quiet_client 0xFF)) 4350 (by decide)
      ⟨rfl, rfl⟩ (fun _ => le_refl _)).1,
   by decide⟩

/-- The four ways a masked write can end: skipped in test mode, failed read,
failed write, or performed. -/
theorem masked_write_cases (chip : ti2419x_chip) (reg mask val : Nat) :
    ti2419x_masked_write chip reg mask val = (0, chip) ∨
    (∃ e : Int, e < 0 ∧ ti2419x_masked_write chip reg mask val =
      (e, { chip with client := { chip.client with n_reads := chip.client.n_reads + 1 } })) ∨
    (∃ e : Int, e < 0 ∧ ti2419x_masked_write chip reg mask val =
      (e, { chip with client := { chip.client with
              n_reads := chip.client.n_reads + 1,
              n_writes := chip.client.n_writes + 1 } })) ∨
    ti2419x_masked_write chip reg mask val =
      (0, { chip with client := { chip.client with
              regs := fun a => if a = reg then rmw (chip.client.regs reg) mask val
                               else chip.client.regs a,
              n_reads := chip.client.n_reads + 1,
              n_writes := chip.client.n_writes + 1 } }) := by
  by_cases hs : chip.skip_writes ≠ 0 ∨ chip.skip_reads ≠ 0
  · exact Or.inl (masked_write_skip chip reg mask val hs)
  · have hw : chip.skip_writes = 0 := by
      by_contra h; exact hs (Or.inl h)
    have hr : chip.skip_reads = 0 := by
      by_contra h; exact hs (Or.inr h)
    by_cases h0 : chip.client.xfer_rc (chip.client.n_reads + chip.client.n_writes) < 0
    · exact Or.inr (Or.inl ⟨_, h0, masked_write_read_fail chip reg mask val hw hr h0⟩)
    · by_cases h1 : chip.client.xfer_rc (chip.client.n_reads + 1 + chip.client.n_writes) < 0
      · exact Or.inr (Or.inr (Or.inl
          ⟨_, h1, masked_write_write_fail chip reg mask val hw hr (not_lt.mp h0) h1⟩))
      · exact Or.inr (Or.inr (Or.inr
          (masked_write_eq chip reg mask val hw hr (not_lt.mp h0) (not_lt.mp h1))))

/-- A masked write never touches a register other than the addressed one. -/
theorem masked_write_regs_other (chip : ti2419x_chip) (reg mask val a : Nat) (ha : a ≠ reg) :
    (ti2419x_masked_write chip reg mask val).2.client.regs a = chip.client.regs a := by
  rcases masked_write_cases chip reg mask val with h | ⟨e, _, h⟩ | ⟨e, _, h⟩ | h <;> rw [h]
  simp [ha]

/-- The field selected by the mask after a masked write that reached the bus. -/
theorem masked_write_field (chip : ti2419x_chip) (reg mask val shift : Nat)
    (hw : chip.skip_writes = 0) (hr : chip.skip_reads = 0)
    (h0 : 0 ≤ chip.client.xfer_rc (chip.client.n_reads + chip.client.n_writes))
    (h1 : 0 ≤ chip.client.xfer_rc (chip.client.n_reads + 1 + chip.client.n_writes))
    (hmask : mask < 256) :
    reg_field (ti2419x_masked_write chip reg mask val).2 reg mask shift =
      ((val % 256) &&& mask) >>> shift := by
  rw [masked_write_eq chip reg mask val hw hr h0 h1]
  simp only [reg_field, if_true]
  exact rmw_field _ _ _ _ hmask

/-- Counterexample to C7 as stated: requests of 100 mA and of 4000 mA, both
outside [512, 3008], make `set_ibat` return 0 and issue one bus write, which
programs the IFAST_CHG field with 0 (512 mA) and with 39 (3008 mA). -/
theorem set_ibat_out_of_range_counterexample :
    (set_ibat (zeroed_chip (quiet_client 0xFF)) 100).1 = 0 ∧
    (set_ibat (zeroed_chip (quiet_client 0xFF)) 100).2.client.n_writes = 1 ∧
    (set_ibat (zeroed_chip (quiet_client 0xFF)) 100).2.client.regs CHG_I_CTRL_REG = 0x03 ∧
    (set_ibat (zeroed_chip (quiet_client 0)) 4000).1 = 0 ∧
    (set_ibat (zeroed_chip (quiet_client 0)) 4000).2.client.n_writes = 1 ∧
    (set_ibat (zeroed_chip (quiet_client 0)) 4000).2.client.regs CHG_I_CTRL_REG = 39 * 4 := by
  decide

/-- C7 (amended): a fast-charge current request outside [512, 3008] mA is not
rejected but clamped to the nearer bound: `set_ibat` behaves exactly as for
512 mA (request below) or 3008 mA (request above); on a succeeding transport
it returns 0, issues one bus write and programs the IFAST_CHG field with 0
(512 mA) or 39 (3008 mA). -/
theorem set_ibat_clamps_out_of_range (chip : ti2419x_chip) (ma : Int)
    (hout : ma < 512 ∨ ma > 3008) :
    set_ibat chip ma = set_ibat chip (if ma < 512 then 512 else 3008) ∧
    (chip.skip_writes = 0 ∧ chip.skip_reads = 0 →
      (∀ k, 0 ≤ chip.client.xfer_rc k) →
        (set_ibat chip ma).1 = 0 ∧
        (set_ibat chip ma).2.client.n_writes = chip.client.n_writes + 1 ∧
        reg_field (set_ibat chip ma).2 CHG_I_CTRL_REG IFAST_CHG_MASK IFAST_CHG_SHIFT =
          if ma < 512 then 0 else 39) := by
  refine ⟨?_, fun hskip hbus => ?_⟩
  · unfold set_ibat
    simp only [MIN_IBAT_MA, MAX_IBAT_MA]
    by_cases h : ma < 512
    · simp [h]
    · have h' : ma > 3008 := by omega
      simp [h, h']
  · have hmw (val : Nat) := masked_write_eq chip CHG_I_CTRL_REG IFAST_CHG_MASK val
      hskip.1 hskip.2 (hbus _) (hbus _)
    have hf (val : Nat) := masked_write_field chip CHG_I_CTRL_REG IFAST_CHG_MASK val
      IFAST_CHG_SHIFT hskip.1 hskip.2 (hbus _) (hbus _) (by decide)
    unfold set_ibat
    simp only [MIN_IBAT_MA, MAX_IBAT_MA, MAX_IBAT_STEP]
    by_cases h : ma < 512
    · simp only [h, if_true]
      refine ⟨by simp [hmw], by simp [hmw], ?_⟩
      have := hf (u8 (Int.tdiv (512 - 512) 64) <<< IFAST_CHG_SHIFT)
      simp only [lt_irrefl, if_false] at this ⊢
      rw [hmw] at this ⊢
      simp only [lt_irrefl, if_false]
      rw [this]; decide
    · have h' : ma > 3008 := by omega
      simp only [h, h', if_true, if_false]
      refine ⟨by simp [hmw], by simp [hmw], ?_⟩
      have := hf (u8 (Int.tdiv (3008 - 512) 64) <<< IFAST_CHG_SHIFT)
      rw [hmw] at this ⊢
      simp only [lt_irrefl, if_false]
      rw [this]; decide

/-- Witness for C7 (amended): 100 mA is programmed as 512 mA. -/
theorem set_ibat_clamps_out_of_range_witness :
    set_ibat (zeroed_chip (quiet_client 0xFF)) 100 =
      set_ibat (zeroed_chip (quiet_client 0xFF)) (if (100 : Int) < 512 then 512 else 3008) :=
  (set_ibat_clamps_out_of_range (zeroed_chip (quiet_client 0xFF)) 100 (Or.inl (by decide))).1

/-- C9: on a succeeding transport and for every in-range request, the
termination-current setter (128..1024 mA, step 128), the fast-charge-current
setter (512..3008 mA, step 64) and the input-voltage-limit setter
(3880..5080 mV, step 80) leave `(value - min) / step` in the ITERM, IFAST_CHG
and VINLIMIT field; that quotient fits the 4, 6 and 4 bits of the field, and
the programmed value `min + step * field` satisfies
`programmed <= value < programmed + step`. -/
theorem linear_setters_quantize_down (chip : ti2419x_chip) (iterm_ma ibat_ma vin_mv : Int)
    (hskip : chip.skip_writes = 0 ∧ chip.skip_reads = 0)
    (hbus : ∀ k, 0 ≤ chip.client.xfer_rc k) :
    (128 ≤ iterm_ma ∧ iterm_ma ≤ 1024 →
      (reg_field (set_iterm chip iterm_ma) IPRECHG_ITERM_CTRL_REG ITERM_MASK ITERM_SHIFT : Int)
        = (iterm_ma - 128) / 128 ∧
      reg_field (set_iterm chip iterm_ma) IPRECHG_ITERM_CTRL_REG ITERM_MASK ITERM_SHIFT
        < 2 ^ 4 ∧
      128 + 128 *
          (reg_field (set_iterm chip iterm_ma) IPRECHG_ITERM_CTRL_REG ITERM_MASK ITERM_SHIFT : Int)
        ≤ iterm_ma ∧
      iterm_ma < 128 + 128 *
          (reg_field (set_iterm chip iterm_ma) IPRECHG_ITERM_CTRL_REG ITERM_MASK ITERM_SHIFT : Int)
        + 128) ∧
    (512 ≤ ibat_ma ∧ ibat_ma ≤ 3008 →
      (set_ibat chip ibat_ma).1 = 0 ∧
      (reg_field (set_ibat chip ibat_ma).2 CHG_I_CTRL_REG IFAST_CHG_MASK IFAST_CHG_SHIFT : Int)
        = (ibat_ma - 512) / 64 ∧
      reg_field (set_ibat chip ibat_ma).2 CHG_I_CTRL_REG IFAST_CHG_MASK IFAST_CHG_SHIFT
        < 2 ^ 6 ∧
      512 + 64 *
          (reg_field (set_ibat chip ibat_ma).2 CHG_I_CTRL_REG IFAST_CHG_MASK IFAST_CHG_SHIFT : Int)
        ≤ ibat_ma ∧
      ibat_ma < 512 + 64 *
          (reg_field (set_ibat chip ibat_ma).2 CHG_I_CTRL_REG IFAST_CHG_MASK IFAST_CHG_SHIFT : Int)
        + 64) ∧
    (3880 ≤ vin_mv ∧ vin_mv ≤ 5080 →
      (set_input_voltage chip vin_mv).1 = 0 ∧
      (reg_field (set_input_voltage chip vin_mv).2 INPUT_SOURCE_CTRL_REG VINLIMIT_MASK
          VINLIMIT_SHIFT : Int) = (vin_mv - 3880) / 80 ∧
      reg_field (set_input_voltage chip vin_mv).2 INPUT_SOURCE_CTRL_REG VINLIMIT_MASK
          VINLIMIT_SHIFT < 2 ^ 4 ∧
      3880 + 80 *
          (reg_field (set_input_voltage chip vin_mv).2 INPUT_SOURCE_CTRL_REG VINLIMIT_MASK
            VINLIMIT_SHIFT : Int) ≤ vin_mv ∧
      vin_mv < 3880 + 80 *
          (reg_field (set_input_voltage chip vin_mv).2 INPUT_SOURCE_CTRL_REG VINLIMIT_MASK
            VINLIMIT_SHIFT : Int) + 80) := by
  obtain ⟨hw, hr⟩ := hskip
  refine ⟨fun hv => ?_, fun hv => ?_, fun hv => ?_⟩
  · obtain ⟨t, ht⟩ : ∃ t : Nat, (t : Int) = (iterm_ma - 128) / 128 :=
      ⟨((iterm_ma - 128) / 128).toNat, by omega⟩
    have hq : u8 (Int.tdiv (iterm_ma - MIN_ITERM_MA) MIN_ITERM_MA) = t := by
      simp only [MIN_ITERM_MA]
      rw [u8_tdiv _ _ (by omega) (by decide) (by omega), ← ht, Int.toNat_ofNat]
    have hrange : ¬ (iterm_ma < MIN_ITERM_MA ∨ iterm_ma > MAX_ITERM_MA) := by
      simp only [MIN_ITERM_MA, MAX_ITERM_MA]; omega
    have hf : reg_field (set_iterm chip iterm_ma) IPRECHG_ITERM_CTRL_REG ITERM_MASK ITERM_SHIFT
        = t := by
      have h1 := masked_write_eq chip IPRECHG_ITERM_CTRL_REG ITERM_MASK (t <<< ITERM_SHIFT)
        hw hr (hbus _) (hbus _)
      have hf1 := masked_write_field chip IPRECHG_ITERM_CTRL_REG ITERM_MASK (t <<< ITERM_SHIFT)
        ITERM_SHIFT hw hr (hbus _) (hbus _) (by decide)
      unfold set_iterm
      simp only [hrange, if_false, hq]
      have hrc : ¬ (ti2419x_masked_write chip IPRECHG_ITERM_CTRL_REG ITERM_MASK
          (t <<< ITERM_SHIFT)).1 < 0 := by
        have : (ti2419x_masked_write chip IPRECHG_ITERM_CTRL_REG ITERM_MASK
          (t <<< ITERM_SHIFT)).1 = 0 := by rw [h1]
        omega
      simp only [hrc, if_false]
      unfold reg_field at hf1 ⊢
      rw [masked_write_regs_other _ _ _ _ _ (by decide), hf1]
      exact field_4bit_at_0 t (by omega)
    rw [hf]
    refine ⟨ht, ?_, ?_, ?_⟩ <;> omega
  · obtain ⟨t, ht⟩ : ∃ t : Nat, (t : Int) = (ibat_ma - 512) / 64 :=
      ⟨((ibat_ma - 512) / 64).toNat, by omega⟩
    have hq : u8 (Int.tdiv (ibat_ma - MIN_IBAT_MA) MAX_IBAT_STEP) = t := by
      simp only [MIN_IBAT_MA, MAX_IBAT_STEP]
      rw [u8_tdiv _ _ (by omega) (by decide) (by omega), ← ht, Int.toNat_ofNat]
    have h1 := masked_write_eq chip CHG_I_CTRL_REG IFAST_CHG_MASK (t <<< IFAST_CHG_SHIFT)
      hw hr (hbus _) (hbus _)
    have hf1 := masked_write_field chip CHG_I_CTRL_REG IFAST_CHG_MASK (t <<< IFAST_CHG_SHIFT)
      IFAST_CHG_SHIFT hw hr (hbus _) (hbus _) (by decide)
    have hrc : ¬ (ti2419x_masked_write chip CHG_I_CTRL_REG IFAST_CHG_MASK
        (t <<< IFAST_CHG_SHIFT)).1 < 0 := by
      have : (ti2419x_masked_write chip CHG_I_CTRL_REG IFAST_CHG_MASK
        (t <<< IFAST_CHG_SHIFT)).1 = 0 := by rw [h1]
      omega
    have hset : set_ibat chip ibat_ma =
        (0, (ti2419x_masked_write chip CHG_I_CTRL_REG IFAST_CHG_MASK
          (t <<< IFAST_CHG_SHIFT)).2) := by
      unfold set_ibat
      have ha : ¬ ibat_ma < MIN_IBAT_MA := by simp only [MIN_IBAT_MA]; omega
      have hb : ¬ ibat_ma > MAX_IBAT_MA := by simp only [MAX_IBAT_MA]; omega
      simp only [ha, hb, if_false, hq, hrc]
    have hfield : (((t <<< IFAST_CHG_SHIFT) % 256) &&& IFAST_CHG_MASK) >>> IFAST_CHG_SHIFT = t :=
      field_6bit_at_2 t (by omega)
    rw [hset]
    simp only [hf1, hfield]
    refine ⟨trivial, ht, ?_, ?_, ?_⟩ <;> omega
  · obtain ⟨t, ht⟩ : ∃ t : Nat, (t : Int) = (vin_mv - 3880) / 80 :=
      ⟨((vin_mv - 3880) / 80).toNat, by omega⟩
    have hq : u8 (Int.tdiv (vin_mv - MIN_INPUT_VOLTAGE_MV) MAX_INPUT_VOLTAGE_STEP) = t := by
      simp only [MIN_INPUT_VOLTAGE_MV, MAX_INPUT_VOLTAGE_STEP]
      rw [u8_tdiv _ _ (by omega) (by decide) (by omega), ← ht, Int.toNat_ofNat]
    have h1 := masked_write_eq chip INPUT_SOURCE_CTRL_REG VINLIMIT_MASK (t <<< VINLIMIT_SHIFT)
      hw hr (hbus _) (hbus _)
    have hf1 := masked_write_field chip INPUT_SOURCE_CTRL_REG VINLIMIT_MASK
      (t <<< VINLIMIT_SHIFT) VINLIMIT_SHIFT hw hr (hbus _) (hbus _) (by decide)
    have hrc : ¬ (ti2419x_masked_write chip INPUT_SOURCE_CTRL_REG VINLIMIT_MASK
        (t <<< VINLIMIT_SHIFT)).1 < 0 := by
      have : (ti2419x_masked_write chip INPUT_SOURCE_CTRL_REG VINLIMIT_MASK
        (t <<< VINLIMIT_SHIFT)).1 = 0 := by rw [h1]
      omega
    have hset : set_input_voltage chip vin_mv =
        (0, (ti2419x_masked_write chip INPUT_SOURCE_CTRL_REG VINLIMIT_MASK
          (t <<< VINLIMIT_SHIFT)).2) := by
      unfold set_input_voltage
      have ha : ¬ (vin_mv < MIN_INPUT_VOLTAGE_MV ∨ vin_mv > MAX_INPUT_VOLTAGE_MV) := by
        simp only [MIN_INPUT_VOLTAGE_MV, MAX_INPUT_VOLTAGE_MV]; omega
      simp only [ha, if_false, hq, hrc]
    have hfield : (((t <<< VINLIMIT_SHIFT) % 256) &&& VINLIMIT_MASK) >>> VINLIMIT_SHIFT = t :=
      field_4bit_at_3 t (by omega)
    rw [hset]
    simp only [hf1, hfield]
    refine ⟨trivial, ht, ?_, ?_, ?_⟩ <;> omega

/-- Witness for C9: 300 mA, 2560 mA and 4500 mV land on 256 mA, 2560 mA and 4440 mV. -/
theorem linear_setters_quantize_down_witness :
    (reg_field (set_iterm (zeroed_chip (quiet_client 0xFF)) 300) IPRECHG_ITERM_CTRL_REG
      ITERM_MASK ITERM_SHIFT : Int) = (300 - 128) / 128 ∧
    (reg_field (set_ibat (zeroed_chip (quiet_client 0xFF)) 2560).2 CHG_I_CTRL_REG
      IFAST_CHG_MASK IFAST_CHG_SHIFT : Int) = (2560 - 512) / 64 ∧
    (reg_field (set_input_voltage (zeroed_chip (quiet_client 0xFF)) 4500).2
      INPUT_SOURCE_CTRL_REG VINLIMIT_MASK VINLIMIT_SHIFT : Int) = (4500 - 3880) / 80 :=
  have h := linear_setters_quantize_down (zeroed_chip (quiet_client 0xFF)) 300 2560 4500
    ⟨rfl, rfl⟩ (fun _ => le_refl _)
  ⟨(h.1 (by decide)).1, (h.2.1 (by decide)).2.1, (h.2.2 (by decide)).2.1⟩

/-! ## Order independence of the arbiter -/

theorem s32_u32_s32 (y : Int) : s32 ((u32 (s32 y) : Nat) : Int) = s32 y := by
  unfold u32 s32
  split_ifs <;> omega

theorem arbiter_mask_normal (m reason disable : Int) :
    s32 ((u32 (arbiter_mask m reason disable) : Nat) : Int) = arbiter_mask m reason disable := by
  unfold arbiter_mask int_or int_and
  split_ifs <;> exact s32_u32_s32 _

/-- The arbiter leaves every field alone except the client and the bitmask. -/
theorem charging_disable_frame (chip : ti2419x_chip) (reason disable : Int) :
    (ti2419x_charging_disable chip reason disable).2 =
      { chip with
        client := (ti2419x_charging_disable chip reason disable).2.client,
        charging_disabled_status :=
          (ti2419x_charging_disable chip reason disable).2.charging_disabled_status } := by
  unfold ti2419x_charging_disable __ti2419x_charging_disable
  dsimp only
  split_ifs <;> (rw [masked_write_frame])

/-- In test mode the arbiter returns 0, touches no register and stores the
recomputed bitmask. -/
theorem charging_disable_skip (chip : ti2419x_chip) (reason disable : Int)
    (hs : chip.skip_writes ≠ 0 ∨ chip.skip_reads ≠ 0) :
    ti2419x_charging_disable chip reason disable =
      (0, { chip with charging_disabled_status :=
              arbiter_mask chip.charging_disabled_status reason disable }) := by
  unfold ti2419x_charging_disable __ti2419x_charging_disable arbiter_mask
  simp only [masked_write_skip chip _ _ _ hs]
  split_ifs <;> simp_all

/-- With the skip flags off, an arbiter call that returns 0 has performed its
read and its write. -/
theorem charging_disable_ok_bus (chip : ti2419x_chip) (reason disable : Int)
    (hw : chip.skip_writes = 0) (hr : chip.skip_reads = 0)
    (hrc : (ti2419x_charging_disable chip reason disable).1 = 0) :
    0 ≤ chip.client.xfer_rc (chip.client.n_reads + chip.client.n_writes) ∧
    0 ≤ chip.client.xfer_rc (chip.client.n_reads + 1 + chip.client.n_writes) := by
  have key (e : Int) (he : e < 0) (c' : ti2419x_chip)
      (hmw : ∀ v, ti2419x_masked_write chip PON_CFG_REG CHG_CFG_MASK v = (e, c')) : False := by
    have hne : e ≠ 0 := by omega
    have : (ti2419x_charging_disable chip reason disable).1 = e := by
      unfold ti2419x_charging_disable __ti2419x_charging_disable
      simp only [hmw, hne, ne_eq, not_false_eq_true, if_true, ite_self]
    omega
  by_contra hcon
  by_cases h0 : chip.client.xfer_rc (chip.client.n_reads + chip.client.n_writes) < 0
  · exact key _ h0 _ (fun v => masked_write_read_fail chip _ _ v hw hr h0)
  · have h1 : chip.client.xfer_rc (chip.client.n_reads + 1 + chip.client.n_writes) < 0 := by
      by_contra h1
      exact hcon ⟨not_lt.mp h0, not_lt.mp h1⟩
    exact key _ h1 _ (fun v => masked_write_write_fail chip _ _ v hw hr (not_lt.mp h0) h1)

/-- The CHG_CFG field after an arbiter call that reached the bus and returned 0. -/
theorem charging_disable_field (chip : ti2419x_chip) (reason disable : Int)
    (hw : chip.skip_writes = 0) (hr : chip.skip_reads = 0)
    (hrc : (ti2419x_charging_disable chip reason disable).1 = 0) :
    chg_cfg_field (ti2419x_charging_disable chip reason disable).2 =
      if (ti2419x_charging_disable chip reason disable).2.charging_disabled_status ≠ 0 then 0
      else 1 := by
  obtain ⟨h0, h1⟩ := charging_disable_ok_bus chip reason disable hw hr hrc
  rw [charging_disable_eq chip reason disable hw hr h0 h1]
  have hmask : CHG_CFG_MASK < 256 := by decide
  simp only [chg_cfg_field, if_true, rmw_field _ _ _ _ hmask]
  by_cases hm : arbiter_mask chip.charging_disabled_status reason disable = 0
  · simp only [hm, ne_eq, not_true_eq_false, if_false]
    decide
  · simp only [hm, ne_eq, not_false_eq_true, if_true]
    decide

theorem arbiter_run_status (chip : ti2419x_chip) (s : List (Int × Int))
    (hok : arbiter_run_ok chip s) :
    (arbiter_run chip s).charging_disabled_status =
      mask_run chip.charging_disabled_status s := by
  induction s generalizing chip with
  | nil => rfl
  | cons c rest ih =>
    obtain ⟨r, d⟩ := c
    obtain ⟨h1, h2⟩ := hok
    simp only [arbiter_run, mask_run]
    rw [ih _ h2, charging_disable_status, if_neg (by simp [h1])]

theorem arbiter_run_field (chip : ti2419x_chip) (s : List (Int × Int))
    (hw : chip.skip_writes = 0) (hr : chip.skip_reads = 0)
    (hok : arbiter_run_ok chip s) (hne : s ≠ []) :
    chg_cfg_field (arbiter_run chip s) =
      if (arbiter_run chip s).charging_disabled_status ≠ 0 then 0 else 1 := by
  induction s generalizing chip with
  | nil => exact absurd rfl hne
  | cons c rest ih =>
    obtain ⟨r, d⟩ := c
    obtain ⟨h1, h2⟩ := hok
    simp only [arbiter_run]
    by_cases hrest : rest = []
    · subst hrest
      simp only [arbiter_run]
      exact charging_disable_field chip r d hw hr h1
    · have hw' : (ti2419x_charging_disable chip r d).2.skip_writes = 0 := by
        rw [charging_disable_frame]; exact hw
      have hr' : (ti2419x_charging_disable chip r d).2.skip_reads = 0 := by
        rw [charging_disable_frame]; exact hr
      exact ih _ hw' hr' h2 hrest

theorem arbiter_run_skip (chip : ti2419x_chip) (s : List (Int × Int))
    (hs : chip.skip_writes ≠ 0 ∨ chip.skip_reads ≠ 0) :
    (arbiter_run chip s).client = chip.client := by
  induction s generalizing chip with
  | nil => rfl
  | cons c rest ih =>
    obtain ⟨r, d⟩ := c
    simp only [arbiter_run]
    have hs' : (ti2419x_charging_disable chip r d).2.skip_writes ≠ 0 ∨
        (ti2419x_charging_disable chip r d).2.skip_reads ≠ 0 := by
      rw [charging_disable_frame]; exact hs
    rw [ih _ hs', charging_disable_skip chip r d hs]

theorem mask_run_normal (m : Int) (s : List (Int × Int)) (hne : s ≠ []) :
    s32 ((u32 (mask_run m s) : Nat) : Int) = mask_run m s := by
  induction s generalizing m with
  | nil => exact absurd rfl hne
  | cons c rest ih =>
    obtain ⟨r, d⟩ := c
    simp only [mask_run]
    by_cases hrest : rest = []
    · subst hrest
      simp only [mask_run]
      exact arbiter_mask_normal m r d
    · exact ih _ hrest

theorem reason_bit_inj (r r' : Int)
    (hr : r = USER ∨ r = THERMAL ∨ r = CURRENT ∨ r = TEMP)
    (hr' : r' = USER ∨ r' = THERMAL ∨ r' = CURRENT ∨ r' = TEMP) :
    reason_bit r = reason_bit r' ↔ r' = r := by
  rcases hr with h | h | h | h <;> rcases hr' with h' | h' | h' | h' <;> subst h <;> subst h' <;>
    decide

theorem mask_run_testBit_reason (s : List (Int × Int))
    (hvalid : ∀ c ∈ s, c.1 = USER ∨ c.1 = THERMAL ∨ c.1 = CURRENT ∨ c.1 = TEMP)
    (r : Int) (hr : r = USER ∨ r = THERMAL ∨ r = CURRENT ∨ r = TEMP) (m : Int) :
    (u32 (mask_run m s)).testBit (reason_bit r) =
      (last_request r s).getD ((u32 m).testBit (reason_bit r)) := by
  induction s generalizing m with
  | nil => rfl
  | cons c rest ih =>
    obtain ⟨r', d⟩ := c
    have hr' := hvalid (r', d) (List.mem_cons_self _ _)
    have hrest : ∀ c ∈ rest, c.1 = USER ∨ c.1 = THERMAL ∨ c.1 = CURRENT ∨ c.1 = TEMP :=
      fun c hc => hvalid c (List.mem_cons_of_mem _ hc)
    simp only [mask_run, last_request]
    rw [ih hrest]
    cases hl : last_request r rest with
    | some b => rfl
    | none =>
      simp only [Option.getD_none]
      rw [arbiter_mask_testBit m r' d hr']
      by_cases h : r' = r
      · simp [h]
      · have : ¬ reason_bit r = reason_bit r' := fun e => h ((reason_bit_inj r r' hr hr').mp e)
        simp [h, this]

theorem mask_run_testBit_high (s : List (Int × Int))
    (hvalid : ∀ c ∈ s, c.1 = USER ∨ c.1 = THERMAL ∨ c.1 = CURRENT ∨ c.1 = TEMP)
    (k : Nat) (hk : 4 ≤ k) (m : Int) :
    (u32 (mask_run m s)).testBit k = (u32 m).testBit k := by
  induction s generalizing m with
  | nil => rfl
  | cons c rest ih =>
    obtain ⟨r', d⟩ := c
    have hr' := hvalid (r', d) (List.mem_cons_self _ _)
    have hrest : ∀ c ∈ rest, c.1 = USER ∨ c.1 = THERMAL ∨ c.1 = CURRENT ∨ c.1 = TEMP :=
      fun c hc => hvalid c (List.mem_cons_of_mem _ hc)
    simp only [mask_run]
    rw [ih hrest, arbiter_mask_testBit m r' d hr']
    have : k ≠ reason_bit r' := by
      unfold reason_bit
      split_ifs <;> omega
    simp [this]

theorem last_request_none_nil (s : List (Int × Int))
    (hvalid : ∀ c ∈ s, c.1 = USER ∨ c.1 = THERMAL ∨ c.1 = CURRENT ∨ c.1 = TEMP)
    (hnone : ∀ r, r = USER ∨ r = THERMAL ∨ r = CURRENT ∨ r = TEMP → last_request r s = none) :
    s = [] := by
  cases s with
  | nil => rfl
  | cons c rest =>
    obtain ⟨r', d⟩ := c
    have hr' := hvalid (r', d) (List.mem_cons_self _ _)
    have := hnone r' hr'
    simp only [last_request] at this
    cases hl : last_request r' rest with
    | some b => simp [hl] at this
    | none => simp [hl] at this

/-- C4: two runs of successful arbiter calls (each call returns 0, each reason
is one of USER, THERMAL, CURRENT, TEMP) that start from the same device state
and agree, reason by reason, on the last request made for it (or both make
none) end with the same disable bitmask and the same CHG_CFG field, whatever
the order and interleaving of the calls. -/
theorem arbiter_order_independent (chip : ti2419x_chip) (s1 s2 : List (Int × Int))
    (hvalid1 : ∀ c ∈ s1, c.1 = USER ∨ c.1 = THERMAL ∨ c.1 = CURRENT ∨ c.1 = TEMP)
    (hvalid2 : ∀ c ∈ s2, c.1 = USER ∨ c.1 = THERMAL ∨ c.1 = CURRENT ∨ c.1 = TEMP)
    (hok1 : arbiter_run_ok chip s1) (hok2 : arbiter_run_ok chip s2)
    (hlast : ∀ r, r = USER ∨ r = THERMAL ∨ r = CURRENT ∨ r = TEMP →
      last_request r s1 = last_request r s2) :
    (arbiter_run chip s1).charging_disabled_status =
      (arbiter_run chip s2).charging_disabled_status ∧
    chg_cfg_field (arbiter_run chip s1) = chg_cfg_field (arbiter_run chip s2) := by
  have hnil : s1 = [] ↔ s2 = [] := by
    constructor
    · intro h1
      apply last_request_none_nil s2 hvalid2
      intro r hr'
      rw [← hlast r hr', h1]
      rfl
    · intro h2
      apply last_request_none_nil s1 hvalid1
      intro r hr'
      rw [hlast r hr', h2]
      rfl
  have hmask : (arbiter_run chip s1).charging_disabled_status =
      (arbiter_run chip s2).charging_disabled_status := by
    rw [arbiter_run_status chip s1 hok1, arbiter_run_status chip s2 hok2]
    by_cases h1 : s1 = []
    · rw [h1, hnil.mp h1]
    · have h2 : s2 ≠ [] := fun h2 => h1 (hnil.mpr h2)
      rw [← mask_run_normal _ s1 h1, ← mask_run_normal _ s2 h2]
      congr 2
      apply Nat.eq_of_testBit_eq
      intro k
      by_cases hk : 4 ≤ k
      · rw [mask_run_testBit_high s1 hvalid1 k hk, mask_run_testBit_high s2 hvalid2 k hk]
      · have hex : ∃ r, (r = USER ∨ r = THERMAL ∨ r = CURRENT ∨ r = TEMP) ∧
            k = reason_bit r := by
          have hk4 : k < 4 := by omega
          interval_cases k
          · exact ⟨USER, Or.inl rfl, by decide⟩
          · exact ⟨THERMAL, Or.inr (Or.inl rfl), by decide⟩
          · exact ⟨CURRENT, Or.inr (Or.inr (Or.inl rfl)), by decide⟩
          · exact ⟨TEMP, Or.inr (Or.inr (Or.inr rfl)), by decide⟩
        obtain ⟨r, hr, rfl⟩ := hex
        rw [mask_run_testBit_reason s1 hvalid1 r hr, mask_run_testBit_reason s2 hvalid2 r hr,
          hlast r hr]
  refine ⟨hmask, ?_⟩
  by_cases hs : chip.skip_writes ≠ 0 ∨ chip.skip_reads ≠ 0
  · unfold chg_cfg_field
    rw [arbiter_run_skip chip s1 hs, arbiter_run_skip chip s2 hs]
  · have hw : chip.skip_writes = 0 := by
      by_contra h; exact hs (Or.inl h)
    have hr : chip.skip_reads = 0 := by
      by_contra h; exact hs (Or.inr h)
    by_cases h1 : s1 = []
    · rw [h1, hnil.mp h1]
    · have h2 : s2 ≠ [] := fun h2 => h1 (hnil.mpr h2)
      rw [arbiter_run_field chip s1 hw hr hok1 h1, arbiter_run_field chip s2 hw hr hok2 h2,
        hmask]

/-- Witness for C4: asserting USER then TEMP then clearing USER ends like
clearing USER first and asserting TEMP afterwards. -/
theorem arbiter_order_independent_witness :
    (arbiter_run (zeroed_chip (quiet_client 0x10)) [(USER, 1), (TEMP, 1), (USER, 0)]
      ).charging_disabled_status =
      (arbiter_run (zeroed_chip (quiet_client 0x10)) [(USER, 0), (TEMP, 1)]
      ).charging_disabled_status ∧
    chg_cfg_field
        (arbiter_run (zeroed_chip (quiet_client 0x10)) [(USER, 1), (TEMP, 1), (USER, 0)]) =
      chg_cfg_field (arbiter_run (zeroed_chip (quiet_client 0x10)) [(USER, 0), (TEMP, 1)]) :=
  arbiter_order_independent (zeroed_chip (quiet_client 0x10))
    [(USER, 1), (TEMP, 1), (USER, 0)] [(USER, 0), (TEMP, 1)]
    (by decide) (by decide) (by decide) (by decide)
    (by
      intro r hr
      rcases hr with h | h | h | h <;> subst h <;> decide)

/-! ## Input current limit -/

/-- The search loop entered with `i = n - 1` ends at the largest index below `n`
whose table entry does not exceed the request, or at -1 when there is none. -/
theorem icl_search_spec (current_ma : Int) (n : Nat) :
    (icl_search current_ma n = -1 ∧
      ∀ j : Nat, j < n → ¬ input_current_limit.getD j 0 ≤ current_ma) ∨
    (∃ i : Nat, i < n ∧ icl_search current_ma n = (i : Int) ∧
      input_current_limit.getD i 0 ≤ current_ma ∧
      ∀ j : Nat, j < n → input_current_limit.getD j 0 ≤ current_ma → j ≤ i) := by
  induction n with
  | zero => exact Or.inl ⟨rfl, fun j hj => absurd hj (Nat.not_lt_zero j)⟩
  | succ n ih =>
    by_cases h : input_current_limit.getD n 0 ≤ current_ma
    · refine Or.inr ⟨n, Nat.lt_succ_self n, ?_, h, fun j hj _ => Nat.le_of_lt_succ hj⟩
      simp only [icl_search, h, if_true]
    · have hs : icl_search current_ma (n + 1) = icl_search current_ma n := by
        simp only [icl_search, h, if_false]
      rcases ih with ⟨h1, h2⟩ | ⟨i, hi, h1, h2, h3⟩
      · refine Or.inl ⟨hs.trans h1, fun j hj => ?_⟩
        rcases Nat.lt_succ_iff_lt_or_eq.mp hj with hlt | heq
        · exact h2 j hlt
        · rw [heq]; exact h
      · refine Or.inr ⟨i, Nat.lt_succ_of_lt hi, hs.trans h1, h2, fun j hj hle => ?_⟩
        rcases Nat.lt_succ_iff_lt_or_eq.mp hj with hlt | heq
        · exact h3 j hlt hle
        · rw [heq] at hle; exact absurd hle h

theorem input_current_limit_mono :
    ∀ i : Nat, i < 8 → ∀ j : Nat, j ≤ i →
      input_current_limit.getD j 0 ≤ input_current_limit.getD i 0 := by
  decide

theorem input_current_limit_ge :
    ∀ j : Nat, j < 8 → 100 ≤ input_current_limit.getD j 0 := by
  decide

/-- The function is a masked write of the index found for the effective current. -/
theorem set_appropriate_usb_current_eq (chip : ti2419x_chip) (hbatt : chip.batt_present = true) :
    ti2419x_set_appropriate_usb_current chip =
      ti2419x_masked_write chip INPUT_SOURCE_CTRL_REG IINLIMIT_MASK
        (u8 (if icl_search (if effective_usb_ma chip ≤ 2 then 100 else effective_usb_ma chip) 8 < 0
             then 0
             else icl_search (if effective_usb_ma chip ≤ 2 then 100 else effective_usb_ma chip) 8))
    := by
  have heff : effective_usb_ma chip =
      (if chip.max_iusb > 0 then
        min (min (if chip.therm_lvl_sel > 0 ∧
                    chip.therm_lvl_sel < u32 ((chip.thermal_levels : Int) - 1) then
                  s32 (((chip.thermal_mitigation.getD []).getD chip.therm_lvl_sel 0 : Nat) : Int)
                else chip.usb_psy_ma) chip.usb_psy_ma) chip.max_iusb
       else
        min (if chip.therm_lvl_sel > 0 ∧
                chip.therm_lvl_sel < u32 ((chip.thermal_levels : Int) - 1) then
              s32 (((chip.thermal_mitigation.getD []).getD chip.therm_lvl_sel 0 : Nat) : Int)
            else chip.usb_psy_ma) chip.usb_psy_ma) := by
    unfold effective_usb_ma
    by_cases h : chip.therm_lvl_sel > 0 ∧
        chip.therm_lvl_sel < u32 ((chip.thermal_levels : Int) - 1)
    · simp only [h, and_self, if_true]
    · simp only [h, if_false, min_self]
  rw [heff]
  unfold ti2419x_set_appropriate_usb_current
  simp only [hbatt, not_true_eq_false, if_false, input_current_limit, List.length_cons,
    List.length_nil]

/-- C10: with a battery present and a succeeding transport,
`ti2419x_set_appropriate_usb_current` returns 0 and leaves in the IINLIMIT field
an index `i` of the table {100, 150, 500, 900, 1000, 1500, 2000, 3000} such that
entry `i` is the largest entry not above the effective requested current (the
USB-path current lowered by an active thermal-mitigation level and by a
positive `max_iusb`), or `i = 0` when every entry is above it; an effective
request of 1600 mA selects index 5, the entry 1500 mA. -/
theorem usb_current_selects_largest_entry_below (chip : ti2419x_chip)
    (hbatt : chip.batt_present = true)
    (hskip : chip.skip_writes = 0 ∧ chip.skip_reads = 0)
    (hbus : ∀ k, 0 ≤ chip.client.xfer_rc k) :
    (ti2419x_set_appropriate_usb_current chip).1 = 0 ∧
    (∃ i : Nat, i < 8 ∧
      reg_field (ti2419x_set_appropriate_usb_current chip).2 INPUT_SOURCE_CTRL_REG
        IINLIMIT_MASK IINLIMIT_SHIFT = i ∧
      ((input_current_limit.getD i 0 ≤ effective_usb_ma chip ∧
          ∀ j : Nat, j < 8 → input_current_limit.getD j 0 ≤ effective_usb_ma chip →
            input_current_limit.getD j 0 ≤ input_current_limit.getD i 0) ∨
        ((∀ j : Nat, j < 8 → effective_usb_ma chip < input_current_limit.getD j 0) ∧ i = 0))) ∧
    (effective_usb_ma chip = 1600 →
      reg_field (ti2419x_set_appropriate_usb_current chip).2 INPUT_SOURCE_CTRL_REG
        IINLIMIT_MASK IINLIMIT_SHIFT = 5 ∧
      input_current_limit.getD 5 0 = 1500) := by
  obtain ⟨hw, hr⟩ := hskip
  -- the index handed to the masked write
  have hidx : ∃ i : Nat, i < 8 ∧
      (if icl_search (if effective_usb_ma chip ≤ 2 then 100 else effective_usb_ma chip) 8 < 0
       then 0
       else icl_search (if effective_usb_ma chip ≤ 2 then 100 else effective_usb_ma chip) 8)
        = (i : Int) ∧
      ((input_current_limit.getD i 0 ≤ effective_usb_ma chip ∧
          ∀ j : Nat, j < 8 → input_current_limit.getD j 0 ≤ effective_usb_ma chip → j ≤ i) ∨
        ((∀ j : Nat, j < 8 → effective_usb_ma chip < input_current_limit.getD j 0) ∧ i = 0)) := by
    by_cases h2 : effective_usb_ma chip ≤ 2
    · simp only [h2, if_true]
      have hnone : ∀ j : Nat, j < 8 → effective_usb_ma chip < input_current_limit.getD j 0 :=
        fun j hj => by have := input_current_limit_ge j hj; omega
      rcases icl_search_spec 100 8 with ⟨h1, h3⟩ | ⟨i, hi, h1, h3, h4⟩
      · exact absurd (by decide : input_current_limit.getD 0 0 ≤ (100 : Int)) (h3 0 (by decide))
      · have hi0 : i = 0 := by
          interval_cases i <;> first | rfl | exact absurd h3 (by decide)
        subst hi0
        refine ⟨0, by decide, ?_, Or.inr ⟨hnone, rfl⟩⟩
        rw [h1]; rfl
    · simp only [h2, if_false]
      rcases icl_search_spec (effective_usb_ma chip) 8 with ⟨h1, h3⟩ | ⟨i, hi, h1, h3, h4⟩
      · refine ⟨0, by decide, ?_, Or.inr ⟨fun j hj => not_le.mp (h3 j hj), rfl⟩⟩
        rw [h1]; rfl
      · refine ⟨i, hi, ?_, Or.inl ⟨h3, h4⟩⟩
        rw [h1]
        have : ¬ ((i : Int) < 0) := by omega
        simp only [this, if_false]
  obtain ⟨i, hi, hval, hprop⟩ := hidx
  have hfun := set_appropriate_usb_current_eq chip hbatt
  rw [hval] at hfun
  have hu8 : u8 (i : Int) = i := by
    rw [u8_ofNat]; omega
  rw [hu8] at hfun
  have hrc : (ti2419x_set_appropriate_usb_current chip).1 = 0 := by
    rw [hfun, masked_write_eq chip _ _ _ hw hr (hbus _) (hbus _)]
  have hfield : reg_field (ti2419x_set_appropriate_usb_current chip).2 INPUT_SOURCE_CTRL_REG
      IINLIMIT_MASK IINLIMIT_SHIFT = i := by
    rw [hfun, masked_write_field chip _ _ _ _ hw hr (hbus _) (hbus _) (by decide)]
    exact field_3bit_at_0 i hi
  refine ⟨hrc, ⟨i, hi, hfield, ?_⟩, ?_⟩
  · rcases hprop with ⟨h1, h2⟩ | h
    · exact Or.inl ⟨h1, fun j hj hle => input_current_limit_mono i hi j (h2 j hj hle)⟩
    · exact Or.inr h
  · intro h1600
    rw [hfield]
    refine ⟨?_, by decide⟩
    rw [h1600] at hprop
    rcases hprop with ⟨h1, h2⟩ | ⟨h, _⟩
    · have h5 := h2 5 (by decide) (by decide)
      interval_cases i <;> first | rfl | omega | exact absurd h1 (by decide)
    · exact absurd (h 0 (by decide)) (by decide)

/-- A device with a battery, a USB-path current of 1600 mA and no other limit. -/
theorem usb_current_selects_largest_entry_below_witness :
    (ti2419x_set_appropriate_usb_current
      { zeroed_chip (quiet_client 0) with batt_present := true, usb_psy_ma := 1600 }).1 = 0 ∧
    reg_field (ti2419x_set_appropriate_usb_current
      { zeroed_chip (quiet_client 0) with batt_present := true, usb_psy_ma := 1600 }).2
      INPUT_SOURCE_CTRL_REG IINLIMIT_MASK IINLIMIT_SHIFT = 5 :=
  have h := usb_current_selects_largest_entry_below
    { zeroed_chip (quiet_client 0) with batt_present := true, usb_psy_ma := 1600 }
    rfl ⟨rfl, rfl⟩ (fun _ => le_refl _)
  ⟨h.1, (h.2.2 (by decide)).1⟩

/-! ## The charge-enable line as a function of the bitmask -/

theorem same_mode_refl (c : ti2419x_chip) : same_mode c c := ⟨rfl, rfl, rfl⟩

theorem same_mode_trans {a b c : ti2419x_chip} (h1 : same_mode a b) (h2 : same_mode b c) :
    same_mode a c :=
  ⟨h2.1.trans h1.1, h2.2.1.trans h1.2.1, h2.2.2.trans h1.2.2⟩

theorem keeps_refl (c : ti2419x_chip) : keeps_enable_line c c := ⟨same_mode_refl c, rfl, rfl⟩

theorem keeps_trans {a b c : ti2419x_chip} (h1 : keeps_enable_line a b)
    (h2 : keeps_enable_line b c) : keeps_enable_line a c :=
  ⟨same_mode_trans h1.1 h2.1, h2.2.1.trans h1.2.1, h2.2.2.trans h1.2.2⟩

theorem live_of_same_mode {c c' : ti2419x_chip} (h : same_mode c c') (hl : transport_live c) :
    transport_live c' := by
  obtain ⟨h1, h2, h3⟩ := h
  exact ⟨h1.trans hl.1, h2.trans hl.2.1, fun k => by rw [h3]; exact hl.2.2 k⟩

theorem sync_of_keeps {c c' : ti2419x_chip} (h : keeps_enable_line c c')
    (hs : enable_line_in_sync c) : enable_line_in_sync c' := by
  unfold enable_line_in_sync chg_cfg_field at *
  rw [h.2.1, h.2.2]
  exact hs

/-- A masked write keeps the mode. -/
theorem same_mode_masked_write (chip : ti2419x_chip) (reg mask val : Nat) :
    same_mode chip (ti2419x_masked_write chip reg mask val).2 := by
  rcases masked_write_cases chip reg mask val with h | ⟨e, _, h⟩ | ⟨e, _, h⟩ | h <;> rw [h] <;>
    exact ⟨rfl, rfl, rfl⟩

/-- A masked write returns 0 or a negative error code. -/
theorem masked_write_rc_nonpos (chip : ti2419x_chip) (reg mask val : Nat) :
    (ti2419x_masked_write chip reg mask val).1 ≤ 0 := by
  rcases masked_write_cases chip reg mask val with h | ⟨e, he, h⟩ | ⟨e, he, h⟩ | h
  · have : (ti2419x_masked_write chip reg mask val).1 = 0 := by rw [h]
    omega
  · have : (ti2419x_masked_write chip reg mask val).1 = e := by rw [h]
    omega
  · have : (ti2419x_masked_write chip reg mask val).1 = e := by rw [h]
    omega
  · have : (ti2419x_masked_write chip reg mask val).1 = 0 := by rw [h]
    omega

/-- A masked write to a register other than PON_CFG_REG keeps the enable line. -/
theorem keeps_masked_write (chip : ti2419x_chip) (reg mask val : Nat) (hreg : reg ≠ PON_CFG_REG) :
    keeps_enable_line chip (ti2419x_masked_write chip reg mask val).2 := by
  refine ⟨same_mode_masked_write chip reg mask val,
    masked_write_regs_other chip reg mask val PON_CFG_REG (Ne.symm hreg), ?_⟩
  rw [masked_write_frame]

/-- On a live transport a masked write returns 0. -/
theorem masked_write_live (chip : ti2419x_chip) (reg mask val : Nat) (hl : transport_live chip) :
    (ti2419x_masked_write chip reg mask val).1 = 0 := by
  rw [masked_write_eq chip reg mask val hl.1 hl.2.1 (hl.2.2 _) (hl.2.2 _)]

/-- The context after a register read is the old one, possibly with one more
read counted. -/
theorem ti2419x_read_chip (chip : ti2419x_chip) (reg val0 : Nat) :
    (ti2419x_read chip reg val0).2.2 = chip ∨
    (ti2419x_read chip reg val0).2.2 =
      { chip with client := { chip.client with n_reads := chip.client.n_reads + 1 } } := by
  unfold ti2419x_read
  by_cases hs : chip.skip_reads ≠ 0
  · left; rw [if_pos hs]
  · right
    rw [if_neg hs]
    by_cases h0 : chip.client.xfer_rc (chip.client.n_reads + chip.client.n_writes) < 0
    · rw [read_fail chip reg h0]
    · rw [read_ok chip reg (not_lt.mp h0)]

theorem keeps_count_read (chip : ti2419x_chip) :
    keeps_enable_line chip
      { chip with client := { chip.client with n_reads := chip.client.n_reads + 1 } } :=
  ⟨⟨rfl, rfl, rfl⟩, rfl, rfl⟩

theorem keeps_read (chip : ti2419x_chip) (reg val0 : Nat) :
    keeps_enable_line chip (ti2419x_read chip reg val0).2.2 := by
  rcases ti2419x_read_chip chip reg val0 with h | h
  · rw [h]; exact keeps_refl chip
  · rw [h]; exact keeps_count_read chip

/-- The arbiter as one masked write of the value chosen from the recomputed
bitmask, which is stored when the write returns 0. -/
theorem charging_disable_def (chip : ti2419x_chip) (reason disable : Int) :
    ti2419x_charging_disable chip reason disable =
      if (ti2419x_masked_write chip PON_CFG_REG CHG_CFG_MASK
            (if arbiter_mask chip.charging_disabled_status reason disable ≠ 0 then 0
             else 1 <<< CHG_CFG_SHIFT)).1 ≠ 0 then
        ti2419x_masked_write chip PON_CFG_REG CHG_CFG_MASK
          (if arbiter_mask chip.charging_disabled_status reason disable ≠ 0 then 0
           else 1 <<< CHG_CFG_SHIFT)
      else
        (0, { (ti2419x_masked_write chip PON_CFG_REG CHG_CFG_MASK
                (if arbiter_mask chip.charging_disabled_status reason disable ≠ 0 then 0
                 else 1 <<< CHG_CFG_SHIFT)).2 with
              charging_disabled_status :=
                arbiter_mask chip.charging_disabled_status reason disable }) := by
  have harb : (if disable = 1 then int_or chip.charging_disabled_status reason
      else int_and chip.charging_disabled_status (int_not reason)) =
      arbiter_mask chip.charging_disabled_status reason disable := by
    unfold arbiter_mask
    rfl
  unfold ti2419x_charging_disable __ti2419x_charging_disable
  simp only [harb]
  by_cases hm : arbiter_mask chip.charging_disabled_status reason disable = 0
  · simp only [hm, ne_eq, not_true_eq_false, if_false, Bool.false_eq_true]
    split_ifs with h
    · rw [h]
    · rfl
  · simp only [hm, ne_eq, not_false_eq_true, if_true]
    split_ifs with h
    · rw [h]
    · rfl

/-- The arbiter keeps the mode. -/
theorem same_mode_charging_disable (chip : ti2419x_chip) (reason disable : Int) :
    same_mode chip (ti2419x_charging_disable chip reason disable).2 := by
  rw [charging_disable_def]
  generalize (if arbiter_mask chip.charging_disabled_status reason disable ≠ 0 then 0
     else 1 <<< CHG_CFG_SHIFT) = v
  have hm := same_mode_masked_write chip PON_CFG_REG CHG_CFG_MASK v
  split_ifs
  · exact hm
  · exact ⟨hm.1, hm.2.1, hm.2.2⟩

/-- On a live transport the arbiter returns 0. -/
theorem charging_disable_live (chip : ti2419x_chip) (reason disable : Int)
    (hl : transport_live chip) : (ti2419x_charging_disable chip reason disable).1 = 0 := by
  rw [charging_disable_eq chip reason disable hl.1 hl.2.1 (hl.2.2 _) (hl.2.2 _)]

/-- On a live transport the arbiter leaves the transport live and the enable
line in sync with the bitmask, whatever they were before. -/
theorem charging_disable_establishes (chip : ti2419x_chip) (reason disable : Int)
    (hl : transport_live chip) :
    transport_live (ti2419x_charging_disable chip reason disable).2 ∧
    enable_line_in_sync (ti2419x_charging_disable chip reason disable).2 := by
  refine ⟨live_of_same_mode (same_mode_charging_disable chip reason disable) hl, ?_⟩
  unfold enable_line_in_sync
  rw [charging_disable_field chip reason disable hl.1 hl.2.1
    (charging_disable_live chip reason disable hl)]
  by_cases hz : (ti2419x_charging_disable chip reason disable).2.charging_disabled_status = 0
  · simp [hz]
  · simp [hz]

/-! ### Operations that leave PON_CFG_REG and the bitmask alone -/

theorem keeps_set_ibat (chip : ti2419x_chip) (ma : Int) :
    keeps_enable_line chip (set_ibat chip ma).2 := by
  unfold set_ibat
  dsimp only
  split_ifs <;> exact keeps_masked_write _ _ _ _ (by decide)

theorem keeps_set_input_voltage (chip : ti2419x_chip) (mv : Int) :
    keeps_enable_line chip (set_input_voltage chip mv).2 := by
  unfold set_input_voltage
  dsimp only
  split_ifs <;> first | exact keeps_refl _ | exact keeps_masked_write _ _ _ _ (by decide)

theorem keeps_set_charge_wdog (chip : ti2419x_chip) (time : Int) :
    keeps_enable_line chip (set_charge_wdog chip time).2 := by
  unfold set_charge_wdog
  dsimp only
  split_ifs <;> first | exact keeps_refl _ | exact keeps_masked_write _ _ _ _ (by decide)

theorem keeps_float_voltage_set (chip : ti2419x_chip) (mv : Int) :
    keeps_enable_line chip (ti2419x_float_voltage_set chip mv).2 := by
  unfold ti2419x_float_voltage_set
  dsimp only
  split_ifs <;> first | exact keeps_refl _ | exact keeps_masked_write _ _ _ _ (by decide)

theorem keeps_recharge_threshold_set (chip : ti2419x_chip) (mv : Int) :
    keeps_enable_line chip (ti2419x_recharge_threshold_set chip mv).2 := by
  unfold ti2419x_recharge_threshold_set
  dsimp only
  split_ifs <;> first | exact keeps_refl _ | exact keeps_masked_write _ _ _ _ (by decide)

theorem keeps_set_iterm (chip : ti2419x_chip) (ma : Int) :
    keeps_enable_line chip (set_iterm chip ma) := by
  unfold set_iterm
  dsimp only
  split_ifs <;> first
    | exact keeps_refl _
    | exact keeps_masked_write _ _ _ _ (by decide)
    | exact keeps_trans (keeps_masked_write _ _ _ _ (by decide))
        (keeps_masked_write _ _ _ _ (by decide))

theorem keeps_set_appropriate_usb_current (chip : ti2419x_chip) :
    keeps_enable_line chip (ti2419x_set_appropriate_usb_current chip).2 := by
  unfold ti2419x_set_appropriate_usb_current
  dsimp only
  split_ifs <;> first | exact keeps_refl _ | exact keeps_masked_write _ _ _ _ (by decide)

theorem keeps_set_appropriate_ibat (chip : ti2419x_chip) :
    keeps_enable_line chip (ti2419x_set_appropriate_ibat chip) := by
  unfold ti2419x_set_appropriate_ibat
  exact keeps_set_ibat _ _

theorem keeps_set_appropriate_float_voltage (chip : ti2419x_chip) :
    keeps_enable_line chip (ti2419x_set_appropriate_float_voltage chip) := by
  unfold ti2419x_set_appropriate_float_voltage
  by_cases hc : chip.bat_is_cool = true
  · rw [if_pos hc]
    exact keeps_float_voltage_set _ _
  · rw [if_neg hc]
    by_cases hw : chip.bat_is_warm = true
    · rw [if_pos hw]
      exact keeps_trans (keeps_float_voltage_set _ _) (keeps_recharge_threshold_set _ _)
    · rw [if_neg hw]
      exact keeps_trans (keeps_float_voltage_set _ _) (keeps_recharge_threshold_set _ _)

theorem keeps_is_chg_plugged_in (chip : ti2419x_chip) :
    keeps_enable_line chip (ti2419x_is_chg_plugged_in chip).2 := by
  unfold ti2419x_is_chg_plugged_in
  dsimp only
  split_ifs <;> exact keeps_read _ _ _

theorem keeps_get_charging_status (chip : ti2419x_chip) :
    keeps_enable_line chip (ti2419x_get_charging_status chip).2 := by
  unfold ti2419x_get_charging_status
  dsimp only
  split_ifs <;> exact keeps_read _ _ _

theorem keeps_otg_is_enabled (chip : ti2419x_chip) :
    keeps_enable_line chip (ti2419x_otg_is_enabled chip).2 := by
  unfold ti2419x_otg_is_enabled
  dsimp only
  split_ifs <;> exact keeps_read _ _ _

theorem keeps_float_voltage_get (chip : ti2419x_chip) :
    keeps_enable_line chip (ti2419x_float_voltage_get chip).2.2 := by
  unfold ti2419x_float_voltage_get
  dsimp only
  split_ifs <;> exact keeps_read _ _ _

theorem keeps_get_prop_batt_present (chip : ti2419x_chip) (env : providers) :
    keeps_enable_line chip (ti2419x_get_prop_batt_present chip env).2 := by
  unfold ti2419x_get_prop_batt_present
  split_ifs <;> exact ⟨⟨rfl, rfl, rfl⟩, rfl, rfl⟩

theorem keeps_zero_report_check (d : driver) (env : providers) :
    keeps_enable_line d.chip (zero_report_check d env).2.chip := by
  unfold zero_report_check
  split_ifs <;> exact keeps_refl _

theorem keeps_smooth_capacity_zero (d : driver) (env : providers) (cap batt_vol : Int) :
    keeps_enable_line d.chip (smooth_capacity_zero d env cap batt_vol).2.chip := by
  unfold smooth_capacity_zero
  dsimp only
  split_ifs <;> first | exact keeps_refl _ | exact keeps_zero_report_check d env

theorem keeps_smooth_capacity_present (d : driver) (env : providers) (capacity : Int) :
    keeps_enable_line d.chip (smooth_capacity_present d env capacity).2.chip := by
  unfold smooth_capacity_present
  dsimp only
  split_ifs <;> first
    | exact keeps_is_chg_plugged_in _
    | exact keeps_trans (keeps_is_chg_plugged_in d.chip) (keeps_smooth_capacity_zero _ env _ _)

theorem keeps_smooth_capacity (d : driver) (env : providers) (capacity : Int) :
    keeps_enable_line d.chip (smooth_capacity d env capacity).2.chip := by
  unfold smooth_capacity
  dsimp only
  split_ifs <;> first
    | exact keeps_refl _
    | exact keeps_get_prop_batt_present _ _
    | exact keeps_trans (keeps_get_prop_batt_present d.chip env)
        (keeps_smooth_capacity_present _ env _)

theorem keeps_get_prop_batt_capacity (d : driver) (env : providers) :
    keeps_enable_line d.chip (ti2419x_get_prop_batt_capacity d env).2.chip := by
  unfold ti2419x_get_prop_batt_capacity
  exact keeps_trans (b := { d.chip with soc := ti2419x_get_prop_batt_capacity_real d.chip env })
    ⟨⟨rfl, rfl, rfl⟩, rfl, rfl⟩ (keeps_smooth_capacity _ env _)

/-! ### The full-charge check and the EOC tick -/

theorem keeps_fullcharge_reads (d : driver) (env : providers) :
    keeps_enable_line d.chip
      (ti2419x_get_charging_status
        (ti2419x_get_prop_batt_present (ti2419x_is_chg_plugged_in d.chip).2 env).2).2 :=
  keeps_trans (keeps_trans (keeps_is_chg_plugged_in d.chip) (keeps_get_prop_batt_present _ env))
    (keeps_get_charging_status _)

/-- Without the restart the full-charge check leaves the enable line alone. -/
theorem keeps_check_fullcharged_state (d : driver) (env : providers)
    (h : fullcharge_restarts d env = false) :
    keeps_enable_line d.chip (check_fullcharged_state d env).chip := by
  unfold fullcharge_restarts at h
  unfold check_fullcharged_state
  dsimp only at h ⊢
  rw [decide_eq_false_iff_not] at h
  split_ifs with h1 h2
  · exact absurd ⟨h1, h2⟩ h
  · exact keeps_trans (keeps_fullcharge_reads d env) ⟨⟨rfl, rfl, rfl⟩, rfl, rfl⟩
  · exact keeps_fullcharge_reads d env

/-- With the restart the full-charge check is the two direct writes to CHG_CFG. -/
theorem check_fullcharged_state_restart (d : driver) (env : providers)
    (h : fullcharge_restarts d env = true) :
    (check_fullcharged_state d env).chip =
      (__ti2419x_charging_disable
        (__ti2419x_charging_disable
          (ti2419x_get_charging_status
            (ti2419x_get_prop_batt_present (ti2419x_is_chg_plugged_in d.chip).2 env).2).2
          true).2 false).2 := by
  unfold fullcharge_restarts at h
  unfold check_fullcharged_state
  dsimp only at h ⊢
  rw [decide_eq_true_iff] at h
  rw [if_pos h.1, if_pos h.2]

/-- A direct write of the charge-enable field on a live transport. -/
theorem direct_charging_disable_live (chip : ti2419x_chip) (disable : Bool)
    (hl : transport_live chip) :
    transport_live (__ti2419x_charging_disable chip disable).2 ∧
    chg_cfg_field (__ti2419x_charging_disable chip disable).2 = (if disable then 0 else 1) ∧
    (__ti2419x_charging_disable chip disable).2.charging_disabled_status =
      chip.charging_disabled_status := by
  unfold __ti2419x_charging_disable
  refine ⟨live_of_same_mode (same_mode_masked_write _ _ _ _) hl, ?_, ?_⟩
  · have hf := masked_write_field chip PON_CFG_REG CHG_CFG_MASK
      (if disable then 0 else 1 <<< CHG_CFG_SHIFT) CHG_CFG_SHIFT hl.1 hl.2.1 (hl.2.2 _) (hl.2.2 _)
      (by decide)
    unfold reg_field at hf
    unfold chg_cfg_field
    rw [hf]
    cases disable <;> decide
  · rw [masked_write_frame]

theorem inv_of_keeps {c c' : ti2419x_chip} (h : keeps_enable_line c c')
    (hi : enable_line_inv c) : enable_line_inv c' :=
  ⟨live_of_same_mode h.1 hi.1, sync_of_keeps h hi.2⟩

theorem inv_charging_disable (chip : ti2419x_chip) (reason disable : Int)
    (hl : transport_live chip) :
    enable_line_inv (ti2419x_charging_disable chip reason disable).2 :=
  charging_disable_establishes chip reason disable hl

theorem keeps_set_batt_warm_full (c : ti2419x_chip) (b : Bool) :
    keeps_enable_line c { c with batt_warm_full := b } := ⟨⟨rfl, rfl, rfl⟩, rfl, rfl⟩

theorem keeps_set_batt_full (c : ti2419x_chip) (b : Bool) :
    keeps_enable_line c { c with batt_full := b } := ⟨⟨rfl, rfl, rfl⟩, rfl, rfl⟩

theorem keeps_set_bat_is_warm (c : ti2419x_chip) (b : Bool) :
    keeps_enable_line c { c with bat_is_warm := b } := ⟨⟨rfl, rfl, rfl⟩, rfl, rfl⟩

theorem keeps_set_hot_cool (c : ti2419x_chip) (h k : Bool) :
    keeps_enable_line c { c with bat_is_hot := h, bat_is_cool := k } :=
  ⟨⟨rfl, rfl, rfl⟩, rfl, rfl⟩

/-- The chip of a driver state given field by field. -/
theorem driver_chip_mk (c : ti2419x_chip) (a1 a2 a3 a4 a5 : Int) (b1 b2 : Bool) (a6 : Int)
    (n1 n2 : Nat) : (driver.mk c a1 a2 a3 a4 a5 b1 b2 a6 n1 n2).chip = c := rfl

theorem inv_charger_eoc_warm (d : driver) (env : providers) (capacity_soc : Int)
    (hi : enable_line_inv d.chip) :
    enable_line_inv (charger_eoc_warm d env capacity_soc).chip := by
  have h1 : enable_line_inv (ti2419x_float_voltage_get d.chip).2.2 :=
    inv_of_keeps (keeps_float_voltage_get d.chip) hi
  have h2 : enable_line_inv
      (ti2419x_get_charging_status (ti2419x_float_voltage_get d.chip).2.2).2 :=
    inv_of_keeps (keeps_get_charging_status _) h1
  have h3 : enable_line_inv
      { (ti2419x_charging_disable (ti2419x_float_voltage_get d.chip).2.2 CURRENT 0).2 with
        batt_warm_full := false } :=
    inv_of_keeps (keeps_set_batt_warm_full _ _) (inv_charging_disable _ _ _ h1.1)
  have h4 : enable_line_inv
      (ti2419x_charging_disable
        { (ti2419x_get_charging_status (ti2419x_float_voltage_get d.chip).2.2).2 with
          batt_warm_full := true } CURRENT 1).2 :=
    inv_charging_disable _ _ _ (inv_of_keeps (keeps_set_batt_warm_full _ _) h2).1
  unfold charger_eoc_warm
  dsimp only
  split_ifs <;> (try rw [driver_chip_mk]) <;>
    with_reducible first | exact h1 | exact h2 | exact h3 | exact h4

theorem inv_charger_eoc (d : driver) (env : providers)
    (hi : enable_line_inv d.chip) (hno : eoc_restarts d env = false) :
    enable_line_inv (charger_eoc d env).1.chip := by
  have h1 : enable_line_inv (ti2419x_get_prop_batt_capacity d env).2.chip :=
    inv_of_keeps (keeps_get_prop_batt_capacity d env) hi
  have h2 : enable_line_inv
      (ti2419x_is_chg_plugged_in (ti2419x_get_prop_batt_capacity d env).2.chip).2 :=
    inv_of_keeps (keeps_is_chg_plugged_in _) h1
  unfold eoc_restarts at hno
  unfold charger_eoc
  dsimp only at hno ⊢
  by_cases hr : ¬ d.chip.resume_completed = true
  · rw [if_pos hr]
    exact hi
  · rw [if_neg hr] at hno ⊢
    by_cases hc : (ti2419x_is_chg_plugged_in
        (ti2419x_get_prop_batt_capacity d env).2.chip).1 = 0
    · rw [if_pos hc]
      exact h2
    · rw [if_neg hc] at hno ⊢
      by_cases hw : ¬ (ti2419x_is_chg_plugged_in
          (ti2419x_get_prop_batt_capacity d env).2.chip).2.bat_is_warm = true
      · rw [if_pos hw] at hno ⊢
        exact inv_of_keeps (keeps_check_fullcharged_state _ env hno) h2
      · rw [if_neg hw]
        exact inv_charger_eoc_warm _ env _ h2

theorem inv_jeita_apply_warm (d : driver) (bat_warm : Bool) (hi : enable_line_inv d.chip) :
    enable_line_inv (jeita_apply_warm d bat_warm).chip := by
  have hk : keeps_enable_line d.chip
      (ti2419x_set_appropriate_float_voltage
        (ti2419x_set_appropriate_ibat
          (ti2419x_set_appropriate_usb_current
            { d.chip with bat_is_warm := bat_warm }).2)) :=
    keeps_trans (keeps_trans (keeps_trans (keeps_set_bat_is_warm d.chip bat_warm)
      (keeps_set_appropriate_usb_current _)) (keeps_set_appropriate_ibat _))
      (keeps_set_appropriate_float_voltage _)
  have h1 : enable_line_inv
      { (ti2419x_charging_disable
          (ti2419x_set_appropriate_float_voltage
            (ti2419x_set_appropriate_ibat
              (ti2419x_set_appropriate_usb_current
                { d.chip with bat_is_warm := bat_warm }).2)) CURRENT 0).2 with
        batt_warm_full := false } :=
    inv_of_keeps (keeps_set_batt_warm_full _ _)
      (inv_charging_disable _ _ _ (inv_of_keeps hk hi).1)
  unfold jeita_apply_warm
  dsimp only
  split_ifs <;> (try rw [driver_chip_mk]) <;> with_reducible first | exact hi | exact h1

theorem inv_jeita_apply_hot_cool (d : driver) (bat_hot bat_cool : Bool)
    (hi : enable_line_inv d.chip) :
    enable_line_inv (jeita_apply_hot_cool d bat_hot bat_cool).chip := by
  have hl : transport_live { d.chip with bat_is_hot := bat_hot, bat_is_cool := bat_cool } :=
    (inv_of_keeps (keeps_set_hot_cool d.chip bat_hot bat_cool) hi).1
  have h1 := inv_charging_disable _ TEMP 1 hl
  have h0 := inv_charging_disable _ TEMP 0 hl
  unfold jeita_apply_hot_cool
  dsimp only
  split_ifs <;> (try rw [driver_chip_mk]) <;>
    with_reducible first | exact hi | exact h1 | exact h0

theorem inv_ti_temp_control_func (d : driver) (env : providers)
    (hi : enable_line_inv d.chip) :
    enable_line_inv (ti_temp_control_func d env).1.chip := by
  have h1 : enable_line_inv (ti2419x_otg_is_enabled d.chip).2 :=
    inv_of_keeps (keeps_otg_is_enabled d.chip) hi
  unfold ti_temp_control_func
  dsimp only
  split_ifs <;> first
    | (with_reducible exact hi)
    | (with_reducible exact h1)
    | exact inv_jeita_apply_hot_cool _ _ _ (inv_jeita_apply_warm _ _ h1)

/-! ## Hardware initialisation establishes the invariant -/

theorem float_voltage_set_rc_nonpos (chip : ti2419x_chip) (mv : Int) :
    (ti2419x_float_voltage_set chip mv).1 ≤ 0 := by
  unfold ti2419x_float_voltage_set
  dsimp only
  split_ifs
  · show -EINVAL ≤ 0
    decide
  · exact masked_write_rc_nonpos _ _ _ _

theorem recharge_threshold_set_rc_nonpos (chip : ti2419x_chip) (mv : Int) :
    (ti2419x_recharge_threshold_set chip mv).1 ≤ 0 := by
  unfold ti2419x_recharge_threshold_set
  dsimp only
  split_ifs
  · show -EINVAL ≤ 0
    decide
  · exact masked_write_rc_nonpos _ _ _ _

theorem keeps_get_charge_IC_type (chip : ti2419x_chip) (reg0 : Nat) :
    keeps_enable_line chip (get_charge_IC_type chip reg0).2 := by
  unfold get_charge_IC_type
  dsimp only
  split_ifs <;> exact keeps_read _ _ _

theorem hw_init_enable_ok (chip : ti2419x_chip) (hl : transport_live chip) :
    enable_line_inv (ti2419x_hw_init_enable chip).2 := by
  unfold ti2419x_hw_init_enable
  exact inv_charging_disable _ _ _ hl

theorem hw_init_irq_ok (chip : ti2419x_chip) (hl : transport_live chip) :
    (ti2419x_hw_init_irq chip).1 < 0 ∨ enable_line_inv (ti2419x_hw_init_irq chip).2 := by
  unfold ti2419x_hw_init_irq
  dsimp only
  split_ifs with h1 h2
  · exact Or.inl h2
  · exact Or.inr (hw_init_enable_ok _ (live_of_same_mode (same_mode_masked_write _ _ _ _) hl))
  · exact Or.inr (hw_init_enable_ok _ hl)

theorem hw_init_resume_ok (chip : ti2419x_chip) (hl : transport_live chip) :
    (ti2419x_hw_init_resume chip).1 < 0 ∨ enable_line_inv (ti2419x_hw_init_resume chip).2 := by
  unfold ti2419x_hw_init_resume
  dsimp only
  split_ifs with h1 h2
  · have := recharge_threshold_set_rc_nonpos chip chip.resume_delta_mv
    left
    show (ti2419x_recharge_threshold_set chip chip.resume_delta_mv).1 < 0
    omega
  · exact hw_init_irq_ok _
      (live_of_same_mode (keeps_recharge_threshold_set _ _).1 hl)
  · exact hw_init_irq_ok _ hl

theorem hw_init_safety_ok (chip : ti2419x_chip) (reg0 : Nat) (hl : transport_live chip) :
    (ti2419x_hw_init_safety chip reg0).1 < 0 ∨
      enable_line_inv (ti2419x_hw_init_safety chip reg0).2 := by
  unfold ti2419x_hw_init_safety
  dsimp only
  split_ifs with h1 h2 h3 h4 h5
  · exact Or.inl h3
  · exact hw_init_resume_ok _ (live_of_same_mode (same_mode_masked_write _ _ _ _) hl)
  · exact Or.inl h4
  · exact Or.inl h5
  · exact hw_init_resume_ok _ (live_of_same_mode (same_mode_masked_write _ _ _ _)
      (live_of_same_mode (same_mode_masked_write _ _ _ _) hl))
  · exact hw_init_resume_ok _ hl

theorem hw_init_iterm_ok (chip : ti2419x_chip) (rc : Int) (reg0 : Nat)
    (hl : transport_live chip) (hrc : rc ≤ 0) :
    (ti2419x_hw_init_iterm chip rc reg0).1 < 0 ∨
      enable_line_inv (ti2419x_hw_init_iterm chip rc reg0).2 := by
  unfold ti2419x_hw_init_iterm
  dsimp only
  split_ifs with h1 h2 h3
  · exact hw_init_safety_ok _ _ hl
  · left
    show rc < 0
    omega
  · exact hw_init_safety_ok _ _ (live_of_same_mode (same_mode_masked_write _ _ _ _) hl)
  · exact hw_init_safety_ok _ _ (live_of_same_mode (keeps_set_iterm _ _).1 hl)

theorem hw_init_vfloat_ok (chip : ti2419x_chip) (rc : Int) (reg0 : Nat)
    (hl : transport_live chip) (hrc : rc ≤ 0) :
    (ti2419x_hw_init_vfloat chip rc reg0).1 < 0 ∨
      enable_line_inv (ti2419x_hw_init_vfloat chip rc reg0).2 := by
  unfold ti2419x_hw_init_vfloat
  dsimp only
  split_ifs with h1 h2
  · exact Or.inl h2
  · exact hw_init_iterm_ok _ _ _ (live_of_same_mode (keeps_float_voltage_set _ _).1 hl)
      (float_voltage_set_rc_nonpos _ _)
  · exact hw_init_iterm_ok _ _ _ hl hrc

theorem hw_init_ok (chip : ti2419x_chip) (reg0 : Nat) (hl : transport_live chip) :
    (ti2419x_hw_init chip reg0).1 < 0 ∨ enable_line_inv (ti2419x_hw_init chip reg0).2 := by
  have hk1 : same_mode chip
      { (get_charge_IC_type (set_charge_wdog chip TI2419X_WDOG_160S).2 reg0).2 with
        chargeIC_type := (get_charge_IC_type (set_charge_wdog chip TI2419X_WDOG_160S).2 reg0).1 } :=
    same_mode_trans (same_mode_trans (keeps_set_charge_wdog chip _).1
      (keeps_get_charge_IC_type _ reg0).1) ⟨rfl, rfl, rfl⟩
  unfold ti2419x_hw_init
  dsimp only
  generalize ({ (get_charge_IC_type (set_charge_wdog chip TI2419X_WDOG_160S).2 reg0).2 with
        chargeIC_type := (get_charge_IC_type (set_charge_wdog chip TI2419X_WDOG_160S).2 reg0).1 }
      : ti2419x_chip) = c1 at hk1 ⊢
  have hl1 : transport_live c1 := live_of_same_mode hk1 hl
  have hl2 : transport_live (ti2419x_masked_write c1 INPUT_SOURCE_CTRL_REG EN_HIZ_MASK 0).2 :=
    live_of_same_mode (same_mode_masked_write _ _ _ _) hl1
  generalize (ti2419x_masked_write c1 INPUT_SOURCE_CTRL_REG EN_HIZ_MASK 0) = r2 at hl2 ⊢
  by_cases h2 : r2.1 < 0
  · rw [if_pos h2]
    exact Or.inl h2
  · rw [if_neg h2]
    have hl3 : transport_live (if r2.2.max_ibat > 0 then (set_ibat r2.2 r2.2.max_ibat).2
        else r2.2) := by
      split_ifs
      · exact live_of_same_mode (keeps_set_ibat _ _).1 hl2
      · exact hl2
    generalize (if r2.2.max_ibat > 0 then (set_ibat r2.2 r2.2.max_ibat).2 else r2.2) = c3
      at hl3 ⊢
    have hl4 : transport_live (ti2419x_masked_write c3 MISC_OPERA_CTRL_REG TMR2X_EN_MASK 0).2 :=
      live_of_same_mode (same_mode_masked_write _ _ _ _) hl3
    generalize (ti2419x_masked_write c3 MISC_OPERA_CTRL_REG TMR2X_EN_MASK 0).2 = c4 at hl4 ⊢
    have hl5 : transport_live (set_input_voltage c4 c4.max_input_voltage).2 :=
      live_of_same_mode (keeps_set_input_voltage _ _).1 hl4
    generalize (set_input_voltage c4 c4.max_input_voltage).2 = c5 at hl5 ⊢
    split_ifs with h6
    · exact Or.inl h6
    · exact hw_init_vfloat_ok _ _ _
        (live_of_same_mode (same_mode_masked_write _ _ _ _) hl5)
        (masked_write_rc_nonpos _ _ _ _)

/-! ## The probe and the operations -/

theorem probe_chip_live (client : i2c_client) (cfg : ti2419x_chip)
    (hbus : ∀ k, 0 ≤ client.xfer_rc k) : transport_live (probe_chip client cfg) :=
  ⟨rfl, rfl, hbus⟩

theorem keeps_determine_initial_status (chip : ti2419x_chip) :
    keeps_enable_line chip (determine_initial_status chip).2 := ⟨⟨rfl, rfl, rfl⟩, rfl, rfl⟩

/-- A successful probe on a bus without failures leaves the transport live and
the enable line in sync with the bitmask. -/
theorem probe_inv (client : i2c_client) (cfg : ti2419x_chip) (reg0 : Nat) (d0 : driver)
    (hbus : ∀ k, 0 ≤ client.xfer_rc k) (hp : ti2419x_probe client cfg reg0 = some d0) :
    enable_line_inv d0.chip := by
  have hl1 : transport_live (ti2419x_read (probe_chip client cfg) VENDOR_REG reg0).2.2 :=
    live_of_same_mode (keeps_read _ _ _).1 (probe_chip_live client cfg hbus)
  have hi := hw_init_ok _ reg0 hl1
  unfold ti2419x_probe at hp
  dsimp only at hp
  split_ifs at hp with h1 h2 h3
  rcases hi with hi | hi
  · exact absurd hi h2
  · have hd : d0 = driver_at_load (determine_initial_status
        (ti2419x_hw_init (ti2419x_read (probe_chip client cfg) VENDOR_REG reg0).2.2 reg0).2).2 :=
      (Option.some.inj hp).symm
    rw [hd]
    exact inv_of_keeps (keeps_determine_initial_status _) hi

theorem keeps_hw_status (chip : ti2419x_chip) (sys_stat fault : Nat) :
    keeps_enable_line chip
      { chip with client := { chip.client with
          regs := fun a =>
            if a = SYS_STAT_REG then sys_stat % 256
            else if a = FAULT_REG then fault % 256
            else chip.client.regs a } } :=
  ⟨⟨rfl, rfl, rfl⟩, rfl, rfl⟩

/-- Every operation other than the OTG regulator calls and a restarting EOC tick
preserves the invariant. -/
theorem apply_op_inv (d : driver) (op : driver_op) (hi : enable_line_inv d.chip)
    (hop : op_keeps_enable_line d op = true) : enable_line_inv (apply_op d op).chip := by
  cases op with
  | arbiter reason disable =>
    rw [apply_op, driver_chip_mk]
    exact inv_charging_disable _ _ _ hi.1
  | thermal_tick env =>
    rw [apply_op]
    exact inv_ti_temp_control_func d env hi
  | eoc_tick env =>
    rw [apply_op]
    have hno : eoc_restarts d env = false := by
      have hop2 : (!eoc_restarts d env) = true := hop
      cases h : eoc_restarts d env
      · rfl
      · rw [h] at hop2
        exact absurd hop2 (by decide)
    exact inv_charger_eoc d env hi hno
  | otg_enable =>
    have hop2 : false = true := hop
    exact absurd hop2 (by decide)
  | otg_disable =>
    have hop2 : false = true := hop
    exact absurd hop2 (by decide)
  | hw_status sys_stat fault =>
    rw [apply_op, driver_chip_mk]
    exact inv_of_keeps (keeps_hw_status _ _ _) hi

/-- The invariant holds after every run of operations of the invariant. -/
theorem run_ops_inv (ops : List driver_op) :
    ∀ d : driver, enable_line_inv d.chip → ops_keep_enable_line d ops = true →
      enable_line_inv (run_ops d ops).chip := by
  induction ops with
  | nil =>
    intro d hi _
    exact hi
  | cons op rest ih =>
    intro d hi hops
    rw [ops_keep_enable_line, Bool.and_eq_true] at hops
    rw [run_ops]
    exact ih _ (apply_op_inv d op hi hops.1) hops.2

/-- A write of `v` to the CHG_CFG field on a live transport. -/
theorem chg_cfg_write_live (chip : ti2419x_chip) (v : Nat) (hl : transport_live chip) :
    chg_cfg_field (ti2419x_masked_write chip PON_CFG_REG CHG_CFG_MASK v).2 =
      ((v % 256) &&& CHG_CFG_MASK) >>> CHG_CFG_SHIFT ∧
    (ti2419x_masked_write chip PON_CFG_REG CHG_CFG_MASK v).2.charging_disabled_status =
      chip.charging_disabled_status := by
  constructor
  · have hf := masked_write_field chip PON_CFG_REG CHG_CFG_MASK v CHG_CFG_SHIFT
      hl.1 hl.2.1 (hl.2.2 _) (hl.2.2 _) (by decide)
    unfold reg_field at hf
    unfold chg_cfg_field
    exact hf
  · rw [masked_write_frame]

/-- The OTG regulator calls on a live transport. -/
theorem otg_ops_live (d : driver) (hl : transport_live d.chip) :
    (chg_cfg_field (apply_op d .otg_enable).chip = 2 ∧
      (apply_op d .otg_enable).chip.charging_disabled_status =
        d.chip.charging_disabled_status) ∧
    (chg_cfg_field (apply_op d .otg_disable).chip = 1 ∧
      (apply_op d .otg_disable).chip.charging_disabled_status =
        d.chip.charging_disabled_status) := by
  constructor
  · rw [apply_op, driver_chip_mk]
    unfold ti2419x_otg_regulator_enable
    exact chg_cfg_write_live _ _ hl
  · rw [apply_op, driver_chip_mk]
    unfold ti2419x_otg_regulator_disable
    exact chg_cfg_write_live _ _ hl

/-- An EOC tick that restarts charging leaves the CHG_CFG field at 1 and the
bitmask as it was. -/
theorem eoc_restart_live (d : driver) (env : providers) (hl : transport_live d.chip)
    (hr : eoc_restarts d env = true) :
    chg_cfg_field (apply_op d (.eoc_tick env)).chip = 1 ∧
    (apply_op d (.eoc_tick env)).chip.charging_disabled_status =
      d.chip.charging_disabled_status := by
  have k1 : keeps_enable_line d.chip
      (ti2419x_is_chg_plugged_in (ti2419x_get_prop_batt_capacity d env).2.chip).2 :=
    keeps_trans (keeps_get_prop_batt_capacity d env) (keeps_is_chg_plugged_in _)
  rw [apply_op]
  unfold eoc_restarts at hr
  unfold charger_eoc
  dsimp only at hr ⊢
  by_cases hc : ¬ d.chip.resume_completed = true
  · rw [if_pos hc] at hr
    exact absurd hr (by decide)
  · rw [if_neg hc] at hr ⊢
    by_cases hp : (ti2419x_is_chg_plugged_in
        (ti2419x_get_prop_batt_capacity d env).2.chip).1 = 0
    · rw [if_pos hp] at hr
      exact absurd hr (by decide)
    · rw [if_neg hp] at hr ⊢
      by_cases hw : ¬ (ti2419x_is_chg_plugged_in
          (ti2419x_get_prop_batt_capacity d env).2.chip).2.bat_is_warm = true
      · rw [if_pos hw] at hr ⊢
        rw [check_fullcharged_state_restart _ env hr]
        have k2 := keeps_trans k1 (keeps_trans (keeps_is_chg_plugged_in _)
          (keeps_trans (keeps_get_prop_batt_present _ env) (keeps_get_charging_status _)))
        have hl2 := live_of_same_mode k2.1 hl
        have s1 := direct_charging_disable_live _ true hl2
        have s2 := direct_charging_disable_live _ false s1.1
        exact ⟨s2.2.1, by rw [s2.2.2, s1.2.2]; exact k2.2.2⟩
      · rw [if_neg hw] at hr
        exact absurd hr (by decide)

/-- The sample device probes successfully, to `sample_driver`. -/
theorem probe_sample : ti2419x_probe (quiet_client 0) sample_cfg 0 = some sample_driver := by
  have h : (ti2419x_probe (quiet_client 0) sample_cfg 0).isSome = true := by decide
  obtain ⟨d, hd⟩ := Option.isSome_iff_exists.mp h
  unfold sample_driver
  rw [hd]
  rfl

/-- Counterexample to C2 as stated. The sample device probes successfully on a
bus without failures and comes up with bitmask 0 and CHG_CFG = 1. From there:
`ti2419x_otg_regulator_enable` leaves the bitmask at 0 and CHG_CFG at 2, so the
field is not 'enabled' although no reason is asserted; after the arbiter call
that asserts USER (bitmask 1, CHG_CFG 0), an OTG enable followed by an OTG
disable leaves CHG_CFG at 1 with the bitmask still 1; and after the same
arbiter call, once the charger reports power-good and charge-done in SYS_STAT
(0x34), one run of `charger_eoc` takes the restart branch of
`check_fullcharged_state` and leaves CHG_CFG at 1 with the bitmask still 1. -/
theorem otg_and_restart_bypass_bitmask_counterexample :
    (ti2419x_probe (quiet_client 0) sample_cfg 0).isSome = true ∧
    (chg_cfg_field sample_driver.chip = 1 ∧
      sample_driver.chip.charging_disabled_status = 0) ∧
    (chg_cfg_field (run_ops sample_driver [driver_op.otg_enable]).chip = 2 ∧
      (run_ops sample_driver [driver_op.otg_enable]).chip.charging_disabled_status = 0 ∧
      ¬ enable_line_in_sync (run_ops sample_driver [driver_op.otg_enable]).chip) ∧
    (chg_cfg_field (run_ops sample_driver [driver_op.arbiter USER 1]).chip = 0 ∧
      (run_ops sample_driver [driver_op.arbiter USER 1]).chip.charging_disabled_status = 1) ∧
    (chg_cfg_field (run_ops sample_driver
        [driver_op.arbiter USER 1, driver_op.otg_enable, driver_op.otg_disable]).chip = 1 ∧
      (run_ops sample_driver
        [driver_op.arbiter USER 1, driver_op.otg_enable,
          driver_op.otg_disable]).chip.charging_disabled_status = 1 ∧
      ¬ enable_line_in_sync (run_ops sample_driver
        [driver_op.arbiter USER 1, driver_op.otg_enable, driver_op.otg_disable]).chip) ∧
    (chg_cfg_field (run_ops sample_driver
        [driver_op.arbiter USER 1, driver_op.hw_status 0x34 0,
          driver_op.eoc_tick sample_env]).chip = 1 ∧
      (run_ops sample_driver
        [driver_op.arbiter USER 1, driver_op.hw_status 0x34 0,
          driver_op.eoc_tick sample_env]).chip.charging_disabled_status = 1 ∧
      ¬ enable_line_in_sync (run_ops sample_driver
        [driver_op.arbiter USER 1, driver_op.hw_status 0x34 0,
          driver_op.eoc_tick sample_env]).chip) := by
  decide

/-- C2 (amended): the bitmask determines the charge-enable field on every
operation except the OTG regulator calls and the restart of the full-charge
check. Take a device that `ti2419x_probe` (`ti2419x_hw_init` included) brought
up successfully on a bus none of whose transactions fails, and any run of
arbiter calls, thermal ticks, status-register updates and EOC ticks in which no
EOC tick takes the restart branch of `check_fullcharged_state`. In the state
reached, the CHG_CFG field of PON_CFG_REG is 1 ('enabled') if and only if the
disable bitmask is zero. From that state, `ti2419x_otg_regulator_enable` leaves
the field at 2 and `ti2419x_otg_regulator_disable` leaves it at 1, and an EOC
tick that takes the restart branch leaves it at 1; each of the three leaves the
bitmask as it was, so the field they leave does not depend on it. -/
theorem enable_line_follows_bitmask_outside_otg_and_restart
    (client : i2c_client) (cfg : ti2419x_chip) (reg0 : Nat) (d0 : driver)
    (ops : List driver_op) (env : providers)
    (hbus : ∀ k, 0 ≤ client.xfer_rc k)
    (hprobe : ti2419x_probe client cfg reg0 = some d0)
    (hops : ops_keep_enable_line d0 ops = true) :
    enable_line_in_sync (run_ops d0 ops).chip ∧
    (chg_cfg_field (apply_op (run_ops d0 ops) driver_op.otg_enable).chip = 2 ∧
      (apply_op (run_ops d0 ops) driver_op.otg_enable).chip.charging_disabled_status =
        (run_ops d0 ops).chip.charging_disabled_status) ∧
    (chg_cfg_field (apply_op (run_ops d0 ops) driver_op.otg_disable).chip = 1 ∧
      (apply_op (run_ops d0 ops) driver_op.otg_disable).chip.charging_disabled_status =
        (run_ops d0 ops).chip.charging_disabled_status) ∧
    (eoc_restarts (run_ops d0 ops) env = true →
      chg_cfg_field (apply_op (run_ops d0 ops) (driver_op.eoc_tick env)).chip = 1 ∧
      (apply_op (run_ops d0 ops) (driver_op.eoc_tick env)).chip.charging_disabled_status =
        (run_ops d0 ops).chip.charging_disabled_status) := by
  have hi := run_ops_inv ops d0 (probe_inv client cfg reg0 d0 hbus hprobe) hops
  exact ⟨hi.2, (otg_ops_live _ hi.1).1, (otg_ops_live _ hi.1).2, eoc_restart_live _ env hi.1⟩

/-- Witness for C2 (amended): the sample device after the arbiter call that
asserts THERMAL, a thermal tick at 25 degrees, an EOC tick without a charger,
and the charger then reporting power-good and charge-done; an EOC tick from
there would take the restart branch. -/
theorem enable_line_follows_bitmask_outside_otg_and_restart_witness :
    ops_keep_enable_line sample_driver
      [driver_op.arbiter THERMAL 1, driver_op.thermal_tick sample_env,
        driver_op.eoc_tick sample_env, driver_op.hw_status 0x34 0] = true ∧
    eoc_restarts (run_ops sample_driver
      [driver_op.arbiter THERMAL 1, driver_op.thermal_tick sample_env,
        driver_op.eoc_tick sample_env, driver_op.hw_status 0x34 0]) sample_env = true ∧
    enable_line_in_sync (run_ops sample_driver
      [driver_op.arbiter THERMAL 1, driver_op.thermal_tick sample_env,
        driver_op.eoc_tick sample_env, driver_op.hw_status 0x34 0]).chip ∧
    chg_cfg_field (apply_op (run_ops sample_driver
      [driver_op.arbiter THERMAL 1, driver_op.thermal_tick sample_env,
        driver_op.eoc_tick sample_env, driver_op.hw_status 0x34 0])
      (driver_op.eoc_tick sample_env)).chip = 1 :=
  have h := enable_line_follows_bitmask_outside_otg_and_restart (quiet_client 0) sample_cfg 0
    sample_driver
    [driver_op.arbiter THERMAL 1, driver_op.thermal_tick sample_env,
      driver_op.eoc_tick sample_env, driver_op.hw_status 0x34 0] sample_env
    (fun _ => Int.le_refl 0) probe_sample (by decide)
  ⟨by decide, by decide, h.1, (h.2.2.2 (by decide)).1⟩

/-! ## Fast-charge current of the end-to-end scenario -/

/-- The IFAST_CHG field after `set_ibat` for an in-range request on a live
transport. -/
theorem set_ibat_field (chip : ti2419x_chip) (ma : Int) (hl : transport_live chip)
    (hv : 512 ≤ ma ∧ ma ≤ 3008) :
    (set_ibat chip ma).1 = 0 ∧
    (reg_field (set_ibat chip ma).2 CHG_I_CTRL_REG IFAST_CHG_MASK IFAST_CHG_SHIFT : Int)
      = (ma - 512) / 64 := by
  obtain ⟨hw, hr, hbus⟩ := hl
  obtain ⟨t, ht⟩ : ∃ t : Nat, (t : Int) = (ma - 512) / 64 :=
    ⟨((ma - 512) / 64).toNat, by omega⟩
  have hq : u8 (Int.tdiv (ma - MIN_IBAT_MA) MAX_IBAT_STEP) = t := by
    simp only [MIN_IBAT_MA, MAX_IBAT_STEP]
    rw [u8_tdiv _ _ (by omega) (by decide) (by omega), ← ht, Int.toNat_ofNat]
  have h1 := masked_write_eq chip CHG_I_CTRL_REG IFAST_CHG_MASK (t <<< IFAST_CHG_SHIFT)
    hw hr (hbus _) (hbus _)
  have hf1 := masked_write_field chip CHG_I_CTRL_REG IFAST_CHG_MASK (t <<< IFAST_CHG_SHIFT)
    IFAST_CHG_SHIFT hw hr (hbus _) (hbus _) (by decide)
  have hrc : ¬ (ti2419x_masked_write chip CHG_I_CTRL_REG IFAST_CHG_MASK
      (t <<< IFAST_CHG_SHIFT)).1 < 0 := by
    have : (ti2419x_masked_write chip CHG_I_CTRL_REG IFAST_CHG_MASK
      (t <<< IFAST_CHG_SHIFT)).1 = 0 := by rw [h1]
    omega
  have hset : set_ibat chip ma =
      (0, (ti2419x_masked_write chip CHG_I_CTRL_REG IFAST_CHG_MASK
        (t <<< IFAST_CHG_SHIFT)).2) := by
    unfold set_ibat
    have ha : ¬ ma < MIN_IBAT_MA := by simp only [MIN_IBAT_MA]; omega
    have hb : ¬ ma > MAX_IBAT_MA := by simp only [MAX_IBAT_MA]; omega
    simp only [ha, hb, if_false, hq, hrc]
  have hfield : (((t <<< IFAST_CHG_SHIFT) % 256) &&& IFAST_CHG_MASK) >>> IFAST_CHG_SHIFT = t :=
    field_6bit_at_2 t (by omega)
  rw [hset]
  simp only [hf1, hfield]
  exact ⟨trivial, ht⟩

/-- Counterexample to C11 as stated: on a bus without failures a request of
2560 mA makes `set_ibat` program the IFAST_CHG field with 32, which the driver
itself reports as 32 * 64 + 512 = 2560 mA, not 2048 mA; 2048 is the entry that
the table `ichg_current_limit`, which `set_ibat` does not consult, pairs with a
2000 mA input limit. -/
theorem set_ibat_2560_counterexample :
    (set_ibat (zeroed_chip (quiet_client 0)) 2560).1 = 0 ∧
    reg_field (set_ibat (zeroed_chip (quiet_client 0)) 2560).2 CHG_I_CTRL_REG IFAST_CHG_MASK
      IFAST_CHG_SHIFT = 32 ∧
    ibat_ma_of_field (reg_field (set_ibat (zeroed_chip (quiet_client 0)) 2560).2 CHG_I_CTRL_REG
      IFAST_CHG_MASK IFAST_CHG_SHIFT) = 2560 ∧
    ibat_ma_of_field (reg_field (set_ibat (zeroed_chip (quiet_client 0)) 2560).2 CHG_I_CTRL_REG
      IFAST_CHG_MASK IFAST_CHG_SHIFT) ≠ 2048 ∧
    ichg_current_limit.getD 6 0 = 2048 := by
  decide

/-- C11 (amended): on a succeeding transport a fast-charge current request of
2560 mA is on the 64 mA grid of `set_ibat` and is programmed unchanged: the
call returns 0, the IFAST_CHG field holds 32 and decodes to 2560 mA. The
in-range requests whose field decodes to 2048 mA are exactly those from 2048
to 2111 mA. -/
theorem set_ibat_2560_programs_2560 (chip : ti2419x_chip) (ma : Int)
    (hl : transport_live chip) :
    ((set_ibat chip 2560).1 = 0 ∧
      reg_field (set_ibat chip 2560).2 CHG_I_CTRL_REG IFAST_CHG_MASK IFAST_CHG_SHIFT = 32 ∧
      ibat_ma_of_field
        (reg_field (set_ibat chip 2560).2 CHG_I_CTRL_REG IFAST_CHG_MASK IFAST_CHG_SHIFT)
        = 2560) ∧
    (512 ≤ ma ∧ ma ≤ 3008 →
      (ibat_ma_of_field
          (reg_field (set_ibat chip ma).2 CHG_I_CTRL_REG IFAST_CHG_MASK IFAST_CHG_SHIFT)
          = 2048 ↔ 2048 ≤ ma ∧ ma ≤ 2111)) := by
  constructor
  · have h := set_ibat_field chip 2560 hl (by decide)
    have h32 : reg_field (set_ibat chip 2560).2 CHG_I_CTRL_REG IFAST_CHG_MASK IFAST_CHG_SHIFT
        = 32 := by
      have := h.2
      omega
    refine ⟨h.1, h32, ?_⟩
    rw [h32]
    decide
  · intro hv
    have h := (set_ibat_field chip ma hl hv).2
    unfold ibat_ma_of_field
    rw [h]
    simp only [MAX_IBAT_STEP]
    omega

/-- Witness for C11 (amended): the sample bus whose registers read 0xFF, and a
request of 2100 mA, which decodes to 2048 mA. -/
theorem set_ibat_2560_programs_2560_witness :
    reg_field (set_ibat (zeroed_chip (quiet_client 0xFF)) 2560).2 CHG_I_CTRL_REG IFAST_CHG_MASK
      IFAST_CHG_SHIFT = 32 ∧
    ibat_ma_of_field (reg_field (set_ibat (zeroed_chip (quiet_client 0xFF)) 2100).2
      CHG_I_CTRL_REG IFAST_CHG_MASK IFAST_CHG_SHIFT) = 2048 :=
  have h := set_ibat_2560_programs_2560 (zeroed_chip (quiet_client 0xFF)) 2100
    ⟨rfl, rfl, fun _ => le_refl _⟩
  ⟨h.1.2.1, (h.2 (by decide)).2 (by decide)⟩

/-! ## What the thermal tick leaves alone -/

theorem same_config_refl (c : ti2419x_chip) : same_config c c := rfl

theorem same_config_trans {a b c : ti2419x_chip} (h1 : same_config a b) (h2 : same_config b c) :
    same_config a c := Eq.trans h2 h1

theorem config_of_set_client (c : ti2419x_chip) (cl : i2c_client) :
    config_of { c with client := cl } = config_of c := rfl

theorem config_of_set_client_status (c : ti2419x_chip) (cl : i2c_client) (s : Int) :
    config_of { c with client := cl, charging_disabled_status := s } = config_of c := rfl

theorem config_of_set_batt_warm_full (c : ti2419x_chip) (b : Bool) :
    config_of { c with batt_warm_full := b } = config_of c := rfl

theorem config_of_set_bat_is_warm (c : ti2419x_chip) (b : Bool) :
    config_of { c with bat_is_warm := b } = { config_of c with bat_is_warm := b } := rfl

theorem config_of_set_hot_cool (c : ti2419x_chip) (h k : Bool) :
    config_of { c with bat_is_hot := h, bat_is_cool := k } =
      { config_of c with bat_is_hot := h, bat_is_cool := k } := rfl

theorem same_config_masked_write (chip : ti2419x_chip) (reg mask val : Nat) :
    same_config chip (ti2419x_masked_write chip reg mask val).2 := by
  unfold same_config
  rw [masked_write_frame]
  exact config_of_set_client chip _

theorem same_config_read (chip : ti2419x_chip) (reg val0 : Nat) :
    same_config chip (ti2419x_read chip reg val0).2.2 := by
  unfold same_config
  rcases ti2419x_read_chip chip reg val0 with h | h
  · rw [h]
  · rw [h]
    exact config_of_set_client chip _

theorem same_config_charging_disable (chip : ti2419x_chip) (reason disable : Int) :
    same_config chip (ti2419x_charging_disable chip reason disable).2 := by
  unfold same_config
  rw [charging_disable_frame]
  exact config_of_set_client_status chip _ _

theorem same_config_set_ibat (chip : ti2419x_chip) (ma : Int) :
    same_config chip (set_ibat chip ma).2 := by
  unfold set_ibat
  dsimp only
  split_ifs <;> exact same_config_masked_write _ _ _ _

theorem same_config_float_voltage_set (chip : ti2419x_chip) (mv : Int) :
    same_config chip (ti2419x_float_voltage_set chip mv).2 := by
  unfold ti2419x_float_voltage_set
  dsimp only
  split_ifs <;> first | exact same_config_refl _ | exact same_config_masked_write _ _ _ _

theorem same_config_recharge_threshold_set (chip : ti2419x_chip) (mv : Int) :
    same_config chip (ti2419x_recharge_threshold_set chip mv).2 := by
  unfold ti2419x_recharge_threshold_set
  dsimp only
  split_ifs <;> first | exact same_config_refl _ | exact same_config_masked_write _ _ _ _

theorem same_config_set_appropriate_usb_current (chip : ti2419x_chip) :
    same_config chip (ti2419x_set_appropriate_usb_current chip).2 := by
  unfold ti2419x_set_appropriate_usb_current
  dsimp only
  split_ifs <;> first | exact same_config_refl _ | exact same_config_masked_write _ _ _ _

theorem same_config_set_appropriate_ibat (chip : ti2419x_chip) :
    same_config chip (ti2419x_set_appropriate_ibat chip) := by
  unfold ti2419x_set_appropriate_ibat
  exact same_config_set_ibat _ _

theorem same_config_set_appropriate_float_voltage (chip : ti2419x_chip) :
    same_config chip (ti2419x_set_appropriate_float_voltage chip) := by
  unfold ti2419x_set_appropriate_float_voltage
  by_cases hc : chip.bat_is_cool = true
  · rw [if_pos hc]
    exact same_config_float_voltage_set _ _
  · rw [if_neg hc]
    by_cases hw : chip.bat_is_warm = true
    · rw [if_pos hw]
      exact same_config_trans (same_config_float_voltage_set _ _)
        (same_config_recharge_threshold_set _ _)
    · rw [if_neg hw]
      exact same_config_trans (same_config_float_voltage_set _ _)
        (same_config_recharge_threshold_set _ _)

theorem same_config_otg_is_enabled (chip : ti2419x_chip) :
    same_config chip (ti2419x_otg_is_enabled chip).2 := by
  unfold ti2419x_otg_is_enabled
  dsimp only
  split_ifs <;> exact same_config_read _ _ _

theorem same_config_is_chg_plugged_in (chip : ti2419x_chip) :
    same_config chip (ti2419x_is_chg_plugged_in chip).2 := by
  unfold ti2419x_is_chg_plugged_in
  dsimp only
  split_ifs <;> exact same_config_read _ _ _

theorem same_config_get_charging_status (chip : ti2419x_chip) :
    same_config chip (ti2419x_get_charging_status chip).2 := by
  unfold ti2419x_get_charging_status
  dsimp only
  split_ifs <;> exact same_config_read _ _ _

theorem same_config_float_voltage_get (chip : ti2419x_chip) :
    same_config chip (ti2419x_float_voltage_get chip).2.2 := by
  unfold ti2419x_float_voltage_get
  dsimp only
  split_ifs <;> exact same_config_read _ _ _

/-! Fields that `config_of` keeps. -/

theorem same_config_hot {c c' : ti2419x_chip} (h : same_config c c') :
    c'.bat_is_hot = c.bat_is_hot :=
  have h2 : (config_of c').bat_is_hot = (config_of c).bat_is_hot := congrArg ti2419x_chip.bat_is_hot h
  h2

theorem same_config_warm {c c' : ti2419x_chip} (h : same_config c c') :
    c'.bat_is_warm = c.bat_is_warm :=
  have h2 : (config_of c').bat_is_warm = (config_of c).bat_is_warm := congrArg ti2419x_chip.bat_is_warm h
  h2

theorem same_config_cool {c c' : ti2419x_chip} (h : same_config c c') :
    c'.bat_is_cool = c.bat_is_cool :=
  have h2 : (config_of c').bat_is_cool = (config_of c).bat_is_cool := congrArg ti2419x_chip.bat_is_cool h
  h2

theorem same_config_cool_decidegc {c c' : ti2419x_chip} (h : same_config c c') :
    c'.cool_bat_decidegc = c.cool_bat_decidegc :=
  have h2 : (config_of c').cool_bat_decidegc = (config_of c).cool_bat_decidegc := congrArg ti2419x_chip.cool_bat_decidegc h
  h2

theorem same_config_warm_decidegc {c c' : ti2419x_chip} (h : same_config c c') :
    c'.warm_bat_decidegc = c.warm_bat_decidegc :=
  have h2 : (config_of c').warm_bat_decidegc = (config_of c).warm_bat_decidegc := congrArg ti2419x_chip.warm_bat_decidegc h
  h2

theorem same_config_resume_completed {c c' : ti2419x_chip} (h : same_config c c') :
    c'.resume_completed = c.resume_completed :=
  have h2 : (config_of c').resume_completed = (config_of c).resume_completed := congrArg ti2419x_chip.resume_completed h
  h2

/-! ## One run of the thermal tick -/

theorem jeita_transition_config_of (c : ti2419x_chip) (s l h : Int) :
    jeita_transition c s l h = jeita_transition (config_of c) s l h := rfl

theorem jeita_transition_same_config {c c' : ti2419x_chip} (hc : same_config c c')
    (s l h : Int) : jeita_transition c' s l h = jeita_transition c s l h := by
  rw [jeita_transition_config_of c', jeita_transition_config_of c, hc]

/-- The tick before its two blocks: what it does when it gets past the early
returns and the class is not the normal one. -/
theorem thermal_tick_eq (d : driver) (env : providers) (h1 : thermal_tick_runs d = true)
    (h2 : thermal_class d env ≠ TI_TM_NORMAL_STATE) :
    (ti_temp_control_func d env).1 =
      jeita_apply_hot_cool
        (jeita_apply_warm
          { d with
            chip := (ti2419x_otg_is_enabled d.chip).2,
            low_temp_threshold :=
              (jeita_transition (ti2419x_otg_is_enabled d.chip).2 (thermal_class d env)
                d.low_temp_threshold d.high_temp_threshold).2.1,
            high_temp_threshold :=
              (jeita_transition (ti2419x_otg_is_enabled d.chip).2 (thermal_class d env)
                d.low_temp_threshold d.high_temp_threshold).2.2 }
          (jeita_transition (ti2419x_otg_is_enabled d.chip).2 (thermal_class d env)
            d.low_temp_threshold d.high_temp_threshold).1.2.1)
        (jeita_transition (ti2419x_otg_is_enabled d.chip).2 (thermal_class d env)
          d.low_temp_threshold d.high_temp_threshold).1.1
        (jeita_transition (ti2419x_otg_is_enabled d.chip).2 (thermal_class d env)
          d.low_temp_threshold d.high_temp_threshold).1.2.2 := by
  unfold thermal_tick_runs at h1
  rw [Bool.and_eq_true, decide_eq_true_iff] at h1
  unfold thermal_class clamp_temp at h2
  unfold ti_temp_control_func thermal_class clamp_temp
  dsimp only at h2 ⊢
  rw [if_neg (by simp [h1.1]), if_neg h1.2, if_neg h2]

/-- The warm block sets `bat_is_warm` to the target and leaves the rest of the
configuration alone. -/
theorem config_of_jeita_apply_warm (d : driver) (bw : Bool) :
    config_of (jeita_apply_warm d bw).chip = { config_of d.chip with bat_is_warm := bw } := by
  have hk : same_config { d.chip with bat_is_warm := bw }
      (ti2419x_charging_disable
        (ti2419x_set_appropriate_float_voltage
          (ti2419x_set_appropriate_ibat
            (ti2419x_set_appropriate_usb_current
              { d.chip with bat_is_warm := bw }).2)) CURRENT 0).2 :=
    same_config_trans (same_config_trans (same_config_trans
      (same_config_set_appropriate_usb_current _) (same_config_set_appropriate_ibat _))
      (same_config_set_appropriate_float_voltage _)) (same_config_charging_disable _ _ _)
  have h1 : config_of
      { (ti2419x_charging_disable
          (ti2419x_set_appropriate_float_voltage
            (ti2419x_set_appropriate_ibat
              (ti2419x_set_appropriate_usb_current
                { d.chip with bat_is_warm := bw }).2)) CURRENT 0).2 with
        batt_warm_full := false } = { config_of d.chip with bat_is_warm := bw } :=
    (config_of_set_batt_warm_full _ false).trans (hk.trans (config_of_set_bat_is_warm d.chip bw))
  unfold jeita_apply_warm
  by_cases hx : xor d.chip.bat_is_warm bw = true
  · rw [if_pos hx]
    dsimp only
    rw [driver_chip_mk]
    with_reducible exact h1
  · rw [if_neg hx]
    have e : d.chip.bat_is_warm = bw := by
      cases hb : d.chip.bat_is_warm <;> cases bw <;> simp_all
    subst e
    rfl

theorem jeita_apply_warm_thresholds (d : driver) (bw : Bool) :
    (jeita_apply_warm d bw).low_temp_threshold = d.low_temp_threshold ∧
    (jeita_apply_warm d bw).high_temp_threshold = d.high_temp_threshold := by
  unfold jeita_apply_warm
  split_ifs <;> exact ⟨rfl, rfl⟩

/-- The hot/cool block sets `bat_is_hot` and `bat_is_cool` to the targets and
leaves the rest of the configuration alone. -/
theorem config_of_jeita_apply_hot_cool (d : driver) (bh bc : Bool) :
    config_of (jeita_apply_hot_cool d bh bc).chip =
      { config_of d.chip with bat_is_hot := bh, bat_is_cool := bc } := by
  have h1 : config_of (ti2419x_charging_disable
      { d.chip with bat_is_hot := bh, bat_is_cool := bc } TEMP 1).2 =
      { config_of d.chip with bat_is_hot := bh, bat_is_cool := bc } :=
    (same_config_charging_disable _ _ _).trans (config_of_set_hot_cool d.chip bh bc)
  have h0 : config_of (ti2419x_charging_disable
      { d.chip with bat_is_hot := bh, bat_is_cool := bc } TEMP 0).2 =
      { config_of d.chip with bat_is_hot := bh, bat_is_cool := bc } :=
    (same_config_charging_disable _ _ _).trans (config_of_set_hot_cool d.chip bh bc)
  unfold jeita_apply_hot_cool
  by_cases hx : xor d.chip.bat_is_hot bh = true ∨ xor d.chip.bat_is_cool bc = true
  · rw [if_pos hx]
    dsimp only
    rw [driver_chip_mk]
    split_ifs
    · with_reducible exact h1
    · with_reducible exact h0
  · rw [if_neg hx]
    have e1 : d.chip.bat_is_hot = bh := by
      cases hb : d.chip.bat_is_hot <;> cases bh <;> simp_all
    have e2 : d.chip.bat_is_cool = bc := by
      cases hb : d.chip.bat_is_cool <;> cases bc <;> simp_all
    subst e1
    subst e2
    rfl

theorem jeita_apply_hot_cool_thresholds (d : driver) (bh bc : Bool) :
    (jeita_apply_hot_cool d bh bc).low_temp_threshold = d.low_temp_threshold ∧
    (jeita_apply_hot_cool d bh bc).high_temp_threshold = d.high_temp_threshold := by
  unfold jeita_apply_hot_cool
  split_ifs <;> exact ⟨rfl, rfl⟩

/-- A tick that gets past the early returns with a class other than the normal
one leaves the flags and the thresholds that the transition table gives, and
the rest of the configuration as it was. -/
theorem thermal_tick_taken (d : driver) (env : providers) (h1 : thermal_tick_runs d = true)
    (h2 : thermal_class d env ≠ TI_TM_NORMAL_STATE) :
    config_of (ti_temp_control_func d env).1.chip =
      { config_of d.chip with
        bat_is_hot := (jeita_transition d.chip (thermal_class d env)
          d.low_temp_threshold d.high_temp_threshold).1.1,
        bat_is_warm := (jeita_transition d.chip (thermal_class d env)
          d.low_temp_threshold d.high_temp_threshold).1.2.1,
        bat_is_cool := (jeita_transition d.chip (thermal_class d env)
          d.low_temp_threshold d.high_temp_threshold).1.2.2 } ∧
    (ti_temp_control_func d env).1.low_temp_threshold =
      (jeita_transition d.chip (thermal_class d env)
        d.low_temp_threshold d.high_temp_threshold).2.1 ∧
    (ti_temp_control_func d env).1.high_temp_threshold =
      (jeita_transition d.chip (thermal_class d env)
        d.low_temp_threshold d.high_temp_threshold).2.2 := by
  rw [thermal_tick_eq d env h1 h2,
    jeita_transition_same_config (same_config_otg_is_enabled d.chip)]
  generalize jeita_transition d.chip (thermal_class d env)
    d.low_temp_threshold d.high_temp_threshold = T
  refine ⟨?_, ?_, ?_⟩
  · rw [config_of_jeita_apply_hot_cool, config_of_jeita_apply_warm]
    have hc : config_of (ti2419x_otg_is_enabled d.chip).2 = config_of d.chip :=
      same_config_otg_is_enabled d.chip
    dsimp only
    rw [hc]
  · rw [(jeita_apply_hot_cool_thresholds _ _ _).1, (jeita_apply_warm_thresholds _ _).1]
  · rw [(jeita_apply_hot_cool_thresholds _ _ _).2, (jeita_apply_warm_thresholds _ _).2]

/-- A tick that returns early, or finds the normal class, leaves the
configuration and the thresholds as they were. -/
theorem thermal_tick_skipped (d : driver) (env : providers)
    (h : thermal_tick_runs d = false ∨ thermal_class d env = TI_TM_NORMAL_STATE) :
    same_config d.chip (ti_temp_control_func d env).1.chip ∧
    (ti_temp_control_func d env).1.low_temp_threshold = d.low_temp_threshold ∧
    (ti_temp_control_func d env).1.high_temp_threshold = d.high_temp_threshold := by
  have hotg : same_config d.chip (ti2419x_otg_is_enabled d.chip).2 :=
    same_config_otg_is_enabled d.chip
  unfold thermal_tick_runs thermal_class clamp_temp at h
  unfold ti_temp_control_func
  dsimp only at h ⊢
  by_cases hr : ¬ d.chip.resume_completed = true
  · rw [if_pos hr]
    exact ⟨same_config_refl _, rfl, rfl⟩
  · rw [if_neg hr]
    by_cases ho : (ti2419x_otg_is_enabled d.chip).1 = 1
    · rw [if_pos ho]
      exact ⟨hotg, rfl, rfl⟩
    · rw [if_neg ho]
      have hn : (if (if (if ti2419x_get_prop_batt_temp env > MAX_TEMP then MAX_TEMP
            else ti2419x_get_prop_batt_temp env) < MIN_TEMP then MIN_TEMP
          else if ti2419x_get_prop_batt_temp env > MAX_TEMP then MAX_TEMP
            else ti2419x_get_prop_batt_temp env) > d.high_temp_threshold
          then TI_TM_HIGHER_STATE
          else if (if (if ti2419x_get_prop_batt_temp env > MAX_TEMP then MAX_TEMP
              else ti2419x_get_prop_batt_temp env) < MIN_TEMP then MIN_TEMP
            else if ti2419x_get_prop_batt_temp env > MAX_TEMP then MAX_TEMP
              else ti2419x_get_prop_batt_temp env) < d.low_temp_threshold
            then TI_TM_LOWER_STATE else TI_TM_NORMAL_STATE) = TI_TM_NORMAL_STATE := by
        rcases h with h | h
        · rw [Bool.and_eq_false_iff] at h
          rcases h with h | h
          · exact absurd (by simpa using h) hr
          · rw [decide_eq_false_iff_not] at h
            exact absurd (not_not.mp h) ho
        · exact h
      rw [if_pos hn]
      exact ⟨hotg, rfl, rfl⟩

/-! ## The thermal flags -/

theorem flags_of_config_eq {c X : ti2419x_chip} (h : config_of c = X) :
    c.bat_is_hot = X.bat_is_hot ∧ c.bat_is_warm = X.bat_is_warm ∧
      c.bat_is_cool = X.bat_is_cool := by
  subst h
  exact ⟨rfl, rfl, rfl⟩

/-- Every row of the transition table sets at most one target flag. -/
theorem jeita_transition_at_most_one (c : ti2419x_chip) (s l h : Int) :
    ¬ ((jeita_transition c s l h).1.1 = true ∧ (jeita_transition c s l h).1.2.1 = true) ∧
    ¬ ((jeita_transition c s l h).1.1 = true ∧ (jeita_transition c s l h).1.2.2 = true) ∧
    ¬ ((jeita_transition c s l h).1.2.1 = true ∧ (jeita_transition c s l h).1.2.2 = true) := by
  unfold jeita_transition
  split_ifs <;> simp

/-- The flags after a tick: those before it, or the targets of the table. -/
theorem thermal_tick_flags (d : driver) (env : providers) :
    ((ti_temp_control_func d env).1.chip.bat_is_hot = d.chip.bat_is_hot ∧
      (ti_temp_control_func d env).1.chip.bat_is_warm = d.chip.bat_is_warm ∧
      (ti_temp_control_func d env).1.chip.bat_is_cool = d.chip.bat_is_cool) ∨
    ((ti_temp_control_func d env).1.chip.bat_is_hot =
        (jeita_transition d.chip (thermal_class d env)
          d.low_temp_threshold d.high_temp_threshold).1.1 ∧
      (ti_temp_control_func d env).1.chip.bat_is_warm =
        (jeita_transition d.chip (thermal_class d env)
          d.low_temp_threshold d.high_temp_threshold).1.2.1 ∧
      (ti_temp_control_func d env).1.chip.bat_is_cool =
        (jeita_transition d.chip (thermal_class d env)
          d.low_temp_threshold d.high_temp_threshold).1.2.2) := by
  by_cases h1 : thermal_tick_runs d = true
  · by_cases h2 : thermal_class d env = TI_TM_NORMAL_STATE
    · have h := (thermal_tick_skipped d env (Or.inr h2)).1
      exact Or.inl ⟨same_config_hot h, same_config_warm h, same_config_cool h⟩
    · exact Or.inr (flags_of_config_eq (thermal_tick_taken d env h1 h2).1)
  · have h := (thermal_tick_skipped d env (Or.inl (by simpa using h1))).1
    exact Or.inl ⟨same_config_hot h, same_config_warm h, same_config_cool h⟩

/-- C12: `determine_initial_status` leaves none of the flags `bat_is_hot`,
`bat_is_warm`, `bat_is_cool` set, so at most one of them is true in the initial
state; and for every driver state (flags, thresholds and configuration
included) and every temperature reading, one run of `ti_temp_control_func`
from a state with at most one flag set ends in a state with at most one flag
set. -/
theorem thermal_tick_keeps_at_most_one_flag (d : driver) (env : providers)
    (h : at_most_one_thermal_flag d.chip) :
    at_most_one_thermal_flag (determine_initial_status d.chip).2 ∧
    ((determine_initial_status d.chip).2.bat_is_hot = false ∧
      (determine_initial_status d.chip).2.bat_is_warm = false ∧
      (determine_initial_status d.chip).2.bat_is_cool = false) ∧
    at_most_one_thermal_flag (ti_temp_control_func d env).1.chip := by
  refine ⟨?_, ⟨rfl, rfl, rfl⟩, ?_⟩
  · unfold at_most_one_thermal_flag determine_initial_status
    simp
  · unfold at_most_one_thermal_flag at h ⊢
    rcases thermal_tick_flags d env with ⟨e1, e2, e3⟩ | ⟨e1, e2, e3⟩
    · rw [e1, e2, e3]
      exact h
    · rw [e1, e2, e3]
      exact jeita_transition_at_most_one _ _ _ _

/-- Witness for C12: the sample device after its probe, on a reading of 25
degrees. -/
theorem thermal_tick_keeps_at_most_one_flag_witness :
    at_most_one_thermal_flag sample_driver.chip ∧
    at_most_one_thermal_flag (ti_temp_control_func sample_driver sample_env).1.chip :=
  ⟨by decide,
    (thermal_tick_keeps_at_most_one_flag sample_driver sample_env (by decide)).2.2⟩

/-! ## Properties of the device context that the thermal tick preserves -/

/-- The warm block preserves every property of the device context that functions
keeping the enable line and the arbiter preserve. -/
theorem jeita_apply_warm_preserves (P : ti2419x_chip → Prop)
    (hk : ∀ c c', keeps_enable_line c c' → P c → P c')
    (ha : ∀ c, P c → P (ti2419x_charging_disable c CURRENT 0).2)
    (d : driver) (bat_warm : Bool) (hi : P d.chip) :
    P (jeita_apply_warm d bat_warm).chip := by
  have hkeep : keeps_enable_line d.chip
      (ti2419x_set_appropriate_float_voltage
        (ti2419x_set_appropriate_ibat
          (ti2419x_set_appropriate_usb_current
            { d.chip with bat_is_warm := bat_warm }).2)) :=
    keeps_trans (keeps_trans (keeps_trans (keeps_set_bat_is_warm d.chip bat_warm)
      (keeps_set_appropriate_usb_current _)) (keeps_set_appropriate_ibat _))
      (keeps_set_appropriate_float_voltage _)
  have h1 : P
      { (ti2419x_charging_disable
          (ti2419x_set_appropriate_float_voltage
            (ti2419x_set_appropriate_ibat
              (ti2419x_set_appropriate_usb_current
                { d.chip with bat_is_warm := bat_warm }).2)) CURRENT 0).2 with
        batt_warm_full := false } :=
    hk _ _ (keeps_set_batt_warm_full _ _) (ha _ (hk _ _ hkeep hi))
  unfold jeita_apply_warm
  dsimp only
  split_ifs <;> (try rw [driver_chip_mk]) <;> with_reducible first | exact hi | exact h1

/-- The hot/cool block preserves every such property. -/
theorem jeita_apply_hot_cool_preserves (P : ti2419x_chip → Prop)
    (hk : ∀ c c', keeps_enable_line c c' → P c → P c')
    (ha : ∀ c v, P c → P (ti2419x_charging_disable c TEMP v).2)
    (d : driver) (bat_hot bat_cool : Bool) (hi : P d.chip) :
    P (jeita_apply_hot_cool d bat_hot bat_cool).chip := by
  have hl : P { d.chip with bat_is_hot := bat_hot, bat_is_cool := bat_cool } :=
    hk _ _ (keeps_set_hot_cool d.chip bat_hot bat_cool) hi
  have h1 := ha _ 1 hl
  have h0 := ha _ 0 hl
  unfold jeita_apply_hot_cool
  dsimp only
  split_ifs <;> (try rw [driver_chip_mk]) <;>
    with_reducible first | exact hi | exact h1 | exact h0

/-- The thermal tick preserves every such property. -/
theorem ti_temp_control_func_preserves (P : ti2419x_chip → Prop)
    (hk : ∀ c c', keeps_enable_line c c' → P c → P c')
    (ha : ∀ c r v, P c → P (ti2419x_charging_disable c r v).2)
    (d : driver) (env : providers) (hi : P d.chip) :
    P (ti_temp_control_func d env).1.chip := by
  have h1 : P (ti2419x_otg_is_enabled d.chip).2 := hk _ _ (keeps_otg_is_enabled d.chip) hi
  unfold ti_temp_control_func
  dsimp only
  split_ifs <;> first
    | (with_reducible exact hi)
    | (with_reducible exact h1)
    | exact jeita_apply_hot_cool_preserves P hk (fun c v => ha c TEMP v) _ _ _
        (jeita_apply_warm_preserves P hk (fun c => ha c CURRENT 0) _ _ h1)

/-! ## The OTG bit -/

theorem otg_clear_of_keeps {c c' : ti2419x_chip} (h : keeps_enable_line c c')
    (hc : otg_bit_clear c) : otg_bit_clear c' := by
  unfold otg_bit_clear at hc ⊢
  rw [h.2.1]
  exact hc

/-- A write of 0 or of the enable encoding to the CHG_CFG field leaves the OTG
bit clear. -/
theorem otg_clear_chg_cfg_write (chip : ti2419x_chip) (v : Nat)
    (hv : v = 0 ∨ v = 1 <<< CHG_CFG_SHIFT) (hc : otg_bit_clear chip) :
    otg_bit_clear (ti2419x_masked_write chip PON_CFG_REG CHG_CFG_MASK v).2 := by
  have hkeep : ∀ cl : i2c_client, cl.regs PON_CFG_REG = chip.client.regs PON_CFG_REG →
      otg_bit_clear { chip with client := cl } := by
    intro cl hcl
    unfold otg_bit_clear at hc ⊢
    show ((cl.regs PON_CFG_REG % 256) &&& CHG_CFG_MASK) &&& (2 <<< CHG_CFG_SHIFT) = 0
    rw [hcl]
    exact hc
  rcases masked_write_cases chip PON_CFG_REG CHG_CFG_MASK v with h | ⟨e, _, h⟩ | ⟨e, _, h⟩ | h
  · rw [h]
    exact hc
  · rw [h]
    exact hkeep _ rfl
  · rw [h]
    exact hkeep _ rfl
  · rw [h]
    unfold otg_bit_clear
    show (((if PON_CFG_REG = PON_CFG_REG then rmw (chip.client.regs PON_CFG_REG) CHG_CFG_MASK v
      else chip.client.regs PON_CFG_REG) % 256) &&& CHG_CFG_MASK) &&& (2 <<< CHG_CFG_SHIFT) = 0
    rw [if_pos rfl, Nat.mod_eq_of_lt (rmw_lt _ _ _)]
    have hm := rmw_and_mask (chip.client.regs PON_CFG_REG) CHG_CFG_MASK v
    have hmask : CHG_CFG_MASK % 256 = CHG_CFG_MASK := by decide
    rw [hmask] at hm
    rw [hm]
    rcases hv with hv | hv <;> subst hv <;> decide

theorem otg_clear_charging_disable (chip : ti2419x_chip) (reason disable : Int)
    (hc : otg_bit_clear chip) :
    otg_bit_clear (ti2419x_charging_disable chip reason disable).2 := by
  rw [charging_disable_def]
  have hv : (if arbiter_mask chip.charging_disabled_status reason disable ≠ 0 then 0
      else 1 <<< CHG_CFG_SHIFT) = 0 ∨
      (if arbiter_mask chip.charging_disabled_status reason disable ≠ 0 then 0
      else 1 <<< CHG_CFG_SHIFT) = 1 <<< CHG_CFG_SHIFT := by
    split_ifs
    · exact Or.inl rfl
    · exact Or.inr rfl
  generalize (if arbiter_mask chip.charging_disabled_status reason disable ≠ 0 then 0
      else 1 <<< CHG_CFG_SHIFT) = v at hv
  have hm := otg_clear_chg_cfg_write chip v hv hc
  split_ifs
  · exact hm
  · exact hm

/-- With the OTG bit clear `ti2419x_otg_is_enabled` does not return 1. -/
theorem otg_not_enabled_of_clear (chip : ti2419x_chip) (hc : otg_bit_clear chip) :
    (ti2419x_otg_is_enabled chip).1 ≠ 1 := by
  unfold otg_bit_clear at hc
  unfold ti2419x_otg_is_enabled ti2419x_read
  by_cases hs : chip.skip_reads ≠ 0
  · simp [hs]
  · rw [if_neg hs]
    by_cases h0 : chip.client.xfer_rc (chip.client.n_reads + chip.client.n_writes) < 0
    · rw [read_fail chip _ h0]
      simp only [Option.getD_none]
      have hne : chip.client.xfer_rc (chip.client.n_reads + chip.client.n_writes) ≠ 0 := by omega
      rw [if_pos hne]
      show chip.client.xfer_rc (chip.client.n_reads + chip.client.n_writes) ≠ 1
      omega
    · rw [read_ok chip _ (not_lt.mp h0)]
      simp only [Option.getD_some, ne_eq, not_true_eq_false, if_false, hc]
      decide

theorem otg_clear_thermal_tick (d : driver) (env : providers) (hc : otg_bit_clear d.chip) :
    otg_bit_clear (ti_temp_control_func d env).1.chip :=
  ti_temp_control_func_preserves otg_bit_clear (fun _ _ h => otg_clear_of_keeps h)
    (fun c r v => otg_clear_charging_disable c r v) d env hc

theorem thermal_tick_runs_of_clear (d : driver) (hr : d.chip.resume_completed = true)
    (hc : otg_bit_clear d.chip) : thermal_tick_runs d = true := by
  unfold thermal_tick_runs
  rw [Bool.and_eq_true, decide_eq_true_iff]
  exact ⟨hr, otg_not_enabled_of_clear d.chip hc⟩

/-! ## The temperature sweep -/

theorem clamp_temp_bounds (t : Int) : MIN_TEMP ≤ clamp_temp t ∧ clamp_temp t ≤ MAX_TEMP := by
  unfold clamp_temp MIN_TEMP MAX_TEMP
  dsimp only
  split_ifs <;> omega

theorem clamp_temp_mono {t t' : Int} (h : t ≤ t') : clamp_temp t ≤ clamp_temp t' := by
  unfold clamp_temp MIN_TEMP MAX_TEMP
  dsimp only
  split_ifs <;> omega

theorem clamp_temp_le_self_of_lt (t b : Int) (h : t < b) (hb : MIN_TEMP < b) :
    clamp_temp t < b := by
  unfold clamp_temp MIN_TEMP MAX_TEMP at *
  dsimp only
  split_ifs <;> omega

theorem thermal_class_higher (d : driver) (env : providers)
    (h : clamp_temp (ti2419x_get_prop_batt_temp env) > d.high_temp_threshold) :
    thermal_class d env = TI_TM_HIGHER_STATE := by
  unfold thermal_class
  dsimp only
  rw [if_pos h]

theorem thermal_class_lower (d : driver) (env : providers)
    (h : ¬ clamp_temp (ti2419x_get_prop_batt_temp env) > d.high_temp_threshold)
    (hl : clamp_temp (ti2419x_get_prop_batt_temp env) < d.low_temp_threshold) :
    thermal_class d env = TI_TM_LOWER_STATE := by
  unfold thermal_class
  dsimp only
  rw [if_neg h, if_pos hl]

theorem thermal_class_normal (d : driver) (env : providers)
    (h : ¬ clamp_temp (ti2419x_get_prop_batt_temp env) > d.high_temp_threshold)
    (hl : ¬ clamp_temp (ti2419x_get_prop_batt_temp env) < d.low_temp_threshold) :
    thermal_class d env = TI_TM_NORMAL_STATE := by
  unfold thermal_class
  dsimp only
  rw [if_neg h, if_neg hl]

theorem jeita_transition_normal_to_cool (c : ti2419x_chip) (l h : Int)
    (hf : c.bat_is_hot = false ∧ c.bat_is_warm = false ∧ c.bat_is_cool = false) :
    jeita_transition c TI_TM_LOWER_STATE l h =
      ((false, false, true), MIN_TEMP, c.cool_bat_decidegc + HYSTERISIS_DECIDEGC) := by
  unfold jeita_transition
  rw [if_neg (by decide), if_pos hf]

theorem jeita_transition_cool_to_normal (c : ti2419x_chip) (l h : Int)
    (hf : c.bat_is_hot = false ∧ c.bat_is_warm = false ∧ c.bat_is_cool = true) :
    jeita_transition c TI_TM_HIGHER_STATE l h =
      ((false, false, false), c.cool_bat_decidegc, c.warm_bat_decidegc) := by
  unfold jeita_transition
  rw [if_pos rfl, if_pos hf]

theorem jeita_transition_normal_to_warm (c : ti2419x_chip) (l h : Int)
    (hf : c.bat_is_hot = false ∧ c.bat_is_warm = false ∧ c.bat_is_cool = false) :
    jeita_transition c TI_TM_HIGHER_STATE l h =
      ((false, true, false), c.warm_bat_decidegc - HYSTERISIS_DECIDEGC,
        ZTE_HOT_TEMP_DEFAULT) := by
  unfold jeita_transition
  rw [if_pos rfl, if_neg (by rw [hf.2.2]; simp), if_pos hf]

theorem jeita_transition_warm_to_hot (c : ti2419x_chip) (l h : Int)
    (hf : c.bat_is_hot = false ∧ c.bat_is_warm = true ∧ c.bat_is_cool = false) :
    jeita_transition c TI_TM_HIGHER_STATE l h =
      ((true, false, false), ZTE_HOT_TEMP_DEFAULT - HYSTERISIS_DECIDEGC, MAX_TEMP) := by
  unfold jeita_transition
  rw [if_pos rfl, if_neg (by rw [hf.2.1]; simp), if_neg (by rw [hf.2.1]; simp), if_pos hf]

theorem fields_of_config_eq {c X : ti2419x_chip} (h : config_of c = X) :
    c.bat_is_hot = X.bat_is_hot ∧ c.bat_is_warm = X.bat_is_warm ∧
      c.bat_is_cool = X.bat_is_cool ∧ c.cool_bat_decidegc = X.cool_bat_decidegc ∧
      c.warm_bat_decidegc = X.warm_bat_decidegc ∧ c.resume_completed = X.resume_completed := by
  subst h
  exact ⟨rfl, rfl, rfl, rfl, rfl, rfl⟩

/-- The state after a tick, read off its configuration. -/
theorem thermal_tick_result (d : driver) (env : providers) (bh bw bc : Bool) (l h : Int)
    (h1 : thermal_tick_runs d = true) (h2 : thermal_class d env ≠ TI_TM_NORMAL_STATE)
    (hT : jeita_transition d.chip (thermal_class d env) d.low_temp_threshold
      d.high_temp_threshold = ((bh, bw, bc), l, h)) :
    (ti_temp_control_func d env).1.chip.bat_is_hot = bh ∧
    (ti_temp_control_func d env).1.chip.bat_is_warm = bw ∧
    (ti_temp_control_func d env).1.chip.bat_is_cool = bc ∧
    (ti_temp_control_func d env).1.low_temp_threshold = l ∧
    (ti_temp_control_func d env).1.high_temp_threshold = h ∧
    (ti_temp_control_func d env).1.chip.cool_bat_decidegc = d.chip.cool_bat_decidegc ∧
    (ti_temp_control_func d env).1.chip.warm_bat_decidegc = d.chip.warm_bat_decidegc ∧
    (ti_temp_control_func d env).1.chip.resume_completed = d.chip.resume_completed := by
  have ht := thermal_tick_taken d env h1 h2
  rw [hT] at ht
  obtain ⟨hc, hl, hh⟩ := ht
  have hf := fields_of_config_eq hc
  exact ⟨hf.1, hf.2.1, hf.2.2.1, hl, hh, hf.2.2.2.1, hf.2.2.2.2.1, hf.2.2.2.2.2⟩

/-- The state after a tick that changes nothing. -/
theorem thermal_tick_unchanged (d : driver) (env : providers)
    (h : thermal_tick_runs d = false ∨ thermal_class d env = TI_TM_NORMAL_STATE) :
    (ti_temp_control_func d env).1.chip.bat_is_hot = d.chip.bat_is_hot ∧
    (ti_temp_control_func d env).1.chip.bat_is_warm = d.chip.bat_is_warm ∧
    (ti_temp_control_func d env).1.chip.bat_is_cool = d.chip.bat_is_cool ∧
    (ti_temp_control_func d env).1.low_temp_threshold = d.low_temp_threshold ∧
    (ti_temp_control_func d env).1.high_temp_threshold = d.high_temp_threshold ∧
    (ti_temp_control_func d env).1.chip.cool_bat_decidegc = d.chip.cool_bat_decidegc ∧
    (ti_temp_control_func d env).1.chip.warm_bat_decidegc = d.chip.warm_bat_decidegc ∧
    (ti_temp_control_func d env).1.chip.resume_completed = d.chip.resume_completed := by
  obtain ⟨hc, hl, hh⟩ := thermal_tick_skipped d env h
  exact ⟨same_config_hot hc, same_config_warm hc, same_config_cool hc, hl, hh,
    same_config_cool_decidegc hc, same_config_warm_decidegc hc, same_config_resume_completed hc⟩

theorem rank_of_flags (c : ti2419x_chip) (h w k : Bool) (e1 : c.bat_is_hot = h)
    (e2 : c.bat_is_warm = w) (e3 : c.bat_is_cool = k) :
    thermal_rank c = if k then 0 else if h then 3 else if w then 2 else 1 := by
  subst e1
  subst e2
  subst e3
  rfl

/-- One tick of a sweep: from a state whose thresholds fit it, on a reading not
below the previous one, the tick follows the reference walk and the thresholds
fit the new state. -/
theorem thermal_sweep_step (d : driver) (env : providers) (t : Int)
    (hinv : thermal_sweep_inv d t) (hrun : thermal_tick_runs d = true)
    (hle : t ≤ ti2419x_get_prop_batt_temp env) :
    thermal_sweep_inv (ti_temp_control_func d env).1 (ti2419x_get_prop_batt_temp env) ∧
    thermal_rank (ti_temp_control_func d env).1.chip =
      staircase_step d.chip.cool_bat_decidegc d.chip.warm_bat_decidegc (thermal_rank d.chip)
        (clamp_temp (ti2419x_get_prop_batt_temp env)) ∧
    (ti_temp_control_func d env).1.chip.cool_bat_decidegc = d.chip.cool_bat_decidegc ∧
    (ti_temp_control_func d env).1.chip.warm_bat_decidegc = d.chip.warm_bat_decidegc ∧
    (ti_temp_control_func d env).1.chip.resume_completed = d.chip.resume_completed := by
  obtain ⟨hlo, hst⟩ := hinv
  have hlo2 : d.low_temp_threshold ≤ clamp_temp (ti2419x_get_prop_batt_temp env) :=
    le_trans hlo (clamp_temp_mono hle)
  have hmax := (clamp_temp_bounds (ti2419x_get_prop_batt_temp env)).2
  by_cases hh : clamp_temp (ti2419x_get_prop_batt_temp env) > d.high_temp_threshold
  · have hcls := thermal_class_higher d env hh
    have hne : thermal_class d env ≠ TI_TM_NORMAL_STATE := by
      rw [hcls]
      decide
    rcases hst with ⟨f1, f2, f3, hhi⟩ | ⟨f1, f2, f3, hhi⟩ | ⟨f1, f2, f3, hhi⟩ | ⟨f1, f2, f3, hhi⟩
    · have hT : jeita_transition d.chip (thermal_class d env) d.low_temp_threshold
          d.high_temp_threshold =
          ((false, false, false), d.chip.cool_bat_decidegc, d.chip.warm_bat_decidegc) := by
        rw [hcls]
        exact jeita_transition_cool_to_normal d.chip _ _ ⟨f1, f2, f3⟩
      obtain ⟨r1, r2, r3, rl, rh, rc, rw', rr⟩ :=
        thermal_tick_result d env _ _ _ _ _ hrun hne hT
      have e1 : thermal_rank (ti_temp_control_func d env).1.chip = 1 :=
        rank_of_flags _ _ _ _ r1 r2 r3
      have e0 : thermal_rank d.chip = 0 := rank_of_flags _ _ _ _ f1 f2 f3
      rw [hhi] at hh
      refine ⟨⟨?_, Or.inr (Or.inl ⟨r1, r2, r3, ?_⟩)⟩, ?_, rc, rw', rr⟩
      · rw [rl]
        unfold HYSTERISIS_DECIDEGC at hh
        omega
      · rw [rh, rw']
      · rw [e1, e0]
        simp only [staircase_step]
        rw [if_pos hh]
    · have hT : jeita_transition d.chip (thermal_class d env) d.low_temp_threshold
          d.high_temp_threshold =
          ((false, true, false), d.chip.warm_bat_decidegc - HYSTERISIS_DECIDEGC,
            ZTE_HOT_TEMP_DEFAULT) := by
        rw [hcls]
        exact jeita_transition_normal_to_warm d.chip _ _ ⟨f1, f2, f3⟩
      obtain ⟨r1, r2, r3, rl, rh, rc, rw', rr⟩ :=
        thermal_tick_result d env _ _ _ _ _ hrun hne hT
      have e1 : thermal_rank (ti_temp_control_func d env).1.chip = 2 :=
        rank_of_flags _ _ _ _ r1 r2 r3
      have e0 : thermal_rank d.chip = 1 := rank_of_flags _ _ _ _ f1 f2 f3
      rw [hhi] at hh
      refine ⟨⟨?_, Or.inr (Or.inr (Or.inl ⟨r1, r2, r3, rh⟩))⟩, ?_, rc, rw', rr⟩
      · rw [rl]
        unfold HYSTERISIS_DECIDEGC
        omega
      · rw [e1, e0]
        simp only [staircase_step]
        rw [if_pos hh]
    · have hT : jeita_transition d.chip (thermal_class d env) d.low_temp_threshold
          d.high_temp_threshold =
          ((true, false, false), ZTE_HOT_TEMP_DEFAULT - HYSTERISIS_DECIDEGC, MAX_TEMP) := by
        rw [hcls]
        exact jeita_transition_warm_to_hot d.chip _ _ ⟨f1, f2, f3⟩
      obtain ⟨r1, r2, r3, rl, rh, rc, rw', rr⟩ :=
        thermal_tick_result d env _ _ _ _ _ hrun hne hT
      have e1 : thermal_rank (ti_temp_control_func d env).1.chip = 3 :=
        rank_of_flags _ _ _ _ r1 r2 r3
      have e0 : thermal_rank d.chip = 2 := rank_of_flags _ _ _ _ f1 f2 f3
      rw [hhi] at hh
      refine ⟨⟨?_, Or.inr (Or.inr (Or.inr ⟨r1, r2, r3, rh⟩))⟩, ?_, rc, rw', rr⟩
      · rw [rl]
        unfold ZTE_HOT_TEMP_DEFAULT at hh
        unfold ZTE_HOT_TEMP_DEFAULT HYSTERISIS_DECIDEGC
        omega
      · rw [e1, e0]
        simp only [staircase_step]
        rw [if_pos hh]
    · rw [hhi] at hh
      exact absurd hh (not_lt.mpr hmax)
  · have hcls := thermal_class_normal d env hh (not_lt.mpr hlo2)
    obtain ⟨r1, r2, r3, rl, rh, rc, rw', rr⟩ := thermal_tick_unchanged d env (Or.inr hcls)
    have hrank : thermal_rank (ti_temp_control_func d env).1.chip = thermal_rank d.chip := by
      rw [rank_of_flags _ _ _ _ r1 r2 r3, rank_of_flags d.chip _ _ _ rfl rfl rfl]
    refine ⟨⟨by rw [rl]; exact hlo2, ?_⟩, ?_, rc, rw', rr⟩
    · rw [r1, r2, r3, rh, rc, rw']
      exact hst
    · rw [hrank]
      rcases hst with ⟨f1, f2, f3, hhi⟩ | ⟨f1, f2, f3, hhi⟩ | ⟨f1, f2, f3, hhi⟩ | ⟨f1, f2, f3, hhi⟩
      · rw [rank_of_flags _ _ _ _ f1 f2 f3]
        rw [hhi] at hh
        simp only [staircase_step, Bool.false_eq_true, if_false, if_true]
        rw [if_neg hh]
      · rw [rank_of_flags _ _ _ _ f1 f2 f3]
        rw [hhi] at hh
        simp only [staircase_step, Bool.false_eq_true, if_false, if_true]
        rw [if_neg hh]
      · rw [rank_of_flags _ _ _ _ f1 f2 f3]
        rw [hhi] at hh
        simp only [staircase_step, Bool.false_eq_true, if_false, if_true]
        rw [if_neg hh]
      · rw [rank_of_flags _ _ _ _ f1 f2 f3]
        simp only [staircase_step, Bool.false_eq_true, if_false, if_true]

/-- The first tick of a sweep: from the initial state and thresholds, on a
reading below the initial lower threshold, the state becomes Cool. -/
theorem thermal_sweep_first (d : driver) (env : providers)
    (hf : d.chip.bat_is_hot = false ∧ d.chip.bat_is_warm = false ∧ d.chip.bat_is_cool = false)
    (hthr : d.low_temp_threshold = 20 ∧ d.high_temp_threshold = 440)
    (hrun : thermal_tick_runs d = true) (ht : ti2419x_get_prop_batt_temp env < 20) :
    thermal_sweep_inv (ti_temp_control_func d env).1 (ti2419x_get_prop_batt_temp env) ∧
    thermal_rank (ti_temp_control_func d env).1.chip = 0 ∧
    (ti_temp_control_func d env).1.chip.cool_bat_decidegc = d.chip.cool_bat_decidegc ∧
    (ti_temp_control_func d env).1.chip.warm_bat_decidegc = d.chip.warm_bat_decidegc ∧
    (ti_temp_control_func d env).1.chip.resume_completed = d.chip.resume_completed := by
  have hc : clamp_temp (ti2419x_get_prop_batt_temp env) < 20 :=
    clamp_temp_le_self_of_lt _ 20 ht (by decide)
  have hcls : thermal_class d env = TI_TM_LOWER_STATE :=
    thermal_class_lower d env (by rw [hthr.2]; omega) (by rw [hthr.1]; exact hc)
  have hne : thermal_class d env ≠ TI_TM_NORMAL_STATE := by
    rw [hcls]
    decide
  have hT : jeita_transition d.chip (thermal_class d env) d.low_temp_threshold
      d.high_temp_threshold =
      ((false, false, true), MIN_TEMP, d.chip.cool_bat_decidegc + HYSTERISIS_DECIDEGC) := by
    rw [hcls]
    exact jeita_transition_normal_to_cool d.chip _ _ hf
  obtain ⟨r1, r2, r3, rl, rh, rc, rw', rr⟩ := thermal_tick_result d env _ _ _ _ _ hrun hne hT
  refine ⟨⟨?_, Or.inl ⟨r1, r2, r3, ?_⟩⟩, rank_of_flags _ _ _ _ r1 r2 r3, rc, rw', rr⟩
  · rw [rl]
    exact (clamp_temp_bounds _).1
  · rw [rh, rc]

theorem thermal_rank_le (c : ti2419x_chip) : thermal_rank c ≤ 3 := by
  unfold thermal_rank
  split_ifs <;> omega

theorem staircase_step_cases (cool warm : Int) (r : Nat) (x : Int) (hr : r ≤ 3) :
    (staircase_step cool warm r x = r ∨ staircase_step cool warm r x = r + 1) ∧
      staircase_step cool warm r x ≤ 3 := by
  have h : r = 0 ∨ r = 1 ∨ r = 2 ∨ r = 3 := by omega
  rcases h with h | h | h | h <;> subst h <;> simp only [staircase_step] <;>
    first | (split_ifs <;> omega) | simp

/-- The reference walk moves up one state at a time. -/
theorem staircase_steps_up_by_one (cool warm : Int) (temps : List Int) :
    ∀ r : Nat, r ≤ 3 → steps_up_by_one (r :: staircase cool warm r temps) = true := by
  induction temps with
  | nil =>
    intro r _
    rfl
  | cons t ts ih =>
    intro r hr
    obtain ⟨hc, hle⟩ := staircase_step_cases cool warm r (clamp_temp t) hr
    rw [staircase, steps_up_by_one, Bool.and_eq_true, Bool.or_eq_true, decide_eq_true_iff,
      decide_eq_true_iff]
    exact ⟨hc, ih _ hle⟩

/-- A sweep from a state whose thresholds fit it follows the reference walk. -/
theorem thermal_sweep_trace (rest : List providers) :
    ∀ (d : driver) (t : Int), thermal_sweep_inv d t → d.chip.resume_completed = true →
      otg_bit_clear d.chip →
      nondecreasing (t :: rest.map ti2419x_get_prop_batt_temp) = true →
      thermal_trace d rest =
        staircase d.chip.cool_bat_decidegc d.chip.warm_bat_decidegc (thermal_rank d.chip)
          (rest.map ti2419x_get_prop_batt_temp) := by
  induction rest with
  | nil =>
    intro d t _ _ _ _
    rfl
  | cons e es ih =>
    intro d t hinv hres hotg hmono
    rw [List.map_cons, nondecreasing, Bool.and_eq_true, decide_eq_true_iff] at hmono
    obtain ⟨hinv2, hrank, hc, hw, hr⟩ :=
      thermal_sweep_step d e t hinv (thermal_tick_runs_of_clear d hres hotg) hmono.1
    have hih := ih (ti_temp_control_func d e).1 (ti2419x_get_prop_batt_temp e) hinv2
      (hr.trans hres) (otg_clear_thermal_tick d e hotg) hmono.2
    rw [thermal_trace, List.map_cons, staircase, hih, hrank, hc, hw]

/-- The reference walk from Warm reaches Hot when a reading is above 500. -/
theorem staircase_reaches_hot (cool warm : Int) (temps : List Int) (c : Int)
    (hc : clamp_temp c > ZTE_HOT_TEMP_DEFAULT) (hs : List.Sublist [c] temps) :
    3 ∈ staircase cool warm 2 temps := by
  induction temps with
  | nil => simp at hs
  | cons t ts ih =>
    rw [staircase]
    by_cases ht : clamp_temp t > ZTE_HOT_TEMP_DEFAULT
    · have e : staircase_step cool warm 2 (clamp_temp t) = 3 := by
        simp only [staircase_step]
        rw [if_pos ht]
      rw [e]
      exact List.mem_cons_self _ _
    · have e : staircase_step cool warm 2 (clamp_temp t) = 2 := by
        simp only [staircase_step]
        rw [if_neg ht]
      rw [e]
      rcases List.cons_sublist_cons'.1 hs with h | h
      · exact List.mem_cons_of_mem _ (ih h)
      · rw [h.1] at hc
        exact absurd hc ht

/-- The reference walk from Normal reaches Warm and Hot when two readings, in
order, are above the warm breakpoint and above 500. -/
theorem staircase_reaches_warm (cool warm : Int) (temps : List Int) (b c : Int)
    (hb : clamp_temp b > warm) (hc : clamp_temp c > ZTE_HOT_TEMP_DEFAULT)
    (hs : List.Sublist [b, c] temps) :
    2 ∈ staircase cool warm 1 temps ∧ 3 ∈ staircase cool warm 1 temps := by
  induction temps with
  | nil => simp at hs
  | cons t ts ih =>
    rw [staircase]
    by_cases ht : clamp_temp t > warm
    · have e : staircase_step cool warm 1 (clamp_temp t) = 2 := by
        simp only [staircase_step]
        rw [if_pos ht]
      rw [e]
      have hcs : List.Sublist [c] ts := by
        rcases List.cons_sublist_cons'.1 hs with h | h
        · exact List.sublist_of_cons_sublist h
        · exact h.2
      exact ⟨List.mem_cons_self _ _,
        List.mem_cons_of_mem _ (staircase_reaches_hot cool warm ts c hc hcs)⟩
    · have e : staircase_step cool warm 1 (clamp_temp t) = 1 := by
        simp only [staircase_step]
        rw [if_neg ht]
      rw [e]
      rcases List.cons_sublist_cons'.1 hs with h | h
      · exact ⟨List.mem_cons_of_mem _ (ih h).1, List.mem_cons_of_mem _ (ih h).2⟩
      · rw [h.1] at hb
        exact absurd hb ht

/-- The reference walk from Cool reaches Normal, Warm and Hot when three
readings, in order, are above the cool breakpoint plus the hysteresis, above
the warm breakpoint and above 500. -/
theorem staircase_reaches_normal (cool warm : Int) (temps : List Int) (a b c : Int)
    (ha : clamp_temp a > cool + HYSTERISIS_DECIDEGC) (hb : clamp_temp b > warm)
    (hc : clamp_temp c > ZTE_HOT_TEMP_DEFAULT) (hs : List.Sublist [a, b, c] temps) :
    1 ∈ staircase cool warm 0 temps ∧ 2 ∈ staircase cool warm 0 temps ∧
      3 ∈ staircase cool warm 0 temps := by
  induction temps with
  | nil => simp at hs
  | cons t ts ih =>
    rw [staircase]
    by_cases ht : clamp_temp t > cool + HYSTERISIS_DECIDEGC
    · have e : staircase_step cool warm 0 (clamp_temp t) = 1 := by
        simp only [staircase_step]
        rw [if_pos ht]
      rw [e]
      have hcs : List.Sublist [b, c] ts := by
        rcases List.cons_sublist_cons'.1 hs with h | h
        · exact List.sublist_of_cons_sublist h
        · exact h.2
      obtain ⟨h2, h3⟩ := staircase_reaches_warm cool warm ts b c hb hc hcs
      exact ⟨List.mem_cons_self _ _, List.mem_cons_of_mem _ h2, List.mem_cons_of_mem _ h3⟩
    · have e : staircase_step cool warm 0 (clamp_temp t) = 0 := by
        simp only [staircase_step]
        rw [if_neg ht]
      rw [e]
      rcases List.cons_sublist_cons'.1 hs with h | h
      · obtain ⟨h1, h2, h3⟩ := ih h
        exact ⟨List.mem_cons_of_mem _ h1, List.mem_cons_of_mem _ h2, List.mem_cons_of_mem _ h3⟩
      · rw [h.1] at ha
        exact absurd ha ht

/-- Counterexample to C13 as stated: the sample device (cool breakpoint 10
degrees, warm breakpoint 45 degrees) starts in the initial thermal state and is
given the non-decreasing readings -300 and 800. The first tick flags the
battery cool and the second one, at 800, moves the state one step, to Normal:
Warm and Hot are not visited. With 800 read three times the state reaches
Hot. -/
theorem thermal_sweep_short_counterexample :
    (sample_driver.chip.bat_is_hot = false ∧ sample_driver.chip.bat_is_warm = false ∧
      sample_driver.chip.bat_is_cool = false) ∧
    (sample_driver.low_temp_threshold = 20 ∧ sample_driver.high_temp_threshold = 440) ∧
    (sample_driver.chip.resume_completed = true ∧ otg_bit_clear sample_driver.chip) ∧
    nondecreasing
      ([sample_env_at (-300), sample_env_at 800].map ti2419x_get_prop_batt_temp) = true ∧
    thermal_trace sample_driver [sample_env_at (-300), sample_env_at 800] = [0, 1] ∧
    thermal_trace sample_driver
      [sample_env_at (-300), sample_env_at 800, sample_env_at 800, sample_env_at 800] =
      [0, 1, 2, 3] := by
  refine ⟨?_, ?_, ?_, ?_, ?_, ?_⟩ <;> decide

/-- C13 (amended): a sweep starts in the initial thermal state (no flag set,
thresholds 20 and 440) on a resumed device whose OTG regulator is off. The
readings never decrease and the first one is below the initial lower threshold
(as -300 is). Then, for every cool and warm breakpoint, the first tick puts the
state to Cool, and from there the states after the ticks are those of the
reference walk: the state moves from Cool to Normal, from Normal to Warm and
from Warm to Hot, one state per tick, exactly when the clamped reading is above
the cool breakpoint plus 20, the warm breakpoint and 500, and never moves
otherwise. So each state is the one before it or the next one up: no state is
skipped and none is returned to. The sweep visits all of Cool, Normal, Warm and
Hot when three of the readings after the first, in the order of the sweep, are
above the cool breakpoint plus 20, above the warm breakpoint and above 500. -/
theorem thermal_sweep_visits_in_order (d0 : driver) (e0 : providers) (rest : List providers)
    (hflags : d0.chip.bat_is_hot = false ∧ d0.chip.bat_is_warm = false ∧
      d0.chip.bat_is_cool = false)
    (hthr : d0.low_temp_threshold = 20 ∧ d0.high_temp_threshold = 440)
    (hrun : d0.chip.resume_completed = true ∧ otg_bit_clear d0.chip)
    (hfirst : ti2419x_get_prop_batt_temp e0 < 20)
    (hmono : nondecreasing ((e0 :: rest).map ti2419x_get_prop_batt_temp) = true) :
    thermal_trace d0 (e0 :: rest) =
      0 :: staircase d0.chip.cool_bat_decidegc d0.chip.warm_bat_decidegc 0
        (rest.map ti2419x_get_prop_batt_temp) ∧
    steps_up_by_one (thermal_trace d0 (e0 :: rest)) = true ∧
    (∀ a b c : Int, List.Sublist [a, b, c] (rest.map ti2419x_get_prop_batt_temp) →
      clamp_temp a > d0.chip.cool_bat_decidegc + HYSTERISIS_DECIDEGC →
      clamp_temp b > d0.chip.warm_bat_decidegc →
      clamp_temp c > ZTE_HOT_TEMP_DEFAULT →
      ∀ k : Nat, k ≤ 3 → k ∈ thermal_trace d0 (e0 :: rest)) := by
  obtain ⟨hinv, hrank, hc, hw, hr⟩ :=
    thermal_sweep_first d0 e0 hflags hthr (thermal_tick_runs_of_clear d0 hrun.1 hrun.2) hfirst
  have htr := thermal_sweep_trace rest (ti_temp_control_func d0 e0).1
    (ti2419x_get_prop_batt_temp e0) hinv (hr.trans hrun.1)
    (otg_clear_thermal_tick d0 e0 hrun.2) hmono
  have heq : thermal_trace d0 (e0 :: rest) =
      0 :: staircase d0.chip.cool_bat_decidegc d0.chip.warm_bat_decidegc 0
        (rest.map ti2419x_get_prop_batt_temp) := by
    rw [thermal_trace, htr, hrank, hc, hw]
  refine ⟨heq, ?_, ?_⟩
  · rw [heq]
    exact staircase_steps_up_by_one _ _ _ 0 (by omega)
  · intro a b c hs ha hb hcc k hk
    obtain ⟨h1, h2, h3⟩ := staircase_reaches_normal d0.chip.cool_bat_decidegc
      d0.chip.warm_bat_decidegc _ a b c ha hb hcc hs
    rw [heq]
    have hcases : k = 0 ∨ k = 1 ∨ k = 2 ∨ k = 3 := by omega
    rcases hcases with h | h | h | h <;> subst h
    · exact List.mem_cons_self _ _
    · exact List.mem_cons_of_mem _ h1
    · exact List.mem_cons_of_mem _ h2
    · exact List.mem_cons_of_mem _ h3

/-! ## The TEMP reason and the hot/cool flags -/

theorem live_of_keeps {c c' : ti2419x_chip} (h : keeps_enable_line c c')
    (hl : transport_live c) : transport_live c' := live_of_same_mode h.1 hl

theorem live_charging_disable (c : ti2419x_chip) (r v : Int) (hl : transport_live c) :
    transport_live (ti2419x_charging_disable c r v).2 :=
  live_of_same_mode (same_mode_charging_disable c r v) hl

/-- An arbiter call for a reason other than TEMP leaves the TEMP bit of the
bitmask as it was, whether or not its write succeeds. -/
theorem temp_bit_charging_disable (c : ti2419x_chip) (r v : Int)
    (hr : r = USER ∨ r = THERMAL ∨ r = CURRENT) :
    (u32 (ti2419x_charging_disable c r v).2.charging_disabled_status).testBit (reason_bit TEMP) =
      (u32 c.charging_disabled_status).testBit (reason_bit TEMP) := by
  rw [charging_disable_status]
  split_ifs
  · rfl
  · rw [arbiter_mask_testBit _ r v (by tauto)]
    have hne : reason_bit TEMP ≠ reason_bit r := by
      rcases hr with h | h | h <;> subst h <;> decide
    rw [if_neg hne]

/-- An arbiter call for TEMP on a live transport sets the TEMP bit to the flag. -/
theorem temp_bit_charging_disable_temp (c : ti2419x_chip) (v : Int) (hl : transport_live c) :
    (u32 (ti2419x_charging_disable c TEMP v).2.charging_disabled_status).testBit
      (reason_bit TEMP) = decide (v = 1) := by
  rw [charging_disable_status, if_neg (by rw [charging_disable_live c TEMP v hl]; simp),
    arbiter_mask_testBit _ TEMP v (by tauto), if_pos rfl]

theorem temp_tracks_of_frames {c c' : ti2419x_chip}
    (hs : c'.charging_disabled_status = c.charging_disabled_status)
    (hh : c'.bat_is_hot = c.bat_is_hot) (hc : c'.bat_is_cool = c.bat_is_cool)
    (h : temp_reason_tracks c) : temp_reason_tracks c' := by
  unfold temp_reason_tracks at h ⊢
  rw [hs, hh, hc]
  exact h

/-- The warm block keeps the TEMP bit in step with the hot/cool flags. -/
theorem temp_tracks_jeita_apply_warm (d : driver) (bw : Bool)
    (h : temp_reason_tracks d.chip) : temp_reason_tracks (jeita_apply_warm d bw).chip := by
  have hbit := jeita_apply_warm_preserves
    (fun c => (u32 c.charging_disabled_status).testBit (reason_bit TEMP) =
      (u32 d.chip.charging_disabled_status).testBit (reason_bit TEMP))
    (fun c c' hk hc => by
      show (u32 c'.charging_disabled_status).testBit (reason_bit TEMP) = _
      rw [hk.2.2]
      exact hc)
    (fun c hc => (temp_bit_charging_disable c CURRENT 0 (by tauto)).trans hc)
    d bw rfl
  have hf := fields_of_config_eq (config_of_jeita_apply_warm d bw)
  unfold temp_reason_tracks at h ⊢
  rw [hbit, hf.1, hf.2.2.1]
  exact h

/-- The hot/cool block, on a live transport, keeps the TEMP bit in step with
the hot/cool flags. -/
theorem temp_tracks_jeita_apply_hot_cool (d : driver) (bh bc : Bool)
    (hl : transport_live d.chip) (h : temp_reason_tracks d.chip) :
    temp_reason_tracks (jeita_apply_hot_cool d bh bc).chip := by
  have hlc : transport_live { d.chip with bat_is_hot := bh, bat_is_cool := bc } :=
    live_of_keeps (keeps_set_hot_cool d.chip bh bc) hl
  have key : ∀ v : Int, decide (v = 1) = (bh || bc) →
      temp_reason_tracks
        (ti2419x_charging_disable { d.chip with bat_is_hot := bh, bat_is_cool := bc }
          TEMP v).2 := by
    intro v hv
    have hf := fields_of_config_eq
      ((same_config_charging_disable { d.chip with bat_is_hot := bh, bat_is_cool := bc }
        TEMP v).trans (config_of_set_hot_cool d.chip bh bc))
    unfold temp_reason_tracks
    rw [temp_bit_charging_disable_temp _ v hlc, hf.1, hf.2.2.1]
    exact hv
  unfold jeita_apply_hot_cool
  by_cases hx : xor d.chip.bat_is_hot bh = true ∨ xor d.chip.bat_is_cool bc = true
  · rw [if_pos hx]
    dsimp only
    rw [driver_chip_mk]
    by_cases hb : bh = true ∨ bc = true
    · rw [if_pos hb]
      exact key 1 (by rcases hb with hb | hb <;> simp [hb])
    · rw [if_neg hb]
      exact key 0 (by
        have h1 : bh = false := by cases bh <;> simp_all
        have h2 : bc = false := by cases bc <;> simp_all
        rw [h1, h2]
        decide)
  · rw [if_neg hx]
    exact h

/-- The device context after a tick that returns early or finds the normal
class: the one before it, or the one left by the OTG query. -/
theorem thermal_tick_skipped_chip (d : driver) (env : providers)
    (h : thermal_tick_runs d = false ∨ thermal_class d env = TI_TM_NORMAL_STATE) :
    (ti_temp_control_func d env).1.chip = d.chip ∨
    (ti_temp_control_func d env).1.chip = (ti2419x_otg_is_enabled d.chip).2 := by
  unfold thermal_tick_runs thermal_class clamp_temp at h
  unfold ti_temp_control_func
  dsimp only at h ⊢
  by_cases hr : ¬ d.chip.resume_completed = true
  · rw [if_pos hr]
    exact Or.inl rfl
  · rw [if_neg hr]
    by_cases ho : (ti2419x_otg_is_enabled d.chip).1 = 1
    · rw [if_pos ho]
      exact Or.inr rfl
    · rw [if_neg ho]
      have hn : (if (if (if ti2419x_get_prop_batt_temp env > MAX_TEMP then MAX_TEMP
            else ti2419x_get_prop_batt_temp env) < MIN_TEMP then MIN_TEMP
          else if ti2419x_get_prop_batt_temp env > MAX_TEMP then MAX_TEMP
            else ti2419x_get_prop_batt_temp env) > d.high_temp_threshold
          then TI_TM_HIGHER_STATE
          else if (if (if ti2419x_get_prop_batt_temp env > MAX_TEMP then MAX_TEMP
              else ti2419x_get_prop_batt_temp env) < MIN_TEMP then MIN_TEMP
            else if ti2419x_get_prop_batt_temp env > MAX_TEMP then MAX_TEMP
              else ti2419x_get_prop_batt_temp env) < d.low_temp_threshold
            then TI_TM_LOWER_STATE else TI_TM_NORMAL_STATE) = TI_TM_NORMAL_STATE := by
        rcases h with h | h
        · rw [Bool.and_eq_false_iff] at h
          rcases h with h | h
          · exact absurd (by simpa using h) hr
          · rw [decide_eq_false_iff_not] at h
            exact absurd (not_not.mp h) ho
        · exact h
      rw [if_pos hn]
      exact Or.inr rfl

theorem temp_tracks_otg_is_enabled (c : ti2419x_chip) (h : temp_reason_tracks c) :
    temp_reason_tracks (ti2419x_otg_is_enabled c).2 :=
  temp_tracks_of_frames (keeps_otg_is_enabled c).2.2
    (same_config_hot (same_config_otg_is_enabled c))
    (same_config_cool (same_config_otg_is_enabled c)) h

/-- The thermal tick, on a live transport, keeps the TEMP bit in step with the
hot/cool flags. -/
theorem temp_tracks_thermal_tick (d : driver) (env : providers)
    (hl : transport_live d.chip) (h : temp_reason_tracks d.chip) :
    temp_reason_tracks (ti_temp_control_func d env).1.chip := by
  have hotg := temp_tracks_otg_is_enabled d.chip h
  have hlo : transport_live (ti2419x_otg_is_enabled d.chip).2 :=
    live_of_keeps (keeps_otg_is_enabled d.chip) hl
  by_cases h1 : thermal_tick_runs d = true
  · by_cases h2 : thermal_class d env = TI_TM_NORMAL_STATE
    · rcases thermal_tick_skipped_chip d env (Or.inr h2) with e | e
      · rw [e]
        exact h
      · rw [e]
        exact hotg
    · rw [thermal_tick_eq d env h1 h2]
      apply temp_tracks_jeita_apply_hot_cool
      · exact jeita_apply_warm_preserves transport_live (fun _ _ hk hc => live_of_keeps hk hc)
          (fun c hc => live_charging_disable c CURRENT 0 hc) _ _ hlo
      · exact temp_tracks_jeita_apply_warm _ _ hotg
  · rcases thermal_tick_skipped_chip d env (Or.inl (by simpa using h1)) with e | e
    · rw [e]
      exact h
    · rw [e]
      exact hotg

/-! ## Properties of the device context that `ti2419x_hw_init` preserves -/

theorem hw_init_enable_preserves (P : ti2419x_chip → Prop)
    (ha : ∀ c v, P c → P (ti2419x_charging_disable c USER v).2)
    (chip : ti2419x_chip) (h : P chip) : P (ti2419x_hw_init_enable chip).2 := by
  unfold ti2419x_hw_init_enable
  exact ha _ _ h

theorem hw_init_irq_preserves (P : ti2419x_chip → Prop)
    (hw : ∀ c reg mask val, P c → P (ti2419x_masked_write c reg mask val).2)
    (ha : ∀ c v, P c → P (ti2419x_charging_disable c USER v).2)
    (chip : ti2419x_chip) (h : P chip) : P (ti2419x_hw_init_irq chip).2 := by
  unfold ti2419x_hw_init_irq
  dsimp only
  split_ifs
  · exact hw _ _ _ _ h
  · exact hw_init_enable_preserves P ha _ (hw _ _ _ _ h)
  · exact hw_init_enable_preserves P ha _ h

theorem hw_init_resume_preserves (P : ti2419x_chip → Prop)
    (hk : ∀ c c', keeps_enable_line c c' → P c → P c')
    (hw : ∀ c reg mask val, P c → P (ti2419x_masked_write c reg mask val).2)
    (ha : ∀ c v, P c → P (ti2419x_charging_disable c USER v).2)
    (chip : ti2419x_chip) (h : P chip) : P (ti2419x_hw_init_resume chip).2 := by
  unfold ti2419x_hw_init_resume
  dsimp only
  split_ifs
  · exact hk _ _ (keeps_recharge_threshold_set _ _) h
  · exact hw_init_irq_preserves P hw ha _ (hk _ _ (keeps_recharge_threshold_set _ _) h)
  · exact hw_init_irq_preserves P hw ha _ h

theorem hw_init_safety_preserves (P : ti2419x_chip → Prop)
    (hk : ∀ c c', keeps_enable_line c c' → P c → P c')
    (hw : ∀ c reg mask val, P c → P (ti2419x_masked_write c reg mask val).2)
    (ha : ∀ c v, P c → P (ti2419x_charging_disable c USER v).2)
    (chip : ti2419x_chip) (reg0 : Nat) (h : P chip) :
    P (ti2419x_hw_init_safety chip reg0).2 := by
  unfold ti2419x_hw_init_safety
  dsimp only
  split_ifs
  · exact hw _ _ _ _ h
  · exact hw_init_resume_preserves P hk hw ha _ (hw _ _ _ _ h)
  · exact hw _ _ _ _ h
  · exact hw _ _ _ _ (hw _ _ _ _ h)
  · exact hw_init_resume_preserves P hk hw ha _ (hw _ _ _ _ (hw _ _ _ _ h))
  · exact hw_init_resume_preserves P hk hw ha _ h

theorem hw_init_iterm_preserves (P : ti2419x_chip → Prop)
    (hk : ∀ c c', keeps_enable_line c c' → P c → P c')
    (hw : ∀ c reg mask val, P c → P (ti2419x_masked_write c reg mask val).2)
    (ha : ∀ c v, P c → P (ti2419x_charging_disable c USER v).2)
    (chip : ti2419x_chip) (rc : Int) (reg0 : Nat) (h : P chip) :
    P (ti2419x_hw_init_iterm chip rc reg0).2 := by
  unfold ti2419x_hw_init_iterm
  dsimp only
  split_ifs
  · exact hw_init_safety_preserves P hk hw ha _ _ h
  · exact hw _ _ _ _ h
  · exact hw_init_safety_preserves P hk hw ha _ _ (hw _ _ _ _ h)
  · exact hw_init_safety_preserves P hk hw ha _ _ (hk _ _ (keeps_set_iterm _ _) h)

theorem hw_init_vfloat_preserves (P : ti2419x_chip → Prop)
    (hk : ∀ c c', keeps_enable_line c c' → P c → P c')
    (hw : ∀ c reg mask val, P c → P (ti2419x_masked_write c reg mask val).2)
    (ha : ∀ c v, P c → P (ti2419x_charging_disable c USER v).2)
    (chip : ti2419x_chip) (rc : Int) (reg0 : Nat) (h : P chip) :
    P (ti2419x_hw_init_vfloat chip rc reg0).2 := by
  unfold ti2419x_hw_init_vfloat
  dsimp only
  split_ifs
  · exact hk _ _ (keeps_float_voltage_set _ _) h
  · exact hw_init_iterm_preserves P hk hw ha _ _ _ (hk _ _ (keeps_float_voltage_set _ _) h)
  · exact hw_init_iterm_preserves P hk hw ha _ _ _ h

theorem keeps_set_chargeIC_type (c : ti2419x_chip) (ic : Int) :
    keeps_enable_line c { c with chargeIC_type := ic } := ⟨⟨rfl, rfl, rfl⟩, rfl, rfl⟩

/-- Function `ti2419x_hw_init` preserves every property of the device context
that the functions keeping the enable line, the masked write and the arbiter
call for USER preserve. -/
theorem hw_init_preserves (P : ti2419x_chip → Prop)
    (hk : ∀ c c', keeps_enable_line c c' → P c → P c')
    (hw : ∀ c reg mask val, P c → P (ti2419x_masked_write c reg mask val).2)
    (ha : ∀ c v, P c → P (ti2419x_charging_disable c USER v).2)
    (chip : ti2419x_chip) (reg0 : Nat) (h : P chip) : P (ti2419x_hw_init chip reg0).2 := by
  have h1 : P
      { (get_charge_IC_type (set_charge_wdog chip TI2419X_WDOG_160S).2 reg0).2 with
        chargeIC_type := (get_charge_IC_type (set_charge_wdog chip TI2419X_WDOG_160S).2 reg0).1 } :=
    hk _ _ (keeps_set_chargeIC_type _ _)
      (hk _ _ (keeps_get_charge_IC_type _ reg0) (hk _ _ (keeps_set_charge_wdog chip _) h))
  unfold ti2419x_hw_init
  dsimp only
  generalize ({ (get_charge_IC_type (set_charge_wdog chip TI2419X_WDOG_160S).2 reg0).2 with
        chargeIC_type := (get_charge_IC_type (set_charge_wdog chip TI2419X_WDOG_160S).2 reg0).1 }
      : ti2419x_chip) = c1 at h1 ⊢
  have h2 : P (ti2419x_masked_write c1 INPUT_SOURCE_CTRL_REG EN_HIZ_MASK 0).2 := hw _ _ _ _ h1
  generalize (ti2419x_masked_write c1 INPUT_SOURCE_CTRL_REG EN_HIZ_MASK 0) = r2 at h2 ⊢
  by_cases hrc : r2.1 < 0
  · rw [if_pos hrc]
    exact h2
  · rw [if_neg hrc]
    have h3 : P (if r2.2.max_ibat > 0 then (set_ibat r2.2 r2.2.max_ibat).2 else r2.2) := by
      split_ifs
      · exact hk _ _ (keeps_set_ibat _ _) h2
      · exact h2
    generalize (if r2.2.max_ibat > 0 then (set_ibat r2.2 r2.2.max_ibat).2 else r2.2) = c3
      at h3 ⊢
    have h4 : P (ti2419x_masked_write c3 MISC_OPERA_CTRL_REG TMR2X_EN_MASK 0).2 :=
      hw _ _ _ _ h3
    generalize (ti2419x_masked_write c3 MISC_OPERA_CTRL_REG TMR2X_EN_MASK 0).2 = c4 at h4 ⊢
    have h5 : P (set_input_voltage c4 c4.max_input_voltage).2 :=
      hk _ _ (keeps_set_input_voltage _ _) h4
    generalize (set_input_voltage c4 c4.max_input_voltage).2 = c5 at h5 ⊢
    split_ifs
    · exact hw _ _ _ _ h5
    · exact hw_init_vfloat_preserves P hk hw ha _ _ _ (hw _ _ _ _ h5)

theorem temp_bit_masked_write (c : ti2419x_chip) (reg mask val : Nat) :
    (ti2419x_masked_write c reg mask val).2.charging_disabled_status =
      c.charging_disabled_status := by
  rw [masked_write_frame]

/-- After a successful probe the TEMP bit of the bitmask is clear and no thermal
flag is set. -/
theorem probe_temp_tracks (client : i2c_client) (cfg : ti2419x_chip) (reg0 : Nat) (d0 : driver)
    (hp : ti2419x_probe client cfg reg0 = some d0) : temp_reason_tracks d0.chip := by
  have hP : ∀ c : ti2419x_chip,
      (u32 c.charging_disabled_status).testBit (reason_bit TEMP) = false →
      (u32 (ti2419x_hw_init c reg0).2.charging_disabled_status).testBit (reason_bit TEMP)
        = false :=
    fun c hc => hw_init_preserves
      (fun c => (u32 c.charging_disabled_status).testBit (reason_bit TEMP) = false)
      (fun c c' hk h => by
        show (u32 c'.charging_disabled_status).testBit (reason_bit TEMP) = false
        rw [hk.2.2]
        exact h)
      (fun c reg mask val h => by
        show (u32 (ti2419x_masked_write c reg mask val).2.charging_disabled_status).testBit
          (reason_bit TEMP) = false
        rw [temp_bit_masked_write]
        exact h)
      (fun c v h => (temp_bit_charging_disable c USER v (by tauto)).trans h) c reg0 hc
  have h0 : (u32 (ti2419x_read (probe_chip client cfg) VENDOR_REG
      reg0).2.2.charging_disabled_status).testBit (reason_bit TEMP) = false := by
    rw [(keeps_read (probe_chip client cfg) VENDOR_REG reg0).2.2]
    show (u32 0).testBit (reason_bit TEMP) = false
    decide
  have h1 := hP _ h0
  unfold ti2419x_probe at hp
  dsimp only at hp
  split_ifs at hp
  have hd : d0 = driver_at_load (determine_initial_status
      (ti2419x_hw_init (ti2419x_read (probe_chip client cfg) VENDOR_REG reg0).2.2 reg0).2).2 :=
    (Option.some.inj hp).symm
  rw [hd]
  unfold temp_reason_tracks
  show (u32 (ti2419x_hw_init (ti2419x_read (probe_chip client cfg) VENDOR_REG
    reg0).2.2 reg0).2.charging_disabled_status).testBit (reason_bit TEMP) = (false || false)
  rw [h1]
  rfl

/-- Witness for C13 (amended): the sample device (cool breakpoint 10 degrees,
warm breakpoint 45 degrees) swept from -30 to 80 degrees; the readings 130, 460
and 510 cross the three edges in turn, and the sweep visits Cool, Normal, Warm
and Hot in that order. -/
theorem thermal_sweep_visits_in_order_witness :
    thermal_trace sample_driver
      (sample_env_at (-300) ::
        [sample_env_at 100, sample_env_at 130, sample_env_at 400, sample_env_at 460,
          sample_env_at 500, sample_env_at 510, sample_env_at 800]) =
      [0, 0, 1, 1, 2, 2, 3, 3] ∧
    steps_up_by_one (thermal_trace sample_driver
      (sample_env_at (-300) ::
        [sample_env_at 100, sample_env_at 130, sample_env_at 400, sample_env_at 460,
          sample_env_at 500, sample_env_at 510, sample_env_at 800])) = true ∧
    (∀ k : Nat, k ≤ 3 → k ∈ thermal_trace sample_driver
      (sample_env_at (-300) ::
        [sample_env_at 100, sample_env_at 130, sample_env_at 400, sample_env_at 460,
          sample_env_at 500, sample_env_at 510, sample_env_at 800])) :=
  have h := thermal_sweep_visits_in_order sample_driver (sample_env_at (-300))
    [sample_env_at 100, sample_env_at 130, sample_env_at 400, sample_env_at 460,
      sample_env_at 500, sample_env_at 510, sample_env_at 800]
    (by decide) (by decide) ⟨by decide, by decide⟩ (by decide) (by decide)
  ⟨h.1.trans (by decide), h.2.1,
    h.2.2 130 460 510 (by decide) (by decide) (by decide) (by decide)⟩

/-- C14: the TEMP disable reason tracks the hot/cool flags. For every driver
state on a live transport (skip flags off, no bus transaction failing), every
temperature reading and every configuration, if the TEMP bit of the disable
bitmask is set exactly when `bat_is_hot` or `bat_is_cool` is set, then the same
holds after one run of `ti_temp_control_func`; and it holds in the state that a
successful probe leaves, where the TEMP bit is clear and no flag is set. -/
theorem temp_reason_follows_hot_cool (d : driver) (env : providers)
    (hl : transport_live d.chip) (h : temp_reason_tracks d.chip) :
    temp_reason_tracks (ti_temp_control_func d env).1.chip ∧
    (∀ (client : i2c_client) (cfg : ti2419x_chip) (reg0 : Nat) (d0 : driver),
      ti2419x_probe client cfg reg0 = some d0 → temp_reason_tracks d0.chip) :=
  ⟨temp_tracks_thermal_tick d env hl h, fun client cfg reg0 d0 hp =>
    probe_temp_tracks client cfg reg0 d0 hp⟩

/-- Witness for C14: the sample device after its probe, on a reading of -30
degrees; the tick flags the battery cool and asserts TEMP. -/
theorem temp_reason_follows_hot_cool_witness :
    temp_reason_tracks sample_driver.chip ∧
    (ti_temp_control_func sample_driver (sample_env_at (-300))).1.chip.bat_is_cool = true ∧
    (ti_temp_control_func sample_driver
      (sample_env_at (-300))).1.chip.charging_disabled_status = 8 ∧
    temp_reason_tracks (ti_temp_control_func sample_driver (sample_env_at (-300))).1.chip :=
  ⟨by decide, by decide, by decide,
    (temp_reason_follows_hot_cool sample_driver (sample_env_at (-300))
      (probe_inv (quiet_client 0) sample_cfg 0 sample_driver (fun _ => le_refl _)
        probe_sample).1 (by decide)).1⟩

/-! ## Capacity smoothing -/

/-- The first statement of `smooth_capacity` leaves everything but `turnon_flags`. -/
theorem smooth_turnon_zero_reported (d : driver) (cap : Int) :
    (if d.turnon_flags = true ∧ cap > 0 then { d with turnon_flags := false } else d).zero_reported
      = d.zero_reported ∧
    (if d.turnon_flags = true ∧ cap > 0 then { d with turnon_flags := false } else d).chip
      = d.chip := by
  split_ifs <;> exact ⟨rfl, rfl⟩

theorem batt_present_batt_full (c : ti2419x_chip) (env : providers) :
    (ti2419x_get_prop_batt_present c env).2.batt_full = c.batt_full := by
  unfold ti2419x_get_prop_batt_present
  split_ifs <;> rfl

/-- The zero block returns 1, without latching, while shutdown is disabled or
the voltage is above the shutdown threshold. -/
theorem smooth_capacity_zero_safe (d : driver) (env : providers) (cap batt_vol : Int)
    (h : env.enable_to_shutdown = 0 ∨ batt_vol > SHUTDOWN_VOLTAGE) :
    smooth_capacity_zero d env cap batt_vol = (1, d) := by
  unfold smooth_capacity_zero
  by_cases h1 : env.enable_to_shutdown = 0
  · rw [if_pos h1]
  · rw [if_neg h1, if_pos (h.resolve_left h1)]

theorem smooth_capacity_zero_latched_now (d : driver) (env : providers) (cap batt_vol : Int)
    (h1 : env.enable_to_shutdown ≠ 0) (h2 : ¬ batt_vol > SHUTDOWN_VOLTAGE)
    (h3 : d.turnon_flags = false) :
    smooth_capacity_zero d env cap batt_vol = (cap, { d with zero_reported := true }) := by
  unfold smooth_capacity_zero
  rw [if_neg h1, if_neg h2, if_pos (by rw [h3]; simp)]

theorem smooth_capacity_zero_late (d : driver) (env : providers) (cap batt_vol : Int)
    (h1 : env.enable_to_shutdown ≠ 0) (h2 : ¬ batt_vol > SHUTDOWN_VOLTAGE)
    (h3 : d.turnon_flags = true) (h4 : (zero_report_check d env).1 = true) :
    smooth_capacity_zero d env cap batt_vol =
      (cap, { (zero_report_check d env).2 with zero_reported := true, turnon_flags := false }) := by
  unfold smooth_capacity_zero
  rw [if_neg h1, if_neg h2, if_neg (by rw [h3]; simp)]
  dsimp only
  rw [if_pos h4]

theorem smooth_capacity_zero_wait (d : driver) (env : providers) (cap batt_vol : Int)
    (h1 : env.enable_to_shutdown ≠ 0) (h2 : ¬ batt_vol > SHUTDOWN_VOLTAGE)
    (h3 : d.turnon_flags = true) (h4 : (zero_report_check d env).1 = false) :
    smooth_capacity_zero d env cap batt_vol = (1, (zero_report_check d env).2) := by
  unfold smooth_capacity_zero
  rw [if_neg h1, if_neg h2, if_neg (by rw [h3]; simp)]
  dsimp only
  rw [if_neg (by rw [h4]; simp)]

/-- The low-voltage condition of `smooth_capacity`: the voltage is at or below
the critical threshold and no charger is reported. -/
theorem smooth_capacity_present_forced (d : driver) (env : providers) (cap : Int)
    (hlow : ti2419x_get_prop_voltage_now d.chip env ≤ LOW_TEMP_SHUTDOWN_VOLTAGE ∧
      (ti2419x_is_chg_plugged_in d.chip).1 = 0)
    (h5 : s32 (d.smooth_capacity_count + 1) = 5) :
    smooth_capacity_present d env cap =
      smooth_capacity_zero
        { d with chip := (ti2419x_is_chg_plugged_in d.chip).2, smooth_capacity_count := 0 }
        env cap (ti2419x_get_prop_voltage_now d.chip env) := by
  unfold smooth_capacity_present
  dsimp only
  rw [if_pos hlow, if_pos h5]
  dsimp only
  rw [if_pos rfl]

theorem smooth_capacity_present_counting (d : driver) (env : providers) (cap : Int)
    (hlow : ti2419x_get_prop_voltage_now d.chip env ≤ LOW_TEMP_SHUTDOWN_VOLTAGE ∧
      (ti2419x_is_chg_plugged_in d.chip).1 = 0)
    (h5 : s32 (d.smooth_capacity_count + 1) ≠ 5) :
    smooth_capacity_present d env cap =
      if cap = 0 then
        smooth_capacity_zero
          { d with chip := (ti2419x_is_chg_plugged_in d.chip).2,
                   smooth_capacity_count := s32 (d.smooth_capacity_count + 1) }
          env cap (ti2419x_get_prop_voltage_now d.chip env)
      else
        (cap, { d with chip := (ti2419x_is_chg_plugged_in d.chip).2,
                       smooth_capacity_count := s32 (d.smooth_capacity_count + 1) }) := by
  unfold smooth_capacity_present
  dsimp only
  rw [if_pos hlow, if_neg h5]

theorem smooth_capacity_present_reset (d : driver) (env : providers) (cap : Int)
    (hlow : ¬ (ti2419x_get_prop_voltage_now d.chip env ≤ LOW_TEMP_SHUTDOWN_VOLTAGE ∧
      (ti2419x_is_chg_plugged_in d.chip).1 = 0)) :
    smooth_capacity_present d env cap =
      if cap = 0 then
        smooth_capacity_zero
          { d with chip := (ti2419x_is_chg_plugged_in d.chip).2, smooth_capacity_count := 0 }
          env cap (ti2419x_get_prop_voltage_now d.chip env)
      else
        (cap, { d with chip := (ti2419x_is_chg_plugged_in d.chip).2,
                       smooth_capacity_count := 0 }) := by
  unfold smooth_capacity_present
  dsimp only
  rw [if_neg hlow]

/-- The state after the first statement of `smooth_capacity`. -/
theorem smooth_turnon_eq (d : driver) (cap : Int) :
    (if d.turnon_flags = true ∧ cap > 0 then { d with turnon_flags := false } else d) =
      { d with turnon_flags := d.turnon_flags && decide (¬ cap > 0) } := by
  by_cases h : d.turnon_flags = true ∧ cap > 0
  · rw [if_pos h]
    have h2 : (d.turnon_flags && decide (¬ cap > 0)) = false := by simp [h.2]
    rw [h2]
  · rw [if_neg h]
    have h2 : (d.turnon_flags && decide (¬ cap > 0)) = d.turnon_flags := by
      cases ht : d.turnon_flags
      · simp
      · simp only [Bool.true_and, decide_eq_true_eq]
        exact fun hc => h ⟨ht, hc⟩
    rw [h2]

theorem smooth_capacity_eq_latched (d : driver) (env : providers) (cap : Int)
    (h : d.zero_reported = true) :
    smooth_capacity d env cap =
      (0, { d with turnon_flags := d.turnon_flags && decide (¬ cap > 0) }) := by
  unfold smooth_capacity
  dsimp only
  rw [smooth_turnon_eq]
  rw [if_pos h]

theorem smooth_capacity_eq_absent (d : driver) (env : providers) (cap : Int)
    (h : d.zero_reported = false) (hp : (ti2419x_get_prop_batt_present d.chip env).1 = 0) :
    smooth_capacity d env cap =
      (50, { d with turnon_flags := d.turnon_flags && decide (¬ cap > 0),
                    chip := (ti2419x_get_prop_batt_present d.chip env).2 }) := by
  unfold smooth_capacity
  dsimp only
  rw [smooth_turnon_eq]
  rw [if_neg (by rw [h]; simp)]
  dsimp only
  rw [if_pos hp]

theorem smooth_capacity_eq_full (d : driver) (env : providers) (cap : Int)
    (h : d.zero_reported = false) (hp : (ti2419x_get_prop_batt_present d.chip env).1 ≠ 0)
    (hf : d.chip.batt_full = true) :
    smooth_capacity d env cap =
      (100, { d with turnon_flags := d.turnon_flags && decide (¬ cap > 0),
                     chip := (ti2419x_get_prop_batt_present d.chip env).2 }) := by
  unfold smooth_capacity
  dsimp only
  rw [smooth_turnon_eq]
  rw [if_neg (by rw [h]; simp)]
  dsimp only
  rw [if_neg hp, if_pos (by rw [batt_present_batt_full]; exact hf)]

theorem smooth_capacity_eq_present (d : driver) (env : providers) (cap : Int)
    (h : d.zero_reported = false) (hp : (ti2419x_get_prop_batt_present d.chip env).1 ≠ 0)
    (hf : d.chip.batt_full = false) :
    smooth_capacity d env cap =
      smooth_capacity_present
        { d with turnon_flags := d.turnon_flags && decide (¬ cap > 0),
                 chip := (ti2419x_get_prop_batt_present d.chip env).2 } env cap := by
  unfold smooth_capacity
  dsimp only
  rw [smooth_turnon_eq]
  rw [if_neg (by rw [h]; simp)]
  dsimp only
  rw [if_neg hp, if_neg (by rw [batt_present_batt_full, hf]; simp)]

theorem zero_report_check_zero_reported (d : driver) (env : providers) :
    (zero_report_check d env).2.zero_reported = d.zero_reported := by
  unfold zero_report_check
  split_ifs <;> rfl

/-- The zero block returns 0 only when it latches, and keeps a set latch. -/
theorem smooth_capacity_zero_latch (d : driver) (env : providers) (cap batt_vol : Int) :
    ((smooth_capacity_zero d env cap batt_vol).1 = 0 →
      (smooth_capacity_zero d env cap batt_vol).2.zero_reported = true) ∧
    (d.zero_reported = true →
      (smooth_capacity_zero d env cap batt_vol).2.zero_reported = true) := by
  by_cases hs : env.enable_to_shutdown = 0 ∨ batt_vol > SHUTDOWN_VOLTAGE
  · rw [smooth_capacity_zero_safe d env cap batt_vol hs]
    exact ⟨fun h => absurd h (by simp), fun h => h⟩
  · rw [not_or] at hs
    cases ht : d.turnon_flags
    · rw [smooth_capacity_zero_latched_now d env cap batt_vol hs.1 hs.2 ht]
      exact ⟨fun _ => rfl, fun _ => rfl⟩
    · cases hz : (zero_report_check d env).1
      · rw [smooth_capacity_zero_wait d env cap batt_vol hs.1 hs.2 ht hz]
        exact ⟨fun h => absurd h (by simp),
          fun h => (zero_report_check_zero_reported d env).trans h⟩
      · rw [smooth_capacity_zero_late d env cap batt_vol hs.1 hs.2 ht hz]
        exact ⟨fun _ => rfl, fun _ => rfl⟩

/-- The part for a present battery returns 0 only when it latches, and keeps a
set latch. -/
theorem smooth_capacity_present_latch (d : driver) (env : providers) (cap : Int) :
    ((smooth_capacity_present d env cap).1 = 0 →
      (smooth_capacity_present d env cap).2.zero_reported = true) ∧
    (d.zero_reported = true →
      (smooth_capacity_present d env cap).2.zero_reported = true) := by
  by_cases hlow : ti2419x_get_prop_voltage_now d.chip env ≤ LOW_TEMP_SHUTDOWN_VOLTAGE ∧
      (ti2419x_is_chg_plugged_in d.chip).1 = 0
  · by_cases h5 : s32 (d.smooth_capacity_count + 1) = 5
    · rw [smooth_capacity_present_forced d env cap hlow h5]
      exact smooth_capacity_zero_latch _ env cap _
    · rw [smooth_capacity_present_counting d env cap hlow h5]
      by_cases hc : cap = 0
      · rw [if_pos hc]
        exact smooth_capacity_zero_latch _ env cap _
      · rw [if_neg hc]
        exact ⟨fun h => absurd h hc, fun h => h⟩
  · rw [smooth_capacity_present_reset d env cap hlow]
    by_cases hc : cap = 0
    · rw [if_pos hc]
      exact smooth_capacity_zero_latch _ env cap _
    · rw [if_neg hc]
      exact ⟨fun h => absurd h hc, fun h => h⟩

/-- Function `smooth_capacity` returns 0 only when the latch is set afterwards. -/
theorem smooth_capacity_zero_only_latched (d : driver) (env : providers) (cap : Int)
    (h0 : (smooth_capacity d env cap).1 = 0) :
    (smooth_capacity d env cap).2.zero_reported = true := by
  cases hz : d.zero_reported
  · by_cases hp : (ti2419x_get_prop_batt_present d.chip env).1 = 0
    · rw [smooth_capacity_eq_absent d env cap hz hp] at h0
      exact absurd h0 (by simp)
    · cases hf : d.chip.batt_full
      · rw [smooth_capacity_eq_present d env cap hz hp hf] at h0 ⊢
        exact (smooth_capacity_present_latch _ env cap).1 h0
      · rw [smooth_capacity_eq_full d env cap hz hp hf] at h0
        exact absurd h0 (by simp)
  · rw [smooth_capacity_eq_latched d env cap hz]
    exact hz

/-- A latched `smooth_capacity` returns 0 and stays latched. -/
theorem smooth_capacity_latched (d : driver) (env : providers) (cap : Int)
    (h : d.zero_reported = true) :
    (smooth_capacity d env cap).1 = 0 ∧ (smooth_capacity d env cap).2.zero_reported = true := by
  rw [smooth_capacity_eq_latched d env cap h]
  exact ⟨rfl, h⟩

/-! ## The zero latch under the operations of the driver -/

theorem driver_zero_reported_mk (c : ti2419x_chip) (a1 a2 a3 a4 a5 : Int) (b1 b2 : Bool)
    (a6 : Int) (n1 n2 : Nat) :
    (driver.mk c a1 a2 a3 a4 a5 b1 b2 a6 n1 n2).zero_reported = b1 := rfl

theorem jeita_apply_warm_zero_reported (d : driver) (bw : Bool) :
    (jeita_apply_warm d bw).zero_reported = d.zero_reported := by
  unfold jeita_apply_warm
  split_ifs <;> rfl

theorem jeita_apply_hot_cool_zero_reported (d : driver) (bh bc : Bool) :
    (jeita_apply_hot_cool d bh bc).zero_reported = d.zero_reported := by
  unfold jeita_apply_hot_cool
  split_ifs <;> rfl

theorem thermal_tick_zero_reported (d : driver) (env : providers) :
    (ti_temp_control_func d env).1.zero_reported = d.zero_reported := by
  unfold ti_temp_control_func
  dsimp only
  split_ifs <;> first
    | rfl
    | rw [jeita_apply_hot_cool_zero_reported, jeita_apply_warm_zero_reported]

theorem check_fullcharged_state_zero_reported (d : driver) (env : providers) :
    (check_fullcharged_state d env).zero_reported = d.zero_reported := by
  unfold check_fullcharged_state
  dsimp only
  split_ifs <;> rfl

theorem charger_eoc_warm_zero_reported (d : driver) (env : providers) (soc : Int) :
    (charger_eoc_warm d env soc).zero_reported = d.zero_reported := by
  unfold charger_eoc_warm
  dsimp only
  split_ifs <;> rfl

/-! Equations for `charger_eoc`. -/

theorem charger_eoc_not_resumed (d : driver) (env : providers)
    (h : d.chip.resume_completed = false) : charger_eoc d env = (d, 5000) := by
  unfold charger_eoc
  rw [if_pos (by rw [h]; simp)]

theorem charger_eoc_no_charger (d : driver) (env : providers)
    (h : d.chip.resume_completed = true)
    (hc : (ti2419x_is_chg_plugged_in (ti2419x_get_prop_batt_capacity d env).2.chip).1 = 0) :
    charger_eoc d env =
      ({ (ti2419x_get_prop_batt_capacity d env).2 with
          chip := (ti2419x_is_chg_plugged_in (ti2419x_get_prop_batt_capacity d env).2.chip).2,
          charger_eoc_count := 0, vbat_low_count := 0 },
        charger_eoc_delay (ti2419x_get_prop_batt_capacity d env).1
          (ti2419x_is_chg_plugged_in (ti2419x_get_prop_batt_capacity d env).2.chip).1) := by
  unfold charger_eoc
  rw [if_neg (by rw [h]; simp)]
  dsimp only
  rw [if_pos hc]

theorem charger_eoc_not_warm (d : driver) (env : providers)
    (h : d.chip.resume_completed = true)
    (hc : (ti2419x_is_chg_plugged_in (ti2419x_get_prop_batt_capacity d env).2.chip).1 ≠ 0)
    (hw : (ti2419x_is_chg_plugged_in
      (ti2419x_get_prop_batt_capacity d env).2.chip).2.bat_is_warm = false) :
    charger_eoc d env =
      (check_fullcharged_state
        { (ti2419x_get_prop_batt_capacity d env).2 with
          chip := (ti2419x_is_chg_plugged_in (ti2419x_get_prop_batt_capacity d env).2.chip).2 }
        env,
        charger_eoc_delay (ti2419x_get_prop_batt_capacity d env).1
          (ti2419x_is_chg_plugged_in (ti2419x_get_prop_batt_capacity d env).2.chip).1) := by
  unfold charger_eoc
  rw [if_neg (by rw [h]; simp)]
  dsimp only
  rw [if_neg hc, if_pos (by rw [hw]; simp)]

theorem charger_eoc_in_warm (d : driver) (env : providers)
    (h : d.chip.resume_completed = true)
    (hc : (ti2419x_is_chg_plugged_in (ti2419x_get_prop_batt_capacity d env).2.chip).1 ≠ 0)
    (hw : (ti2419x_is_chg_plugged_in
      (ti2419x_get_prop_batt_capacity d env).2.chip).2.bat_is_warm = true) :
    charger_eoc d env =
      (charger_eoc_warm
        { (ti2419x_get_prop_batt_capacity d env).2 with
          chip := (ti2419x_is_chg_plugged_in (ti2419x_get_prop_batt_capacity d env).2.chip).2 }
        env (ti2419x_get_prop_batt_capacity d env).1,
        charger_eoc_delay (ti2419x_get_prop_batt_capacity d env).1
          (ti2419x_is_chg_plugged_in (ti2419x_get_prop_batt_capacity d env).2.chip).1) := by
  unfold charger_eoc
  rw [if_neg (by rw [h]; simp)]
  dsimp only
  rw [if_neg hc, if_neg (by rw [hw]; simp)]

theorem get_prop_batt_capacity_latch (d : driver) (env : providers)
    (h : d.zero_reported = true) :
    (ti2419x_get_prop_batt_capacity d env).2.zero_reported = true := by
  unfold ti2419x_get_prop_batt_capacity
  dsimp only
  refine (smooth_capacity_latched _ env _ ?_).2
  exact h

theorem charger_eoc_latch (d : driver) (env : providers) (h : d.zero_reported = true) :
    (charger_eoc d env).1.zero_reported = true := by
  have hq := get_prop_batt_capacity_latch d env h
  cases hr : d.chip.resume_completed
  · rw [charger_eoc_not_resumed d env hr]
    exact h
  · by_cases hc : (ti2419x_is_chg_plugged_in (ti2419x_get_prop_batt_capacity d env).2.chip).1 = 0
    · rw [charger_eoc_no_charger d env hr hc]
      exact hq
    · cases hw : (ti2419x_is_chg_plugged_in
          (ti2419x_get_prop_batt_capacity d env).2.chip).2.bat_is_warm
      · rw [charger_eoc_not_warm d env hr hc hw]
        exact (check_fullcharged_state_zero_reported _ env).trans hq
      · rw [charger_eoc_in_warm d env hr hc hw]
        exact (charger_eoc_warm_zero_reported _ env _).trans hq

/-- No operation of the driver clears the zero latch. -/
theorem apply_op_latch (d : driver) (op : driver_op) (h : d.zero_reported = true) :
    (apply_op d op).zero_reported = true := by
  cases op with
  | arbiter reason disable =>
    rw [apply_op, driver_zero_reported_mk]
    exact h
  | thermal_tick env =>
    rw [apply_op, thermal_tick_zero_reported]
    exact h
  | eoc_tick env =>
    rw [apply_op]
    exact charger_eoc_latch d env h
  | otg_enable =>
    rw [apply_op, driver_zero_reported_mk]
    exact h
  | otg_disable =>
    rw [apply_op, driver_zero_reported_mk]
    exact h
  | hw_status sys_stat fault =>
    rw [apply_op, driver_zero_reported_mk]
    exact h

theorem run_capacity_steps_latch (steps : List capacity_step) :
    ∀ d : driver, d.zero_reported = true →
      (run_capacity_steps d steps).zero_reported = true := by
  induction steps with
  | nil =>
    intro d h
    exact h
  | cons s rest ih =>
    intro d h
    rw [run_capacity_steps]
    apply ih
    cases s with
    | op o =>
      rw [apply_capacity_step]
      exact apply_op_latch d o h
    | query env soc =>
      rw [apply_capacity_step]
      exact (smooth_capacity_latched d env soc h).2

/-- C15: the zero latch. A call of `smooth_capacity` that returns 0 leaves
`zero_reported` set, for every state and input. From then on, through every
sequence of driver operations (arbiter calls, thermal ticks, EOC ticks, OTG
regulator calls, status updates) and further capacity queries, the latch stays
set, and every later call of `smooth_capacity` returns 0, whatever the raw
state of charge, the battery presence, the full flag, the voltage, the charger
presence and the shutdown switch. -/
theorem smooth_capacity_zero_latches (d : driver) (env : providers) (cap : Int)
    (later : List capacity_step) (env' : providers) (cap' : Int)
    (h0 : (smooth_capacity d env cap).1 = 0) :
    (smooth_capacity d env cap).2.zero_reported = true ∧
    (run_capacity_steps (smooth_capacity d env cap).2 later).zero_reported = true ∧
    (smooth_capacity (run_capacity_steps (smooth_capacity d env cap).2 later) env' cap').1 = 0 ∧
    (smooth_capacity (run_capacity_steps (smooth_capacity d env cap).2 later) env'
      cap').2.zero_reported = true := by
  have h1 := smooth_capacity_zero_only_latched d env cap h0
  have h2 := run_capacity_steps_latch later _ h1
  exact ⟨h1, h2, smooth_capacity_latched _ env' cap' h2⟩

/-- Witness for C15: the sample device has seen a positive state of charge (50)
and is then queried with a raw state of charge of 0 at 3.3 V, which returns 0;
after a query at 3.9 V and 80 percent and a thermal tick, a query at 50
percent returns 0. -/
theorem smooth_capacity_zero_latches_witness :
    (smooth_capacity (smooth_capacity sample_driver sample_env 50).2
      (sample_env_battery 3300000 0 1000) 0).1 = 0 ∧
    (smooth_capacity
      (run_capacity_steps
        (smooth_capacity (smooth_capacity sample_driver sample_env 50).2
          (sample_env_battery 3300000 0 1000) 0).2
        [capacity_step.query sample_env 80, capacity_step.op (driver_op.thermal_tick sample_env)])
      sample_env 50).1 = 0 :=
  ⟨by decide,
    (smooth_capacity_zero_latches (smooth_capacity sample_driver sample_env 50).2
      (sample_env_battery 3300000 0 1000) 0
      [capacity_step.query sample_env 80, capacity_step.op (driver_op.thermal_tick sample_env)]
      sample_env 50 (by decide)).2.2.1⟩

theorem batt_present_voltage_now (c : ti2419x_chip) (env : providers) :
    ti2419x_get_prop_voltage_now (ti2419x_get_prop_batt_present c env).2 env =
      ti2419x_get_prop_voltage_now c env := by
  unfold ti2419x_get_prop_voltage_now ti2419x_get_prop_batt_present
  split_ifs <;> rfl

/-- The part for a present battery, called with a raw state of charge of 0 while
the voltage looks safe or shutdown is disabled, returns 1 and does not latch. -/
theorem smooth_capacity_present_safe (d : driver) (env : providers)
    (hs : env.enable_to_shutdown = 0 ∨
      ti2419x_get_prop_voltage_now d.chip env > SHUTDOWN_VOLTAGE) :
    (smooth_capacity_present d env 0).1 = 1 ∧
    (smooth_capacity_present d env 0).2.zero_reported = d.zero_reported := by
  by_cases hlow : ti2419x_get_prop_voltage_now d.chip env ≤ LOW_TEMP_SHUTDOWN_VOLTAGE ∧
      (ti2419x_is_chg_plugged_in d.chip).1 = 0
  · by_cases h5 : s32 (d.smooth_capacity_count + 1) = 5
    · rw [smooth_capacity_present_forced d env 0 hlow h5,
        smooth_capacity_zero_safe _ env 0 _ hs]
      exact ⟨rfl, rfl⟩
    · rw [smooth_capacity_present_counting d env 0 hlow h5, if_pos rfl,
        smooth_capacity_zero_safe _ env 0 _ hs]
      exact ⟨rfl, rfl⟩
  · rw [smooth_capacity_present_reset d env 0 hlow, if_pos rfl,
      smooth_capacity_zero_safe _ env 0 _ hs]
    exact ⟨rfl, rfl⟩

/-- C17: for a device context whose zero latch is not set, `smooth_capacity`
returns 50 when the battery is absent; otherwise 100 when `batt_full` is set;
otherwise, for a raw state of charge of 0, it returns 1 when shutdown is
disabled (`enable_to_shutdown == 0`) or the battery voltage is above
SHUTDOWN_VOLTAGE (3.4 V). In each of the three cases the latch is still not set
after the call. -/
theorem smooth_capacity_rules_in_order (d : driver) (env : providers) (cap : Int)
    (hz : d.zero_reported = false) :
    ((ti2419x_get_prop_batt_present d.chip env).1 = 0 →
      (smooth_capacity d env cap).1 = 50 ∧
      (smooth_capacity d env cap).2.zero_reported = false) ∧
    ((ti2419x_get_prop_batt_present d.chip env).1 ≠ 0 → d.chip.batt_full = true →
      (smooth_capacity d env cap).1 = 100 ∧
      (smooth_capacity d env cap).2.zero_reported = false) ∧
    ((ti2419x_get_prop_batt_present d.chip env).1 ≠ 0 → d.chip.batt_full = false →
      cap = 0 →
      (env.enable_to_shutdown = 0 ∨
        ti2419x_get_prop_voltage_now d.chip env > SHUTDOWN_VOLTAGE) →
      (smooth_capacity d env cap).1 = 1 ∧
      (smooth_capacity d env cap).2.zero_reported = false) := by
  refine ⟨fun hp => ?_, fun hp hf => ?_, fun hp hf hc hs => ?_⟩
  · rw [smooth_capacity_eq_absent d env cap hz hp]
    exact ⟨rfl, hz⟩
  · rw [smooth_capacity_eq_full d env cap hz hp hf]
    exact ⟨rfl, hz⟩
  · subst hc
    rw [smooth_capacity_eq_present d env 0 hz hp hf]
    have h := smooth_capacity_present_safe
      { d with turnon_flags := d.turnon_flags && decide (¬ (0 : Int) > 0),
               chip := (ti2419x_get_prop_batt_present d.chip env).2 } env
      (by
        rcases hs with hs | hs
        · exact Or.inl hs
        · right
          show ti2419x_get_prop_voltage_now (ti2419x_get_prop_batt_present d.chip env).2 env
            > SHUTDOWN_VOLTAGE
          rw [batt_present_voltage_now]
          exact hs)
    exact ⟨h.1, h.2.trans hz⟩

/-- Witness for C17: the sample device queried with a raw state of charge of 0
at 3.9 V returns 1; with the battery flagged full it returns 100. -/
theorem smooth_capacity_rules_in_order_witness :
    (smooth_capacity sample_driver (sample_env_battery 3900000 0 1000) 0).1 = 1 ∧
    (smooth_capacity sample_driver (sample_env_battery 3900000 0 1000) 0).2.zero_reported
      = false :=
  (smooth_capacity_rules_in_order sample_driver (sample_env_battery 3900000 0 1000) 0
    (by decide)).2.2 (by decide) (by decide) rfl (Or.inr (by decide))

/-! ## The 40-second window before the first zero report -/

/-- The result code and the value of a register read depend on the client and
the read skip flag only. -/
theorem ti2419x_read_congr (c c' : ti2419x_chip) (reg v0 : Nat) (h1 : c'.client = c.client)
    (h2 : c'.skip_reads = c.skip_reads) :
    (ti2419x_read c' reg v0).1 = (ti2419x_read c reg v0).1 ∧
    (ti2419x_read c' reg v0).2.1 = (ti2419x_read c reg v0).2.1 := by
  unfold ti2419x_read
  by_cases hs : c.skip_reads ≠ 0
  · rw [if_pos hs, if_pos (by rw [h2]; exact hs)]
    exact ⟨rfl, rfl⟩
  · rw [if_neg hs, if_neg (by rw [h2]; exact hs)]
    by_cases h0 : c.client.xfer_rc (c.client.n_reads + c.client.n_writes) < 0
    · rw [read_fail c reg h0, read_fail c' reg (by rw [h1]; exact h0), h1]
      exact ⟨rfl, rfl⟩
    · rw [read_ok c reg (not_lt.mp h0), read_ok c' reg (by rw [h1]; exact not_lt.mp h0), h1]
      exact ⟨rfl, rfl⟩

theorem is_chg_plugged_in_congr (c c' : ti2419x_chip) (h1 : c'.client = c.client)
    (h2 : c'.skip_reads = c.skip_reads) :
    (ti2419x_is_chg_plugged_in c').1 = (ti2419x_is_chg_plugged_in c).1 := by
  obtain ⟨e1, e2⟩ := ti2419x_read_congr c c' SYS_STAT_REG 0 h1 h2
  unfold ti2419x_is_chg_plugged_in
  dsimp only
  rw [e1, e2]
  split_ifs <;> rfl

theorem batt_present_client (c : ti2419x_chip) (env : providers) :
    (ti2419x_get_prop_batt_present c env).2.client = c.client ∧
    (ti2419x_get_prop_batt_present c env).2.skip_reads = c.skip_reads := by
  unfold ti2419x_get_prop_batt_present
  split_ifs <;> exact ⟨rfl, rfl⟩

theorem batt_present_is_chg_plugged_in (c : ti2419x_chip) (env : providers) :
    (ti2419x_is_chg_plugged_in (ti2419x_get_prop_batt_present c env).2).1 =
      (ti2419x_is_chg_plugged_in c).1 :=
  is_chg_plugged_in_congr c _ (batt_present_client c env).1 (batt_present_client c env).2

theorem zero_report_check_count (d : driver) (env : providers) :
    (zero_report_check d env).2.smooth_capacity_count = d.smooth_capacity_count := by
  unfold zero_report_check
  split_ifs <;> rfl

theorem smooth_capacity_zero_count (d : driver) (env : providers) (cap batt_vol : Int) :
    (smooth_capacity_zero d env cap batt_vol).2.smooth_capacity_count =
      d.smooth_capacity_count := by
  by_cases hs : env.enable_to_shutdown = 0 ∨ batt_vol > SHUTDOWN_VOLTAGE
  · rw [smooth_capacity_zero_safe d env cap batt_vol hs]
  · rw [not_or] at hs
    cases ht : d.turnon_flags
    · rw [smooth_capacity_zero_latched_now d env cap batt_vol hs.1 hs.2 ht]
    · cases hz : (zero_report_check d env).1
      · rw [smooth_capacity_zero_wait d env cap batt_vol hs.1 hs.2 ht hz]
        exact zero_report_check_count d env
      · rw [smooth_capacity_zero_late d env cap batt_vol hs.1 hs.2 ht hz]
        exact zero_report_check_count d env

/-- Evaluation for C18 at the failing input: the sample device is queried five
times in a row at 3.1 V without a charger, with a raw state of charge of 37.
The fifth call sets `capacity` to 0 and sets the zero latch, but what it
returns is the copy `cap` taken on entry, 37, where a fifth call with a raw
state of charge of 0 returns 0; it is the sixth call that returns 0. -/
theorem low_voltage_fifth_call_returns_stale_cap :
    (smooth_capacity_calls sample_driver
      [(sample_env_battery 3100000 37 1000, 37), (sample_env_battery 3100000 37 1000, 37),
        (sample_env_battery 3100000 37 1000, 37), (sample_env_battery 3100000 37 1000, 37),
        (sample_env_battery 3100000 37 1000, 37)]).1 = [37, 37, 37, 37, 37] ∧
    (smooth_capacity_calls sample_driver
      [(sample_env_battery 3100000 37 1000, 37), (sample_env_battery 3100000 37 1000, 37),
        (sample_env_battery 3100000 37 1000, 37), (sample_env_battery 3100000 37 1000, 37),
        (sample_env_battery 3100000 37 1000, 37)]).2.zero_reported = true ∧
    (smooth_capacity_calls sample_driver
      [(sample_env_battery 3100000 37 1000, 37), (sample_env_battery 3100000 37 1000, 37),
        (sample_env_battery 3100000 37 1000, 37), (sample_env_battery 3100000 37 1000, 37),
        (sample_env_battery 3100000 37 1000, 0)]).1 = [37, 37, 37, 37, 0] ∧
    (smooth_capacity_calls sample_driver
      [(sample_env_battery 3100000 37 1000, 37), (sample_env_battery 3100000 37 1000, 37),
        (sample_env_battery 3100000 37 1000, 37), (sample_env_battery 3100000 37 1000, 37),
        (sample_env_battery 3100000 37 1000, 37),
        (sample_env_battery 3100000 37 1000, 37)]).1 = [37, 37, 37, 37, 37, 0] := by
  decide

/-- The count of low-voltage calls of `smooth_capacity` as the code is written
(the behaviour that C18 is checked against): take a call of `smooth_capacity`
with the raw state of charge `cap` for a present, not full battery with the
latch not set and shutdown enabled. If the voltage is at or below LOW_TEMP_SHUTDOWN_VOLTAGE (3.2 V) and no
charger is reported, the call counts: with fewer than four such calls counted
and `cap` not 0 it returns `cap`, does not latch and adds one to the count; as
the fifth such call in a row (count 4), when a positive state of charge has
been seen before or is seen now, it sets the zero latch and resets the count
but still returns the raw `cap`, which is 0 only if the raw state of charge is
0, and it is the next call that returns 0. A call that does not meet the
low-voltage and no-charger condition leaves the count at 0. -/
theorem low_voltage_fifth_call_latches_reports_raw (d : driver) (env : providers) (cap : Int)
    (hz : d.zero_reported = false) (hp : (ti2419x_get_prop_batt_present d.chip env).1 ≠ 0)
    (hf : d.chip.batt_full = false) (hs : env.enable_to_shutdown ≠ 0) :
    (ti2419x_get_prop_voltage_now d.chip env ≤ LOW_TEMP_SHUTDOWN_VOLTAGE ∧
        (ti2419x_is_chg_plugged_in d.chip).1 = 0 →
      (d.smooth_capacity_count = 4 → d.turnon_flags = false ∨ cap > 0 →
        (smooth_capacity d env cap).1 = cap ∧
        (smooth_capacity d env cap).2.zero_reported = true ∧
        (smooth_capacity d env cap).2.smooth_capacity_count = 0 ∧
        ∀ (env' : providers) (cap' : Int),
          (smooth_capacity (smooth_capacity d env cap).2 env' cap').1 = 0) ∧
      (0 ≤ d.smooth_capacity_count ∧ d.smooth_capacity_count < 4 → cap ≠ 0 →
        (smooth_capacity d env cap).1 = cap ∧
        (smooth_capacity d env cap).2.zero_reported = false ∧
        (smooth_capacity d env cap).2.smooth_capacity_count = d.smooth_capacity_count + 1)) ∧
    (¬ (ti2419x_get_prop_voltage_now d.chip env ≤ LOW_TEMP_SHUTDOWN_VOLTAGE ∧
        (ti2419x_is_chg_plugged_in d.chip).1 = 0) →
      (smooth_capacity d env cap).2.smooth_capacity_count = 0) := by
  have hv : ti2419x_get_prop_voltage_now (ti2419x_get_prop_batt_present d.chip env).2 env =
      ti2419x_get_prop_voltage_now d.chip env := batt_present_voltage_now d.chip env
  have hc : (ti2419x_is_chg_plugged_in (ti2419x_get_prop_batt_present d.chip env).2).1 =
      (ti2419x_is_chg_plugged_in d.chip).1 := batt_present_is_chg_plugged_in d.chip env
  rw [smooth_capacity_eq_present d env cap hz hp hf]
  have hDc : ({ d with
        turnon_flags := d.turnon_flags && decide (¬ cap > 0),
        chip := (ti2419x_get_prop_batt_present d.chip env).2 } : driver).chip =
      (ti2419x_get_prop_batt_present d.chip env).2 := rfl
  have hDt : ({ d with
        turnon_flags := d.turnon_flags && decide (¬ cap > 0),
        chip := (ti2419x_get_prop_batt_present d.chip env).2 } : driver).turnon_flags =
      (d.turnon_flags && decide (¬ cap > 0)) := rfl
  have hDz : ({ d with
        turnon_flags := d.turnon_flags && decide (¬ cap > 0),
        chip := (ti2419x_get_prop_batt_present d.chip env).2 } : driver).zero_reported =
      d.zero_reported := rfl
  have hDn : ({ d with
        turnon_flags := d.turnon_flags && decide (¬ cap > 0),
        chip := (ti2419x_get_prop_batt_present d.chip env).2 } : driver).smooth_capacity_count =
      d.smooth_capacity_count := rfl
  generalize ({ d with
        turnon_flags := d.turnon_flags && decide (¬ cap > 0),
        chip := (ti2419x_get_prop_batt_present d.chip env).2 } : driver) = D
    at hDc hDt hDz hDn ⊢
  rw [← hDc] at hv hc
  rw [← hv, ← hc, ← hDn]
  refine ⟨fun hlow => ⟨fun h4 hseen => ?_, fun hn hcap => ?_⟩, fun hlow => ?_⟩
  · have h5 : s32 (D.smooth_capacity_count + 1) = 5 := by
      rw [h4]
      decide
    have hvs : ¬ ti2419x_get_prop_voltage_now D.chip env > SHUTDOWN_VOLTAGE := by
      have := hlow.1
      unfold LOW_TEMP_SHUTDOWN_VOLTAGE at this
      unfold SHUTDOWN_VOLTAGE
      omega
    have ht : ({ D with
        chip := (ti2419x_is_chg_plugged_in D.chip).2,
        smooth_capacity_count := 0 } : driver).turnon_flags = false := by
      show D.turnon_flags = false
      rw [hDt]
      rcases hseen with h | h
      · rw [h]
        rfl
      · simp [h]
    rw [smooth_capacity_present_forced D env cap hlow h5,
      smooth_capacity_zero_latched_now _ env cap _ hs hvs ht]
    exact ⟨rfl, rfl, rfl, fun env' cap' => (smooth_capacity_latched _ env' cap' rfl).1⟩
  · have h5 : s32 (D.smooth_capacity_count + 1) = D.smooth_capacity_count + 1 := by
      unfold s32
      split_ifs <;> omega
    have h5' : s32 (D.smooth_capacity_count + 1) ≠ 5 := by
      rw [h5]
      omega
    rw [smooth_capacity_present_counting D env cap hlow h5', if_neg hcap]
    exact ⟨rfl, hDz.trans hz, h5⟩
  · rw [smooth_capacity_present_reset D env cap hlow]
    by_cases hcap : cap = 0
    · rw [if_pos hcap, smooth_capacity_zero_count]
    · rw [if_neg hcap]

/-- An instance of `low_voltage_fifth_call_latches_reports_raw`: the sample
device after four calls at 3.1 V without a charger and a raw state of charge of
37; the fifth such call returns 37 and latches. -/
theorem low_voltage_fifth_call_latches_reports_raw_witness :
    (smooth_capacity_calls sample_driver
      [(sample_env_battery 3100000 37 1000, 37), (sample_env_battery 3100000 37 1000, 37),
        (sample_env_battery 3100000 37 1000, 37),
        (sample_env_battery 3100000 37 1000, 37)]).2.smooth_capacity_count = 4 ∧
    (smooth_capacity
      (smooth_capacity_calls sample_driver
        [(sample_env_battery 3100000 37 1000, 37), (sample_env_battery 3100000 37 1000, 37),
          (sample_env_battery 3100000 37 1000, 37),
          (sample_env_battery 3100000 37 1000, 37)]).2
      (sample_env_battery 3100000 37 1000) 37).1 = 37 ∧
    (smooth_capacity
      (smooth_capacity_calls sample_driver
        [(sample_env_battery 3100000 37 1000, 37), (sample_env_battery 3100000 37 1000, 37),
          (sample_env_battery 3100000 37 1000, 37),
          (sample_env_battery 3100000 37 1000, 37)]).2
      (sample_env_battery 3100000 37 1000) 37).2.zero_reported = true :=
  have h := ((low_voltage_fifth_call_latches_reports_raw
    (smooth_capacity_calls sample_driver
      [(sample_env_battery 3100000 37 1000, 37), (sample_env_battery 3100000 37 1000, 37),
        (sample_env_battery 3100000 37 1000, 37),
        (sample_env_battery 3100000 37 1000, 37)]).2
    (sample_env_battery 3100000 37 1000) 37
    (by decide) (by decide) (by decide) (by decide)).1 (by decide)).1 (by decide)
    (Or.inl (by decide))
  ⟨by decide, h.1, h.2.1⟩

/-! ## What the end-of-charge tick leaves alone -/

theorem same_settings_refl (c : ti2419x_chip) : same_settings c c := rfl

theorem same_settings_trans {a b c : ti2419x_chip} (h1 : same_settings a b)
    (h2 : same_settings b c) : same_settings a c := Eq.trans h2 h1

theorem settings_of_set_client (c : ti2419x_chip) (cl : i2c_client) :
    settings_of { c with client := cl } = settings_of c := rfl

theorem settings_of_set_client_status (c : ti2419x_chip) (cl : i2c_client) (s : Int) :
    settings_of { c with client := cl, charging_disabled_status := s } = settings_of c := rfl

theorem settings_of_set_soc (c : ti2419x_chip) (s : Int) :
    settings_of { c with soc := s } = settings_of c := rfl

theorem settings_of_set_batt_present (c : ti2419x_chip) (b : Bool) :
    settings_of { c with batt_present := b } = settings_of c := rfl

theorem same_settings_read (chip : ti2419x_chip) (reg val0 : Nat) :
    same_settings chip (ti2419x_read chip reg val0).2.2 := by
  unfold same_settings
  rcases ti2419x_read_chip chip reg val0 with h | h
  · rw [h]
  · rw [h]
    exact settings_of_set_client chip _

theorem same_settings_masked_write (chip : ti2419x_chip) (reg mask val : Nat) :
    same_settings chip (ti2419x_masked_write chip reg mask val).2 := by
  unfold same_settings
  rw [masked_write_frame]
  exact settings_of_set_client chip _

theorem same_settings_charging_disable (chip : ti2419x_chip) (reason disable : Int) :
    same_settings chip (ti2419x_charging_disable chip reason disable).2 := by
  unfold same_settings
  rw [charging_disable_frame]
  exact settings_of_set_client_status chip _ _

theorem same_settings_direct_disable (chip : ti2419x_chip) (disable : Bool) :
    same_settings chip (__ti2419x_charging_disable chip disable).2 := by
  unfold __ti2419x_charging_disable
  exact same_settings_masked_write _ _ _ _

theorem same_settings_is_chg_plugged_in (chip : ti2419x_chip) :
    same_settings chip (ti2419x_is_chg_plugged_in chip).2 := by
  unfold ti2419x_is_chg_plugged_in
  dsimp only
  split_ifs <;> exact same_settings_read _ _ _

theorem same_settings_get_charging_status (chip : ti2419x_chip) :
    same_settings chip (ti2419x_get_charging_status chip).2 := by
  unfold ti2419x_get_charging_status
  dsimp only
  split_ifs <;> exact same_settings_read _ _ _

theorem same_settings_float_voltage_get (chip : ti2419x_chip) :
    same_settings chip (ti2419x_float_voltage_get chip).2.2 := by
  unfold ti2419x_float_voltage_get
  dsimp only
  split_ifs <;> exact same_settings_read _ _ _

theorem same_settings_get_prop_batt_present (chip : ti2419x_chip) (env : providers) :
    same_settings chip (ti2419x_get_prop_batt_present chip env).2 := by
  unfold ti2419x_get_prop_batt_present
  split_ifs <;> exact settings_of_set_batt_present chip _

theorem same_settings_zero_report_check (d : driver) (env : providers) :
    same_settings d.chip (zero_report_check d env).2.chip := by
  unfold zero_report_check
  split_ifs <;> exact same_settings_refl _

theorem same_settings_smooth_capacity_zero (d : driver) (env : providers) (cap batt_vol : Int) :
    same_settings d.chip (smooth_capacity_zero d env cap batt_vol).2.chip := by
  unfold smooth_capacity_zero
  dsimp only
  split_ifs <;> first | exact same_settings_refl _ | exact same_settings_zero_report_check d env

theorem same_settings_smooth_capacity_present (d : driver) (env : providers) (capacity : Int) :
    same_settings d.chip (smooth_capacity_present d env capacity).2.chip := by
  unfold smooth_capacity_present
  dsimp only
  split_ifs <;> first
    | exact same_settings_is_chg_plugged_in _
    | exact same_settings_trans (same_settings_is_chg_plugged_in d.chip)
        (same_settings_smooth_capacity_zero _ env _ _)

theorem same_settings_smooth_capacity (d : driver) (env : providers) (capacity : Int) :
    same_settings d.chip (smooth_capacity d env capacity).2.chip := by
  unfold smooth_capacity
  dsimp only
  split_ifs <;> first
    | exact same_settings_refl _
    | exact same_settings_get_prop_batt_present _ _
    | exact same_settings_trans (same_settings_get_prop_batt_present d.chip env)
        (same_settings_smooth_capacity_present _ env _)

theorem same_settings_get_prop_batt_capacity (d : driver) (env : providers) :
    same_settings d.chip (ti2419x_get_prop_batt_capacity d env).2.chip := by
  unfold ti2419x_get_prop_batt_capacity
  exact same_settings_trans
    (b := { d.chip with soc := ti2419x_get_prop_batt_capacity_real d.chip env })
    (settings_of_set_soc d.chip _) (same_settings_smooth_capacity _ env _)

/-! Fields that `settings_of` keeps. -/

theorem same_settings_batt_warm_full {c c' : ti2419x_chip} (h : same_settings c c') :
    c'.batt_warm_full = c.batt_warm_full :=
  have h2 : (settings_of c').batt_warm_full = (settings_of c).batt_warm_full :=
    congrArg ti2419x_chip.batt_warm_full h
  h2

theorem same_settings_batt_full {c c' : ti2419x_chip} (h : same_settings c c') :
    c'.batt_full = c.batt_full :=
  have h2 : (settings_of c').batt_full = (settings_of c).batt_full :=
    congrArg ti2419x_chip.batt_full h
  h2

theorem same_settings_bat_is_warm {c c' : ti2419x_chip} (h : same_settings c c') :
    c'.bat_is_warm = c.bat_is_warm :=
  have h2 : (settings_of c').bat_is_warm = (settings_of c).bat_is_warm :=
    congrArg ti2419x_chip.bat_is_warm h
  h2

theorem same_settings_resume_completed {c c' : ti2419x_chip} (h : same_settings c c') :
    c'.resume_completed = c.resume_completed :=
  have h2 : (settings_of c').resume_completed = (settings_of c).resume_completed :=
    congrArg ti2419x_chip.resume_completed h
  h2

/-! The debounce counter and the notification count under a capacity query. -/

theorem zero_report_check_eoc_count (d : driver) (env : providers) :
    (zero_report_check d env).2.charger_eoc_count = d.charger_eoc_count ∧
    (zero_report_check d env).2.psy_changed = d.psy_changed := by
  unfold zero_report_check
  split_ifs <;> exact ⟨rfl, rfl⟩

theorem smooth_capacity_zero_eoc_count (d : driver) (env : providers) (cap batt_vol : Int) :
    (smooth_capacity_zero d env cap batt_vol).2.charger_eoc_count = d.charger_eoc_count ∧
    (smooth_capacity_zero d env cap batt_vol).2.psy_changed = d.psy_changed := by
  unfold smooth_capacity_zero
  dsimp only
  split_ifs <;> first | exact ⟨rfl, rfl⟩ | exact zero_report_check_eoc_count d env

theorem smooth_capacity_present_eoc_count (d : driver) (env : providers) (capacity : Int) :
    (smooth_capacity_present d env capacity).2.charger_eoc_count = d.charger_eoc_count ∧
    (smooth_capacity_present d env capacity).2.psy_changed = d.psy_changed := by
  unfold smooth_capacity_present
  dsimp only
  split_ifs <;> first
    | exact ⟨rfl, rfl⟩
    | exact smooth_capacity_zero_eoc_count _ env _ _

theorem smooth_capacity_eoc_count (d : driver) (env : providers) (capacity : Int) :
    (smooth_capacity d env capacity).2.charger_eoc_count = d.charger_eoc_count ∧
    (smooth_capacity d env capacity).2.psy_changed = d.psy_changed := by
  unfold smooth_capacity
  dsimp only
  split_ifs <;> first
    | exact ⟨rfl, rfl⟩
    | exact smooth_capacity_present_eoc_count _ env _

theorem get_prop_batt_capacity_eoc_count (d : driver) (env : providers) :
    (ti2419x_get_prop_batt_capacity d env).2.charger_eoc_count = d.charger_eoc_count ∧
    (ti2419x_get_prop_batt_capacity d env).2.psy_changed = d.psy_changed := by
  unfold ti2419x_get_prop_batt_capacity
  exact smooth_capacity_eoc_count _ env _

/-! ## The warm block of the end-of-charge tick, branch by branch -/

/-- A qualifying sample reaches the debounce statement: the latch is set when
the counter equals CONSECUTIVE_COUNT on entry, and the counter is incremented
otherwise. -/
theorem charger_eoc_warm_counts (D : driver) (env : providers) (soc : Int)
    (h : eoc_warm_counts D env soc = true) :
    charger_eoc_warm D env soc =
      if D.charger_eoc_count = CONSECUTIVE_COUNT then
        { D with
          chip := (ti2419x_charging_disable
            { (ti2419x_get_charging_status (ti2419x_float_voltage_get D.chip).2.2).2 with
              batt_warm_full := true } CURRENT 1).2,
          psy_changed := D.psy_changed + 1 }
      else
        { D with
          chip := (ti2419x_get_charging_status (ti2419x_float_voltage_get D.chip).2.2).2,
          charger_eoc_count := D.charger_eoc_count + 1 } := by
  unfold eoc_warm_counts at h
  unfold charger_eoc_warm
  dsimp only at h ⊢
  by_cases hrc : (ti2419x_float_voltage_get D.chip).1 < 0
  · rw [if_pos hrc] at h
    exact absurd h (by simp)
  · rw [if_neg hrc] at h ⊢
    by_cases hf : (ti2419x_float_voltage_get D.chip).2.2.batt_warm_full = true
    · rw [if_pos hf] at h
      exact absurd h (by simp)
    · rw [if_neg hf] at h ⊢
      by_cases hs : (ti2419x_get_charging_status (ti2419x_float_voltage_get D.chip).2.2).1 =
          FAST_CHARGE
      · rw [if_pos hs] at h ⊢
        by_cases he : (ti2419x_get_prop_voltage_now (ti2419x_float_voltage_get D.chip).2.2
              env).tdiv 1000 <
            (ti2419x_float_voltage_get D.chip).2.1.getD 0 -
              (ti2419x_get_charging_status
                (ti2419x_float_voltage_get D.chip).2.2).2.warm_resume_delta_mv -
              (ti2419x_get_charging_status
                (ti2419x_float_voltage_get D.chip).2.2).2.vbatdet_max_err_mv ∧
            (ti2419x_get_charging_status
              (ti2419x_float_voltage_get D.chip).2.2).2.bat_is_warm = true
        · rw [if_pos he] at h
          exact absurd h (by simp)
        · rw [if_neg he] at h ⊢
          rw [if_pos (of_decide_eq_true h)]
      · rw [if_neg hs] at h
        exact absurd h (by simp)

/-- The branch "woke up too early" clears the counter and changes nothing else
but the client. -/
theorem charger_eoc_warm_resets (D : driver) (env : providers) (soc : Int)
    (h : eoc_warm_resets D env = true) :
    charger_eoc_warm D env soc =
      { D with
        chip := (ti2419x_get_charging_status (ti2419x_float_voltage_get D.chip).2.2).2,
        charger_eoc_count := 0 } := by
  unfold eoc_warm_resets at h
  unfold charger_eoc_warm
  dsimp only at h ⊢
  by_cases hrc : (ti2419x_float_voltage_get D.chip).1 < 0
  · rw [if_pos hrc] at h
    exact absurd h (by simp)
  · rw [if_neg hrc] at h ⊢
    by_cases hf : (ti2419x_float_voltage_get D.chip).2.2.batt_warm_full = true
    · rw [if_pos hf] at h
      exact absurd h (by simp)
    · rw [if_neg hf] at h ⊢
      by_cases hs : (ti2419x_get_charging_status (ti2419x_float_voltage_get D.chip).2.2).1 =
          FAST_CHARGE
      · rw [if_pos hs] at h ⊢
        rw [if_pos (of_decide_eq_true h)]
      · rw [if_neg hs] at h
        exact absurd h (by simp)

/-- A sample of the warm block that neither qualifies nor wakes up too early
leaves the counter and, with the latch not set, the latch as they were. -/
theorem charger_eoc_warm_idle (D : driver) (env : providers) (soc : Int)
    (hl : D.chip.batt_warm_full = false)
    (hr : eoc_warm_resets D env = false) (hc : eoc_warm_counts D env soc = false) :
    (charger_eoc_warm D env soc).charger_eoc_count = D.charger_eoc_count ∧
    (charger_eoc_warm D env soc).chip.batt_warm_full = false := by
  have hF : (ti2419x_float_voltage_get D.chip).2.2.batt_warm_full = false :=
    (same_settings_batt_warm_full (same_settings_float_voltage_get D.chip)).trans hl
  have hS : (ti2419x_get_charging_status
      (ti2419x_float_voltage_get D.chip).2.2).2.batt_warm_full = false :=
    (same_settings_batt_warm_full (same_settings_get_charging_status _)).trans hF
  unfold eoc_warm_resets at hr
  unfold eoc_warm_counts at hc
  unfold charger_eoc_warm
  dsimp only at hr hc ⊢
  by_cases hrc : (ti2419x_float_voltage_get D.chip).1 < 0
  · rw [if_pos hrc]
    exact ⟨rfl, hF⟩
  · rw [if_neg hrc] at hr hc ⊢
    rw [if_neg (by rw [hF]; simp)] at hr hc ⊢
    by_cases hs : (ti2419x_get_charging_status (ti2419x_float_voltage_get D.chip).2.2).1 =
        FAST_CHARGE
    · rw [if_pos hs] at hr hc ⊢
      rw [if_neg (of_decide_eq_false hr)] at hc ⊢
      rw [if_neg (of_decide_eq_false hc)]
      exact ⟨rfl, hS⟩
    · rw [if_neg hs]
      exact ⟨rfl, hS⟩

/-! ## One end-of-charge tick -/

/-- An arbiter call for CURRENT on a live transport sets the CURRENT bit to the
flag. -/
theorem current_bit_charging_disable (c : ti2419x_chip) (v : Int) (hl : transport_live c) :
    current_reason_set (ti2419x_charging_disable c CURRENT v).2 = decide (v = 1) := by
  unfold current_reason_set
  rw [charging_disable_status, if_neg (by rw [charging_disable_live c CURRENT v hl]; simp),
    arbiter_mask_testBit _ CURRENT v (by tauto), if_pos rfl]

theorem live_set_batt_warm_full (c : ti2419x_chip) (b : Bool) (hl : transport_live c) :
    transport_live { c with batt_warm_full := b } := hl

theorem batt_full_set_batt_warm_full (c : ti2419x_chip) (b : Bool) :
    ({ c with batt_warm_full := b } : ti2419x_chip).batt_full = c.batt_full := rfl

theorem settings_of_set_batt_warm_full (c : ti2419x_chip) (b : Bool) :
    settings_of { c with batt_warm_full := b } = { settings_of c with batt_warm_full := b } := rfl

theorem eoc_counts_unfold (d : driver) (env : providers) (h : eoc_counts d env = true) :
    d.chip.resume_completed = true ∧
    (ti2419x_is_chg_plugged_in (ti2419x_get_prop_batt_capacity d env).2.chip).1 ≠ 0 ∧
    (ti2419x_is_chg_plugged_in
      (ti2419x_get_prop_batt_capacity d env).2.chip).2.bat_is_warm = true ∧
    eoc_warm_counts
      { (ti2419x_get_prop_batt_capacity d env).2 with
        chip := (ti2419x_is_chg_plugged_in (ti2419x_get_prop_batt_capacity d env).2.chip).2 }
      env (ti2419x_get_prop_batt_capacity d env).1 = true := by
  unfold eoc_counts at h
  cases hr : d.chip.resume_completed
  · rw [if_pos (by rw [hr]; simp)] at h
    exact absurd h (by simp)
  · rw [if_neg (by rw [hr]; simp)] at h
    dsimp only at h
    by_cases hc : (ti2419x_is_chg_plugged_in (ti2419x_get_prop_batt_capacity d env).2.chip).1 = 0
    · rw [if_pos hc] at h
      exact absurd h (by simp)
    · rw [if_neg hc] at h
      cases hw : (ti2419x_is_chg_plugged_in
          (ti2419x_get_prop_batt_capacity d env).2.chip).2.bat_is_warm
      · rw [if_pos (by rw [hw]; simp)] at h
        exact absurd h (by simp)
      · rw [if_neg (by rw [hw]; simp)] at h
        exact ⟨rfl, hc, rfl, h⟩

/-- The chip that the reads of a tick in the warm block leave differs from the
one at entry in the client, `soc` and `batt_present` at most. -/
theorem eoc_reads_frame (d : driver) (env : providers) :
    same_settings d.chip
      (ti2419x_get_charging_status (ti2419x_float_voltage_get (ti2419x_is_chg_plugged_in
        (ti2419x_get_prop_batt_capacity d env).2.chip).2).2.2).2 ∧
    keeps_enable_line d.chip
      (ti2419x_get_charging_status (ti2419x_float_voltage_get (ti2419x_is_chg_plugged_in
        (ti2419x_get_prop_batt_capacity d env).2.chip).2).2.2).2 :=
  ⟨same_settings_trans (same_settings_trans (same_settings_trans
      (same_settings_get_prop_batt_capacity d env) (same_settings_is_chg_plugged_in _))
      (same_settings_float_voltage_get _)) (same_settings_get_charging_status _),
    keeps_trans (keeps_trans (keeps_trans
      (keeps_get_prop_batt_capacity d env) (keeps_is_chg_plugged_in _))
      (keeps_float_voltage_get _)) (keeps_get_charging_status _)⟩

/-- A qualifying tick below the limit adds one to the counter and changes the
chip in the client, `soc` and `batt_present` at most. -/
theorem eoc_tick_step (d : driver) (env : providers) (h : eoc_counts d env = true)
    (hn : d.charger_eoc_count ≠ CONSECUTIVE_COUNT) :
    (charger_eoc d env).1.charger_eoc_count = d.charger_eoc_count + 1 ∧
    (charger_eoc d env).1.psy_changed = d.psy_changed ∧
    same_settings d.chip (charger_eoc d env).1.chip ∧
    keeps_enable_line d.chip (charger_eoc d env).1.chip := by
  obtain ⟨hr, hc, hw, hq⟩ := eoc_counts_unfold d env h
  have hcnt := get_prop_batt_capacity_eoc_count d env
  rw [charger_eoc_in_warm d env hr hc hw]
  dsimp only
  rw [charger_eoc_warm_counts _ env _ hq]
  dsimp only
  rw [if_neg (by rw [hcnt.1]; exact hn)]
  refine ⟨?_, ?_, ?_, ?_⟩
  · show (ti2419x_get_prop_batt_capacity d env).2.charger_eoc_count + 1 = _
    rw [hcnt.1]
  · exact hcnt.2
  · exact (eoc_reads_frame d env).1
  · exact (eoc_reads_frame d env).2

/-- A qualifying tick that finds the counter at the limit sets the warm-full
latch and asks the arbiter to disable charging for CURRENT. -/
theorem eoc_tick_latch (d : driver) (env : providers) (h : eoc_counts d env = true)
    (h5 : d.charger_eoc_count = CONSECUTIVE_COUNT) :
    (charger_eoc d env).1.chip.batt_warm_full = true ∧
    (charger_eoc d env).1.charger_eoc_count = CONSECUTIVE_COUNT ∧
    (charger_eoc d env).1.chip.batt_full = d.chip.batt_full ∧
    (charger_eoc d env).1.psy_changed = d.psy_changed + 1 ∧
    (transport_live d.chip → current_reason_set (charger_eoc d env).1.chip = true) := by
  obtain ⟨hr, hc, hw, hq⟩ := eoc_counts_unfold d env h
  have hcnt := get_prop_batt_capacity_eoc_count d env
  have hfr := eoc_reads_frame d env
  rw [charger_eoc_in_warm d env hr hc hw]
  dsimp only
  rw [charger_eoc_warm_counts _ env _ hq]
  dsimp only
  rw [if_pos (by rw [hcnt.1]; exact h5)]
  refine ⟨?_, ?_, ?_, ?_, ?_⟩
  · rw [driver_chip_mk]
    exact same_settings_batt_warm_full (same_settings_charging_disable _ CURRENT 1)
  · exact hcnt.1.trans h5
  · rw [driver_chip_mk]
    exact (same_settings_batt_full (same_settings_charging_disable _ CURRENT 1)).trans
      ((batt_full_set_batt_warm_full _ true).trans (same_settings_batt_full hfr.1))
  · show (ti2419x_get_prop_batt_capacity d env).2.psy_changed + 1 = _
    rw [hcnt.2]
  · intro hl
    rw [driver_chip_mk]
    rw [current_bit_charging_disable _ 1 (live_set_batt_warm_full _ true (live_of_keeps hfr.2 hl))]
    rfl

/-! ## Runs of qualifying end-of-charge ticks -/

/-- Qualifying ticks that stay below the limit only count. -/
theorem eoc_run_below (envs : List providers) :
    ∀ d : driver, eoc_run_counts d envs = true →
      d.charger_eoc_count + (envs.length : Int) ≤ CONSECUTIVE_COUNT →
      (eoc_ticks d envs).charger_eoc_count = d.charger_eoc_count + (envs.length : Int) ∧
      (eoc_ticks d envs).psy_changed = d.psy_changed ∧
      same_settings d.chip (eoc_ticks d envs).chip ∧
      keeps_enable_line d.chip (eoc_ticks d envs).chip := by
  induction envs with
  | nil =>
    intro d _ _
    refine ⟨?_, rfl, same_settings_refl _, keeps_refl _⟩
    show d.charger_eoc_count = d.charger_eoc_count + ((0 : Nat) : Int)
    simp
  | cons env rest ih =>
    intro d hq hle
    rw [eoc_run_counts, Bool.and_eq_true] at hq
    rw [List.length_cons, Nat.cast_succ] at hle
    have hn : d.charger_eoc_count ≠ CONSECUTIVE_COUNT := by
      intro h5
      have : (0 : Int) ≤ (rest.length : Int) := Int.ofNat_nonneg _
      omega
    obtain ⟨h1, h2, h3, h4⟩ := eoc_tick_step d env hq.1 hn
    obtain ⟨i1, i2, i3, i4⟩ := ih (charger_eoc d env).1 hq.2 (by rw [h1]; omega)
    rw [eoc_ticks]
    refine ⟨?_, i2.trans h2, same_settings_trans h3 i3, keeps_trans h4 i4⟩
    rw [i1, h1, List.length_cons, Nat.cast_succ]
    omega

/-- Qualifying ticks, the last of which finds the counter at the limit, set the
latch on that last tick. -/
theorem eoc_run_latch (envs : List providers) :
    ∀ d : driver, eoc_run_counts d envs = true → envs ≠ [] →
      d.charger_eoc_count + (envs.length : Int) = CONSECUTIVE_COUNT + 1 →
      (eoc_ticks d envs).chip.batt_warm_full = true ∧
      (eoc_ticks d envs).chip.batt_full = d.chip.batt_full ∧
      (eoc_ticks d envs).psy_changed = d.psy_changed + 1 ∧
      (transport_live d.chip → current_reason_set (eoc_ticks d envs).chip = true) := by
  induction envs with
  | nil =>
    intro d _ hne _
    exact absurd rfl hne
  | cons env rest ih =>
    intro d hq _ hlen
    rw [eoc_run_counts, Bool.and_eq_true] at hq
    rw [List.length_cons, Nat.cast_succ] at hlen
    rw [eoc_ticks]
    cases rest with
    | nil =>
      have h5 : d.charger_eoc_count = CONSECUTIVE_COUNT := by
        have h0 : (([] : List providers).length : Int) = 0 := rfl
        rw [h0] at hlen
        omega
      obtain ⟨h1, _, h3, h4, h5⟩ := eoc_tick_latch d env hq.1 h5
      exact ⟨h1, h3, h4, h5⟩
    | cons e2 rest2 =>
      have hn : d.charger_eoc_count ≠ CONSECUTIVE_COUNT := by
        intro h5
        rw [List.length_cons, Nat.cast_succ] at hlen
        have : (0 : Int) ≤ (rest2.length : Int) := Int.ofNat_nonneg _
        omega
      obtain ⟨h1, h2, h3, h4⟩ := eoc_tick_step d env hq.1 hn
      obtain ⟨i1, i2, i3, i4⟩ := ih (charger_eoc d env).1 hq.2 (by simp) (by rw [h1]; omega)
      exact ⟨i1, i2.trans (same_settings_batt_full h3), i3.trans (by rw [h2]),
        fun hl => i4 (live_of_keeps h4 hl)⟩

/-- Counterexample to C19 as stated: the sample device is in the warm band with
a charger connected that reports fast charge, the counter at 0 and no latch set.
Five ticks in a row see a state of charge of 90 and a charge current 1 mA below
the termination current. After the fifth tick the counter is 5, but neither
`batt_full` nor `batt_warm_full` is set and the CURRENT bit of the disable
bitmask is clear; it is the sixth such tick that sets `batt_warm_full` and the
CURRENT bit. Outside the warm band the same six ticks set no latch at all. -/
theorem eoc_fifth_tick_counterexample :
    sample_warm_driver.charger_eoc_count = 0 ∧
    (ti2419x_is_chg_plugged_in sample_warm_driver.chip).1 = 1 ∧
    (ti2419x_get_charging_status sample_warm_driver.chip).1 = FAST_CHARGE ∧
    ti2419x_get_prop_current_now sample_warm_driver.chip sample_env_eoc =
      -((sample_warm_driver.chip.iterm_ma - 1) * 1000) ∧
    (eoc_ticks sample_warm_driver
      [sample_env_eoc, sample_env_eoc, sample_env_eoc, sample_env_eoc,
        sample_env_eoc]).charger_eoc_count = 5 ∧
    (eoc_ticks sample_warm_driver
      [sample_env_eoc, sample_env_eoc, sample_env_eoc, sample_env_eoc,
        sample_env_eoc]).chip.batt_full = false ∧
    (eoc_ticks sample_warm_driver
      [sample_env_eoc, sample_env_eoc, sample_env_eoc, sample_env_eoc,
        sample_env_eoc]).chip.batt_warm_full = false ∧
    current_reason_set (eoc_ticks sample_warm_driver
      [sample_env_eoc, sample_env_eoc, sample_env_eoc, sample_env_eoc,
        sample_env_eoc]).chip = false ∧
    (eoc_ticks sample_warm_driver
      [sample_env_eoc, sample_env_eoc, sample_env_eoc, sample_env_eoc, sample_env_eoc,
        sample_env_eoc]).chip.batt_warm_full = true ∧
    current_reason_set (eoc_ticks sample_warm_driver
      [sample_env_eoc, sample_env_eoc, sample_env_eoc, sample_env_eoc, sample_env_eoc,
        sample_env_eoc]).chip = true ∧
    (eoc_ticks sample_normal_driver
      [sample_env_eoc, sample_env_eoc, sample_env_eoc, sample_env_eoc, sample_env_eoc,
        sample_env_eoc]).chip.batt_full = false ∧
    (eoc_ticks sample_normal_driver
      [sample_env_eoc, sample_env_eoc, sample_env_eoc, sample_env_eoc, sample_env_eoc,
        sample_env_eoc]).chip.batt_warm_full = false ∧
    current_reason_set (eoc_ticks sample_normal_driver
      [sample_env_eoc, sample_env_eoc, sample_env_eoc, sample_env_eoc, sample_env_eoc,
        sample_env_eoc]).chip = false := by
  refine ⟨?_, ?_, ?_, ?_, ?_, ?_, ?_, ?_, ?_, ?_, ?_, ?_, ?_⟩ <;> decide

/-- C19 (amended): the debounce of `charger_eoc` runs in the warm band only and
its latch is `batt_warm_full`. Start with the counter at 0 and the latch not
set, and let every tick of a run be a qualifying sample: the device has
resumed, a charger is present, the battery is flagged warm, the float voltage
is read back, the status is fast charge, the voltage is not below the warm
resume level and the reported state of charge is above 75 (the charge current
is not consulted). Then after each of the first five ticks the counter equals
the number of ticks, the latch is still not set, and `batt_full`, the disable
bitmask and the notification count are unchanged; the sixth tick, which finds
the counter at CONSECUTIVE_COUNT, sets `batt_warm_full`, sends one
notification and, on a live transport, sets the CURRENT bit of the disable
bitmask. -/
theorem eoc_latches_on_sixth_qualifying_tick (d : driver) (envs : List providers)
    (hcount : d.charger_eoc_count = 0) (hlatch : d.chip.batt_warm_full = false)
    (hq : eoc_run_counts d envs = true) :
    (envs.length ≤ 5 →
      (eoc_ticks d envs).charger_eoc_count = (envs.length : Int) ∧
      (eoc_ticks d envs).chip.batt_warm_full = false ∧
      (eoc_ticks d envs).chip.batt_full = d.chip.batt_full ∧
      (eoc_ticks d envs).chip.charging_disabled_status = d.chip.charging_disabled_status ∧
      (eoc_ticks d envs).psy_changed = d.psy_changed) ∧
    (envs.length = 6 →
      (eoc_ticks d envs).chip.batt_warm_full = true ∧
      (eoc_ticks d envs).chip.batt_full = d.chip.batt_full ∧
      (eoc_ticks d envs).psy_changed = d.psy_changed + 1 ∧
      (transport_live d.chip → current_reason_set (eoc_ticks d envs).chip = true)) := by
  constructor
  · intro hlen
    have hle : d.charger_eoc_count + (envs.length : Int) ≤ CONSECUTIVE_COUNT := by
      rw [hcount]
      show (0 : Int) + (envs.length : Int) ≤ 5
      omega
    obtain ⟨h1, h2, h3, h4⟩ := eoc_run_below envs d hq hle
    refine ⟨?_, (same_settings_batt_warm_full h3).trans hlatch, same_settings_batt_full h3,
      h4.2.2, h2⟩
    rw [h1, hcount]
    omega
  · intro hlen
    have hne : envs ≠ [] := by
      intro h0
      rw [h0] at hlen
      exact absurd hlen (by decide)
    have hsum : d.charger_eoc_count + (envs.length : Int) = CONSECUTIVE_COUNT + 1 := by
      rw [hcount, hlen]
      rfl
    exact eoc_run_latch envs d hq hne hsum

/-- Witness for C19 (amended): six qualifying ticks on the sample device in the
warm band. -/
theorem eoc_latches_on_sixth_qualifying_tick_witness :
    sample_warm_driver.charger_eoc_count = 0 ∧
    sample_warm_driver.chip.batt_warm_full = false ∧
    eoc_run_counts sample_warm_driver
      [sample_env_eoc, sample_env_eoc, sample_env_eoc, sample_env_eoc, sample_env_eoc,
        sample_env_eoc] = true ∧
    (eoc_ticks sample_warm_driver
      [sample_env_eoc, sample_env_eoc, sample_env_eoc, sample_env_eoc, sample_env_eoc,
        sample_env_eoc]).chip.batt_warm_full = true :=
  ⟨by decide, by decide, by decide,
    ((eoc_latches_on_sixth_qualifying_tick sample_warm_driver
      [sample_env_eoc, sample_env_eoc, sample_env_eoc, sample_env_eoc, sample_env_eoc,
        sample_env_eoc] (by decide) (by decide) (by decide)).2 rfl).1⟩

/-! ## The counter of the end-of-charge tick on samples that do not qualify -/

theorem batt_warm_full_set_batt_full (c : ti2419x_chip) (b : Bool) :
    ({ c with batt_full := b } : ti2419x_chip).batt_warm_full = c.batt_warm_full := rfl

/-- The full-charge check of the ticks outside the warm band touches neither
the counter nor the warm-full latch. -/
theorem check_fullcharged_state_idle (d : driver) (env : providers) :
    (check_fullcharged_state d env).charger_eoc_count = d.charger_eoc_count ∧
    (check_fullcharged_state d env).chip.batt_warm_full = d.chip.batt_warm_full := by
  have hreads : same_settings d.chip
      (ti2419x_get_charging_status
        (ti2419x_get_prop_batt_present (ti2419x_is_chg_plugged_in d.chip).2 env).2).2 :=
    same_settings_trans (same_settings_trans (same_settings_is_chg_plugged_in d.chip)
      (same_settings_get_prop_batt_present _ env)) (same_settings_get_charging_status _)
  unfold check_fullcharged_state
  dsimp only
  split_ifs
  · refine ⟨rfl, ?_⟩
    rw [driver_chip_mk]
    exact same_settings_batt_warm_full (same_settings_trans (same_settings_trans hreads
      (same_settings_direct_disable _ true)) (same_settings_direct_disable _ false))
  · refine ⟨rfl, ?_⟩
    rw [driver_chip_mk]
    exact (batt_warm_full_set_batt_full _ true).trans (same_settings_batt_warm_full hreads)
  · refine ⟨rfl, ?_⟩
    rw [driver_chip_mk]
    exact same_settings_batt_warm_full hreads

theorem eoc_resets_not_resumed (d : driver) (env : providers)
    (h : d.chip.resume_completed = false) : eoc_resets d env = false := by
  unfold eoc_resets
  rw [if_pos (by rw [h]; simp)]

theorem eoc_resets_no_charger (d : driver) (env : providers)
    (h : d.chip.resume_completed = true)
    (hc : (ti2419x_is_chg_plugged_in (ti2419x_get_prop_batt_capacity d env).2.chip).1 = 0) :
    eoc_resets d env = true := by
  unfold eoc_resets
  rw [if_neg (by rw [h]; simp)]
  dsimp only
  rw [if_pos hc]

theorem eoc_resets_not_warm (d : driver) (env : providers)
    (h : d.chip.resume_completed = true)
    (hc : (ti2419x_is_chg_plugged_in (ti2419x_get_prop_batt_capacity d env).2.chip).1 ≠ 0)
    (hw : (ti2419x_is_chg_plugged_in
      (ti2419x_get_prop_batt_capacity d env).2.chip).2.bat_is_warm = false) :
    eoc_resets d env = false := by
  unfold eoc_resets
  rw [if_neg (by rw [h]; simp)]
  dsimp only
  rw [if_neg hc, if_pos (by rw [hw]; simp)]

theorem eoc_resets_in_warm (d : driver) (env : providers)
    (h : d.chip.resume_completed = true)
    (hc : (ti2419x_is_chg_plugged_in (ti2419x_get_prop_batt_capacity d env).2.chip).1 ≠ 0)
    (hw : (ti2419x_is_chg_plugged_in
      (ti2419x_get_prop_batt_capacity d env).2.chip).2.bat_is_warm = true) :
    eoc_resets d env =
      eoc_warm_resets
        { (ti2419x_get_prop_batt_capacity d env).2 with
          chip := (ti2419x_is_chg_plugged_in (ti2419x_get_prop_batt_capacity d env).2.chip).2 }
        env := by
  unfold eoc_resets
  rw [if_neg (by rw [h]; simp)]
  dsimp only
  rw [if_neg hc, if_neg (by rw [hw]; simp)]

theorem eoc_counts_in_warm (d : driver) (env : providers)
    (h : d.chip.resume_completed = true)
    (hc : (ti2419x_is_chg_plugged_in (ti2419x_get_prop_batt_capacity d env).2.chip).1 ≠ 0)
    (hw : (ti2419x_is_chg_plugged_in
      (ti2419x_get_prop_batt_capacity d env).2.chip).2.bat_is_warm = true) :
    eoc_counts d env =
      eoc_warm_counts
        { (ti2419x_get_prop_batt_capacity d env).2 with
          chip := (ti2419x_is_chg_plugged_in (ti2419x_get_prop_batt_capacity d env).2.chip).2 }
        env (ti2419x_get_prop_batt_capacity d env).1 := by
  unfold eoc_counts
  rw [if_neg (by rw [h]; simp)]
  dsimp only
  rw [if_neg hc, if_neg (by rw [hw]; simp)]

/-- The chip with which the tick enters its branches has the warm-full latch of
the chip at entry. -/
theorem eoc_entry_batt_warm_full (d : driver) (env : providers) :
    (ti2419x_is_chg_plugged_in
      (ti2419x_get_prop_batt_capacity d env).2.chip).2.batt_warm_full =
      d.chip.batt_warm_full :=
  same_settings_batt_warm_full (same_settings_trans
    (same_settings_get_prop_batt_capacity d env) (same_settings_is_chg_plugged_in _))

/-- A tick that executes `count = 0` leaves the counter at 0 and the warm-full
latch as it was. -/
theorem eoc_tick_reset (d : driver) (env : providers) (h : eoc_resets d env = true) :
    (charger_eoc d env).1.charger_eoc_count = 0 ∧
    (charger_eoc d env).1.chip.batt_warm_full = d.chip.batt_warm_full := by
  cases hr : d.chip.resume_completed
  · rw [eoc_resets_not_resumed d env hr] at h
    exact absurd h (by simp)
  · by_cases hc : (ti2419x_is_chg_plugged_in (ti2419x_get_prop_batt_capacity d env).2.chip).1 = 0
    · rw [charger_eoc_no_charger d env hr hc]
      exact ⟨rfl, eoc_entry_batt_warm_full d env⟩
    · cases hw : (ti2419x_is_chg_plugged_in
          (ti2419x_get_prop_batt_capacity d env).2.chip).2.bat_is_warm
      · rw [eoc_resets_not_warm d env hr hc hw] at h
        exact absurd h (by simp)
      · rw [eoc_resets_in_warm d env hr hc hw] at h
        rw [charger_eoc_in_warm d env hr hc hw]
        dsimp only
        rw [charger_eoc_warm_resets _ env _ h]
        refine ⟨rfl, ?_⟩
        rw [driver_chip_mk]
        exact same_settings_batt_warm_full (eoc_reads_frame d env).1

/-- A tick that neither qualifies nor executes `count = 0` leaves the counter
as it was and, with the latch not set, does not set it. -/
theorem eoc_tick_idle (d : driver) (env : providers) (hl : d.chip.batt_warm_full = false)
    (hr0 : eoc_resets d env = false) (hc0 : eoc_counts d env = false) :
    (charger_eoc d env).1.charger_eoc_count = d.charger_eoc_count ∧
    (charger_eoc d env).1.chip.batt_warm_full = false := by
  have hcnt := get_prop_batt_capacity_eoc_count d env
  have hent := (eoc_entry_batt_warm_full d env).trans hl
  cases hr : d.chip.resume_completed
  · rw [charger_eoc_not_resumed d env hr]
    exact ⟨rfl, hl⟩
  · by_cases hc : (ti2419x_is_chg_plugged_in (ti2419x_get_prop_batt_capacity d env).2.chip).1 = 0
    · rw [eoc_resets_no_charger d env hr hc] at hr0
      exact absurd hr0 (by simp)
    · cases hw : (ti2419x_is_chg_plugged_in
          (ti2419x_get_prop_batt_capacity d env).2.chip).2.bat_is_warm
      · rw [charger_eoc_not_warm d env hr hc hw]
        dsimp only
        obtain ⟨h1, h2⟩ := check_fullcharged_state_idle
          { (ti2419x_get_prop_batt_capacity d env).2 with
            chip := (ti2419x_is_chg_plugged_in
              (ti2419x_get_prop_batt_capacity d env).2.chip).2 } env
        exact ⟨h1.trans hcnt.1, h2.trans hent⟩
      · rw [eoc_resets_in_warm d env hr hc hw] at hr0
        rw [eoc_counts_in_warm d env hr hc hw] at hc0
        rw [charger_eoc_in_warm d env hr hc hw]
        dsimp only
        obtain ⟨h1, h2⟩ := charger_eoc_warm_idle
          { (ti2419x_get_prop_batt_capacity d env).2 with
            chip := (ti2419x_is_chg_plugged_in
              (ti2419x_get_prop_batt_capacity d env).2.chip).2 } env
          (ti2419x_get_prop_batt_capacity d env).1 hent hr0 hc0
        exact ⟨h1.trans hcnt.1, h2⟩

/-- In the compiled build the charge current is not read by `charger_eoc`: on
the sample device in the warm band a tick whose charge current is 500 mA, above
the termination current of 128 mA, counts as any other sample with a state of
charge above 75, and the counter goes from 0 to 1. -/
theorem eoc_high_current_tick_counts :
    Int.tdiv (ti2419x_get_prop_current_now sample_warm_driver.chip
      sample_env_eoc_high_current) 1000 * -1 > sample_warm_driver.chip.iterm_ma ∧
    (eoc_ticks sample_warm_driver [sample_env_eoc_high_current]).charger_eoc_count = 1 := by
  refine ⟨?_, ?_⟩ <;> decide

/-- Evaluation for C20 at the failing input, on the sample device in the warm
band with a charger that reports fast charge, the counter at 0 and no latch
set. A tick whose state of charge is 70 and whose charge current is 500 mA,
above the termination current of 128 mA, does not qualify; the branch
`if (capacity_soc > 75)` has no `else`, so the tick executes no `count = 0` and
leaves the counter where it is: after five qualifying ticks and one such tick
the counter is still 5 and the latch is not set, and the next qualifying tick
sets the latch. Qualifying ticks that alternate with such ticks, so that no two
qualifying ticks are consecutive, set the latch and assert the CURRENT reason
as well. -/
theorem eoc_low_soc_tick_keeps_counter :
    sample_warm_driver.charger_eoc_count = 0 ∧
    sample_warm_driver.chip.batt_warm_full = false ∧
    Int.tdiv (ti2419x_get_prop_current_now sample_warm_driver.chip
      sample_env_eoc_not_full) 1000 * -1 > sample_warm_driver.chip.iterm_ma ∧
    eoc_counts
      (eoc_ticks sample_warm_driver
        [sample_env_eoc, sample_env_eoc, sample_env_eoc, sample_env_eoc, sample_env_eoc])
      sample_env_eoc_not_full = false ∧
    (eoc_ticks sample_warm_driver
      [sample_env_eoc, sample_env_eoc, sample_env_eoc, sample_env_eoc,
        sample_env_eoc]).charger_eoc_count = 5 ∧
    (eoc_ticks sample_warm_driver
      [sample_env_eoc, sample_env_eoc, sample_env_eoc, sample_env_eoc, sample_env_eoc,
        sample_env_eoc_not_full]).charger_eoc_count = 5 ∧
    (eoc_ticks sample_warm_driver
      [sample_env_eoc, sample_env_eoc, sample_env_eoc, sample_env_eoc, sample_env_eoc,
        sample_env_eoc_not_full]).chip.batt_warm_full = false ∧
    (eoc_ticks sample_warm_driver
      [sample_env_eoc, sample_env_eoc, sample_env_eoc, sample_env_eoc, sample_env_eoc,
        sample_env_eoc_not_full, sample_env_eoc]).chip.batt_warm_full = true ∧
    (eoc_ticks sample_warm_driver
      [sample_env_eoc, sample_env_eoc_not_full, sample_env_eoc, sample_env_eoc_not_full,
        sample_env_eoc, sample_env_eoc_not_full, sample_env_eoc, sample_env_eoc_not_full,
        sample_env_eoc, sample_env_eoc_not_full, sample_env_eoc]).chip.batt_warm_full = true ∧
    current_reason_set (eoc_ticks sample_warm_driver
      [sample_env_eoc, sample_env_eoc_not_full, sample_env_eoc, sample_env_eoc_not_full,
        sample_env_eoc, sample_env_eoc_not_full, sample_env_eoc, sample_env_eoc_not_full,
        sample_env_eoc, sample_env_eoc_not_full, sample_env_eoc]).chip = true := by
  refine ⟨?_, ?_, ?_, ?_, ?_, ?_, ?_, ?_, ?_, ?_⟩ <;> decide

/-- The counter of `charger_eoc` as the compiled code is written (the behaviour
that C20 is checked against): what one run does to the counter while the
warm-full latch is not set. The counter is cleared only by the two statements
`count = 0`: when no charger is connected, and in the warm band when the float
voltage is read back, the status is fast charge and the voltage is below the
warm resume level. A qualifying sample (charger present, warm band, fast
charge, voltage not below the warm resume level, reported state of charge
above 75) adds one to a counter that is not at CONSECUTIVE_COUNT, and sets the
latch when the counter is at CONSECUTIVE_COUNT. Every other run, among them
those with a state of charge of 75 or less, with a status other than fast
charge, with a failed read-back, outside the warm band or before resume,
leaves the counter as it was and does not set the latch; the charge current is
not consulted. -/
theorem eoc_counter_reset_only_by_clear_statements (d : driver) (env : providers)
    (hlatch : d.chip.batt_warm_full = false) :
    (eoc_resets d env = true →
      (charger_eoc d env).1.charger_eoc_count = 0 ∧
      (charger_eoc d env).1.chip.batt_warm_full = false) ∧
    (eoc_counts d env = true → d.charger_eoc_count ≠ CONSECUTIVE_COUNT →
      (charger_eoc d env).1.charger_eoc_count = d.charger_eoc_count + 1 ∧
      (charger_eoc d env).1.chip.batt_warm_full = false) ∧
    (eoc_counts d env = true → d.charger_eoc_count = CONSECUTIVE_COUNT →
      (charger_eoc d env).1.chip.batt_warm_full = true) ∧
    (eoc_resets d env = false → eoc_counts d env = false →
      (charger_eoc d env).1.charger_eoc_count = d.charger_eoc_count ∧
      (charger_eoc d env).1.chip.batt_warm_full = false) := by
  refine ⟨?_, ?_, ?_, ?_⟩
  · intro h
    obtain ⟨h1, h2⟩ := eoc_tick_reset d env h
    exact ⟨h1, h2.trans hlatch⟩
  · intro h hn
    obtain ⟨h1, _, h3, _⟩ := eoc_tick_step d env h hn
    exact ⟨h1, (same_settings_batt_warm_full h3).trans hlatch⟩
  · intro h h5
    exact (eoc_tick_latch d env h h5).1
  · intro hr hc
    exact eoc_tick_idle d env hlatch hr hc

/-- An instance of `eoc_counter_reset_only_by_clear_statements`: after five
qualifying ticks on the sample device in the warm band, a tick with a state of
charge of 70 leaves the counter at 5. -/
theorem eoc_counter_reset_only_by_clear_statements_witness :
    (eoc_ticks sample_warm_driver
      [sample_env_eoc, sample_env_eoc, sample_env_eoc, sample_env_eoc,
        sample_env_eoc]).chip.batt_warm_full = false ∧
    (charger_eoc
      (eoc_ticks sample_warm_driver
        [sample_env_eoc, sample_env_eoc, sample_env_eoc, sample_env_eoc, sample_env_eoc])
      sample_env_eoc_low_soc).1.charger_eoc_count =
      (eoc_ticks sample_warm_driver
        [sample_env_eoc, sample_env_eoc, sample_env_eoc, sample_env_eoc,
          sample_env_eoc]).charger_eoc_count :=
  ⟨by decide,
    ((eoc_counter_reset_only_by_clear_statements
      (eoc_ticks sample_warm_driver
        [sample_env_eoc, sample_env_eoc, sample_env_eoc, sample_env_eoc, sample_env_eoc])
      sample_env_eoc_low_soc (by decide)).2.2.2 (by decide) (by decide)).1⟩

/-! ## What an end-of-charge tick skips -/

theorem zero_report_check_first_time (d : driver) (env : providers) :
    (zero_report_check d env).2.is_first_time_check = d.is_first_time_check := by
  unfold zero_report_check
  split_ifs <;> rfl

theorem smooth_capacity_zero_first_time (d : driver) (env : providers) (cap batt_vol : Int) :
    (smooth_capacity_zero d env cap batt_vol).2.is_first_time_check = d.is_first_time_check := by
  unfold smooth_capacity_zero
  dsimp only
  split_ifs <;> first | rfl | exact zero_report_check_first_time d env

theorem smooth_capacity_present_first_time (d : driver) (env : providers) (capacity : Int) :
    (smooth_capacity_present d env capacity).2.is_first_time_check = d.is_first_time_check := by
  unfold smooth_capacity_present
  dsimp only
  split_ifs <;> first
    | rfl
    | exact smooth_capacity_zero_first_time _ env _ _

theorem smooth_capacity_first_time (d : driver) (env : providers) (capacity : Int) :
    (smooth_capacity d env capacity).2.is_first_time_check = d.is_first_time_check := by
  unfold smooth_capacity
  dsimp only
  split_ifs <;> first
    | rfl
    | exact smooth_capacity_present_first_time _ env _

theorem get_prop_batt_capacity_first_time (d : driver) (env : providers) :
    (ti2419x_get_prop_batt_capacity d env).2.is_first_time_check = d.is_first_time_check := by
  unfold ti2419x_get_prop_batt_capacity
  exact smooth_capacity_first_time _ env _

/-- The warm block leaves `batt_full` and the static of the full-charge check
alone. -/
theorem charger_eoc_warm_batt_full (D : driver) (env : providers) (soc : Int) :
    (charger_eoc_warm D env soc).chip.batt_full = D.chip.batt_full ∧
    (charger_eoc_warm D env soc).is_first_time_check = D.is_first_time_check := by
  have hF : (ti2419x_float_voltage_get D.chip).2.2.batt_full = D.chip.batt_full :=
    same_settings_batt_full (same_settings_float_voltage_get D.chip)
  have hS : (ti2419x_get_charging_status
      (ti2419x_float_voltage_get D.chip).2.2).2.batt_full = D.chip.batt_full :=
    (same_settings_batt_full (same_settings_get_charging_status _)).trans hF
  unfold charger_eoc_warm
  dsimp only
  split_ifs
  · exact ⟨hF, rfl⟩
  · refine ⟨?_, rfl⟩
    rw [driver_chip_mk]
    exact (batt_full_set_batt_warm_full _ false).trans
      ((same_settings_batt_full (same_settings_charging_disable _ CURRENT 0)).trans hF)
  · exact ⟨hF, rfl⟩
  · exact ⟨hS, rfl⟩
  · refine ⟨?_, rfl⟩
    rw [driver_chip_mk]
    exact (same_settings_batt_full (same_settings_charging_disable _ CURRENT 1)).trans
      ((batt_full_set_batt_warm_full _ true).trans hS)
  · exact ⟨hS, rfl⟩
  · exact ⟨hS, rfl⟩
  · exact ⟨hS, rfl⟩

/-- The chip with which the tick enters its branches differs from the chip at
entry in the client, `soc` and `batt_present` at most. -/
theorem eoc_entry_frame (d : driver) (env : providers) :
    same_settings d.chip
      (ti2419x_is_chg_plugged_in (ti2419x_get_prop_batt_capacity d env).2.chip).2 ∧
    keeps_enable_line d.chip
      (ti2419x_is_chg_plugged_in (ti2419x_get_prop_batt_capacity d env).2.chip).2 :=
  ⟨same_settings_trans (same_settings_get_prop_batt_capacity d env)
      (same_settings_is_chg_plugged_in _),
    keeps_trans (keeps_get_prop_batt_capacity d env) (keeps_is_chg_plugged_in _)⟩

theorem chg_cfg_field_of_keeps {c c' : ti2419x_chip} (h : keeps_enable_line c c') :
    chg_cfg_field c' = chg_cfg_field c := by
  unfold chg_cfg_field
  rw [h.2.1]

/-- Counterexample to C21 as stated: the sample device is in the warm band with
a charger connected that reports fast charge. One tick advances the debounce
counter from 0 to 1, and six ticks set `batt_warm_full` and the CURRENT bit of
the disable bitmask and switch the CHG_CFG field from 1 (charging enabled) to
0. -/
theorem eoc_warm_tick_runs_counterexample :
    sample_warm_driver.chip.bat_is_warm = true ∧
    sample_warm_driver.charger_eoc_count = 0 ∧
    (charger_eoc sample_warm_driver sample_env_eoc).1.charger_eoc_count = 1 ∧
    sample_warm_driver.chip.batt_warm_full = false ∧
    sample_warm_full_driver.chip.batt_warm_full = true ∧
    sample_warm_driver.chip.charging_disabled_status = 0 ∧
    sample_warm_full_driver.chip.charging_disabled_status = CURRENT ∧
    chg_cfg_field sample_warm_driver.chip = 1 ∧
    chg_cfg_field sample_warm_full_driver.chip = 0 := by
  refine ⟨?_, ?_, ?_, ?_, ?_, ?_, ?_, ?_, ?_⟩ <;> decide

/-- C21 (amended): what a run of `charger_eoc` on a resumed device skips. When it
finds no charger connected it skips all of its logic: `batt_full`,
`batt_warm_full`, the disable bitmask and the CHG_CFG field are unchanged, and
the debounce counter is cleared. With a charger connected and the battery
outside the warm band it runs the full-charge check only: the debounce counter
and `batt_warm_full` are unchanged. With a charger connected and the battery
in the warm band it skips the full-charge check only: `batt_full` and the
static of the full-charge check are unchanged, while the warm debounce runs
(and may advance the counter, set `batt_warm_full` and call the arbiter). -/
theorem eoc_tick_skips_by_charger_and_band (d : driver) (env : providers)
    (hr : d.chip.resume_completed = true) :
    (eoc_charger_seen d env = 0 →
      (charger_eoc d env).1.chip.batt_full = d.chip.batt_full ∧
      (charger_eoc d env).1.chip.batt_warm_full = d.chip.batt_warm_full ∧
      (charger_eoc d env).1.chip.charging_disabled_status = d.chip.charging_disabled_status ∧
      chg_cfg_field (charger_eoc d env).1.chip = chg_cfg_field d.chip ∧
      (charger_eoc d env).1.charger_eoc_count = 0) ∧
    (eoc_charger_seen d env ≠ 0 → d.chip.bat_is_warm = false →
      (charger_eoc d env).1.charger_eoc_count = d.charger_eoc_count ∧
      (charger_eoc d env).1.chip.batt_warm_full = d.chip.batt_warm_full) ∧
    (eoc_charger_seen d env ≠ 0 → d.chip.bat_is_warm = true →
      (charger_eoc d env).1.chip.batt_full = d.chip.batt_full ∧
      (charger_eoc d env).1.is_first_time_check = d.is_first_time_check) := by
  have hfr := eoc_entry_frame d env
  have hcnt := get_prop_batt_capacity_eoc_count d env
  refine ⟨?_, ?_, ?_⟩
  · intro hc
    rw [charger_eoc_no_charger d env hr hc]
    exact ⟨same_settings_batt_full hfr.1, same_settings_batt_warm_full hfr.1, hfr.2.2.2,
      chg_cfg_field_of_keeps hfr.2, rfl⟩
  · intro hc hw
    have hw2 := (same_settings_bat_is_warm hfr.1).trans hw
    rw [charger_eoc_not_warm d env hr hc hw2]
    dsimp only
    obtain ⟨h1, h2⟩ := check_fullcharged_state_idle
      { (ti2419x_get_prop_batt_capacity d env).2 with
        chip := (ti2419x_is_chg_plugged_in
          (ti2419x_get_prop_batt_capacity d env).2.chip).2 } env
    exact ⟨h1.trans hcnt.1, h2.trans (same_settings_batt_warm_full hfr.1)⟩
  · intro hc hw
    have hw2 := (same_settings_bat_is_warm hfr.1).trans hw
    rw [charger_eoc_in_warm d env hr hc hw2]
    dsimp only
    obtain ⟨h1, h2⟩ := charger_eoc_warm_batt_full
      { (ti2419x_get_prop_batt_capacity d env).2 with
        chip := (ti2419x_is_chg_plugged_in
          (ti2419x_get_prop_batt_capacity d env).2.chip).2 } env
      (ti2419x_get_prop_batt_capacity d env).1
    exact ⟨h1.trans (same_settings_batt_full hfr.1),
      h2.trans (get_prop_batt_capacity_first_time d env)⟩

/-- Witness for C21 (amended): a tick of the sample device without a charger
(the status register reads 0) clears the counter and leaves the bitmask. -/
theorem eoc_tick_skips_by_charger_and_band_witness :
    sample_driver.chip.resume_completed = true ∧
    eoc_charger_seen sample_driver sample_env = 0 ∧
    (charger_eoc sample_driver sample_env).1.charger_eoc_count = 0 ∧
    (charger_eoc sample_driver sample_env).1.chip.charging_disabled_status =
      sample_driver.chip.charging_disabled_status :=
  ⟨by decide, by decide,
    ((eoc_tick_skips_by_charger_and_band sample_driver sample_env (by decide)).1
      (by decide)).2.2.2.2,
    ((eoc_tick_skips_by_charger_and_band sample_driver sample_env (by decide)).1
      (by decide)).2.2.1⟩

/-! ## Resumption of charging after the warm-full latch -/

theorem same_settings_warm_resume_delta_mv {c c' : ti2419x_chip} (h : same_settings c c') :
    c'.warm_resume_delta_mv = c.warm_resume_delta_mv :=
  have h2 : (settings_of c').warm_resume_delta_mv = (settings_of c).warm_resume_delta_mv :=
    congrArg ti2419x_chip.warm_resume_delta_mv h
  h2

theorem same_settings_vbatdet_max_err_mv {c c' : ti2419x_chip} (h : same_settings c c') :
    c'.vbatdet_max_err_mv = c.vbatdet_max_err_mv :=
  have h2 : (settings_of c').vbatdet_max_err_mv = (settings_of c).vbatdet_max_err_mv :=
    congrArg ti2419x_chip.vbatdet_max_err_mv h
  h2

theorem same_settings_bms_psy {c c' : ti2419x_chip} (h : same_settings c c') :
    c'.bms_psy = c.bms_psy :=
  have h2 : (settings_of c').bms_psy = (settings_of c).bms_psy :=
    congrArg ti2419x_chip.bms_psy h
  h2

theorem voltage_now_of_same_settings {c c' : ti2419x_chip} (h : same_settings c c')
    (env : providers) :
    ti2419x_get_prop_voltage_now c' env = ti2419x_get_prop_voltage_now c env := by
  unfold ti2419x_get_prop_voltage_now
  rw [same_settings_bms_psy h]

theorem batt_warm_full_set_batt_warm_full (c : ti2419x_chip) (b : Bool) :
    ({ c with batt_warm_full := b } : ti2419x_chip).batt_warm_full = b := rfl

theorem current_reason_set_set_batt_warm_full (c : ti2419x_chip) (b : Bool) :
    current_reason_set { c with batt_warm_full := b } = current_reason_set c := rfl

/-- The warm block with the warm-full latch set: at or below the resume level
the latch is cleared and the arbiter is asked to enable charging for CURRENT;
above it nothing but the client changes. -/
theorem charger_eoc_warm_recharge (D : driver) (env : providers) (soc : Int)
    (hrc : ¬ (ti2419x_float_voltage_get D.chip).1 < 0)
    (hf : D.chip.batt_warm_full = true) :
    (Int.tdiv (ti2419x_get_prop_voltage_now D.chip env) 1000 ≤
        (ti2419x_float_voltage_get D.chip).2.1.getD 0 - D.chip.warm_resume_delta_mv
          - D.chip.vbatdet_max_err_mv →
      (charger_eoc_warm D env soc).chip.batt_warm_full = false ∧
      (transport_live D.chip → current_reason_set (charger_eoc_warm D env soc).chip = false)) ∧
    ((ti2419x_float_voltage_get D.chip).2.1.getD 0 - D.chip.warm_resume_delta_mv
          - D.chip.vbatdet_max_err_mv <
        Int.tdiv (ti2419x_get_prop_voltage_now D.chip env) 1000 →
      (charger_eoc_warm D env soc).chip.batt_warm_full = true ∧
      (charger_eoc_warm D env soc).chip.charging_disabled_status =
        D.chip.charging_disabled_status) := by
  have hs := same_settings_float_voltage_get D.chip
  have hk := keeps_float_voltage_get D.chip
  have e1 := same_settings_warm_resume_delta_mv hs
  have e2 := same_settings_vbatdet_max_err_mv hs
  have e3 := voltage_now_of_same_settings hs env
  have hF : (ti2419x_float_voltage_get D.chip).2.2.batt_warm_full = true :=
    (same_settings_batt_warm_full hs).trans hf
  unfold charger_eoc_warm
  dsimp only
  rw [if_neg hrc, if_pos hF, e1, e2, e3]
  constructor
  · intro hv
    rw [if_pos hv, driver_chip_mk]
    refine ⟨batt_warm_full_set_batt_warm_full _ false, ?_⟩
    intro hl
    rw [current_reason_set_set_batt_warm_full,
      current_bit_charging_disable _ 0 (live_of_keeps hk hl)]
    rfl
  · intro hv
    rw [if_neg (not_le.mpr hv), driver_chip_mk]
    exact ⟨hF, hk.2.2⟩

/-- Counterexample to C22 as stated: the sample device is in the warm band with
a charger connected and the warm-full latch and the CURRENT bit set. The float
voltage read back is 4096 mV, so the resume level is 4096 - 100 - 0 = 3996 mV.
A tick at exactly 3996 mV, which is not strictly below the level, clears the
latch and the CURRENT bit; a tick at 3997 mV leaves both. -/
theorem eoc_resume_at_level_counterexample :
    sample_warm_full_driver.chip.batt_warm_full = true ∧
    current_reason_set sample_warm_full_driver.chip = true ∧
    eoc_float_voltage_read sample_warm_full_driver (sample_env_battery 3996000 90 1000) =
      (0, some 4096) ∧
    sample_warm_full_driver.chip.warm_resume_delta_mv = 100 ∧
    sample_warm_full_driver.chip.vbatdet_max_err_mv = 0 ∧
    Int.tdiv (ti2419x_get_prop_voltage_now sample_warm_full_driver.chip
      (sample_env_battery 3996000 90 1000)) 1000 = 4096 - 100 - 0 ∧
    (charger_eoc sample_warm_full_driver
      (sample_env_battery 3996000 90 1000)).1.chip.batt_warm_full = false ∧
    current_reason_set (charger_eoc sample_warm_full_driver
      (sample_env_battery 3996000 90 1000)).1.chip = false ∧
    (charger_eoc sample_warm_full_driver
      (sample_env_battery 3997000 90 1000)).1.chip.batt_warm_full = true ∧
    current_reason_set (charger_eoc sample_warm_full_driver
      (sample_env_battery 3997000 90 1000)).1.chip = true := by
  refine ⟨?_, ?_, ?_, ?_, ?_, ?_, ?_, ?_, ?_, ?_⟩ <;> decide

/-- C22 (amended): resumption exists for the warm-full latch. Take a run of
`charger_eoc` on a resumed device with a charger connected, the battery in the
warm band, `batt_warm_full` set and the float voltage read back without error.
The resume level is the float voltage read back minus `warm_resume_delta_mv`
minus `vbatdet_max_err_mv`. When the battery voltage in mV is at or below the
level, the level itself included, the tick clears `batt_warm_full` and, on a
live transport, the CURRENT bit of the disable bitmask; when it is above the
level, the latch and the bitmask are unchanged. -/
theorem eoc_resumes_at_or_below_level (d : driver) (env : providers)
    (hr : d.chip.resume_completed = true) (hc : eoc_charger_seen d env ≠ 0)
    (hw : d.chip.bat_is_warm = true) (hf : d.chip.batt_warm_full = true)
    (hrc : ¬ (eoc_float_voltage_read d env).1 < 0) :
    (Int.tdiv (ti2419x_get_prop_voltage_now d.chip env) 1000 ≤
        (eoc_float_voltage_read d env).2.getD 0 - d.chip.warm_resume_delta_mv
          - d.chip.vbatdet_max_err_mv →
      (charger_eoc d env).1.chip.batt_warm_full = false ∧
      (transport_live d.chip → current_reason_set (charger_eoc d env).1.chip = false)) ∧
    ((eoc_float_voltage_read d env).2.getD 0 - d.chip.warm_resume_delta_mv
          - d.chip.vbatdet_max_err_mv <
        Int.tdiv (ti2419x_get_prop_voltage_now d.chip env) 1000 →
      (charger_eoc d env).1.chip.batt_warm_full = true ∧
      (charger_eoc d env).1.chip.charging_disabled_status =
        d.chip.charging_disabled_status) := by
  have hfr := eoc_entry_frame d env
  have hw2 := (same_settings_bat_is_warm hfr.1).trans hw
  have hf2 := (same_settings_batt_warm_full hfr.1).trans hf
  have e1 := same_settings_warm_resume_delta_mv hfr.1
  have e2 := same_settings_vbatdet_max_err_mv hfr.1
  have e3 := voltage_now_of_same_settings hfr.1 env
  obtain ⟨h1, h2⟩ := charger_eoc_warm_recharge
    { (ti2419x_get_prop_batt_capacity d env).2 with
      chip := (ti2419x_is_chg_plugged_in
        (ti2419x_get_prop_batt_capacity d env).2.chip).2 } env
    (ti2419x_get_prop_batt_capacity d env).1 hrc hf2
  rw [driver_chip_mk, e1, e2, e3] at h1 h2
  rw [charger_eoc_in_warm d env hr hc hw2]
  dsimp only
  constructor
  · intro hv
    obtain ⟨a, b⟩ := h1 hv
    exact ⟨a, fun hl => b (live_of_keeps hfr.2 hl)⟩
  · intro hv
    obtain ⟨a, b⟩ := h2 hv
    exact ⟨a, b.trans hfr.2.2.2⟩

/-- Witness for C22 (amended): the sample device with the warm-full latch set,
at a battery voltage of 3996 mV, which equals the resume level. -/
theorem eoc_resumes_at_or_below_level_witness :
    sample_warm_full_driver.chip.resume_completed = true ∧
    eoc_charger_seen sample_warm_full_driver (sample_env_battery 3996000 90 1000) ≠ 0 ∧
    sample_warm_full_driver.chip.bat_is_warm = true ∧
    sample_warm_full_driver.chip.batt_warm_full = true ∧
    ¬ (eoc_float_voltage_read sample_warm_full_driver
      (sample_env_battery 3996000 90 1000)).1 < 0 ∧
    (charger_eoc sample_warm_full_driver
      (sample_env_battery 3996000 90 1000)).1.chip.batt_warm_full = false :=
  ⟨by decide, by decide, by decide, by decide, by decide,
    ((eoc_resumes_at_or_below_level sample_warm_full_driver
      (sample_env_battery 3996000 90 1000) (by decide) (by decide) (by decide) (by decide)
      (by decide)).1 (by decide)).1⟩

/-! ## The warm-flag change of the thermal tick -/

/-- An arbiter call for a reason other than CURRENT leaves the CURRENT bit of
the bitmask as it was, whether or not its write succeeds. -/
theorem current_bit_charging_disable_other (c : ti2419x_chip) (r v : Int)
    (hr : r = USER ∨ r = THERMAL ∨ r = TEMP) :
    current_reason_set (ti2419x_charging_disable c r v).2 = current_reason_set c := by
  unfold current_reason_set
  rw [charging_disable_status]
  split_ifs
  · rfl
  · rw [arbiter_mask_testBit _ r v (by tauto)]
    have hne : reason_bit CURRENT ≠ reason_bit r := by
      rcases hr with h | h | h <;> subst h <;> decide
    rw [if_neg hne]

theorem batt_warm_full_set_hot_cool (c : ti2419x_chip) (h k : Bool) :
    ({ c with bat_is_hot := h, bat_is_cool := k } : ti2419x_chip).batt_warm_full =
      c.batt_warm_full := rfl

theorem current_reason_set_set_hot_cool (c : ti2419x_chip) (h k : Bool) :
    current_reason_set { c with bat_is_hot := h, bat_is_cool := k } = current_reason_set c :=
  rfl

/-- The warm block, taken: the latch is cleared, a notification is sent and, on
a live transport, the CURRENT bit is cleared. -/
theorem jeita_apply_warm_changed (D : driver) (bw : Bool)
    (hx : xor D.chip.bat_is_warm bw = true) :
    (jeita_apply_warm D bw).chip.batt_warm_full = false ∧
    (jeita_apply_warm D bw).psy_changed = D.psy_changed + 1 ∧
    (transport_live D.chip → current_reason_set (jeita_apply_warm D bw).chip = false) := by
  have hkeep : keeps_enable_line D.chip
      (ti2419x_set_appropriate_float_voltage
        (ti2419x_set_appropriate_ibat
          (ti2419x_set_appropriate_usb_current
            { D.chip with bat_is_warm := bw }).2)) :=
    keeps_trans (keeps_trans (keeps_trans (keeps_set_bat_is_warm D.chip bw)
      (keeps_set_appropriate_usb_current _)) (keeps_set_appropriate_ibat _))
      (keeps_set_appropriate_float_voltage _)
  unfold jeita_apply_warm
  rw [if_pos hx]
  dsimp only
  refine ⟨?_, rfl, ?_⟩
  · rfl
  · intro hl
    rw [current_reason_set_set_batt_warm_full,
      current_bit_charging_disable _ 0 (live_of_keeps hkeep hl)]
    rfl

/-- The hot/cool block touches neither the warm-full latch nor the CURRENT bit,
and takes no notification back. -/
theorem jeita_apply_hot_cool_frame (D : driver) (bh bc : Bool) :
    (jeita_apply_hot_cool D bh bc).chip.batt_warm_full = D.chip.batt_warm_full ∧
    current_reason_set (jeita_apply_hot_cool D bh bc).chip = current_reason_set D.chip ∧
    D.psy_changed ≤ (jeita_apply_hot_cool D bh bc).psy_changed := by
  unfold jeita_apply_hot_cool
  dsimp only
  split_ifs
  · refine ⟨?_, ?_, Nat.le_succ _⟩
    · rw [driver_chip_mk]
      exact (same_settings_batt_warm_full (same_settings_charging_disable _ TEMP 1)).trans
        (batt_warm_full_set_hot_cool _ bh bc)
    · rw [driver_chip_mk, current_bit_charging_disable_other _ TEMP 1 (by tauto)]
      exact current_reason_set_set_hot_cool _ bh bc
  · refine ⟨?_, ?_, Nat.le_succ _⟩
    · rw [driver_chip_mk]
      exact (same_settings_batt_warm_full (same_settings_charging_disable _ TEMP 0)).trans
        (batt_warm_full_set_hot_cool _ bh bc)
    · rw [driver_chip_mk, current_bit_charging_disable_other _ TEMP 0 (by tauto)]
      exact current_reason_set_set_hot_cool _ bh bc
  · exact ⟨rfl, rfl, le_refl _⟩

theorem jeita_apply_hot_cool_warm (D : driver) (bh bc : Bool) :
    (jeita_apply_hot_cool D bh bc).chip.bat_is_warm = D.chip.bat_is_warm :=
  have h2 : (config_of (jeita_apply_hot_cool D bh bc).chip).bat_is_warm =
      ({ config_of D.chip with bat_is_hot := bh, bat_is_cool := bc } : ti2419x_chip).bat_is_warm :=
    congrArg ti2419x_chip.bat_is_warm (config_of_jeita_apply_hot_cool D bh bc)
  h2

theorem jeita_apply_warm_unchanged (D : driver) (bw : Bool)
    (hx : ¬ xor D.chip.bat_is_warm bw = true) : jeita_apply_warm D bw = D := by
  unfold jeita_apply_warm
  rw [if_neg hx]

/-- The two blocks of the tick in a row, when the warm flag changes. -/
theorem jeita_blocks_warm_changed (D : driver) (bw bh bc : Bool)
    (hchg : (jeita_apply_hot_cool (jeita_apply_warm D bw) bh bc).chip.bat_is_warm ≠
      D.chip.bat_is_warm) :
    (jeita_apply_hot_cool (jeita_apply_warm D bw) bh bc).chip.batt_warm_full = false ∧
    D.psy_changed + 1 ≤ (jeita_apply_hot_cool (jeita_apply_warm D bw) bh bc).psy_changed ∧
    (transport_live D.chip →
      current_reason_set (jeita_apply_hot_cool (jeita_apply_warm D bw) bh bc).chip = false) := by
  by_cases hx : xor D.chip.bat_is_warm bw = true
  · obtain ⟨h1, h2, h3⟩ := jeita_apply_warm_changed D bw hx
    obtain ⟨f1, f2, f3⟩ := jeita_apply_hot_cool_frame (jeita_apply_warm D bw) bh bc
    refine ⟨f1.trans h1, ?_, fun hl => f2.trans (h3 hl)⟩
    rw [← h2]
    exact f3
  · rw [jeita_apply_hot_cool_warm, jeita_apply_warm_unchanged D bw hx] at hchg
    exact absurd rfl hchg

/-- Counterexample to C27 as stated. On the sample device with the CURRENT and
TEMP reasons both asserted (bitmask 12), a thermal tick at 46.0 degrees turns
the warm flag on: afterwards the bitmask is 8, so the tick has deasserted the
CURRENT reason and left the TEMP reason asserted. On the sample device in the
warm band with no reason asserted, a tick at 51.0 degrees turns the warm flag
off (the state becomes Hot): afterwards the bitmask is 8, so that tick has
asserted the TEMP reason. -/
theorem warm_change_clears_current_counterexample :
    (run_ops sample_driver
      [.arbiter CURRENT 1, .arbiter TEMP 1]).chip.charging_disabled_status = 12 ∧
    (run_ops sample_driver [.arbiter CURRENT 1, .arbiter TEMP 1]).chip.bat_is_warm = false ∧
    (ti_temp_control_func (run_ops sample_driver [.arbiter CURRENT 1, .arbiter TEMP 1])
      (sample_env_at 460)).1.chip.bat_is_warm = true ∧
    (ti_temp_control_func (run_ops sample_driver [.arbiter CURRENT 1, .arbiter TEMP 1])
      (sample_env_at 460)).1.chip.charging_disabled_status = TEMP ∧
    sample_warm_driver.chip.bat_is_warm = true ∧
    sample_warm_driver.chip.charging_disabled_status = 0 ∧
    (ti_temp_control_func sample_warm_driver (sample_env_at 510)).1.chip.bat_is_warm = false ∧
    (ti_temp_control_func sample_warm_driver
      (sample_env_at 510)).1.chip.charging_disabled_status = TEMP := by
  refine ⟨?_, ?_, ?_, ?_, ?_, ?_, ?_, ?_⟩ <;> decide

/-- C27 (amended): on every run of `ti_temp_control_func` that changes the warm
flag, the tick clears the warm-full latch (`batt_warm_full` is false
afterwards), sends a notification and calls the arbiter to enable charging
for the CURRENT reason, the reason that the warm-full latch asserts: on a live
transport the CURRENT bit of the disable bitmask is clear afterwards. The TEMP
reason is not part of this block. -/
theorem warm_change_clears_latch_and_current (d : driver) (env : providers)
    (hchg : (ti_temp_control_func d env).1.chip.bat_is_warm ≠ d.chip.bat_is_warm) :
    (ti_temp_control_func d env).1.chip.batt_warm_full = false ∧
    d.psy_changed + 1 ≤ (ti_temp_control_func d env).1.psy_changed ∧
    (transport_live d.chip →
      current_reason_set (ti_temp_control_func d env).1.chip = false) := by
  by_cases hrun : thermal_tick_runs d = true ∧ thermal_class d env ≠ TI_TM_NORMAL_STATE
  · have hw := same_config_warm (same_config_otg_is_enabled d.chip)
    have hk := keeps_otg_is_enabled d.chip
    rw [thermal_tick_eq d env hrun.1 hrun.2] at hchg ⊢
    rw [← hw] at hchg
    obtain ⟨h1, h2, h3⟩ := jeita_blocks_warm_changed _ _ _ _ hchg
    exact ⟨h1, h2, fun hl => h3 (live_of_keeps hk hl)⟩
  · have hs : thermal_tick_runs d = false ∨ thermal_class d env = TI_TM_NORMAL_STATE := by
      by_cases h1 : thermal_tick_runs d = true
      · right
        by_contra h2
        exact hrun ⟨h1, h2⟩
      · left
        exact Bool.eq_false_iff.mpr h1
    exact absurd (same_config_warm (thermal_tick_skipped d env hs).1) hchg

/-- Witness for C27 (amended): the tick at 46.0 degrees on the sample device
with the CURRENT and TEMP reasons asserted. -/
theorem warm_change_clears_latch_and_current_witness :
    (ti_temp_control_func (run_ops sample_driver [.arbiter CURRENT 1, .arbiter TEMP 1])
      (sample_env_at 460)).1.chip.bat_is_warm ≠
      (run_ops sample_driver [.arbiter CURRENT 1, .arbiter TEMP 1]).chip.bat_is_warm ∧
    (ti_temp_control_func (run_ops sample_driver [.arbiter CURRENT 1, .arbiter TEMP 1])
      (sample_env_at 460)).1.chip.batt_warm_full = false :=
  ⟨by decide,
    (warm_change_clears_latch_and_current
      (run_ops sample_driver [.arbiter CURRENT 1, .arbiter TEMP 1]) (sample_env_at 460)
      (by decide)).1⟩

/-! ## The fast-charge current that the thermal state allows -/

theorem set_appropriate_ibat_eq (chip : ti2419x_chip) :
    ti2419x_set_appropriate_ibat chip = (set_ibat chip (s32 (appropriate_ibat chip : Int))).2 := by
  unfold ti2419x_set_appropriate_ibat appropriate_ibat
  rfl

theorem set_ibat_clamp (chip : ti2419x_chip) (ma : Int) :
    set_ibat chip ma =
      set_ibat chip (if ma < 512 then 512 else if ma > 3008 then 3008 else ma) := by
  have hc : (if (if ma < 512 then 512 else if ma > 3008 then 3008 else ma) < 512 then (512 : Int)
      else if (if ma < 512 then 512 else if ma > 3008 then 3008 else ma) > 3008 then 3008
      else (if ma < 512 then 512 else if ma > 3008 then 3008 else ma)) =
      (if ma < 512 then 512 else if ma > 3008 then 3008 else ma) := by
    split_ifs <;> omega
  unfold set_ibat MIN_IBAT_MA MAX_IBAT_MA
  dsimp only
  rw [hc]

theorem appropriate_ibat_le (chip : ti2419x_chip) :
    appropriate_ibat chip ≤ u32 chip.max_ibat ∧
    (chip.bat_is_cool = true → appropriate_ibat chip ≤ chip.cool_bat_chg_ma) ∧
    (chip.bat_is_warm = true → appropriate_ibat chip ≤ chip.warm_bat_chg_ma) := by
  unfold appropriate_ibat
  dsimp only
  cases hc : chip.bat_is_cool <;> cases hw : chip.bat_is_warm <;> simp

/-- The current that `ti2419x_set_appropriate_ibat` programs on a live
transport, from the limit it computes. -/
theorem programmed_ibat_of_limit (chip : ti2419x_chip) (hl : transport_live chip) :
    (512 ≤ appropriate_ibat chip → appropriate_ibat chip < 2147483648 →
      programmed_ibat (ti2419x_set_appropriate_ibat chip) ≤ (appropriate_ibat chip : Int)) ∧
    (appropriate_ibat chip < 512 →
      programmed_ibat (ti2419x_set_appropriate_ibat chip) = 512) := by
  rw [set_appropriate_ibat_eq, set_ibat_clamp]
  unfold programmed_ibat ibat_ma_of_field MAX_IBAT_STEP
  constructor
  · intro h1 h2
    have hs : s32 (appropriate_ibat chip : Int) = (appropriate_ibat chip : Int) := by
      unfold s32
      split_ifs <;> omega
    rw [hs]
    by_cases h3 : (appropriate_ibat chip : Int) > 3008
    · rw [if_neg (by omega), if_pos h3, (set_ibat_field chip 3008 hl (by omega)).2]
      omega
    · rw [if_neg (by omega), if_neg h3, (set_ibat_field chip _ hl (by omega)).2]
      omega
  · intro h1
    have hs : s32 (appropriate_ibat chip : Int) = (appropriate_ibat chip : Int) := by
      unfold s32
      split_ifs <;> omega
    rw [hs, if_pos (by omega), (set_ibat_field chip 512 hl (by omega)).2]
    omega

/-- Counterexample to C29 as stated: the sample device with the battery flagged
cool and a cool cap of 300 mA. The limit is 300 mA, `set_ibat` raises it to its
minimum, and the IFAST_CHG field is written with 0, which is 512 mA, above the
cool cap. -/
theorem set_appropriate_ibat_below_minimum_counterexample :
    sample_cool_chip.bat_is_cool = true ∧
    sample_cool_chip.cool_bat_chg_ma = 300 ∧
    sample_cool_chip.max_ibat = 2048 ∧
    appropriate_ibat sample_cool_chip = 300 ∧
    reg_field (ti2419x_set_appropriate_ibat sample_cool_chip) CHG_I_CTRL_REG IFAST_CHG_MASK
      IFAST_CHG_SHIFT = 0 ∧
    programmed_ibat (ti2419x_set_appropriate_ibat sample_cool_chip) = 512 ∧
    ¬ programmed_ibat (ti2419x_set_appropriate_ibat sample_cool_chip) ≤
      (sample_cool_chip.cool_bat_chg_ma : Int) := by
  refine ⟨?_, ?_, ?_, ?_, ?_, ?_, ?_⟩ <;> decide

/-- C29 (amended): on a live transport `ti2419x_set_appropriate_ibat` programs
the IFAST_CHG field from a limit, which is `max_ibat` lowered to the cool cap
when the battery is cool and to the warm cap when it is warm. When the limit
is at least 512 mA, the smallest current of the field, and `max_ibat` is a
non-negative value, the programmed current (512 + 64 * field) does not exceed
`max_ibat`, nor the warm cap when the battery is warm, nor the cool cap when
it is cool. When the limit is below 512 mA the programmed current is 512
mA. -/
theorem set_appropriate_ibat_within_caps (chip : ti2419x_chip) (hl : transport_live chip) :
    (512 ≤ appropriate_ibat chip → 0 ≤ chip.max_ibat → chip.max_ibat < 2147483648 →
      programmed_ibat (ti2419x_set_appropriate_ibat chip) ≤ chip.max_ibat ∧
      (chip.bat_is_warm = true →
        programmed_ibat (ti2419x_set_appropriate_ibat chip) ≤ (chip.warm_bat_chg_ma : Int)) ∧
      (chip.bat_is_cool = true →
        programmed_ibat (ti2419x_set_appropriate_ibat chip) ≤ (chip.cool_bat_chg_ma : Int))) ∧
    (appropriate_ibat chip < 512 →
      programmed_ibat (ti2419x_set_appropriate_ibat chip) = 512) := by
  obtain ⟨h1, h2⟩ := programmed_ibat_of_limit chip hl
  obtain ⟨a1, a2, a3⟩ := appropriate_ibat_le chip
  refine ⟨?_, h2⟩
  intro h512 h0 hmax
  have hu : ((u32 chip.max_ibat : Nat) : Int) = chip.max_ibat := by
    unfold u32
    omega
  have hlt : appropriate_ibat chip < 2147483648 := by omega
  have hp := h1 h512 hlt
  refine ⟨by omega, ?_, ?_⟩
  · intro hw
    have := a3 hw
    omega
  · intro hc
    have := a2 hc
    omega

/-- Witness for C29 (amended): the sample device in the warm band, with a warm
cap of 1024 mA. -/
theorem set_appropriate_ibat_within_caps_witness :
    transport_live sample_warm_driver.chip ∧
    programmed_ibat (ti2419x_set_appropriate_ibat sample_warm_driver.chip) ≤
      (sample_warm_driver.chip.warm_bat_chg_ma : Int) :=
  have hl : transport_live sample_warm_driver.chip :=
    ⟨by decide, by decide, fun _ => le_refl _⟩
  ⟨hl,
    ((set_appropriate_ibat_within_caps sample_warm_driver.chip hl).1 (by decide) (by decide)
      (by decide)).2.1 (by decide)⟩

/-! ## The THERMAL reason and the mitigation level -/

theorem same_settings_therm_lvl_sel {c c' : ti2419x_chip} (h : same_settings c c') :
    c'.therm_lvl_sel = c.therm_lvl_sel :=
  have h2 : (settings_of c').therm_lvl_sel = (settings_of c).therm_lvl_sel :=
    congrArg ti2419x_chip.therm_lvl_sel h
  h2

theorem same_settings_thermal_levels {c c' : ti2419x_chip} (h : same_settings c c') :
    c'.thermal_levels = c.thermal_levels :=
  have h2 : (settings_of c').thermal_levels = (settings_of c).thermal_levels :=
    congrArg ti2419x_chip.thermal_levels h
  h2

theorem same_settings_thermal_mitigation {c c' : ti2419x_chip} (h : same_settings c c') :
    c'.thermal_mitigation = c.thermal_mitigation :=
  have h2 : (settings_of c').thermal_mitigation = (settings_of c).thermal_mitigation :=
    congrArg ti2419x_chip.thermal_mitigation h
  h2

theorem same_settings_set_appropriate_usb_current (chip : ti2419x_chip) :
    same_settings chip (ti2419x_set_appropriate_usb_current chip).2 := by
  unfold ti2419x_set_appropriate_usb_current
  dsimp only
  split_ifs <;> first | exact same_settings_refl _ | exact same_settings_masked_write _ _ _ _

/-- An arbiter call for THERMAL on a live transport sets the THERMAL bit to the
flag. -/
theorem thermal_bit_charging_disable (c : ti2419x_chip) (v : Int) (hl : transport_live c) :
    thermal_reason_set (ti2419x_charging_disable c THERMAL v).2 = decide (v = 1) := by
  unfold thermal_reason_set
  rw [charging_disable_status, if_neg (by rw [charging_disable_live c THERMAL v hl]; simp),
    arbiter_mask_testBit _ THERMAL v (by tauto), if_pos rfl]

theorem live_set_therm_lvl_sel (c : ti2419x_chip) (n : Nat) (hl : transport_live c) :
    transport_live { c with therm_lvl_sel := n } := hl

theorem thermal_reason_set_of_keeps {c c' : ti2419x_chip} (h : keeps_enable_line c c') :
    thermal_reason_set c' = thermal_reason_set c := by
  unfold thermal_reason_set
  rw [h.2.2]

theorem thermal_reason_set_set_therm_lvl_sel (c : ti2419x_chip) (n : Nat) :
    thermal_reason_set { c with therm_lvl_sel := n } = thermal_reason_set c := rfl

theorem settings_of_set_therm_lvl_sel (c : ti2419x_chip) (n : Nat) :
    settings_of { c with therm_lvl_sel := n } = { settings_of c with therm_lvl_sel := n } := rfl

theorem settings_after_level (chip : ti2419x_chip) (n : Nat) (c' : ti2419x_chip)
    (h : same_settings { chip with therm_lvl_sel := n } c') :
    c'.therm_lvl_sel = n ∧ c'.thermal_levels = chip.thermal_levels ∧
    c'.thermal_mitigation = chip.thermal_mitigation := by
  have q1 := same_settings_therm_lvl_sel h
  have q2 := same_settings_thermal_levels h
  have q3 := same_settings_thermal_mitigation h
  exact ⟨q1, q2, q3⟩

/-- The part of `ti2419x_system_temp_level_set` after the level has been
stored: the new level `n` differs from the old one. -/
theorem temp_level_change (chip : ti2419x_chip) (n : Nat) (r : Int × ti2419x_chip)
    (hl : transport_live chip) (h2 : 2 ≤ chip.thermal_levels)
    (h32 : chip.thermal_levels < 4294967296) (hs : chip.therm_lvl_sel < 4294967296)
    (ht : thermal_reason_tracks chip)
    (hr : r =
      if n = u32 ((chip.thermal_levels : Int) - 1) then
        ti2419x_charging_disable { chip with therm_lvl_sel := n } THERMAL 1
      else
        if u32 (s32 (chip.therm_lvl_sel : Int)) = u32 ((chip.thermal_levels : Int) - 1) then
          ti2419x_charging_disable
            (ti2419x_set_appropriate_usb_current { chip with therm_lvl_sel := n }).2 THERMAL 0
        else (0, (ti2419x_set_appropriate_usb_current { chip with therm_lvl_sel := n }).2)) :
    r.1 = 0 ∧ transport_live r.2 ∧ r.2.therm_lvl_sel = n ∧
    r.2.thermal_levels = chip.thermal_levels ∧
    r.2.thermal_mitigation = chip.thermal_mitigation ∧
    thermal_reason_set r.2 = decide (n = u32 ((chip.thermal_levels : Int) - 1)) := by
  have htop : u32 ((chip.thermal_levels : Int) - 1) = chip.thermal_levels - 1 := by
    unfold u32
    omega
  have hold : u32 (s32 (chip.therm_lvl_sel : Int)) = chip.therm_lvl_sel := by
    rw [u32_s32, u32_ofNat _ hs]
  have hl1 : transport_live { chip with therm_lvl_sel := n } := live_set_therm_lvl_sel chip n hl
  have hk2 := keeps_set_appropriate_usb_current { chip with therm_lvl_sel := n }
  have hs2 := same_settings_set_appropriate_usb_current { chip with therm_lvl_sel := n }
  have hl2 := live_of_keeps hk2 hl1
  rw [hold] at hr
  by_cases htopn : n = u32 ((chip.thermal_levels : Int) - 1)
  · rw [if_pos htopn] at hr
    have hss := same_settings_charging_disable { chip with therm_lvl_sel := n } THERMAL 1
    rw [hr]
    obtain ⟨q1, q2, q3⟩ := settings_after_level chip n _ hss
    refine ⟨charging_disable_live _ THERMAL 1 hl1, live_charging_disable _ THERMAL 1 hl1,
      q1, q2, q3, ?_⟩
    rw [thermal_bit_charging_disable _ 1 hl1]
    simp [htopn]
  · rw [if_neg htopn] at hr
    by_cases hprev : chip.therm_lvl_sel = u32 ((chip.thermal_levels : Int) - 1)
    · rw [if_pos hprev] at hr
      have hss := same_settings_trans hs2 (same_settings_charging_disable
        (ti2419x_set_appropriate_usb_current { chip with therm_lvl_sel := n }).2 THERMAL 0)
      rw [hr]
      obtain ⟨q1, q2, q3⟩ := settings_after_level chip n _ hss
      refine ⟨charging_disable_live _ THERMAL 0 hl2, live_charging_disable _ THERMAL 0 hl2,
        q1, q2, q3, ?_⟩
      rw [thermal_bit_charging_disable _ 0 hl2]
      simp [htopn]
    · rw [if_neg hprev] at hr
      rw [hr]
      obtain ⟨q1, q2, q3⟩ := settings_after_level chip n _ hs2
      refine ⟨rfl, hl2, q1, q2, q3, ?_⟩
      rw [thermal_reason_set_of_keeps hk2, thermal_reason_set_set_therm_lvl_sel]
      unfold thermal_reason_tracks at ht
      rw [ht]
      have e1 : ¬ ((chip.therm_lvl_sel : Int) = (chip.thermal_levels : Int) - 1) := by
        rw [htop] at hprev
        omega
      rw [decide_eq_false e1, decide_eq_false htopn]

/-- The level that `ti2419x_system_temp_level_set` stores for a request that
is not negative: the request, or the highest level when the request is at
or above the number of levels. -/
theorem temp_level_set_eq (chip : ti2419x_chip) (lvl : Int)
    (hm : chip.thermal_mitigation.isNone = false) (h0 : ¬ lvl < 0) :
    ti2419x_system_temp_level_set chip lvl =
      if u32 (if u32 lvl ≥ chip.thermal_levels then
            s32 ((u32 ((chip.thermal_levels : Int) - 1) : Nat) : Int) else lvl) =
          chip.therm_lvl_sel then (0, chip)
      else
        if u32 (if u32 lvl ≥ chip.thermal_levels then
              s32 ((u32 ((chip.thermal_levels : Int) - 1) : Nat) : Int) else lvl) =
            u32 ((chip.thermal_levels : Int) - 1) then
          ti2419x_charging_disable
            { chip with
              therm_lvl_sel := u32 (if u32 lvl ≥ chip.thermal_levels then
                s32 ((u32 ((chip.thermal_levels : Int) - 1) : Nat) : Int) else lvl) }
            THERMAL 1
        else
          if u32 (s32 (chip.therm_lvl_sel : Int)) = u32 ((chip.thermal_levels : Int) - 1) then
            ti2419x_charging_disable
              (ti2419x_set_appropriate_usb_current
                { chip with
                  therm_lvl_sel := u32 (if u32 lvl ≥ chip.thermal_levels then
                    s32 ((u32 ((chip.thermal_levels : Int) - 1) : Nat) : Int) else lvl) }).2
              THERMAL 0
          else
            (0, (ti2419x_set_appropriate_usb_current
              { chip with
                therm_lvl_sel := u32 (if u32 lvl ≥ chip.thermal_levels then
                  s32 ((u32 ((chip.thermal_levels : Int) - 1) : Nat) : Int) else lvl) }).2) := by
  unfold ti2419x_system_temp_level_set
  rw [if_neg (by rw [hm]; simp), if_neg h0]
  dsimp only
  rw [same_settings_thermal_levels (same_settings_set_appropriate_usb_current _)]

theorem stored_level (L : Nat) (lvl : Int) (h1 : 1 ≤ L) (h32 : L < 4294967296) :
    u32 (if u32 lvl ≥ L then s32 ((u32 ((L : Int) - 1) : Nat) : Int) else lvl) =
      if u32 lvl ≥ L then L - 1 else u32 lvl := by
  have htop : u32 ((L : Int) - 1) = L - 1 := by
    unfold u32
    omega
  by_cases h : u32 lvl ≥ L
  · rw [if_pos h, if_pos h, u32_s32, htop, u32_ofNat _ (by omega)]
  · rw [if_neg h, if_neg h]

/-- One call of `ti2419x_system_temp_level_set` keeps the conditions, rejects a
negative request without any change, and stores the request or the highest
level. -/
theorem temp_level_set_step (chip : ti2419x_chip) (lvl : Int) (hi : temp_level_inv chip) :
    temp_level_inv (ti2419x_system_temp_level_set chip lvl).2 ∧
    (ti2419x_system_temp_level_set chip lvl).2.thermal_levels = chip.thermal_levels ∧
    (lvl < 0 → ti2419x_system_temp_level_set chip lvl = (-EINVAL, chip)) ∧
    (0 ≤ lvl →
      (ti2419x_system_temp_level_set chip lvl).1 = 0 ∧
      (ti2419x_system_temp_level_set chip lvl).2.therm_lvl_sel =
        if u32 lvl ≥ chip.thermal_levels then chip.thermal_levels - 1 else u32 lvl) := by
  obtain ⟨hl, hm, h2, h32, hs, ht⟩ := hi
  by_cases h0 : lvl < 0
  · have e : ti2419x_system_temp_level_set chip lvl = (-EINVAL, chip) := by
      unfold ti2419x_system_temp_level_set
      rw [if_neg (by rw [hm]; simp), if_pos h0]
    rw [e]
    exact ⟨⟨hl, hm, h2, h32, hs, ht⟩, rfl, fun _ => rfl, fun h => absurd h0 (not_lt.mpr h)⟩
  · rw [temp_level_set_eq chip lvl hm h0, stored_level chip.thermal_levels lvl (by omega) h32]
    generalize hn : (if u32 lvl ≥ chip.thermal_levels then chip.thermal_levels - 1
      else u32 lvl) = n
    have hn32 : n < 4294967296 := by
      have := u32_lt lvl
      rw [← hn]
      split_ifs <;> omega
    by_cases hsame : n = chip.therm_lvl_sel
    · rw [if_pos hsame]
      exact ⟨⟨hl, hm, h2, h32, hs, ht⟩, rfl, fun h => absurd h h0, fun _ => ⟨rfl, hsame.symm⟩⟩
    · rw [if_neg hsame]
      obtain ⟨r1, r2, r3, r4, r5, r6⟩ := temp_level_change chip n _ hl h2 h32 hs ht rfl
      refine ⟨⟨r2, ?_, ?_, ?_, ?_, ?_⟩, r4, fun h => absurd h h0, fun _ => ⟨r1, r3⟩⟩
      · rw [r5]
        exact hm
      · rw [r4]
        exact h2
      · rw [r4]
        exact h32
      · rw [r3]
        exact hn32
      · unfold thermal_reason_tracks
        rw [r6, r3, r4]
        have htop : u32 ((chip.thermal_levels : Int) - 1) = chip.thermal_levels - 1 := by
          unfold u32
          omega
        rw [htop]
        apply decide_eq_decide.mpr
        omega

theorem temp_level_run_inv (lvls : List Int) :
    ∀ chip : ti2419x_chip, temp_level_inv chip →
      temp_level_inv (temp_level_run chip lvls) ∧
      (temp_level_run chip lvls).thermal_levels = chip.thermal_levels := by
  induction lvls with
  | nil =>
    intro chip hi
    exact ⟨hi, rfl⟩
  | cons lvl rest ih =>
    intro chip hi
    obtain ⟨s1, s2, _, _⟩ := temp_level_set_step chip lvl hi
    obtain ⟨i1, i2⟩ := ih _ s1
    rw [temp_level_run]
    exact ⟨i1, i2.trans s2⟩

/-- C30: take a thermal-mitigation table with at least two levels on a live
transport, the level at 0 and the THERMAL reason clear. After every sequence
of calls of `ti2419x_system_temp_level_set` the THERMAL bit of the disable
bitmask is set if and only if `therm_lvl_sel` is the highest level,
`thermal_levels - 1`. A further call with a negative level returns -EINVAL and
changes nothing; a call with a level at or above `thermal_levels` returns 0
and selects the highest level, with the THERMAL bit set; a call with a level
inside the table returns 0 and selects that level. -/
theorem thermal_reason_follows_highest_level (chip : ti2419x_chip) (lvls : List Int)
    (lvl : Int) (hl : transport_live chip) (hm : chip.thermal_mitigation.isNone = false)
    (h2 : 2 ≤ chip.thermal_levels) (h32 : chip.thermal_levels < 4294967296)
    (h0 : chip.therm_lvl_sel = 0) (hc : thermal_reason_set chip = false) :
    (thermal_reason_set (temp_level_run chip lvls) = true ↔
      (temp_level_run chip lvls).therm_lvl_sel = chip.thermal_levels - 1) ∧
    (lvl < 0 →
      ti2419x_system_temp_level_set (temp_level_run chip lvls) lvl =
        (-EINVAL, temp_level_run chip lvls)) ∧
    ((chip.thermal_levels : Int) ≤ lvl → lvl < 2147483648 →
      (ti2419x_system_temp_level_set (temp_level_run chip lvls) lvl).1 = 0 ∧
      (ti2419x_system_temp_level_set (temp_level_run chip lvls) lvl).2.therm_lvl_sel =
        chip.thermal_levels - 1 ∧
      thermal_reason_set (ti2419x_system_temp_level_set (temp_level_run chip lvls) lvl).2 =
        true) ∧
    (0 ≤ lvl → lvl < (chip.thermal_levels : Int) →
      (ti2419x_system_temp_level_set (temp_level_run chip lvls) lvl).1 = 0 ∧
      ((ti2419x_system_temp_level_set (temp_level_run chip lvls) lvl).2.therm_lvl_sel : Int) =
        lvl) := by
  have hi : temp_level_inv chip := by
    refine ⟨hl, hm, h2, h32, by omega, ?_⟩
    unfold thermal_reason_tracks
    rw [hc, h0]
    symm
    apply decide_eq_false
    omega
  obtain ⟨hrun, hlev⟩ := temp_level_run_inv lvls chip hi
  obtain ⟨s1, s2, s3, s4⟩ := temp_level_set_step (temp_level_run chip lvls) lvl hrun
  have ht := hrun.2.2.2.2.2
  unfold thermal_reason_tracks at ht
  refine ⟨?_, s3, ?_, ?_⟩
  · rw [ht, decide_eq_true_iff, hlev]
    omega
  · intro ha hb
    have hu : u32 lvl = lvl.toNat := by
      unfold u32
      omega
    obtain ⟨q1, q2⟩ := s4 (by omega)
    rw [hlev, if_pos (by omega)] at q2
    refine ⟨q1, q2, ?_⟩
    have ht2 := s1.2.2.2.2.2
    unfold thermal_reason_tracks at ht2
    rw [ht2, q2, s2, hlev, decide_eq_true_iff]
    omega
  · intro ha hb
    have hu : u32 lvl = lvl.toNat := by
      unfold u32
      omega
    obtain ⟨q1, q2⟩ := s4 ha
    rw [hlev, if_neg (by omega)] at q2
    refine ⟨q1, ?_⟩
    rw [q2, hu]
    omega

/-- Witness for C30: the sample device with a table of three levels, after the
requests 1, 7 and 1, then a request for level 5. -/
theorem thermal_reason_follows_highest_level_witness :
    (ti2419x_system_temp_level_set (temp_level_run sample_thermal_chip [1, 7, 1]) 5).2.therm_lvl_sel
      = 2 ∧
    thermal_reason_set
      (ti2419x_system_temp_level_set (temp_level_run sample_thermal_chip [1, 7, 1]) 5).2 = true :=
  have hl : transport_live sample_thermal_chip := ⟨by decide, by decide, fun _ => le_refl _⟩
  ((thermal_reason_follows_highest_level sample_thermal_chip [1, 7, 1] 5 hl (by decide)
    (by decide) (by decide) (by decide) (by decide)).2.2.1 (by decide) (by decide)).2

/-! ## The forced power-off window -/

/-- What a run of `update_heartbeat` that gets past its two early returns hands
to `force_power_off_check`: the capacity 0 when `poweroff_enable` is 0, and the
reported capacity otherwise. -/
theorem update_heartbeat_state_guard (d : driver) (g : power_guard) (s : heartbeat_statics)
    (env : providers) (p : heartbeat_params) :
    (update_heartbeat_state d g s env p).2.1 =
      if p.poweroff_enable = 0 then force_power_off_check g env p.offcharging_flag 0
      else force_power_off_check g env p.offcharging_flag
        (ti2419x_get_prop_batt_capacity
          { d with
            chip := print_ti2419x_regs
              (if ¬ d.chip.bms_psy then { d.chip with bms_psy := p.on_bms_found }
                else d.chip) } env).1 := by
  unfold update_heartbeat_state
  rfl

theorem update_heartbeat_guard (d : driver) (g : power_guard) (s : heartbeat_statics)
    (env : providers) (p : heartbeat_params) (hr : d.chip.resume_completed = true)
    (hw : ¬ (ti2419x_masked_write d.chip PON_CFG_REG I2C_WDOG_RESET_MASK
      I2C_WDOG_RESET_MASK).1 < 0)
    (hp : p.poweroff_enable = 0) :
    (update_heartbeat d g s env p).2.1 = force_power_off_check g env p.offcharging_flag 0 := by
  unfold update_heartbeat
  rw [if_neg (by rw [hr]; simp)]
  dsimp only
  rw [if_neg hw, update_heartbeat_state_guard, if_pos hp]

/-- Evaluation for C24 at the failing input: the sample device reports a
capacity of 50 and `poweroff_enable` is 0. The first heartbeat, at tick 1000,
records the tick as the start of a zero-capacity run, and the second one, at
tick 7001 (more than 60 s later at `HZ` = 100), calls `kernel_power_off`. With
`poweroff_enable` set to 1 the same two heartbeats call it not at all. -/
theorem poweroff_disabled_still_powers_off :
    sample_params_poweroff_disabled.poweroff_enable = 0 ∧
    (ti2419x_get_prop_batt_capacity sample_driver (sample_env_battery 3900000 50 1000)).1 = 50 ∧
    (heartbeat_ticks sample_driver power_guard_at_load heartbeat_statics_at_load
      sample_params_poweroff_disabled
      [sample_env_battery 3900000 50 1000]).2.1.report_zero_jiffies = 1000 ∧
    (heartbeat_ticks sample_driver power_guard_at_load heartbeat_statics_at_load
      sample_params_poweroff_disabled
      [sample_env_battery 3900000 50 1000]).2.1.power_off_calls = 0 ∧
    (heartbeat_ticks sample_driver power_guard_at_load heartbeat_statics_at_load
      sample_params_poweroff_disabled
      [sample_env_battery 3900000 50 1000,
        sample_env_battery 3900000 50 7001]).2.1.power_off_calls = 1 ∧
    (heartbeat_ticks sample_driver power_guard_at_load heartbeat_statics_at_load
      { sample_params_poweroff_disabled with poweroff_enable := 1 }
      [sample_env_battery 3900000 50 1000,
        sample_env_battery 3900000 50 7001]).2.1.power_off_calls = 0 := by
  refine ⟨?_, ?_, ?_, ?_, ?_, ?_⟩ <;> decide

/-! ## The ring buffer of the soft coulomb counter -/

theorem soft_cc_append_data_pos (sc : qpnp_soft_cc) (x : Int) :
    (soft_cc_append_data sc x).pos = Int.tmod (sc.pos + 1) SOFT_CC_NUM := rfl

theorem soft_cc_append_data_data (sc : qpnp_soft_cc) (x : Int) (i : Int) :
    (soft_cc_append_data sc x).data i =
      if i = Int.tmod (sc.pos + 1) SOFT_CC_NUM then x else sc.data i := by
  unfold soft_cc_append_data
  dsimp only
  split_ifs <;> rfl

theorem soft_cc_append_data_total (sc : qpnp_soft_cc) (x : Int) :
    (soft_cc_append_data sc x).total =
      s32 (sc.total - sc.data (Int.tmod (sc.pos + 1) SOFT_CC_NUM) + x) := by
  unfold soft_cc_append_data
  dsimp only
  split_ifs <;> rfl

theorem soft_cc_append_data_total_valid (sc : qpnp_soft_cc) (x : Int) :
    (soft_cc_append_data sc x).total_valid =
      (decide (sc.pos ≥ SOFT_CC_NUM - 1) || sc.total_valid) := by
  unfold soft_cc_append_data
  dsimp only
  split_ifs with h <;> simp [h]

theorem soft_cc_appends_snoc (xs : List Int) (x : Int) :
    ∀ sc : qpnp_soft_cc,
      soft_cc_appends sc (xs ++ [x]) = soft_cc_append_data (soft_cc_appends sc xs) x := by
  induction xs with
  | nil =>
    intro sc
    rfl
  | cons y rest ih =>
    intro sc
    rw [List.cons_append, soft_cc_appends, soft_cc_appends, ih]

theorem range_sum_zero (f : Nat → Int) (n : Nat) (h : ∀ i, i < n → f i = 0) :
    ((List.range n).map f).sum = 0 := by
  induction n with
  | zero => rfl
  | succ n ih =>
    rw [List.range_succ, List.map_append, List.sum_append, ih (fun i hi => h i (by omega)),
      List.map_singleton, List.sum_singleton, h n (by omega)]
    rfl

/-- Writing one slot changes the sum of the slots by the difference of the new
and the old content. -/
theorem range_sum_update (f : Nat → Int) (p : Nat) (x : Int) (n : Nat) :
    ((List.range n).map (fun i => if i = p then x else f i)).sum =
      if p < n then ((List.range n).map f).sum - f p + x else ((List.range n).map f).sum := by
  induction n with
  | zero => rfl
  | succ n ih =>
    rw [List.range_succ, List.map_append, List.sum_append, ih, List.map_append,
      List.sum_append, List.map_singleton, List.sum_singleton, List.map_singleton,
      List.sum_singleton]
    by_cases h1 : p < n
    · rw [if_pos h1, if_pos (show p < n + 1 by omega), if_neg (show ¬ n = p by omega)]
      omega
    · rw [if_neg h1]
      by_cases h2 : n = p
      · rw [if_pos h2, if_pos (show p < n + 1 by omega), h2]
        omega
      · rw [if_neg h2, if_neg (show ¬ p < n + 1 by omega)]

theorem s32_add_s32 (a b : Int) : s32 (s32 a + b) = s32 (a + b) := by
  unfold s32
  split_ifs <;> omega

theorem soft_cc_holds_reset (sc : qpnp_soft_cc) : soft_cc_holds (soft_cc_reset sc) [] := by
  have hz : ∀ i : Nat, i < 60 → (soft_cc_reset sc).data (i : Int) = 0 := by
    intro i hi
    unfold soft_cc_reset SOFT_CC_NUM
    dsimp only
    rw [if_pos (by omega)]
  refine ⟨fun _ => rfl, fun h => absurd h (by decide), fun m hm => absurd hm (by simp),
    fun i _ hi => hz i hi, ?_, ?_, rfl⟩
  · unfold soft_cc_sum
    rw [range_sum_zero _ 60 hz]
    rfl
  · unfold soft_cc_sum
    rw [range_sum_zero _ 60 hz]
    rfl

theorem most_recent_snoc (xs : List Int) (x : Int) :
    (most_recent 60 (xs ++ [x])).sum =
      (most_recent 60 xs).sum - (if 60 ≤ xs.length then xs.getD (xs.length - 60) 0 else 0) + x := by
  unfold most_recent
  rw [List.length_append, List.length_singleton]
  by_cases h : 60 ≤ xs.length
  · rw [if_pos h]
    have h1 : xs.length + 1 - 60 = xs.length - 60 + 1 := by omega
    have h2 : xs.length - 60 < xs.length := by omega
    rw [h1, List.drop_append_of_le_length (by omega), List.sum_append, List.sum_singleton,
      List.drop_eq_getElem_cons h2, List.sum_cons, List.getD_eq_getElem xs 0 h2]
    omega
  · rw [if_neg h]
    have h1 : xs.length + 1 - 60 = 0 := by omega
    have h2 : xs.length - 60 = 0 := by omega
    rw [h1, h2, List.drop_zero, List.drop_zero, List.sum_append, List.sum_singleton]
    omega

/-- One append keeps the description of the ring buffer. -/
theorem soft_cc_holds_append (sc : qpnp_soft_cc) (xs : List Int) (x : Int)
    (h : soft_cc_holds sc xs) : soft_cc_holds (soft_cc_append_data sc x) (xs ++ [x]) := by
  obtain ⟨h0, h1, hd, hz, hsum, htot, hv⟩ := h
  have hp : Int.tmod (sc.pos + 1) SOFT_CC_NUM = ((xs.length % 60 : Nat) : Int) := by
    unfold SOFT_CC_NUM
    by_cases hk : xs.length = 0
    · rw [h0 hk, hk]
      rfl
    · have hpos := h1 (by omega)
      rw [Int.tmod_eq_emod (by omega) (by decide)]
      omega
  have hold : sc.data ((xs.length % 60 : Nat) : Int) =
      if 60 ≤ xs.length then xs.getD (xs.length - 60) 0 else 0 := by
    by_cases hk : 60 ≤ xs.length
    · rw [if_pos hk]
      have e : xs.length % 60 = (xs.length - 60) % 60 := by omega
      rw [e]
      exact hd (xs.length - 60) (by omega) (by omega)
    · rw [if_neg hk]
      have e : xs.length % 60 = xs.length := by omega
      rw [e]
      exact hz xs.length (le_refl _) (by omega)
  have hfun : (fun i : Nat => (soft_cc_append_data sc x).data (i : Int)) =
      (fun i : Nat => if i = xs.length % 60 then x else sc.data (i : Int)) := by
    funext i
    rw [soft_cc_append_data_data, hp]
    by_cases hi : i = xs.length % 60
    · rw [if_pos hi, if_pos (by omega)]
    · rw [if_neg hi, if_neg (by omega)]
  have hsum2 : soft_cc_sum (soft_cc_append_data sc x) =
      soft_cc_sum sc - sc.data ((xs.length % 60 : Nat) : Int) + x := by
    unfold soft_cc_sum
    rw [hfun, range_sum_update _ _ _ 60, if_pos (by omega)]
  have hlen : (xs ++ [x]).length = xs.length + 1 := by
    rw [List.length_append, List.length_singleton]
  refine ⟨?_, ?_, ?_, ?_, ?_, ?_, ?_⟩
  · intro hk
    rw [hlen] at hk
    omega
  · intro _
    rw [soft_cc_append_data_pos, hp, hlen]
    rfl
  · intro m hm hm60
    rw [hlen] at hm hm60
    rw [soft_cc_append_data_data, hp]
    by_cases hmk : m = xs.length
    · rw [if_pos (by rw [hmk]), hmk, List.getD_append_right _ _ _ _ (le_refl _), Nat.sub_self]
      rfl
    · have hne : ¬ (((m % 60 : Nat) : Int) = ((xs.length % 60 : Nat) : Int)) := by omega
      rw [if_neg hne, List.getD_append _ _ _ _ (by omega)]
      exact hd m (by omega) (by omega)
  · intro i hi hi60
    rw [hlen] at hi
    rw [soft_cc_append_data_data, hp, if_neg (by omega)]
    exact hz i (by omega) hi60
  · rw [hsum2, hold, most_recent_snoc, hsum]
  · rw [soft_cc_append_data_total, hp, hsum2, htot, sub_add_eq_add_sub, add_sub_assoc,
      s32_add_s32]
    congr 1
    omega
  · rw [soft_cc_append_data_total_valid, hv, hlen]
    unfold SOFT_CC_NUM
    by_cases hk : xs.length = 0
    · rw [h0 hk, hk]
      rfl
    · have hpos := h1 (by omega)
      rw [hpos]
      by_cases h60 : 60 ≤ xs.length
      · by_cases h61 : 61 ≤ xs.length
        · simp [h61]
          omega
        · have e : xs.length = 60 := by omega
          rw [e]
          rfl
      · have a2 : ¬ 61 ≤ xs.length := by omega
        have a3 : ¬ 61 ≤ xs.length + 1 := by omega
        simp [a2, a3]
        omega

theorem soft_cc_holds_appends (sc0 : qpnp_soft_cc) (xs : List Int) :
    soft_cc_holds (soft_cc_appends (soft_cc_reset sc0) xs) xs := by
  induction xs using List.reverseRecOn with
  | nil => exact soft_cc_holds_reset sc0
  | append_singleton xs x ih =>
    rw [soft_cc_appends_snoc]
    exact soft_cc_holds_append _ xs x ih

/-- C28: after `soft_cc_reset` and the appends of the samples `xs` in turn, the
running sum `total` is the sum of the 60 slots as an `int`, hence equal to it
when that sum is in the range of `int`; the slots add up to the sum of the
most recent 60 samples; sample number `m` of the last 60 lies in slot
`m % 60` and the slots not yet reached hold 0, so the slots hold exactly the
most recent `min(k, 60)` samples; and once a sample has been appended `pos` is
within 0..59 and is the slot of the last sample. Before the first append `pos`
is -1. -/
theorem soft_cc_ring_buffer_invariant (sc0 : qpnp_soft_cc) (xs : List Int) :
    (soft_cc_appends (soft_cc_reset sc0) xs).total =
      s32 (soft_cc_sum (soft_cc_appends (soft_cc_reset sc0) xs)) ∧
    (-2147483648 ≤ soft_cc_sum (soft_cc_appends (soft_cc_reset sc0) xs) ∧
        soft_cc_sum (soft_cc_appends (soft_cc_reset sc0) xs) < 2147483648 →
      (soft_cc_appends (soft_cc_reset sc0) xs).total =
        soft_cc_sum (soft_cc_appends (soft_cc_reset sc0) xs)) ∧
    soft_cc_sum (soft_cc_appends (soft_cc_reset sc0) xs) = (most_recent 60 xs).sum ∧
    (∀ m : Nat, m < xs.length → xs.length ≤ m + 60 →
      (soft_cc_appends (soft_cc_reset sc0) xs).data ((m % 60 : Nat) : Int) = xs.getD m 0) ∧
    (∀ i : Nat, xs.length ≤ i → i < 60 →
      (soft_cc_appends (soft_cc_reset sc0) xs).data (i : Int) = 0) ∧
    (1 ≤ xs.length →
      0 ≤ (soft_cc_appends (soft_cc_reset sc0) xs).pos ∧
      (soft_cc_appends (soft_cc_reset sc0) xs).pos ≤ 59 ∧
      (soft_cc_appends (soft_cc_reset sc0) xs).pos = (((xs.length - 1) % 60 : Nat) : Int) ∧
      (soft_cc_appends (soft_cc_reset sc0) xs).data
        (soft_cc_appends (soft_cc_reset sc0) xs).pos = xs.getD (xs.length - 1) 0) ∧
    (xs.length = 0 → (soft_cc_appends (soft_cc_reset sc0) xs).pos = -1) := by
  obtain ⟨h0, h1, hd, hz, hsum, htot, _⟩ := soft_cc_holds_appends sc0 xs
  refine ⟨htot, ?_, hsum, hd, hz, ?_, h0⟩
  · intro hr
    rw [htot]
    unfold s32
    split_ifs <;> omega
  · intro hk
    have hpos := h1 hk
    refine ⟨by omega, by omega, hpos, ?_⟩
    rw [hpos]
    exact hd (xs.length - 1) (by omega) (by omega)

/-- Witness for C28: three appends after a reset leave the running sum at 14
and `pos` at slot 2. -/
theorem soft_cc_ring_buffer_invariant_witness :
    soft_cc_sum (soft_cc_appends (soft_cc_reset soft_cc_at_load) [7, -2, 9]) = 14 ∧
    (soft_cc_appends (soft_cc_reset soft_cc_at_load) [7, -2, 9]).pos = 2 :=
  ⟨(soft_cc_ring_buffer_invariant soft_cc_at_load [7, -2, 9]).2.2.1,
    ((soft_cc_ring_buffer_invariant soft_cc_at_load [7, -2, 9]).2.2.2.2.2.1 (by decide)).2.2.1⟩

/-! ## Edge detection on a status byte -/

theorem and_two_pow_eq (a j : Nat) : a &&& 2 ^ j = if a.testBit j then 2 ^ j else 0 := by
  apply Nat.eq_of_testBit_eq
  intro k
  rw [Nat.testBit_and, Nat.testBit_two_pow]
  by_cases h : a.testBit j = true
  · rw [if_pos h, Nat.testBit_two_pow]
    by_cases hk : j = k
    · subst hk
      simp [h]
    · simp [hk]
  · rw [if_neg h, Nat.zero_testBit]
    by_cases hk : j = k
    · subst hk
      simp [h]
    · simp [hk]

/-- The masked bit that `ti2419x_stat_handler` computes for bit `j` of a byte. -/
theorem irq_masked_bit (v j : Nat) (hj : j < 8) :
    (v &&& (IRQ_STATUS_MASK <<< j)) % 256 = if v.testBit j then 2 ^ j else 0 := by
  have h2 : 2 ^ j < 256 := by
    have : j ≤ 7 := by omega
    calc 2 ^ j ≤ 2 ^ 7 := Nat.pow_le_pow_right (by decide) this
      _ < 256 := by decide
  unfold IRQ_STATUS_MASK
  rw [Nat.one_shiftLeft, and_two_pow_eq]
  split_ifs
  · exact Nat.mod_eq_of_lt h2
  · rfl

theorem irq_masked_bit_ne_zero (v j : Nat) (hj : j < 8) :
    (v &&& (IRQ_STATUS_MASK <<< j)) % 256 ≠ 0 ↔ v.testBit j = true := by
  rw [irq_masked_bit v j hj]
  have hpos : 0 < 2 ^ j := Nat.two_pow_pos j
  split_ifs with h
  · exact ⟨fun _ => h, fun _ => by omega⟩
  · exact ⟨fun h0 => absurd rfl h0, fun h1 => absurd h1 h⟩

/-- The value `changed` is not 0 exactly when bit `j` of the exclusive or of
the two bytes is set. -/
theorem irq_changed_iff (p v j : Nat) (hj : j < 8) :
    ((p &&& (IRQ_STATUS_MASK <<< j)) % 256) ^^^ ((v &&& (IRQ_STATUS_MASK <<< j)) % 256) ≠ 0 ↔
      irq_edge p v j = true := by
  unfold irq_edge
  rw [irq_masked_bit p j hj, irq_masked_bit v j hj, Nat.testBit_xor]
  have hpos : 0 < 2 ^ j := Nat.two_pow_pos j
  cases hp : p.testBit j <;> cases hv : v.testBit j <;> simp

/-! ## What the bit handlers leave alone -/

theorem status_regs_kept_refl (c : ti2419x_chip) : status_regs_kept c c :=
  ⟨same_mode_refl c, rfl, fun _ _ => rfl⟩

theorem status_regs_kept_trans {a b c : ti2419x_chip} (h1 : status_regs_kept a b)
    (h2 : status_regs_kept b c) : status_regs_kept a c :=
  ⟨same_mode_trans h1.1 h2.1, h2.2.1.trans h1.2.1,
    fun r hr => (h2.2.2 r hr).trans (h1.2.2 r hr)⟩

theorem status_regs_kept_read (chip : ti2419x_chip) (reg val0 : Nat) :
    status_regs_kept chip (ti2419x_read chip reg val0).2.2 := by
  rcases ti2419x_read_chip chip reg val0 with h | h
  · rw [h]
    exact status_regs_kept_refl chip
  · rw [h]
    exact ⟨⟨rfl, rfl, rfl⟩, rfl, fun _ _ => rfl⟩

theorem charging_disable_regs_other (chip : ti2419x_chip) (reason disable : Int) (a : Nat)
    (ha : a ≠ PON_CFG_REG) :
    (ti2419x_charging_disable chip reason disable).2.client.regs a = chip.client.regs a := by
  rw [charging_disable_def]
  generalize (if arbiter_mask chip.charging_disabled_status reason disable ≠ 0 then 0
     else 1 <<< CHG_CFG_SHIFT) = v
  have hm := masked_write_regs_other chip PON_CFG_REG CHG_CFG_MASK v a ha
  split_ifs
  · exact hm
  · exact hm

theorem status_regs_kept_charging_disable (chip : ti2419x_chip) (reason disable : Int) :
    status_regs_kept chip (ti2419x_charging_disable chip reason disable).2 :=
  ⟨same_mode_charging_disable chip reason disable,
    same_settings_resume_completed (same_settings_charging_disable chip reason disable),
    fun a ha => charging_disable_regs_other chip reason disable a ha⟩

theorem status_regs_kept_usb_removed (chip : ti2419x_chip) (u : Bool) :
    status_regs_kept chip
      (ti2419x_charging_disable
        { { { chip with usb_present := u } with batt_full := false } with
            batt_warm_full := false } CURRENT 0).2 := by
  have hx : status_regs_kept chip
      { { { chip with usb_present := u } with batt_full := false } with
          batt_warm_full := false } := ⟨⟨rfl, rfl, rfl⟩, rfl, fun _ _ => rfl⟩
  exact status_regs_kept_trans hx (status_regs_kept_charging_disable _ CURRENT 0)

theorem status_regs_kept_set_usb_present (chip : ti2419x_chip) (u : Bool) :
    status_regs_kept chip { chip with usb_present := u } :=
  ⟨⟨rfl, rfl, rfl⟩, rfl, fun _ _ => rfl⟩

theorem status_regs_kept_power_good_handler (chip : ti2419x_chip) (rt_stat : Nat) :
    status_regs_kept chip (power_good_handler chip rt_stat).2 := by
  have h1 := status_regs_kept_usb_removed chip (decide (rt_stat ≠ 0))
  unfold power_good_handler
  dsimp only
  generalize (ti2419x_charging_disable
        { { { chip with usb_present := decide (rt_stat ≠ 0) } with batt_full := false } with
            batt_warm_full := false } CURRENT 0).2 = c1 at h1 ⊢
  split_ifs
  · exact status_regs_kept_trans h1 (status_regs_kept_set_usb_present c1 _)
  · exact h1
  · exact status_regs_kept_set_usb_present chip _
  · exact status_regs_kept_refl chip

theorem status_regs_kept_run_irq_fn (f : irq_fn) (chip : ti2419x_chip) (rt_stat : Nat) :
    status_regs_kept chip (run_irq_fn f chip rt_stat).2 := by
  cases f <;> first
    | exact status_regs_kept_refl chip
    | exact status_regs_kept_power_good_handler chip rt_stat
    | exact status_regs_kept_read chip SYS_STAT_REG 0

/-! ## The status dispatcher, bit by bit -/

theorem stat_handler_bit_no_edge (st : irq_pass) (i j : Nat) (hj : j < 8)
    (he : irq_edge st.info.prev_val st.info.val j = false) :
    stat_handler_bit st i j = st := by
  have hc : ¬ (((st.info.prev_val &&& (IRQ_STATUS_MASK <<< j)) % 256) ^^^
      ((st.info.val &&& (IRQ_STATUS_MASK <<< j)) % 256) ≠ 0) := by
    rw [irq_changed_iff _ _ _ hj, he]
    decide
  unfold stat_handler_bit
  dsimp only
  rw [if_neg hc]
  split
  · rw [if_neg hc]
  · rfl

theorem stat_handler_bit_val (st : irq_pass) (i j : Nat) :
    (stat_handler_bit st i j).info.val = st.info.val ∧
    (stat_handler_bit st i j).info.prev_val = st.info.prev_val ∧
    (stat_handler_bit st i j).info.stat_reg = st.info.stat_reg := by
  unfold stat_handler_bit
  dsimp only
  split <;> split_ifs <;> exact ⟨rfl, rfl, rfl⟩

theorem stat_handler_bit_irq_info_other (st : irq_pass) (i j k : Nat) (hk : k ≠ j) :
    (stat_handler_bit st i j).info.irq_info k = st.info.irq_info k := by
  unfold stat_handler_bit
  dsimp only
  split <;> split_ifs <;> dsimp only <;> first | rfl | rw [if_neg hk]

theorem stat_handler_bit_irq_fn (st : irq_pass) (i j : Nat) :
    ((stat_handler_bit st i j).info.irq_info j).ti2419x_irq =
      (st.info.irq_info j).ti2419x_irq := by
  unfold stat_handler_bit
  dsimp only
  split <;> split_ifs <;> dsimp only <;> first | rfl | rw [if_pos rfl]

theorem stat_handler_bit_counters_edge (st : irq_pass) (i j : Nat) (hj : j < 8)
    (he : irq_edge st.info.prev_val st.info.val j = true) :
    ((stat_handler_bit st i j).info.irq_info j).high =
      (st.info.irq_info j).high + (if st.info.val.testBit j then 1 else 0) ∧
    ((stat_handler_bit st i j).info.irq_info j).low =
      (st.info.irq_info j).low + (if st.info.val.testBit j then 0 else 1) := by
  have hc := (irq_changed_iff _ _ _ hj).2 he
  unfold stat_handler_bit
  dsimp only
  rw [if_pos hc]
  by_cases hb : st.info.val.testBit j = true
  · have hr := (irq_masked_bit_ne_zero st.info.val j hj).2 hb
    rw [if_pos hr, if_pos hb, if_pos hb]
    split <;> (try rw [if_pos hc]) <;> dsimp only <;> rw [if_pos rfl] <;> simp
  · have hr : ¬ ((st.info.val &&& (IRQ_STATUS_MASK <<< j)) % 256 ≠ 0) :=
      fun h => hb ((irq_masked_bit_ne_zero st.info.val j hj).1 h)
    rw [if_neg hr, if_neg hb, if_neg hb]
    split <;> (try rw [if_pos hc]) <;> dsimp only <;> rw [if_pos rfl] <;> simp

theorem stat_handler_bit_edge_some (st : irq_pass) (i j : Nat) (f : irq_fn) (hj : j < 8)
    (he : irq_edge st.info.prev_val st.info.val j = true)
    (hf : (st.info.irq_info j).ti2419x_irq = some f) :
    (stat_handler_bit st i j).calls =
      st.calls ++ [{ i := i, j := j, fn := f,
                     rt_stat := if st.info.val.testBit j then 2 ^ j else 0 }] ∧
    (stat_handler_bit st i j).handler_count = st.handler_count + 1 := by
  have hc := (irq_changed_iff _ _ _ hj).2 he
  unfold stat_handler_bit
  dsimp only
  rw [if_pos hc]
  by_cases hb : st.info.val.testBit j = true
  · have hr := (irq_masked_bit_ne_zero st.info.val j hj).2 hb
    rw [if_pos hr, if_pos hb]
    dsimp only
    simp only [if_true, hf, if_pos hc]
    rw [irq_masked_bit _ _ hj, if_pos hb]
    exact ⟨rfl, trivial⟩
  · have hr : ¬ ((st.info.val &&& (IRQ_STATUS_MASK <<< j)) % 256 ≠ 0) :=
      fun h => hb ((irq_masked_bit_ne_zero st.info.val j hj).1 h)
    rw [if_neg hr, if_neg hb]
    dsimp only
    simp only [if_true, hf, if_pos hc]
    rw [irq_masked_bit _ _ hj, if_neg hb]
    exact ⟨rfl, trivial⟩

theorem stat_handler_bit_edge_none (st : irq_pass) (i j : Nat)
    (hf : (st.info.irq_info j).ti2419x_irq = none) :
    (stat_handler_bit st i j).calls = st.calls ∧
    (stat_handler_bit st i j).handler_count = st.handler_count ∧
    (stat_handler_bit st i j).chip = st.chip := by
  unfold stat_handler_bit
  dsimp only
  by_cases hc : ((st.info.prev_val &&& (IRQ_STATUS_MASK <<< j)) % 256) ^^^
      ((st.info.val &&& (IRQ_STATUS_MASK <<< j)) % 256) ≠ 0
  · rw [if_pos hc]
    by_cases hr : (st.info.val &&& (IRQ_STATUS_MASK <<< j)) % 256 ≠ 0
    · rw [if_pos hr]
      dsimp only
      simp only [if_true, hf]
      exact ⟨trivial, trivial, trivial⟩
    · rw [if_neg hr]
      dsimp only
      simp only [if_true, hf]
      exact ⟨trivial, trivial, trivial⟩
  · rw [if_neg hc]
    simp only [hf]
    exact ⟨trivial, trivial, trivial⟩

theorem stat_handler_bit_chip (st : irq_pass) (i j : Nat) :
    status_regs_kept st.chip (stat_handler_bit st i j).chip := by
  unfold stat_handler_bit
  dsimp only
  split <;> split_ifs <;>
    first | exact status_regs_kept_run_irq_fn _ _ _ | exact status_regs_kept_refl _

theorem irq_calls_for_append (calls : List irq_call) (c : irq_call) (i j : Nat) :
    irq_calls_for (calls ++ [c]) i j =
      irq_calls_for calls i j ++ (if c.i = i ∧ c.j = j then [c] else []) := by
  unfold irq_calls_for
  rw [List.filter_append]
  by_cases h : c.i = i ∧ c.j = j
  · rw [if_pos h]
    simp [List.filter, h.1, h.2]
  · rw [if_neg h]
    have : (decide (c.i = i) && decide (c.j = j)) = false := by
      simpa using h
    simp [List.filter, this]

/-- One pass of the inner loop body, read bit by bit: the handler pointers stay,
the counters of bit `j` move by one on an edge, and the call for bit `j` is
appended when there is an edge and a handler. -/
theorem stat_handler_bit_step (st : irq_pass) (i j : Nat) (hj : j < 8) :
    (∀ k, ((stat_handler_bit st i j).info.irq_info k).ti2419x_irq =
        (st.info.irq_info k).ti2419x_irq) ∧
    (∀ k, ((stat_handler_bit st i j).info.irq_info k).high =
        (st.info.irq_info k).high +
          (if k = j then
            (if irq_edge st.info.prev_val st.info.val k = true ∧ st.info.val.testBit k = true
              then 1 else 0) else 0)) ∧
    (∀ k, ((stat_handler_bit st i j).info.irq_info k).low =
        (st.info.irq_info k).low +
          (if k = j then
            (if irq_edge st.info.prev_val st.info.val k = true ∧ st.info.val.testBit k = false
              then 1 else 0) else 0)) ∧
    (∀ i0 k, irq_calls_for (stat_handler_bit st i j).calls i0 k =
        irq_calls_for st.calls i0 k ++
          (if i0 = i ∧ k = j then
            (if irq_edge st.info.prev_val st.info.val k = true then
              ((st.info.irq_info k).ti2419x_irq.map (fun f =>
                ({ i := i, j := k, fn := f,
                   rt_stat := if st.info.val.testBit k then 2 ^ k else 0 } : irq_call))).toList
             else []) else [])) := by
  by_cases he : irq_edge st.info.prev_val st.info.val j = true
  · refine ⟨?_, ?_, ?_, ?_⟩
    · intro k
      by_cases hk : k = j
      · subst hk
        exact stat_handler_bit_irq_fn st i k
      · rw [stat_handler_bit_irq_info_other st i j k hk]
    · intro k
      by_cases hk : k = j
      · subst hk
        rw [(stat_handler_bit_counters_edge st i k hj he).1, if_pos rfl]
        by_cases hb : st.info.val.testBit k = true
        · rw [if_pos hb, if_pos ⟨he, hb⟩]
        · rw [if_neg hb, if_neg (fun h => hb h.2)]
      · rw [stat_handler_bit_irq_info_other st i j k hk, if_neg hk, add_zero]
    · intro k
      by_cases hk : k = j
      · subst hk
        rw [(stat_handler_bit_counters_edge st i k hj he).2, if_pos rfl]
        by_cases hb : st.info.val.testBit k = true
        · rw [if_pos hb, if_neg (fun h => by rw [hb] at h; exact absurd h.2 (by decide))]
        · have hb2 : st.info.val.testBit k = false := by simpa using hb
          rw [if_neg hb, if_pos ⟨he, hb2⟩]
      · rw [stat_handler_bit_irq_info_other st i j k hk, if_neg hk, add_zero]
    · intro i0 k
      cases hf : (st.info.irq_info j).ti2419x_irq with
      | none =>
        rw [(stat_handler_bit_edge_none st i j hf).1]
        by_cases hc : i0 = i ∧ k = j
        · rw [if_pos hc, hc.2, if_pos he, hf]
          simp
        · rw [if_neg hc, List.append_nil]
      | some f =>
        rw [(stat_handler_bit_edge_some st i j f hj he hf).1, irq_calls_for_append]
        by_cases hc : i0 = i ∧ k = j
        · rw [if_pos hc, hc.2, if_pos he, hf, if_pos ⟨hc.1.symm, rfl⟩]
          rfl
        · rw [if_neg hc, if_neg (fun h => hc ⟨h.1.symm, h.2.symm⟩)]
  · have he2 : irq_edge st.info.prev_val st.info.val j = false := by simpa using he
    rw [stat_handler_bit_no_edge st i j hj he2]
    refine ⟨fun _ => rfl, ?_, ?_, ?_⟩
    · intro k
      by_cases hk : k = j
      · subst hk
        rw [if_pos rfl, if_neg (fun h => he h.1), add_zero]
      · rw [if_neg hk, add_zero]
    · intro k
      by_cases hk : k = j
      · subst hk
        rw [if_pos rfl, if_neg (fun h => he h.1), add_zero]
      · rw [if_neg hk, add_zero]
    · intro i0 k
      by_cases hc : i0 = i ∧ k = j
      · rw [if_pos hc, hc.2, if_neg he, List.append_nil]
      · rw [if_neg hc, List.append_nil]

/-- The inner loop over the bits `j, …, j + n - 1`: the bytes and the handler
pointers stay, each counter moves by one exactly on an edge of its bit, and the
calls appended are those of the bits with an edge and a handler. -/
theorem stat_handler_bits_spec (n : Nat) : ∀ (st : irq_pass) (i j : Nat), j + n ≤ 8 →
    ((stat_handler_bits st i j n).info.val = st.info.val ∧
     (stat_handler_bits st i j n).info.prev_val = st.info.prev_val ∧
     (stat_handler_bits st i j n).info.stat_reg = st.info.stat_reg) ∧
    (∀ k, ((stat_handler_bits st i j n).info.irq_info k).ti2419x_irq =
        (st.info.irq_info k).ti2419x_irq) ∧
    (∀ k, ((stat_handler_bits st i j n).info.irq_info k).high =
        (st.info.irq_info k).high +
          (if j ≤ k ∧ k < j + n then
            (if irq_edge st.info.prev_val st.info.val k = true ∧ st.info.val.testBit k = true
              then 1 else 0) else 0)) ∧
    (∀ k, ((stat_handler_bits st i j n).info.irq_info k).low =
        (st.info.irq_info k).low +
          (if j ≤ k ∧ k < j + n then
            (if irq_edge st.info.prev_val st.info.val k = true ∧ st.info.val.testBit k = false
              then 1 else 0) else 0)) ∧
    (∀ i0 k, irq_calls_for (stat_handler_bits st i j n).calls i0 k =
        irq_calls_for st.calls i0 k ++
          (if i0 = i ∧ j ≤ k ∧ k < j + n then
            (if irq_edge st.info.prev_val st.info.val k = true then
              ((st.info.irq_info k).ti2419x_irq.map (fun f =>
                ({ i := i, j := k, fn := f,
                   rt_stat := if st.info.val.testBit k then 2 ^ k else 0 } : irq_call))).toList
             else []) else [])) ∧
    status_regs_kept st.chip (stat_handler_bits st i j n).chip := by
  induction n with
  | zero =>
    intro st i j _
    refine ⟨⟨rfl, rfl, rfl⟩, fun _ => rfl, ?_, ?_, ?_, status_regs_kept_refl _⟩
    · intro k
      rw [if_neg (by omega), add_zero]
      rfl
    · intro k
      rw [if_neg (by omega), add_zero]
      rfl
    · intro i0 k
      rw [if_neg (by omega), List.append_nil]
      rfl
  | succ n ih =>
    intro st i j hjn
    have hj : j < 8 := by omega
    obtain ⟨hv, hfn, hhi, hlo, hcalls, hchip⟩ := ih (stat_handler_bit st i j) i (j + 1) (by omega)
    obtain ⟨sfn, shi, slo, scalls⟩ := stat_handler_bit_step st i j hj
    obtain ⟨sv, sp, sr⟩ := stat_handler_bit_val st i j
    rw [sv, sp] at hhi hlo hcalls
    have e : stat_handler_bits st i j (n + 1) =
        stat_handler_bits (stat_handler_bit st i j) i (j + 1) n := rfl
    rw [e]
    refine ⟨⟨hv.1.trans sv, hv.2.1.trans sp, hv.2.2.trans sr⟩,
      fun k => (hfn k).trans (sfn k), ?_, ?_, ?_,
      status_regs_kept_trans (stat_handler_bit_chip st i j) hchip⟩
    · intro k
      rw [hhi k, shi k]
      generalize (if irq_edge st.info.prev_val st.info.val k = true ∧
        st.info.val.testBit k = true then (1 : Int) else 0) = c
      split_ifs <;> omega
    · intro k
      rw [hlo k, slo k]
      generalize (if irq_edge st.info.prev_val st.info.val k = true ∧
        st.info.val.testBit k = false then (1 : Int) else 0) = c
      split_ifs <;> omega
    · intro i0 k
      rw [hcalls i0 k, scalls i0 k, sfn k]
      generalize (if irq_edge st.info.prev_val st.info.val k = true then
              ((st.info.irq_info k).ti2419x_irq.map (fun f =>
                ({ i := i, j := k, fn := f,
                   rt_stat := if st.info.val.testBit k then 2 ^ k else 0 } : irq_call))).toList
             else []) = c
      split_ifs <;> first | (exfalso; omega) | simp

/-! ## The status dispatcher, entry by entry -/

theorem stat_handler_entry_live (chip : ti2419x_chip) (info : irq_handler_info) (i : Nat)
    (handler_count : Int) (calls : List irq_call) (hl : transport_live chip) :
    stat_handler_entry chip info i handler_count calls =
      { stat_handler_bits
          { chip := { chip with client := { chip.client with n_reads := chip.client.n_reads + 1 } },
            info := { info with val := chip.client.regs info.stat_reg % 256 },
            handler_count := handler_count, calls := calls } i 0 8 with
        info :=
          { (stat_handler_bits
              { chip := { chip with
                          client := { chip.client with n_reads := chip.client.n_reads + 1 } },
                info := { info with val := chip.client.regs info.stat_reg % 256 },
                handler_count := handler_count, calls := calls } i 0 8).info with
            prev_val := (stat_handler_bits
              { chip := { chip with
                          client := { chip.client with n_reads := chip.client.n_reads + 1 } },
                info := { info with val := chip.client.regs info.stat_reg % 256 },
                handler_count := handler_count, calls := calls } i 0 8).info.val } } := by
  unfold stat_handler_entry
  rw [ti2419x_read_ok chip info.stat_reg info.val hl.2.1 (hl.2.2 _)]
  dsimp only
  rw [if_neg (by decide)]

/-- One entry of the table on a live transport: the byte read becomes both the
current and the previous byte, the handler pointers stay, each counter moves by
one exactly on an edge of its bit, and the calls appended are those of the bits
with an edge and a handler. -/
theorem stat_handler_entry_spec (chip : ti2419x_chip) (info : irq_handler_info) (i : Nat)
    (handler_count : Int) (calls : List irq_call) (hl : transport_live chip) :
    ((stat_handler_entry chip info i handler_count calls).info.val =
        chip.client.regs info.stat_reg % 256 ∧
     (stat_handler_entry chip info i handler_count calls).info.prev_val =
        chip.client.regs info.stat_reg % 256 ∧
     (stat_handler_entry chip info i handler_count calls).info.stat_reg = info.stat_reg) ∧
    (∀ k, (((stat_handler_entry chip info i handler_count calls).info.irq_info k).ti2419x_irq =
        (info.irq_info k).ti2419x_irq)) ∧
    (∀ k, k < 8 → ((stat_handler_entry chip info i handler_count calls).info.irq_info k).high =
        (info.irq_info k).high +
          (if irq_edge info.prev_val (chip.client.regs info.stat_reg % 256) k = true ∧
              (chip.client.regs info.stat_reg % 256).testBit k = true then 1 else 0)) ∧
    (∀ k, k < 8 → ((stat_handler_entry chip info i handler_count calls).info.irq_info k).low =
        (info.irq_info k).low +
          (if irq_edge info.prev_val (chip.client.regs info.stat_reg % 256) k = true ∧
              (chip.client.regs info.stat_reg % 256).testBit k = false then 1 else 0)) ∧
    (∀ i0 k, k < 8 →
      irq_calls_for (stat_handler_entry chip info i handler_count calls).calls i0 k =
        irq_calls_for calls i0 k ++
          (if i0 = i then
            (if irq_edge info.prev_val (chip.client.regs info.stat_reg % 256) k = true then
              ((info.irq_info k).ti2419x_irq.map (fun f =>
                ({ i := i, j := k, fn := f,
                   rt_stat := if (chip.client.regs info.stat_reg % 256).testBit k
                                then 2 ^ k else 0 } : irq_call))).toList
             else []) else [])) ∧
    status_regs_kept chip (stat_handler_entry chip info i handler_count calls).chip := by
  rw [stat_handler_entry_live chip info i handler_count calls hl]
  obtain ⟨hv, hfn, hhi, hlo, hcalls, hchip⟩ := stat_handler_bits_spec 8
    { chip := { chip with client := { chip.client with n_reads := chip.client.n_reads + 1 } },
      info := { info with val := chip.client.regs info.stat_reg % 256 },
      handler_count := handler_count, calls := calls } i 0 (by omega)
  refine ⟨⟨hv.1, hv.1, hv.2.2⟩, hfn, ?_, ?_, ?_, ?_⟩
  · intro k hk
    have q := hhi k
    rw [if_pos (by omega)] at q
    exact q
  · intro k hk
    have q := hlo k
    rw [if_pos (by omega)] at q
    exact q
  · intro i0 k hk
    have q := hcalls i0 k
    by_cases h0 : i0 = i
    · rw [if_pos (by omega)] at q
      rw [if_pos h0]
      exact q
    · rw [if_neg (fun h => h0 h.1)] at q
      rw [if_neg h0]
      exact q
  · exact status_regs_kept_trans ⟨⟨rfl, rfl, rfl⟩, rfl, fun _ _ => rfl⟩ hchip

theorem stat_handler_entries_cons (chip : ti2419x_chip) (i : Nat) (handler_count : Int)
    (calls : List irq_call) (info : irq_handler_info) (rest : List irq_handler_info) :
    stat_handler_entries chip i handler_count calls (info :: rest) =
      { stat_handler_entries (stat_handler_entry chip info i handler_count calls).chip (i + 1)
          (stat_handler_entry chip info i handler_count calls).handler_count
          (stat_handler_entry chip info i handler_count calls).calls rest with
        handlers := (stat_handler_entry chip info i handler_count calls).info ::
          (stat_handler_entries (stat_handler_entry chip info i handler_count calls).chip (i + 1)
            (stat_handler_entry chip info i handler_count calls).handler_count
            (stat_handler_entry chip info i handler_count calls).calls rest).handlers } := rfl

/-- The outer loop on a live transport, for a table none of whose status
registers is PON_CFG_REG: entry by entry, what `stat_handler_entry_spec` says,
with the byte taken from the registers at the start. -/
theorem stat_handler_entries_spec (hs : List irq_handler_info) :
    ∀ (chip : ti2419x_chip) (i : Nat) (handler_count : Int) (calls : List irq_call),
    transport_live chip → (∀ h ∈ hs, h.stat_reg ≠ PON_CFG_REG) →
    status_regs_kept chip (stat_handler_entries chip i handler_count calls hs).chip ∧
    (∀ i0 k, i0 < i → k < 8 →
      irq_calls_for (stat_handler_entries chip i handler_count calls hs).calls i0 k =
        irq_calls_for calls i0 k) ∧
    (∀ m h, hs[m]? = some h →
      ∃ h', (stat_handler_entries chip i handler_count calls hs).handlers[m]? = some h' ∧
        (h'.val = chip.client.regs h.stat_reg % 256 ∧
         h'.prev_val = chip.client.regs h.stat_reg % 256 ∧
         h'.stat_reg = h.stat_reg) ∧
        (∀ k, (h'.irq_info k).ti2419x_irq = (h.irq_info k).ti2419x_irq) ∧
        (∀ k, k < 8 → (h'.irq_info k).high = (h.irq_info k).high +
          (if irq_edge h.prev_val (chip.client.regs h.stat_reg % 256) k = true ∧
              (chip.client.regs h.stat_reg % 256).testBit k = true then 1 else 0)) ∧
        (∀ k, k < 8 → (h'.irq_info k).low = (h.irq_info k).low +
          (if irq_edge h.prev_val (chip.client.regs h.stat_reg % 256) k = true ∧
              (chip.client.regs h.stat_reg % 256).testBit k = false then 1 else 0)) ∧
        (∀ k, k < 8 →
          irq_calls_for (stat_handler_entries chip i handler_count calls hs).calls (i + m) k =
            irq_calls_for calls (i + m) k ++
              (if irq_edge h.prev_val (chip.client.regs h.stat_reg % 256) k = true then
                ((h.irq_info k).ti2419x_irq.map (fun f =>
                  ({ i := i + m, j := k, fn := f,
                     rt_stat := if (chip.client.regs h.stat_reg % 256).testBit k
                                  then 2 ^ k else 0 } : irq_call))).toList
               else []))) := by
  induction hs with
  | nil =>
    intro chip i handler_count calls _ _
    refine ⟨status_regs_kept_refl _, fun _ _ _ _ => rfl, ?_⟩
    intro m h hm
    simp at hm
  | cons info rest ih =>
    intro chip i handler_count calls hl hreg
    obtain ⟨ev, efn, ehi, elo, ecalls, echip⟩ :=
      stat_handler_entry_spec chip info i handler_count calls hl
    have hl1 := live_of_same_mode echip.1 hl
    obtain ⟨rchip, rlow, rent⟩ := ih (stat_handler_entry chip info i handler_count calls).chip
      (i + 1) (stat_handler_entry chip info i handler_count calls).handler_count
      (stat_handler_entry chip info i handler_count calls).calls hl1
      (fun h hh => hreg h (List.mem_cons_of_mem _ hh))
    rw [stat_handler_entries_cons]
    dsimp only
    refine ⟨status_regs_kept_trans echip rchip, ?_, ?_⟩
    · intro i0 k hi0 hk
      have q := ecalls i0 k hk
      rw [if_neg (by omega), List.append_nil] at q
      exact (rlow i0 k (by omega) hk).trans q
    · intro m h hm
      cases m with
      | zero =>
        have hh : info = h := by simpa using hm
        subst hh
        refine ⟨(stat_handler_entry chip info i handler_count calls).info, by simp, ev, efn, ehi,
          elo, ?_⟩
        intro k hk
        have q := ecalls i k hk
        rw [if_pos rfl] at q
        exact (rlow i k (by omega) hk).trans q
      | succ m =>
        have hm1 : rest[m]? = some h := by simpa using hm
        have hmem : h ∈ rest := List.getElem?_mem hm1
        have hne := hreg h (List.mem_cons_of_mem _ hmem)
        obtain ⟨h', hget, hv, hfn, hhi, hlo, hcalls⟩ := rent m h hm1
        rw [echip.2.2 h.stat_reg hne] at hv hhi hlo hcalls
        refine ⟨h', by simpa using hget, hv, hfn, hhi, hlo, ?_⟩
        intro k hk
        have q := ecalls (i + (m + 1)) k hk
        rw [if_neg (by omega), List.append_nil] at q
        have e : i + 1 + m = i + (m + 1) := by omega
        have q2 := hcalls k hk
        rw [e, q] at q2
        exact q2

/-! ## A dispatch that finds no edge -/

theorem irq_edge_self (v j : Nat) : irq_edge v v j = false := by
  unfold irq_edge
  rw [Nat.xor_self, Nat.zero_testBit]

theorem stat_handler_bits_no_edge (n : Nat) : ∀ (st : irq_pass) (i j : Nat), j + n ≤ 8 →
    st.info.prev_val = st.info.val → stat_handler_bits st i j n = st := by
  induction n with
  | zero => intro st i j _ _; rfl
  | succ n ih =>
    intro st i j hjn hp
    have e : stat_handler_bits st i j (n + 1) =
        stat_handler_bits (stat_handler_bit st i j) i (j + 1) n := rfl
    have hb : stat_handler_bit st i j = st :=
      stat_handler_bit_no_edge st i j (by omega) (by rw [hp]; exact irq_edge_self _ _)
    rw [e, hb]
    exact ih st i (j + 1) (by omega) hp

theorem stat_handler_entry_no_edge (chip : ti2419x_chip) (info : irq_handler_info) (i : Nat)
    (handler_count : Int) (calls : List irq_call) (hl : transport_live chip)
    (hv : info.val = chip.client.regs info.stat_reg % 256)
    (hp : info.prev_val = chip.client.regs info.stat_reg % 256) :
    stat_handler_entry chip info i handler_count calls =
      { chip := { chip with client := { chip.client with n_reads := chip.client.n_reads + 1 } },
        info := info, handler_count := handler_count, calls := calls } := by
  rw [stat_handler_entry_live chip info i handler_count calls hl,
    stat_handler_bits_no_edge 8 _ i 0 (by omega) hp]
  cases info with
  | mk sr v p ii =>
    dsimp only at hv hp ⊢
    subst hv
    subst hp
    rfl

theorem stat_handler_entries_no_edge (hs : List irq_handler_info) :
    ∀ (chip : ti2419x_chip) (i : Nat) (handler_count : Int) (calls : List irq_call),
    transport_live chip →
    (∀ h ∈ hs, h.val = chip.client.regs h.stat_reg % 256 ∧
      h.prev_val = chip.client.regs h.stat_reg % 256) →
    (stat_handler_entries chip i handler_count calls hs).calls = calls ∧
    (stat_handler_entries chip i handler_count calls hs).handler_count = handler_count ∧
    (stat_handler_entries chip i handler_count calls hs).handlers = hs := by
  induction hs with
  | nil => intro chip i handler_count calls _ _; exact ⟨rfl, rfl, rfl⟩
  | cons info rest ih =>
    intro chip i handler_count calls hl hh
    have h0 := hh info (List.mem_cons_self _ _)
    rw [stat_handler_entries_cons, stat_handler_entry_no_edge chip info i handler_count calls hl
      h0.1 h0.2]
    dsimp only
    have hl1 : transport_live
        { chip with client := { chip.client with n_reads := chip.client.n_reads + 1 } } :=
      ⟨hl.1, hl.2.1, hl.2.2⟩
    obtain ⟨q1, q2, q3⟩ := ih
      { chip with client := { chip.client with n_reads := chip.client.n_reads + 1 } } (i + 1)
      handler_count calls hl1 (fun h hm => hh h (List.mem_cons_of_mem _ hm))
    exact ⟨q1, q2, by rw [q3]⟩

theorem stat_handler_entries_length (hs : List irq_handler_info) :
    ∀ (chip : ti2419x_chip) (i : Nat) (handler_count : Int) (calls : List irq_call),
    (stat_handler_entries chip i handler_count calls hs).handlers.length = hs.length := by
  induction hs with
  | nil => intro _ _ _ _; rfl
  | cons info rest ih =>
    intro chip i handler_count calls
    rw [stat_handler_entries_cons]
    dsimp only
    rw [List.length_cons, List.length_cons, ih]

theorem ti2419x_stat_handler_resumed (chip : ti2419x_chip) (hs : List irq_handler_info)
    (hr : chip.resume_completed = true) :
    ti2419x_stat_handler chip hs =
      stat_handler_entries { { chip with irq_waiting := true } with irq_waiting := false }
        0 0 [] hs := by
  unfold ti2419x_stat_handler
  dsimp only
  rw [if_neg (by rw [hr]; simp)]

/-- After a dispatch on a live transport every entry of the table holds the
byte of its status register as the current and as the previous byte. -/
theorem stat_handler_entries_settled (hs : List irq_handler_info) (chip : ti2419x_chip)
    (i : Nat) (handler_count : Int) (calls : List irq_call) (hl : transport_live chip)
    (hreg : ∀ h ∈ hs, h.stat_reg ≠ PON_CFG_REG) :
    ∀ h2 ∈ (stat_handler_entries chip i handler_count calls hs).handlers,
      h2.val = (stat_handler_entries chip i handler_count calls hs).chip.client.regs
        h2.stat_reg % 256 ∧
      h2.prev_val = (stat_handler_entries chip i handler_count calls hs).chip.client.regs
        h2.stat_reg % 256 := by
  intro h2 hmem
  obtain ⟨rchip, _, rent⟩ := stat_handler_entries_spec hs chip i handler_count calls hl hreg
  obtain ⟨m, hm⟩ := List.mem_iff_getElem?.1 hmem
  have hlen := stat_handler_entries_length hs chip i handler_count calls
  have hmlt : m < hs.length := by
    have := (List.getElem?_eq_some.1 hm).1
    omega
  obtain ⟨h', hget, hv, _, _, _, _⟩ := rent m (hs[m]) (List.getElem?_eq_getElem hmlt)
  have e : h' = h2 := by
    rw [hm] at hget
    exact (Option.some.inj hget).symm
  subst e
  have hne : h'.stat_reg ≠ PON_CFG_REG := by
    rw [hv.2.2]
    exact hreg _ (List.getElem_mem _)
  rw [rchip.2.2 h'.stat_reg hne, hv.2.2]
  exact ⟨hv.1, hv.2.1⟩

/-! ## Edges, counters and handler calls of one dispatch -/

/-- C23: on a resumed device with a live transport, for a table none of
whose status registers is PON_CFG_REG, `ti2419x_stat_handler` treats bit `j` of
entry `i` as an edge exactly when bit `j` of (previous byte XOR byte read) is
set: on an edge the bit's `high` counter grows by one when the new bit is 1 and
its `low` counter by one when it is 0, and the bit's handler, when there is one,
is called exactly once with the masked new bit; without an edge no counter of
the bit changes and no call is made for it. Afterwards the entry holds the byte
read as both current and previous byte, so the bit shows no edge against the
registers, and a second dispatch makes no call and leaves the table as it is. -/
theorem stat_handler_counts_each_edge_once (chip : ti2419x_chip)
    (hs : List irq_handler_info) (hr : chip.resume_completed = true)
    (hl : transport_live chip) (hreg : ∀ h ∈ hs, h.stat_reg ≠ PON_CFG_REG)
    (i : Nat) (hi : i < hs.length) (j : Nat) (hj : j < 8) :
    ∃ h', (ti2419x_stat_handler chip hs).handlers[i]? = some h' ∧
      (irq_edge hs[i].prev_val (chip.client.regs hs[i].stat_reg % 256) j = true →
        (h'.irq_info j).high = (hs[i].irq_info j).high +
          (if (chip.client.regs hs[i].stat_reg % 256).testBit j then 1 else 0) ∧
        (h'.irq_info j).low = (hs[i].irq_info j).low +
          (if (chip.client.regs hs[i].stat_reg % 256).testBit j then 0 else 1) ∧
        (∀ f, (hs[i].irq_info j).ti2419x_irq = some f →
          irq_calls_for (ti2419x_stat_handler chip hs).calls i j =
            [{ i := i, j := j, fn := f,
               rt_stat := if (chip.client.regs hs[i].stat_reg % 256).testBit j
                            then 2 ^ j else 0 }]) ∧
        ((hs[i].irq_info j).ti2419x_irq = none →
          irq_calls_for (ti2419x_stat_handler chip hs).calls i j = [])) ∧
      (irq_edge hs[i].prev_val (chip.client.regs hs[i].stat_reg % 256) j = false →
        (h'.irq_info j).high = (hs[i].irq_info j).high ∧
        (h'.irq_info j).low = (hs[i].irq_info j).low ∧
        irq_calls_for (ti2419x_stat_handler chip hs).calls i j = []) ∧
      h'.val = chip.client.regs hs[i].stat_reg % 256 ∧
      h'.prev_val = chip.client.regs hs[i].stat_reg % 256 ∧
      irq_edge h'.prev_val
        ((ti2419x_stat_handler chip hs).chip.client.regs h'.stat_reg % 256) j = false ∧
      (ti2419x_stat_handler (ti2419x_stat_handler chip hs).chip
        (ti2419x_stat_handler chip hs).handlers).calls = [] ∧
      (ti2419x_stat_handler (ti2419x_stat_handler chip hs).chip
        (ti2419x_stat_handler chip hs).handlers).handler_count = 0 ∧
      (ti2419x_stat_handler (ti2419x_stat_handler chip hs).chip
        (ti2419x_stat_handler chip hs).handlers).handlers =
          (ti2419x_stat_handler chip hs).handlers := by
  have hl0 : transport_live { { chip with irq_waiting := true } with irq_waiting := false } :=
    ⟨hl.1, hl.2.1, hl.2.2⟩
  rw [ti2419x_stat_handler_resumed chip hs hr]
  generalize hc0 : ({ { chip with irq_waiting := true } with irq_waiting := false } :
    ti2419x_chip) = chip0 at hl0 ⊢
  have hregs : chip0.client.regs = chip.client.regs := by rw [← hc0]
  have hres : chip0.resume_completed = true := by rw [← hc0]; exact hr
  rw [← hregs]
  obtain ⟨rchip, _, rent⟩ := stat_handler_entries_spec hs chip0 0 0 [] hl0 hreg
  obtain ⟨h', hget, hv, hfn, hhi, hlo, hcalls⟩ := rent i (hs[i]) (List.getElem?_eq_getElem hi)
  have hsettled := stat_handler_entries_settled hs chip0 0 0 [] hl0 hreg
  have hcj := hcalls j hj
  rw [Nat.zero_add] at hcj
  have hnil : irq_calls_for [] i j = [] := rfl
  rw [hnil, List.nil_append] at hcj
  have hmem : h' ∈ (stat_handler_entries chip0 0 0 [] hs).handlers := List.getElem?_mem hget
  have hr1 : (stat_handler_entries chip0 0 0 [] hs).chip.resume_completed = true :=
    rchip.2.1.trans hres
  have hl1 := live_of_same_mode rchip.1 hl0
  have hl2 : transport_live
      { { (stat_handler_entries chip0 0 0 [] hs).chip with irq_waiting := true } with
          irq_waiting := false } := ⟨hl1.1, hl1.2.1, hl1.2.2⟩
  obtain ⟨n1, n2, n3⟩ := stat_handler_entries_no_edge
    (stat_handler_entries chip0 0 0 [] hs).handlers
    { { (stat_handler_entries chip0 0 0 [] hs).chip with irq_waiting := true } with
        irq_waiting := false } 0 0 [] hl2 hsettled
  refine ⟨h', hget, ?_, ?_, hv.1, hv.2.1, ?_, ?_, ?_, ?_⟩
  · intro he
    refine ⟨?_, ?_, ?_, ?_⟩
    · rw [hhi j hj]
      by_cases hb : (chip0.client.regs hs[i].stat_reg % 256).testBit j = true
      · rw [if_pos ⟨he, hb⟩, if_pos hb]
      · rw [if_neg (fun h => hb h.2), if_neg hb]
    · rw [hlo j hj]
      by_cases hb : (chip0.client.regs hs[i].stat_reg % 256).testBit j = true
      · rw [if_neg (fun h => by rw [hb] at h; exact absurd h.2 (by decide)), if_pos hb]
      · have hb2 : (chip0.client.regs hs[i].stat_reg % 256).testBit j = false := by
          simpa using hb
        rw [if_pos ⟨he, hb2⟩, if_neg hb]
    · intro f hf
      rw [hcj, if_pos he, hf]
      rfl
    · intro hf
      rw [hcj, if_pos he, hf]
      rfl
  · intro he
    have hne : ¬ irq_edge hs[i].prev_val (chip0.client.regs hs[i].stat_reg % 256) j = true := by
      rw [he]; decide
    refine ⟨?_, ?_, ?_⟩
    · rw [hhi j hj, if_neg (fun h => hne h.1), add_zero]
    · rw [hlo j hj, if_neg (fun h => hne h.1), add_zero]
    · rw [hcj, if_neg hne]
  · rw [← (hsettled h' hmem).2]
    exact irq_edge_self _ _
  · rw [ti2419x_stat_handler_resumed _ _ hr1]
    exact n1
  · rw [ti2419x_stat_handler_resumed _ _ hr1]
    exact n2
  · rw [ti2419x_stat_handler_resumed _ _ hr1]
    exact n3

/-- Witness for C23: the sample device shows 0x24 in the status register while
the table still holds 0 as the previous byte; bit 2 is an edge, its `high`
counter grows by one, `power_good_handler` is called once with 4, and a second
dispatch makes no call. -/
theorem stat_handler_counts_each_edge_once_witness :
    sample_irq_chip.resume_completed = true ∧ transport_live sample_irq_chip ∧
    (∀ h ∈ handlers, h.stat_reg ≠ PON_CFG_REG) ∧
    irq_edge (handlers[0]).prev_val
      (sample_irq_chip.client.regs (handlers[0]).stat_reg % 256) 2 = true ∧
    ∃ h', (ti2419x_stat_handler sample_irq_chip handlers).handlers[0]? = some h' ∧
      (h'.irq_info 2).high = ((handlers[0]).irq_info 2).high + 1 ∧
      irq_calls_for (ti2419x_stat_handler sample_irq_chip handlers).calls 0 2 =
        [{ i := 0, j := 2, fn := .power_good_handler, rt_stat := 4 }] ∧
      h'.prev_val = 0x24 ∧
      (ti2419x_stat_handler (ti2419x_stat_handler sample_irq_chip handlers).chip
        (ti2419x_stat_handler sample_irq_chip handlers).handlers).calls = [] :=
  have hr : sample_irq_chip.resume_completed = true := by decide
  have hl : transport_live sample_irq_chip := ⟨by decide, by decide, fun _ => le_refl _⟩
  have hreg : ∀ h ∈ handlers, h.stat_reg ≠ PON_CFG_REG := by decide
  have he : irq_edge (handlers[0]).prev_val
      (sample_irq_chip.client.regs (handlers[0]).stat_reg % 256) 2 = true := by decide
  have hb : (sample_irq_chip.client.regs (handlers[0]).stat_reg % 256).testBit 2 = true := by
    decide
  have hcur : sample_irq_chip.client.regs (handlers[0]).stat_reg % 256 = 0x24 := by decide
  ⟨hr, hl, hreg, he,
    (stat_handler_counts_each_edge_once sample_irq_chip handlers hr hl hreg 0 (by decide) 2
      (by decide)).imp
      (fun _ hh =>
        ⟨hh.1,
          by
            have q := (hh.2.1 he).1
            rw [if_pos hb] at q
            exact q,
          by
            have q := (hh.2.1 he).2.2.1 irq_fn.power_good_handler rfl
            rw [if_pos hb] at q
            exact q,
          hh.2.2.2.2.1.trans hcur, hh.2.2.2.2.2.2.1⟩)⟩

end Ti2419x
